import Mathlib

/-!
Audit engine of `admTools` (package `hc` and the `ExecAudit` drivers)

A shallow embedding of the parts of `alechekz/healthcheck/hc.go` and of the
`*Audit/main.go` drivers that the audit-engine contract talks about.

Modelling conventions

* A Go `string` is a Lean `String`; an `io.Writer` / `*bytes.Buffer` is the
  `String` holding everything written to it so far, and each `fmt.Fprintf`
  appends to it.
* A Go `map[string]T` is an association list `GoMap T`.  The order of the list
  is the order in which a `range` loop visits the entries (Go leaves that
  order unspecified, so every statement is made for an arbitrary list).
* A Go `int` is a Lean `Int`; `strconv.Atoi` fails outside the 64-bit range.
* A run-time panic (index out of range) is the value `none`.
-/

namespace AdmTools

/-! ## Go maps -/

/-- A Go `map[string]T`, listed in the order in which `range` visits it. -/
abbrev GoMap (α : Type) := List (String × α)

/-- Assignment `m[k] = v` : overwrite the entry of `k` if there is one, else add it. -/
def mapSet {α : Type} : GoMap α → String → α → GoMap α
  | [], k, v => [(k, v)]
  | (k', v') :: rest, k, v =>
    if k' = k then (k, v) :: rest else (k', v') :: mapSet rest k v

/-- Lookup `v, ok := m[k]`; `none` when `ok` is false. -/
def mapLookup {α : Type} : GoMap α → String → Option α
  | [], _ => none
  | (k', v') :: rest, k => if k' = k then some v' else mapLookup rest k

/-- Indexing `m[k]` : the stored value, or the zero value of the type when `k` is absent. -/
def mapGet {α : Type} (zero : α) (m : GoMap α) (k : String) : α :=
  match mapLookup m k with
  | some v => v
  | none => zero

/-- The keys of a map, in iteration order. -/
def mapKeys {α : Type} (m : GoMap α) : List String := m.map Prod.fst

/-- Presence test `_, ok := m[k]`. -/
def mapHas {α : Type} (m : GoMap α) (k : String) : Bool := (mapLookup m k).isSome

/-! ## Text -/

/-- The pieces of a character list between the occurrences of `sep`. -/
def splitChars (sep : Char) : List Char → List (List Char)
  | [] => [[]]
  | c :: cs =>
    if c = sep then [] :: splitChars sep cs
    else
      match splitChars sep cs with
      | [] => [[c]]
      | p :: ps => (c :: p) :: ps

/-- Go `strings.Split(s, sep)` for a separator of one character (every call
modelled here passes such a separator). -/
def Split (s : String) (sep : Char) : List String :=
  (splitChars sep s.data).map String.mk

/-- The lines of a text: the pieces between its newline characters. -/
def textLines (s : String) : List String := Split s '\n'

/-- The text `p` is a prefix of the text `s`. -/
def beginsWith (p s : String) : Bool := p.data.isPrefixOf s.data

/-- Value of a decimal digit. -/
def digitVal (c : Char) : Option Nat :=
  if '0'.toNat ≤ c.toNat ∧ c.toNat ≤ '9'.toNat then some (c.toNat - '0'.toNat) else none

/-- Decimal value of a run of digits, continuing from the accumulator. -/
def parseDigits : List Char → Nat → Option Nat
  | [], acc => some acc
  | c :: cs, acc =>
    match digitVal c with
    | some d => parseDigits cs (acc * 10 + d)
    | none => none

/-- Go `strconv.Atoi` on a 64-bit platform: an optional sign followed by at least
one decimal digit, with a value that fits `int`; `none` is the error result. -/
def Atoi (s : String) : Option Int :=
  match s.data with
  | [] => none
  | '-' :: ds =>
    if ds = [] then none
    else match parseDigits ds 0 with
      | some n => if n ≤ 2 ^ 63 then some (-(n : Int)) else none
      | none => none
  | '+' :: ds =>
    if ds = [] then none
    else match parseDigits ds 0 with
      | some n => if n < 2 ^ 63 then some (n : Int) else none
      | none => none
  | ds =>
    match parseDigits ds 0 with
    | some n => if n < 2 ^ 63 then some (n : Int) else none
    | none => none

/-- Package `fmt` renders an `int` under the verb `%v` in decimal. -/
def fmtInt (n : Int) : String := toString n

/-! ## Package `hc` : constants and tables -/

/-- Constant `DfThreshold` is the threshold of system disk space usage. -/
def DfThreshold : Int := 40

/-- The static table of check descriptions. -/
def descriptionTable : GoMap String := [
  ("CheckDisksSU", "checks file system disk space usage"),
  ("CheckOssDisksSU", "checks OSS-RC general disks space usage"),
  ("CheckBeadm", "checks the lists all existing ZFS Boot Environments(BEs), should be only one with if there is no preparation for system upgrade"),
  ("CheckSrvs", "checks services states, all required services should be online"),
  ("CheckSnapshots", "checks all available snapshots, autocreated snapshots has \"snss\" in name"),
  ("CheckETLC", "check activities in ENIQ ETLC Monitoring"),
  ("EnmNativeHC", "runs native full healthcheck recommended by Ericsson and analyze the output"),
  ("CheckMCs", "checks states of Managed Componetns of OSS-RC"),
  ("CheckDisks", "analises the output of command vxprint and show disks failed states"),
  ("CheckSyDb", "checks the remaining space for the OSS-RC Sybase databases and their transaction log"),
  ("CheckVrstDataMon", "checks the status of Versant database monitor"),
  ("CheckFailProc", "checks existence of failed processes"),
  ("CheckWtmpx", "checks a log size of all connections to the server, the log should not above 1GB, another way warn to backup and delete the contents of the file"),
  ("CheckSyLogSize", "checks SMF logs size for Sybase, files have to be less than 1MB"),
  ("CheckSyErrLog", "checks sybase error log, severity level up to 16 are caused by user mistakes"),
  ("CheckSyBackLog", "checks sybase backup log, The backup of Sybase database has to be executed every Sunday"),
  ("MonErrLog", "monitors critical events from CIF \"ERROR LOG\" at today"),
  ("MonConfigExports", "monitors exports of configurations files in \"SYSTEM EVENT LOG\""),
  ("MonNetLog", "monitors critical events from \"NETWORK_STATUS LOG\""),
  ("MonRestarts", "monitors nodes manual restarts, by select entries which record contains 'restart' from \"COMMAND LOG\""),
  ("ValDiagProcCache", "validates daily output of crontab job for its successful completion for job containing - /ericsson/syb/conf/diag_proc_cache_test.ks"),
  ("CheckCoreFiles", "checks all core files, files should not exists"),
  ("CheckOutOfMem", "checks all out of memory dump files, files should not exists"),
  ("CheckSecurity", "checks security status of COBRA and RMI/JMS"),
  ("CheckVeritas", "checks status of Veritas Cluster Servers"),
  ("CheckSyDump", "checks for the occurrence of a Sybase Configurable Shared Memory Dump"),
  ("CheckHomeSU", "checks home directory space usage"),
  ("CheckMoshellLogSU", "checks moshell logs directory space usage"),
  ("CheckDBA", "runs OSS-RC's native database healthcheck"),
  ("CheckVrstDb", "checks mode and status of all versant databases"),
  ("CheckVrstDbSU", "checks space usage of all versant databases"),
  ("MonVrstDb", "checks if the new critical alarms if versant databases appeared"),
  ("CheckBsmAdjusts", "checks BSM adjust-jobs execution result on OSS-RC"),
  ("CheckCnaAdjusts", "checks CNA adjust-jobs execution result on OSS-RC"),
  ("KillOldSessions", "checks users session and kills the old one"),
  ("CheckNrOfBackupPolicies", "checks if the number of backup policies on the OMBS is consistent with the required one"),
  ("CheckNetBackupClients", "checks connection between OMBS and NetBackup's clients"),
  ("CheckBackupPoliciesSchedExec", "checks if the required backup policies in scheduler were executed"),
  ("CheckHwResources", "checks status of ENM RAM/CPU required to run all assigned VM's on a Blade"),
  ("CheckNas", "checks state of VA NAS in ENM"),
  ("CheckStoragePool", "checks the SAN StoragePool usage"),
  ("CheckStaleMount", "checks for stale mounts on MS and Peer Nodes"),
  ("CheckNodeFs", "checks Filesystem Usage on MS, NAS and Peer Nodes"),
  ("CheckOmbsBackup", "checks OMBS backups and displays a list of recent backups"),
  ("CheckSystemService", "checks status of key lsb services on each Blade"),
  ("CheckVcsCluster", "checks the state of the VCS clusters on the deployment"),
  ("CheckVcsLltHeartbeat", "checks state of VCS llt heartbeat network interfaces on the deployment"),
  ("CheckVcsServiceGroup", "checks state of VCS service groups on the deployment"),
  ("CheckFcaps", "runs FCAPS summary of the system"),
  ("CheckConsul", "checks status of consul cluster"),
  ("CheckMultipathActive", "checks paths to disks on DB nodes are all accessible"),
  ("CheckPuppetEnabled", "checks Puppet is enabled on all nodes"),
  ("CheckSanAlert", "checks if there are critical alerts on the SAN"),
  ("CheckMdt", "checks MDT status"),
  ("CheckZfsPoolStatus", "checks the status of ZFS pool file systems"),
  ("CheckZfsPoolSU", "checks ZFS pool space usage"),
  ("CheckZfsPoolErrors", "checks if there are any error in ZFS pool"),
  ("DeepCheckETLC", "performs deep analise of activities in ENIQ ETLC Monitoring"),
  ("FindParsedInKnown", "checks that all parsed entries of ETLC are known already"),
  ("FindKnownInParsed", "checks that all known entries of ETLC are found in the today's log"),
  ("CompareNumParsed", "compares the number of parsed entries of ETLC with required one"),
  ("CheckSrvsUptime", "checks each service which must be available on certain host to ensure that the service start time was not updated"),
  ("CheckHostUptime", "checks host uptime to ensure that it was not restarted"),
  ("CheckMountingOk", "checks, if all required disk are mounted properly"),
  ("CheckBashrc", "checks /etc/bashrc file for custom settings"),
  ("CheckNodesFilesUpdate", "checks that ipdatabase and nodesAliases files are up to date")
]

/-- Indexing `description[check]` : the registered text, or `""` for an unregistered name. -/
def description (check : String) : String := mapGet "" descriptionTable check

/-! ## `AuditSummary` -/

/-- What `AuditSummary` leaves behind: its return value, the writer and the
package-level map `Checks`. -/
structure SummaryResult where
  ret : Bool
  w : String
  Checks : GoMap Bool
deriving DecidableEq, Repr

/-- First loop of `AuditSummary`: one `Fprintf` per entry of `Checks`. -/
def AuditSummary.printLoop : GoMap Bool → String → String
  | [], w => w
  | (check, ok) :: rest, w =>
    if ok then
      AuditSummary.printLoop rest (w ++ "ok\t" ++ check ++ " - " ++ description check ++ "\n")
    else
      AuditSummary.printLoop rest (w ++ "nok\t" ++ check ++ " - " ++ description check ++ "\n")

/-- Second loop of `AuditSummary`: each branch resets `Checks` to the empty map;
the first `false` verdict met returns `false`, the end of the loop `true`. -/
def AuditSummary.resultLoop : GoMap Bool → Bool × GoMap Bool
  | [] => (true, [])
  | (_, ok) :: rest => if !ok then (false, []) else AuditSummary.resultLoop rest

/-- Function `AuditSummary` prints summary audit information and returns true or false
depending on all checks results. -/
def AuditSummary (host : String) (w : String) (Checks : GoMap Bool) : SummaryResult :=
  let w1 := w ++ "\n" ++ host ++ ":\n"
  let w2 := AuditSummary.printLoop Checks w1
  let r := AuditSummary.resultLoop Checks
  { ret := r.1, w := w2, Checks := r.2 }

/-! ## Command runner and the helpers shared by the checks -/

/-- What the remote session gives back for one command: the combined output
and whether `err != nil`. -/
structure CmdResult where
  output : String
  err : Bool
deriving DecidableEq, Repr

/-- The state a check works on: the package-level map `Checks` and the writer
it was handed.  -/
structure CheckState where
  Checks : GoMap Bool
  w : String
deriving DecidableEq, Repr

/-- Function `netHelper.ExecCmd` : writes the command to the report, runs it and returns
the output split at newlines together with the error flag. -/
def ExecCmd (w : String) (cmd : String) (r : CmdResult) : String × List String × Bool :=
  (w ++ "\n->> " ++ cmd ++ "\n", Split r.output '\n', r.err)

/-- Function `CmdFailed` prints an error message and sets the healthcheck execution flag
to unsuccessful. -/
def CmdFailed (check : String) (st : CheckState) : CheckState :=
  { Checks := mapSet st.Checks check false,
    w := st.w ++ "\tnok\tcommand execution failed" ++ "\n" }

/-! ## `CheckDisksSU` -/

/-- The loop of `CheckDisksSU` over the printout. -/
def CheckDisksSU.loop (name : String) : List String → CheckState → Option CheckState
  | [], st => some st
  | s :: rest, st =>
    match Split s '%' with
    | [] => none
    | l0 :: tail =>
      match Atoi l0 with
      | none => CheckDisksSU.loop name rest st
      | some su =>
        match tail with
        | [] => none
        | disk :: _ =>
          if su < DfThreshold then
            CheckDisksSU.loop name rest
              { st with w := st.w ++ "\tok\t" ++ fmtInt su ++ "%" ++ "\t" ++ disk ++ "\n" }
          else
            CheckDisksSU.loop name rest
              { Checks := mapSet st.Checks name false,
                w := st.w ++ "\tnok\t" ++ fmtInt su ++ "%" ++ "\t" ++ disk ++ "\n" }

/-- Function `CheckDisksSU` checks file system disk space usage. -/
def CheckDisksSU (st : CheckState) (r : CmdResult) : Option CheckState :=
  let name := "CheckDisksSU"
  let Checks := mapSet st.Checks name true
  let (w, printout, err) := ExecCmd st.w "df -h | awk '\x7bprint $5$1\x7d'" r
  if err then
    some (CmdFailed name { Checks := Checks, w := w })
  else
    CheckDisksSU.loop name printout { Checks := Checks, w := w }

/-! ## `CheckOssDisksSU` -/

/-- The map of disks thresholds of `CheckOssDisksSU`. -/
def CheckOssDisksSU.threshold : GoMap Int := [
  ("/ossrc/sybdev/oss/sybdata", 91),
  ("/ossrc/sybdev/sybmaster", 63),
  ("/ossrc/dbdumps", 20),
  ("/ossrc/sybdev/fm/fmsyblog", 95),
  ("/ossrc/sybdev/pm/pmsyblog", 70),
  ("/ossrc/sybdev/pm/pmsybdata", 90),
  ("/ossrc/sybdev/fm/fmsybdata", 95),
  ("/ossrc/sybdev/oss/syblog", 91),
  ("/export", 27),
  ("/ossrc/upgrade", 1),
  ("/ossrc/versant", 11),
  ("/ossrc/3pp", 92),
  ("/var/opt/ericsson", 70)
]

/-- The loop of `CheckOssDisksSU` over the printout. -/
def CheckOssDisksSU.loop (name : String) : List String → CheckState → Option CheckState
  | [], st => some st
  | s :: rest, st =>
    if s.length = 0 then CheckOssDisksSU.loop name rest st
    else
      match Split s '%' with
      | [] => none
      | [_] => none
      | l0 :: disk :: _ =>
        match Atoi l0 with
        | none =>
          let st1 := CmdFailed name st
          some { st1 with w := st1.w ++ "\n" }
        | some su =>
          if su ≤ mapGet 0 CheckOssDisksSU.threshold disk then
            CheckOssDisksSU.loop name rest
              { st with w := st.w ++ "\tok\t" ++ fmtInt su ++ "%" ++ "\t" ++ disk ++ "\n" }
          else
            CheckOssDisksSU.loop name rest
              { Checks := mapSet st.Checks name false,
                w := st.w ++ "\tnok\t" ++ fmtInt su ++ "%" ++ "\t" ++ disk ++ "\n" }

/-- Function `CheckOssDisksSU` checks OSS-RC general disks space usage. -/
def CheckOssDisksSU (st : CheckState) (r : CmdResult) : Option CheckState :=
  let name := "CheckOssDisksSU"
  let Checks := mapSet st.Checks name true
  let (w, printout, err) := ExecCmd st.w "df -lh | egrep '^/dev/vx/dsk' | awk '\x7bprint $5$6\x7d'" r
  if err then
    let st1 := CmdFailed name { Checks := Checks, w := w }
    some { st1 with w := st1.w ++ "\n" }
  else
    CheckOssDisksSU.loop name printout { Checks := Checks, w := w }

/-! ## `FindKnownInParsed` -/

/-- The loop of `FindKnownInParsed` over the entries of `must`. -/
def FindKnownInParsed.loop (name : String) (have_ : GoMap Int) :
    GoMap Int → CheckState → CheckState
  | [], st => st
  | (k, _) :: rest, st =>
    if mapHas have_ k then
      FindKnownInParsed.loop name have_ rest
        { st with w := st.w ++ "\tok\texists in today's log\t" ++ k ++ "\n" }
    else
      FindKnownInParsed.loop name have_ rest
        { Checks := mapSet st.Checks name false,
          w := st.w ++ "\tnok\tabsent in today's log\t" ++ k ++ "\n" }

/-- Function `FindKnownInParsed` checks that all known entries of ETLC are found in the
today's log. -/
def FindKnownInParsed (have_ must : GoMap Int) (st : CheckState) : Bool × CheckState :=
  let name := "FindKnownInParsed"
  let st1 : CheckState :=
    { Checks := mapSet st.Checks name true,
      w := st.w ++ "\n->>> check, that all known entries are found in the log" ++ "\n" }
  let st2 := FindKnownInParsed.loop name have_ must st1
  (mapGet false st2.Checks name, st2)

/-! ## The drivers: `ExecAudit` and the loop of `main` over the hosts -/

/-- What one host contributes to a run, as seen from `ExecAudit`: the checks of
a driver touch `Checks` only through assignments `Checks[name] = v` and write
their details to `detailed`. -/
structure HostRun where
  /-- The host name. -/
  host : String
  /-- The process ended before the summary of this host (`ssh.Dial` returned an
  error, which ends in `log.Fatalln`). -/
  fatal : Bool
  /-- The assignments `Checks[name] = v` made by the checks, in program order. -/
  records : List (String × Bool)
  /-- The text the checks wrote to `detailed`. -/
  report : String
deriving DecidableEq, Repr

/-- The globals and buffers of a driver. -/
structure AuditState where
  isPassed : Bool
  Checks : GoMap Bool
  detailed : String
  summary : String
deriving DecidableEq, Repr

/-- The assignments of a check phase applied to `Checks`, in order. -/
def applyRecords (Checks : GoMap Bool) (records : List (String × Bool)) : GoMap Bool :=
  records.foldl (fun m r => mapSet m r.1 r.2) Checks

/-- Function `ExecAudit` : connect, run the checks of the host, then the summary report
under the guard on `isPassed`.  `none` is the end of the process. -/
def ExecAudit (st : AuditState) (h : HostRun) : Option AuditState :=
  if h.fatal then none
  else
    let detailed := st.detailed ++ "\n-> " ++ h.host ++ "\n"
    let Checks := applyRecords st.Checks h.records
    let detailed := detailed ++ h.report
    let detailed := detailed ++ "\n<- " ++ h.host ++ "\n"
    if st.isPassed then
      let r := AuditSummary h.host st.summary Checks
      some { isPassed := r.ret, Checks := r.Checks, detailed := detailed, summary := r.w }
    else
      let r := AuditSummary h.host st.summary Checks
      some { isPassed := st.isPassed, Checks := r.Checks, detailed := detailed, summary := r.w }

/-- The loop of `main` : `ExecAudit` for each host in order. -/
def runHosts : AuditState → List HostRun → Option AuditState
  | st, [] => some st
  | st, h :: rest =>
    match ExecAudit st h with
    | none => none
    | some st1 => runHosts st1 rest

/-- The state in which `main` enters its loop: `isPassed` is true, `Checks` is
the empty map made at package initialisation. -/
def initialState (detailed summary : String) : AuditState :=
  { isPassed := true, Checks := [], detailed := detailed, summary := summary }

/-! ## Notions used to state the properties -/

/-- The summary line of one entry of `Checks`, without its newline. -/
def summaryLine (p : String × Bool) : String :=
  (if p.2 then "ok" else "nok") ++ "\t" ++ p.1 ++ " - " ++ description p.1

/-- The text of the summary lines of a list of entries. -/
def summaryText : GoMap Bool → String
  | [] => ""
  | p :: rest => summaryLine p ++ "\n" ++ summaryText rest

/-- The state `ExecAudit` leaves for a host that was reached, in closed form. -/
def afterHost (st : AuditState) (h : HostRun) : AuditState :=
  { isPassed := st.isPassed && (applyRecords st.Checks h.records).all (fun p => p.2),
    Checks := [],
    detailed := st.detailed ++ "\n-> " ++ h.host ++ "\n" ++ h.report ++ "\n<- " ++ h.host ++ "\n",
    summary := st.summary ++
      ("\n" ++ h.host ++ ":\n" ++ summaryText (applyRecords st.Checks h.records)) }

/-- The lists of texts written one after the other. -/
def joinText : List String → String
  | [] => ""
  | s :: rest => s ++ joinText rest

/-- A usage line `<n>%<disk>`: the field before the first `%` is an integer
`n`, the field after it is the disk. -/
def parseUsage (s : String) : Option (Int × String) :=
  match Split s '%' with
  | l0 :: disk :: _ =>
    match Atoi l0 with
    | some n => some (n, disk)
    | none => none
  | _ => none

/-- The report line of a disk with usage `n`, tagged `ok` or `nok`. -/
def usageLine (isOk : Bool) (n : Int) (disk : String) : String :=
  (if isOk then "\tok\t" else "\tnok\t") ++ fmtInt n ++ "%" ++ "\t" ++ disk ++ "\n"

/-- What `CheckDisksSU` reports for one line of the printout. -/
def CheckDisksSU.report (s : String) : String :=
  match parseUsage s with
  | some (n, disk) => usageLine (decide (n < 40)) n disk
  | none => ""

/-- What `CheckOssDisksSU` reports for one line of the printout. -/
def CheckOssDisksSU.report (s : String) : String :=
  match parseUsage s with
  | some (n, disk) => usageLine (decide (n ≤ mapGet 0 CheckOssDisksSU.threshold disk)) n disk
  | none => ""

/-- What `FindKnownInParsed` reports for one key of `must`. -/
def FindKnownInParsed.report (have_ : GoMap Int) (k : String) : String :=
  if k ∈ mapKeys have_ then "\tok\texists in today's log\t" ++ k ++ "\n"
  else "\tnok\tabsent in today's log\t" ++ k ++ "\n"

/-- A line of the printout does not fail `CheckDisksSU`. -/
def CheckDisksSU.lineOk (s : String) : Bool :=
  match parseUsage s with
  | some (n, _) => decide (n < 40)
  | none => true

/-- A line of the printout does not fail `CheckOssDisksSU`. -/
def CheckOssDisksSU.lineOk (s : String) : Bool :=
  match parseUsage s with
  | some (n, disk) => decide (n ≤ mapGet 0 CheckOssDisksSU.threshold disk)
  | none => true

/-! ## More of the Go library -/

/-- Go `len(s)` : the length of a string in bytes. -/
def len (s : String) : Nat := s.utf8ByteSize

/-- The longest run of leading characters that fits in `n` bytes. -/
def takeBytes : Nat → List Char → List Char
  | _, [] => []
  | n, c :: cs => if c.utf8Size ≤ n then c :: takeBytes (n - c.utf8Size) cs else []

/-- The slice `s[:n]`, `none` when `n` exceeds `len(s)` (a panic).  When the
`n`-th byte falls inside a character the result stops before that character;
every such slice is only compared with an ASCII literal of `n` bytes, which it
then differs from, as the Go slice does. -/
def sliceTo (s : String) (n : Nat) : Option String :=
  if len s < n then none else some (String.mk (takeBytes n s.data))

/-- Go `unicode.IsSpace`. -/
def isSpace (c : Char) : Bool :=
  c = ' ' || c = '\t' || c = '\n' || c = '\r' || c.toNat = 0x0B || c.toNat = 0x0C ||
  c.toNat = 0x85 || c.toNat = 0xA0 || c.toNat = 0x1680 ||
  (0x2000 ≤ c.toNat && c.toNat ≤ 0x200A) ||
  c.toNat = 0x2028 || c.toNat = 0x2029 || c.toNat = 0x202F || c.toNat = 0x205F ||
  c.toNat = 0x3000

/-- The maximal runs of non-space characters of a character list. -/
def fieldsChars : List Char → List (List Char)
  | [] => []
  | c :: cs =>
    if isSpace c then fieldsChars cs
    else
      match cs with
      | [] => [[c]]
      | d :: _ =>
        if isSpace d then [c] :: fieldsChars cs
        else
          match fieldsChars cs with
          | [] => [[c]]
          | f :: fs => (c :: f) :: fs

/-- Go `strings.Fields` : the pieces of `s` between runs of white space. -/
def Fields (s : String) : List String := (fieldsChars s.data).map String.mk

/-- The character list `sub` occurs in the character list. -/
def containsChars (sub : List Char) : List Char → Bool
  | [] => sub.isEmpty
  | c :: cs => sub.isPrefixOf (c :: cs) || containsChars sub cs

/-- Go `strings.Contains`. -/
def Contains (s substr : String) : Bool := containsChars substr.data s.data

/-- Go `strings.TrimLeft` : drop the leading characters that occur in `cutset`. -/
def TrimLeft (s cutset : String) : String :=
  String.mk (s.data.dropWhile (fun c => cutset.data.contains c))

/-- Go `strings.TrimRight` : drop the trailing characters that occur in `cutset`. -/
def TrimRight (s cutset : String) : String :=
  String.mk (s.data.reverse.dropWhile (fun c => cutset.data.contains c)).reverse

/-- Go `strings.Trim` : drop the leading and trailing characters that occur in
`cutset`. -/
def Trim (s cutset : String) : String := TrimRight (TrimLeft s cutset) cutset

/-- Go `strings.TrimPrefix`. -/
def TrimPrefix (s pre : String) : String :=
  if pre.data.isPrefixOf s.data then String.mk (s.data.drop pre.data.length) else s

/-- Go `strings.Join`. -/
def Join : List String → String → String
  | [], _ => ""
  | [a], _ => a
  | a :: b :: rest, sep => a ++ sep ++ Join (b :: rest) sep

/-- Go `strings.ReplaceAll(s, old, new)` for `old` and `new` of one character
(every call modelled here is of that form). -/
def ReplaceAll (s : String) (old new : Char) : String :=
  String.mk (s.data.map (fun c => if c = old then new else c))

/-- The pieces of a character list between the occurrences of the list `sep`;
the counter is the number of characters of a matched separator still to skip. -/
def splitSepChars (sep : List Char) : Nat → List Char → List (List Char)
  | _, [] => [[]]
  | skip + 1, _ :: cs => splitSepChars sep skip cs
  | 0, c :: cs =>
    if sep.isPrefixOf (c :: cs) then [] :: splitSepChars sep (sep.length - 1) cs
    else
      match splitSepChars sep 0 cs with
      | [] => [[c]]
      | p :: ps => (c :: p) :: ps

/-- Go `strings.Split(s, sep)` for a separator of any positive length. -/
def SplitSep (s sep : String) : List String :=
  (splitSepChars sep.data 0 s.data).map String.mk

/-- Function `common.IsStrInArr` returns true if an array contains the given
string and false if not. -/
def IsStrInArr (arr : List String) (elem : String) : Bool := arr.contains elem

/-- The slice `l[lo:hi]` of a list, `none` when the bounds are violated. -/
def sliceList {α : Type} (l : List α) (lo hi : Nat) : Option (List α) :=
  if lo ≤ hi ∧ hi ≤ l.length then some ((l.take hi).drop lo) else none

/-- The slice `l[lo:]` of a list, `none` when the bound is violated. -/
def sliceFrom {α : Type} (l : List α) (lo : Nat) : Option (List α) :=
  if lo ≤ l.length then some (l.drop lo) else none

/-! ## Control flow of a check -/

/-- How a check, or a piece of one, ends, with the state at that point. -/
inductive Flow where
  /-- Control reaches the end of the piece. -/
  | next (st : CheckState)
  /-- A `return` statement. -/
  | ret (st : CheckState)
  /-- A run-time panic: an index or a slice bound out of range. -/
  | panic (st : CheckState)
  /-- The end of the process in `log.Fatalln`. -/
  | fatal (st : CheckState)
deriving DecidableEq, Repr

/-- The state in which the check stopped. -/
def Flow.state : Flow → CheckState
  | .next st => st
  | .ret st => st
  | .panic st => st
  | .fatal st => st

/-- The check ran to completion: it returned to its caller. -/
def Flow.completed : Flow → Bool
  | .next _ => true
  | .ret _ => true
  | .panic _ => false
  | .fatal _ => false

/-- The check stopped in a run-time panic. -/
def Flow.panicked : Flow → Bool
  | .panic _ => true
  | _ => false

/-- Sequencing: the rest of the code runs when the piece before it fell through. -/
def Flow.andThen (f : Flow) (k : CheckState → Flow) : Flow :=
  match f with
  | .next st => k st
  | .ret st => .ret st
  | .panic st => .panic st
  | .fatal st => .fatal st

/-- A `for _, x := range xs` loop: `next` from the body goes on with the
following element (also for `continue`), anything else leaves the loop. -/
def forRange {α : Type} (body : α → CheckState → Flow) : List α → CheckState → Flow
  | [], st => .next st
  | x :: xs, st =>
    match body x st with
    | .next st1 => forRange body xs st1
    | .ret st1 => .ret st1
    | .panic st1 => .panic st1
    | .fatal st1 => .fatal st1

/-- The assignment `Checks[name] = b`. -/
def setVerdict (name : String) (b : Bool) (st : CheckState) : CheckState :=
  { st with Checks := mapSet st.Checks name b }

/-- The verdict `Checks[name]` in a state. -/
def verdict (name : String) (st : CheckState) : Bool := mapGet false st.Checks name

/-- A `fmt.Fprint` of the text `s` to the writer. -/
def put (s : String) (st : CheckState) : CheckState := { st with w := st.w ++ s }

/-- Function `CmdFailOk` prints a message about successfully healthcheck
execution. -/
def CmdFailOk (message : String) (st : CheckState) : CheckState :=
  put ("\tok\t" ++ message ++ "\n") st

/-- The prologue shared by the checks: `Checks[name] = true`, then the command
through `netHelper.ExecCmd`; gives the state and the `printout, err` pair. -/
def runCmd (name cmd : String) (r : CmdResult) (st : CheckState) :
    CheckState × List String × Bool :=
  let st1 := setVerdict name true st
  let (w, printout, err) := ExecCmd st1.w cmd r
  ({ st1 with w := w }, printout, err)

/-! ## Set reconciliation: `FindParsedInKnown`, `CompareNumParsed`, `DeepCheckETLC` -/

/-- The loop of `FindParsedInKnown` over the entries of `have`. -/
def FindParsedInKnown.loop (name : String) (must : GoMap Int) :
    GoMap Int → CheckState → CheckState
  | [], st => st
  | (k, _) :: rest, st =>
    if mapHas must k then
      FindParsedInKnown.loop name must rest
        { st with w := st.w ++ "\tok\ttable is known\t" ++ k ++ "\n" }
    else
      FindParsedInKnown.loop name must rest
        { Checks := mapSet st.Checks name false,
          w := st.w ++ "\tnok\ttable is unknown\t" ++ k ++ "\n" }

/-- Function `FindParsedInKnown` checks that all parsed entries of ETLC are
known already. -/
def FindParsedInKnown (have_ must : GoMap Int) (st : CheckState) : Bool × CheckState :=
  let name := "FindParsedInKnown"
  let st1 : CheckState :=
    { Checks := mapSet st.Checks name true,
      w := st.w ++ "\n->>> check, that all parsed entries are known already" ++ "\n" }
  let st2 := FindParsedInKnown.loop name must have_ st1
  (mapGet false st2.Checks name, st2)

/-- The loop of `CompareNumParsed` over the entries of `must`. -/
def CompareNumParsed.loop (name : String) (have_ : GoMap Int) :
    GoMap Int → CheckState → CheckState
  | [], st => st
  | (k, v) :: rest, st =>
    let vh : Int :=
      match mapLookup have_ k with
      | some x => x
      | none => 0
    if vh ≥ v then
      CompareNumParsed.loop name have_ rest
        { st with w := st.w ++ "\tok\t" ++ fmtInt vh ++ "/" ++ fmtInt v ++ "\t\t" ++ k ++ "\n" }
    else
      CompareNumParsed.loop name have_ rest
        { Checks := mapSet st.Checks name false,
          w := st.w ++ "\tnok\t" ++ fmtInt vh ++ "/" ++ fmtInt v ++ "\t\t" ++ k ++ "\n" }

/-- Function `CompareNumParsed` compares the number of parsed entries of ETLC
with required one. -/
def CompareNumParsed (have_ must : GoMap Int) (st : CheckState) : Bool × CheckState :=
  let name := "CompareNumParsed"
  let st1 : CheckState :=
    { Checks := mapSet st.Checks name true,
      w := st.w ++ "\n->>> compares the number of parsed entries with required one" ++ "\n"
        ++ "\t\thave/must\t\ttable" ++ "\n" }
  let st2 := CompareNumParsed.loop name have_ must st1
  (mapGet false st2.Checks name, st2)

/-- The map of tables entries of `DeepCheckETLC`. -/
def DeepCheckETLC.must : GoMap Int := [
  ("DIM_E_LTE_SITE-eniq_oss_2", 1),
  ("DIM_E_GRAN_BTS-eniq_oss_2", 1),
  ("DIM_E_GRAN_LBG-eniq_oss_2", 1),
  ("DIM_E_GRAN_SITE-eniq_oss_2", 1),
  ("DC_E_RADIONODE_MIXED-eniq_oss_2", 25),
  ("DIM_E_GRAN_STGASSOCIATION-eniq_oss_2", 1),
  ("DC_E_CNAXE_MSCCL_APG-eniq_oss_2", 25),
  ("DIM_E_GRAN_NW-eniq_oss_2", 1),
  ("DIM_E_CN_SITE-eniq_oss_2", 1),
  ("DIM_RAN_BASE_SITE-eniq_oss_2", 1),
  ("DC_E_RBSG2-eniq_oss_2", 25),
  ("DIM_RAN_BASE_RBS-eniq_oss_2", 1),
  ("DIM_E_LTE_ERBS-eniq_oss_2", 1),
  ("DIM_E_GRAN_AS-eniq_oss_2", 1),
  ("DIM_E_CN_MSCCL-eniq_oss_2", 1),
  ("DIM_E_CN_HADDR-eniq_oss_2", 25),
  ("DC_E_BSS_APG-eniq_oss_2", 25),
  ("DIM_RAN_BASE_RNC-eniq_oss_2", 1),
  ("DC_E_CNAXE_HLRVLRSUB-eniq_oss_2", 7),
  ("DIM_E_CN_AXE-eniq_oss_2", 1),
  ("DC_E_RBS-eniq_oss_2", 25),
  ("DC_E_CNAXE_APG-eniq_oss_2", 7),
  ("DIM_E_GRAN_CELL-eniq_oss_2", 1),
  ("DIM_E_GRAN_SCGR-eniq_oss_2", 1),
  ("DIM_E_GRAN_TG-eniq_oss_2", 1),
  ("DC_E_BTSG2-eniq_oss_2", 25),
  ("DC_E_RNC-eniq_oss_2", 25),
  ("DIM_E_GRAN_MCTR-eniq_oss_2", 1),
  ("DIM_E_CN_MSCCLMF_AS-eniq_oss_2", 1),
  ("DC_E_NR_RAT-eniq_oss_3", 25),
  ("DC_E_BSS_APG-eniq_oss_3", 25),
  ("DC_E_ERBSG2-eniq_oss_3", 25),
  ("DIM_E_CN_AXE-eniq_oss_3", 1),
  ("DIM_E_GRAN_TG-eniq_oss_3", 1),
  ("DC_E_CNAXE_APG-eniq_oss_3", 25),
  ("DC_E_RNC-eniq_oss_3", 25),
  ("DC_E_MGW-eniq_oss_3", 36),
  ("DIM_E_GRAN_NW-eniq_oss_3", 1),
  ("DIM_E_LTE_NR-eniq_oss_3", 1),
  ("DIM_E_IPRAN_TWAMPSESSIONS-eniq_oss_3", 1),
  ("DC_E_ERBS-eniq_oss_3", 25),
  ("DIM_RAN_BASE_RNC-eniq_oss_3", 2),
  ("DIM_E_GRAN_MCTR-eniq_oss_3", 1),
  ("DIM_E_GRAN_SCGR-eniq_oss_3", 1),
  ("DIM_E_GRAN_STGASSOCIATION-eniq_oss_3", 1),
  ("DC_E_RBS-eniq_oss_3", 25),
  ("DIM_E_GRAN_CELL-eniq_oss_3", 1),
  ("DIM_E_GRAN_LBG-eniq_oss_3", 1),
  ("DIM_E_CN_MGW-eniq_oss_3", 1),
  ("DC_E_RBSG2-eniq_oss_3", 25),
  ("DIM_E_GRAN_AS-eniq_oss_3", 1),
  ("DIM_RAN_BASE_RBS-eniq_oss_3", 1),
  ("DC_E_RADIONODE_MIXED-eniq_oss_3", 25),
  ("DC_E_BTSG2-eniq_oss_3", 25),
  ("DIM_E_GRAN_BTS-eniq_oss_3", 1),
  ("DIM_E_LTE_ERBS-eniq_oss_3", 1),
  ("DIM_E_CN_CN-eniq_oss_3", 1)
]

/-- The date part of `time.Now().Format(time.RFC3339)` : the expression
`strings.Split(now, "T")[0]` (the list is never empty). -/
def dateOf (now : String) : String := (Split now 'T').headD ""

/-- The loop of `DeepCheckETLC` that fills the map of parsed entries; `none` is
a run-time panic (a line with fewer than five fields, or a fifth field without
a dot). -/
def DeepCheckETLC.parse : List String → GoMap Int → Option (GoMap Int)
  | [], have_ => some have_
  | s :: rest, have_ =>
    if len s = 0 then DeepCheckETLC.parse rest have_
    else
      match (Fields s)[4]? with
      | none => none
      | some f =>
        match (Split f '.')[1]? with
        | none => none
        | some t =>
          let table := TrimLeft t "INTF_"
          match mapLookup have_ table with
          | some counter => DeepCheckETLC.parse rest (mapSet have_ table (counter + 1))
          | none => DeepCheckETLC.parse rest (mapSet have_ table 1)

/-- The end of `DeepCheckETLC` : the three reconciliations of the parsed entries
`have` with the known entries `must`, each of which fails the check when it
returns false. -/
def DeepCheckETLC.reconcile (name : String) (have_ must : GoMap Int) (st : CheckState) :
    CheckState :=
  let r1 := FindParsedInKnown have_ must st
  let st1 := if !r1.1 then setVerdict name false r1.2 else r1.2
  let r2 := FindKnownInParsed have_ must st1
  let st2 := if !r2.1 then setVerdict name false r2.2 else r2.2
  let r3 := CompareNumParsed have_ must st2
  if !r3.1 then setVerdict name false r3.2 else r3.2

/-- Function `DeepCheckETLC` performs deep analise of activities in ENIQ ETLC
Monitoring; `now` is `time.Now().Format(time.RFC3339)`. -/
def DeepCheckETLC (now : String) (st : CheckState) (r : CmdResult) : Flow :=
  let name := "DeepCheckETLC"
  let d := ReplaceAll (dateOf now) '-' '_'
  let (st1, printout, err) :=
    runCmd name ("grep -i parsed /eniq/log/sw_log/engine/engine-" ++ d ++ ".log") r st
  if err then .ret (CmdFailed name st1)
  else
    match DeepCheckETLC.parse printout [] with
    | none => .panic st1
    | some have_ => .next (DeepCheckETLC.reconcile name have_ DeepCheckETLC.must st1)

/-- What `FindParsedInKnown` reports for one key of `have`. -/
def FindParsedInKnown.report (must : GoMap Int) (k : String) : String :=
  if k ∈ mapKeys must then "\tok\ttable is known\t" ++ k ++ "\n"
  else "\tnok\ttable is unknown\t" ++ k ++ "\n"

/-- The observed count `have[k]`, taken as 0 when `k` is absent. -/
def observedCount (have_ : GoMap Int) (k : String) : Int := mapGet 0 have_ k

/-- What `CompareNumParsed` reports for one entry of `must`. -/
def CompareNumParsed.report (have_ : GoMap Int) (e : String × Int) : String :=
  (if observedCount have_ e.1 ≥ e.2 then "\tok\t" else "\tnok\t") ++
    fmtInt (observedCount have_ e.1) ++ "/" ++ fmtInt e.2 ++ "\t\t" ++ e.1 ++ "\n"

/-- The text `FindParsedInKnown` writes. -/
def FindParsedInKnown.text (have_ must : GoMap Int) : String :=
  "\n->>> check, that all parsed entries are known already" ++ "\n" ++
    joinText ((mapKeys have_).map (FindParsedInKnown.report must))

/-- The text `FindKnownInParsed` writes. -/
def FindKnownInParsed.text (have_ must : GoMap Int) : String :=
  "\n->>> check, that all known entries are found in the log" ++ "\n" ++
    joinText ((mapKeys must).map (FindKnownInParsed.report have_))

/-- The text `CompareNumParsed` writes. -/
def CompareNumParsed.text (have_ must : GoMap Int) : String :=
  "\n->>> compares the number of parsed entries with required one" ++ "\n" ++
    "\t\thave/must\t\ttable" ++ "\n" ++
    joinText (must.map (CompareNumParsed.report have_))

/-! ## The clock -/

/-- Go `time.Weekday`. -/
inductive Weekday where
  | Sunday | Monday | Tuesday | Wednesday | Thursday | Friday | Saturday
deriving DecidableEq, Repr

/-- Go `Weekday.String()`. -/
def Weekday.str : Weekday → String
  | .Sunday => "Sunday"
  | .Monday => "Monday"
  | .Tuesday => "Tuesday"
  | .Wednesday => "Wednesday"
  | .Thursday => "Thursday"
  | .Friday => "Friday"
  | .Saturday => "Saturday"

/-- Go `time.Month`. -/
inductive Month where
  | January | February | March | April | May | June
  | July | August | September | October | November | December
deriving DecidableEq, Repr

/-- Go `Month.String()`. -/
def Month.str : Month → String
  | .January => "January"
  | .February => "February"
  | .March => "March"
  | .April => "April"
  | .May => "May"
  | .June => "June"
  | .July => "July"
  | .August => "August"
  | .September => "September"
  | .October => "October"
  | .November => "November"
  | .December => "December"

/-- What the checks read of `time.Now()`. -/
structure Now where
  /-- The text `now.Format(time.RFC3339)`. -/
  rfc3339 : String
  /-- The value `now.Weekday()`. -/
  weekday : Weekday
  /-- The value `now.Month()`. -/
  month : Month
  /-- The value `now.Day()`. -/
  day : Int
  /-- The value `now.Year()`. -/
  year : Int
deriving DecidableEq, Repr

/-- The expression `now.Month().String()[:3]` (every month name has more than
three letters, so the slice never panics). -/
def Month.abbrev (m : Month) : String := (sliceTo m.str 3).getD ""

/-! ## More helpers of the checks -/

/-- The constant `NumOfStrForSingleBE` is the number of strings for printout of
single ZFS Boot Environment. -/
def NumOfStrForSingleBE : Nat := 4

/-- The constant `ParsedEntriesThreshold` is the threshold of number of parsed
entries from oss. -/
def ParsedEntriesThreshold : Nat := 250

/-- The constant `SyDbThreshold` is the threshold of sybase databases allowed
capacity. -/
def SyDbThreshold : Int := 80

/-- The constant `VrstDbThreshold` is the threshold of versant databases allowed
capacity. -/
def VrstDbThreshold : Int := 30

/-- The constant `JobsThreshold` is the threshold of allowed number of exports
jobs per user in OSS-RC. -/
def JobsThreshold : Int := 10

/-- The constant `HomeSizeThreshold` is the threshold of allowed size of users
home directory. -/
def HomeSizeThreshold : Int := 10

/-- The constant `MoshellLogSizeThreshold` is the threshold of allowed size of
users moshell log directory. -/
def MoshellLogSizeThreshold : Int := 5

/-- The constant `TimestampOfLastVrstCriticalAlarm` is the string timestamp of
the last critical alarm of versant databases. -/
def TimestampOfLastVrstCriticalAlarm : String := "***** Mon Nov  9 19:33:14 QYZT 2020  *****"

/-- The constant `UptimeThreshold` is the number of day the system is up and
running. -/
def UptimeThreshold : Int := 14

/-- A call of `netHelper.ExecCmd` on the writer of the state. -/
def exec (cmd : String) (r : CmdResult) (st : CheckState) : CheckState × List String × Bool :=
  let (w, printout, err) := ExecCmd st.w cmd r
  ({ st with w := w }, printout, err)

/-- The statements `CmdFailed(name, w)` and `fmt.Fprintln(w)` one after the
other. -/
def cmdFailedLn (name : String) (st : CheckState) : CheckState :=
  put "\n" (CmdFailed name st)

/-- How the digit loop of `strconv.ParseUint` ends. -/
inductive UintScan where
  /-- A byte that is no digit: `ErrSyntax`. -/
  | syntaxErr
  /-- The digits read so far do not fit 64 bits: `ErrRange`. -/
  | rangeErr
  /-- Every byte is a digit and the value fits 64 bits. -/
  | value (n : Nat)
deriving DecidableEq, Repr

/-- The digit loop of `strconv.ParseUint(s, 10, 64)` from the value `n` read so
far: it goes through the bytes in order and stops at the first byte that is no
digit (a syntax error) or at the first digit with which the value leaves 64 bits
(a range error), whichever comes first. -/
def parseUintLoop : List Char → Nat → UintScan
  | [], n => .value n
  | c :: cs, n =>
    match digitVal c with
    | none => .syntaxErr
    | some d =>
      if n ≥ (2 ^ 64 - 1) / 10 + 1 then .rangeErr
      else if n * 10 + d > 2 ^ 64 - 1 then .rangeErr
      else parseUintLoop cs (n * 10 + d)

/-- The integer `strconv.ParseInt(s, 10, 0)` returns for the digits `ds` behind
the sign: 0 with a syntax error; with a range error the bound of `int` on the
side of the sign, also when a byte that is no digit follows the digits that
overflow. -/
def AtoiValue.signed (neg : Bool) (ds : List Char) : Int :=
  if ds = [] then 0
  else
    match parseUintLoop ds 0 with
    | .syntaxErr => 0
    | .rangeErr => if neg then -(2 ^ 63 : Int) else (2 ^ 63 : Int) - 1
    | .value un =>
      if !neg && decide (un ≥ 2 ^ 63) then (2 ^ 63 : Int) - 1
      else if neg && decide (un > 2 ^ 63) then -(2 ^ 63 : Int)
      else if neg then -(un : Int) else (un : Int)

/-- The integer result of `strconv.Atoi` on a 64-bit platform, also when it
returns an error. A text shorter than 19 bytes takes the fast path of `Atoi`,
where every error is a syntax error with the result 0; the digit loop gives the
same on such a text, since fewer than 19 digits cannot overflow. -/
def AtoiValue (s : String) : Int :=
  match s.data with
  | [] => 0
  | '-' :: ds => AtoiValue.signed true ds
  | '+' :: ds => AtoiValue.signed false ds
  | ds => AtoiValue.signed false ds

/-- The last element `l[len(l)-1]` of a list, `none` when the list is empty. -/
def lastElem {α : Type} (l : List α) : Option α := l.getLast?

/-- The lines of a printout with their positions, as `for i, s := range` sees
them. -/
def indexed {α : Type} (l : List α) : List (Nat × α) := l.enum

/-! ## The checks of package `hc` -/

/-- Function `CheckBeadm` checks the lists all existing ZFS Boot
Environments(BEs); the assignment of false after the `nok` line is commented
out in the source. -/
def CheckBeadm (st : CheckState) (r : CmdResult) : Flow :=
  let name := "CheckBeadm"
  let (st1, printout, err) := runCmd name "beadm list" r st
  if err then .ret (CmdFailed name st1)
  else if printout.length ≤ NumOfStrForSingleBE then
    .next (put ("\tok\tonly one Boot Environment found" ++ "\n") st1)
  else
    .next (put ("\tnok\tthe ZFS pool has more than one Boot Environment" ++ "\n") st1)

/-- The body of the loop of `CheckSnapshots`. -/
def CheckSnapshots.body (name : String) (str : String) (st : CheckState) : Flow :=
  if len str = 0 then .next st
  else
    match sliceTo str 4 with
    | none => .panic st
    | some head =>
      if head = "snss" then .next (put ("\tok\t" ++ str ++ "\n") st)
      else .next (setVerdict name false (put ("\tnok\t" ++ str ++ "\n") st))

/-- Function `CheckSnapshots` checks all available snapshots; autocreated
snapshots has "snss" in name. -/
def CheckSnapshots (now : Now) (st : CheckState) (r : CmdResult) : Flow :=
  let name := "CheckSnapshots"
  let year := fmtInt now.year
  let (st1, printout, err) :=
    runCmd name ("bash /eniq/bkup_sw/bin/prep_eniq_snapshots.bsh -u -N | grep " ++ year) r
      (setVerdict "CheckSnapshots" true st)
  if err then .ret (CmdFailed name st1)
  else forRange (CheckSnapshots.body name) printout st1

/-- The body of the loop of `CheckETLC` over the two oss; `run i` is what the
command of the `i`-th oss gives back. -/
def CheckETLC.body (name d : String) (run : Nat → CmdResult) (x : Nat × String)
    (st : CheckState) : Flow :=
  let oss := x.2
  let (st1, printout, err) :=
    exec ("grep -i parsed /eniq/log/sw_log/engine/engine-" ++ d ++ ".log | grep " ++ oss)
      (run x.1) st
  if err then .next (CmdFailed name st1)
  else
    let entries := printout.length
    if entries > ParsedEntriesThreshold then
      .next (put ("\tok\tnumber of parsed entries(" ++ fmtInt entries ++ ") for " ++ oss ++
        " is more than " ++ fmtInt ParsedEntriesThreshold ++ "\n") st1)
    else
      .next (setVerdict name false
        (put ("\tnok\tnumber of parsed entries(" ++ fmtInt entries ++ ") for " ++ oss ++
          " is less than " ++ fmtInt ParsedEntriesThreshold ++ "\n") st1))

/-- Function `CheckETLC` check activities in ENIQ ETLC Monitoring. -/
def CheckETLC (now : Now) (run : Nat → CmdResult) (st : CheckState) : Flow :=
  let name := "CheckETLC"
  let st1 := setVerdict name true st
  let d := ReplaceAll (dateOf now.rfc3339) '-' '_'
  forRange (CheckETLC.body name d run) (indexed ["oss_2", "oss_3"]) st1

/-- Function `EnmNativeHC` runs native full healthcheck recommended by Ericsson
and analyze the output. -/
def EnmNativeHC (st : CheckState) (r : CmdResult) : Flow :=
  let name := "EnmNativeHC"
  let (st1, printout, err) :=
    runCmd name "/opt/ericsson/enminst/bin/enm_healthcheck.sh --verbose" r st
  let st2 := if err then cmdFailedLn name st1 else st1
  forRange (fun s st => .next (put (s ++ "\n") st)) printout st2

/-- The body of the loop of `CheckMCs`. -/
def CheckMCs.body (s : String) (st : CheckState) : Flow :=
  if len s = 0 then .next st
  else
    let mc := Fields s
    match mc[0]?, mc[1]? with
    | some mc0, some mc1 => .next (put ("\tnok\t" ++ mc0 ++ "(" ++ mc1 ++ ")" ++ "\n") st)
    | _, _ => .panic st

/-- Function `CheckMCs` checks states of Managed Componetns of OSS-RC. -/
def CheckMCs (st : CheckState) (r : CmdResult) : Flow :=
  let name := "CheckMCs"
  let (st1, printout, err) :=
    runCmd name "/opt/ericsson/bin/smtool -l | egrep -v \"started|unlicensed\"" r st
  if err then .ret (CmdFailOk "no any failed MCs" st1)
  else
    (forRange CheckMCs.body printout st1).andThen fun st2 =>
      .next (setVerdict name false st2)

/-- The body of the loop of `CheckDisks`. -/
def CheckDisks.body (s : String) (st : CheckState) : Flow :=
  let l := Fields s
  if len s = 0 then .next st
  else
    match l[0]?, l[1]?, l[2]?, l[3]?, l[6]? with
    | some l0, some l1, some l2, some l3, some l6 =>
      .next (put ("\tnok\t\x7b" ++ l0 ++ "\x7d-\x7b" ++ l1 ++ "\x7d-\x7b" ++ l2 ++ "\x7d => \x7b" ++
        l3 ++ "|" ++ l6 ++ "\x7d\n") st)
    | _, _, _, _, _ => .panic st

/-- Function `CheckDisks` analises the output of command vxprint and show disks
failed states. -/
def CheckDisks (st : CheckState) (r : CmdResult) : Flow :=
  let name := "CheckDisks"
  let (st1, printout, err) := runCmd name "vxprint | egrep -i \"iofail|recover\"" r st
  if err then .ret (CmdFailOk "no any failed disks" st1)
  else
    (forRange CheckDisks.body printout st1).andThen fun st2 =>
      .next (setVerdict name false st2)

/-- The body of the loop of `CheckSyDb`. -/
def CheckSyDb.body (name : String) (s : String) (st : CheckState) : Flow :=
  if len s = 0 then .next st
  else
    let l := Fields s
    match l[0]?, l[5]? with
    | some db, some l5 =>
      match Atoi (TrimRight l5 "%") with
      | none => .ret (cmdFailedLn name st)
      | some su =>
        if su < SyDbThreshold then
          .next (put ("\tok\t" ++ fmtInt su ++ "%" ++ "\t" ++ db ++ "\n") st)
        else
          .next (setVerdict name false
            (put ("\tnok\t" ++ fmtInt su ++ "%" ++ "\t" ++ db ++ "\n") st))
    | _, _ => .panic st

/-- Function `CheckSyDb` checks the remaining space for the OSS-RC Sybase
databases and their transaction log. -/
def CheckSyDb (st : CheckState) (r : CmdResult) : Flow :=
  let name := "CheckSyDb"
  let (st1, printout, err) :=
    runCmd name "su - sybase -c /ericsson/syb/util/db_check.sh | egrep ' system'" r st
  if err then .ret (cmdFailedLn name st1)
  else
    match sliceFrom printout 1 with
    | none => .panic st1
    | some lines => forRange (CheckSyDb.body name) lines st1

/-- Function `CheckVrstDataMon` checks the status of Versant database monitor. -/
def CheckVrstDataMon (st : CheckState) (r : CmdResult) : Flow :=
  let name := "CheckVrstDataMon"
  let (st1, printout, err) := runCmd name "svcs versant_log_monitor" r st
  if err then .ret (cmdFailedLn name st1)
  else
    match printout[1]? with
    | none => .panic st1
    | some p1 =>
      let l := Fields p1
      match l[0]? with
      | none => .panic st1
      | some l0 =>
        if l0 = "online" then
          match l[2]? with
          | none => .panic st1
          | some l2 => .next (put ("\tok\t" ++ l2 ++ "\n") st1)
        else
          match l[2]? with
          | none => .panic st1
          | some l2 =>
            .next (setVerdict name false (put ("\tnok\t" ++ l2 ++ "(" ++ l0 ++ ")" ++ "\n") st1))

/-- Function `CheckFailProc` checks existence of failed processes. -/
def CheckFailProc (st : CheckState) (r : CmdResult) : Flow :=
  let name := "CheckFailProc"
  let (st1, printout, err) := runCmd name "ls -l /var/tmp/failed_process" r st
  if err then .ret (CmdFailOk "no any failed process temp files" st1)
  else
    match printout[0]? with
    | none => .panic st1
    | some p0 =>
      match lastElem (Fields p0) with
      | none => .panic st1
      | some file => .next (setVerdict name false (put ("\tnok\t" ++ file ++ "\n") st1))

/-- Function `CheckWtmpx` checks a log size of all connections to the server. -/
def CheckWtmpx (st : CheckState) (r : CmdResult) : Flow :=
  let name := "CheckWtmpx"
  let (st1, printout, err) := runCmd name "du -sh /var/adm/wtmpx" r st
  if err then .ret (cmdFailedLn name st1)
  else
    match printout[0]? with
    | none => .panic st1
    | some p0 =>
      match (Fields p0)[0]? with
      | none => .panic st1
      | some size =>
        if !Contains size "G" then
          .next (put ("\tok\tthe log size(" ++ size ++
            ") of all server connection is less than 1GB\n") st1)
        else
          .next (setVerdict name false (put ("\tnok\tthe log size(" ++ size ++
            ") of all server connection is more than 1GB\n") st1))

/-- The body of the loop of `CheckSyLogSize`. -/
def CheckSyLogSize.body (name : String) (s : String) (st : CheckState) : Flow :=
  if len s = 0 then .next st
  else
    match (Fields s)[0]?, (Fields s)[1]? with
    | some size, some file =>
      if !Contains size "M" then
        .next (put ("\tok\tthe size(" ++ size ++ ") of " ++ file ++ " is less than 1MB\n") st)
      else
        .next (setVerdict name false
          (put ("\tnok\tthe size(" ++ size ++ ") of " ++ file ++ " is more than 1MB\n") st))
    | _, _ => .panic st

/-- Function `CheckSyLogSize` checks SMF logs size for Sybase, files have to be
less than 1MB. -/
def CheckSyLogSize (st : CheckState) (r : CmdResult) : Flow :=
  let name := "CheckSyLogSize"
  let (st1, printout, err) :=
    runCmd name "du -sh /var/svc/log/ericsson-eric_3pp-sybase_[lp]*" r st
  if err then .ret (cmdFailedLn name st1)
  else forRange (CheckSyLogSize.body name) printout st1

/-- The map of number of policies for each ombs of `CheckNrOfBackupPolicies`. -/
def CheckNrOfBackupPolicies.policies : GoMap Int := [
  ("almaty-oss-ombs", 15),
  ("astana-oss-ombs", 13)
]

/-- Function `CheckNrOfBackupPolicies` checks if the number of policies on the
OMBS is consistent with the required one. -/
def CheckNrOfBackupPolicies (host : String) (st : CheckState) (r : CmdResult) : Flow :=
  let name := "CheckNrOfBackupPolicies"
  let policies := CheckNrOfBackupPolicies.policies
  let (st1, printout, err) :=
    runCmd name "/usr/openv/netbackup/bin/admincmd/bppllist -L" r st
  if err then .ret (cmdFailedLn name st1)
  else
    let n : Int := (printout.length : Int) - 1
    if n = mapGet 0 policies host then
      .next (put ("\tok\tthe number of policies is consistent with the required one" ++ "\n") st1)
    else if n > mapGet 0 policies host then
      .next (setVerdict name false
        (put ("\tnok\tlooks like new policy was added, " ++ fmtInt n ++ " instead of " ++
          fmtInt (mapGet 0 policies host) ++ "\n") st1))
    else
      .next (setVerdict name false
        (put ("\tnok\tlooks like policy was deleted, " ++ fmtInt n ++ " instead of " ++
          fmtInt (mapGet 0 policies host) ++ "\n") st1))

/-- Function `CheckSyErrLog` checks sybase error log, severity level up to 16
are caused by user mistakes. -/
def CheckSyErrLog (now : Now) (st : CheckState) (r : CmdResult) : Flow :=
  let name := "CheckSyErrLog"
  let d := ReplaceAll (dateOf now.rfc3339) '-' '/'
  let cmd := "grep error /var/opt/sybase/sybase/log/masterdataservice.ERRORLOG | grep " ++ d
  let (st1, printout, err) := runCmd name cmd r st
  if err then .ret (CmdFailOk "no errors in sybase errorlog" st1)
  else
    let st2 := put ("\tnoc\tthere are errors in masterdataservice.ERRORLOG\n" ++ "\n") st1
    (forRange (fun s st => .next (put ("\t\t" ++ s ++ "\n") st)) printout st2).andThen fun st3 =>
      .next (setVerdict name false st3)

/-- Function `CheckSyBackLog` checks sybase backup log; the backup of Sybase
database has to be executed every Sunday. -/
def CheckSyBackLog (now : Now) (st : CheckState) (r : CmdResult) : Flow :=
  if now.weekday.str ≠ "Sunday" then .ret st
  else
    let name := "CheckSyBackLog"
    let cmd := "cat /var/opt/sybase/sybase/log/masterdataservice_BACKUP.ERRORLOG | perl -nE 'print $_, if /"
      ++ now.month.abbrev ++ "\\h+" ++ fmtInt now.day ++ "/'"
    let (st1, printout, err) := runCmd name cmd r st
    if err then .ret (cmdFailedLn name st1)
    else if printout.length > 400 then
      .next (put ("\tok\tsybase backup was successfully executed(" ++ fmtInt printout.length ++
        ")\n") st1)
    else
      .next (setVerdict name false
        (put ("\tnok\tlooks like sybase backup was failed" ++ "\n") st1))

/-- The test of `MonErrLog` and `MonNetLog` on the first three bytes of a line. -/
def isLogHead (head : String) : Bool :=
  head = "FDN" || head = "Sho" || head = "***" || head = "Add"

/-- The body of the loop of `MonErrLog`. -/
def MonErrLog.body (s : String) (st : CheckState) : Flow :=
  if len s < 3 then .next st
  else
    match sliceTo s 3 with
    | none => .panic st
    | some head =>
      if isLogHead head then .next (put ("\t\t" ++ s ++ "\n") st) else .next st

/-- Function `MonErrLog` monitors critical events from CIF "ERROR LOG" at
today. -/
def MonErrLog (now : Now) (st : CheckState) (r : CmdResult) : Flow :=
  let name := "MonErrLog"
  let d := dateOf now.rfc3339
  let cmd := "/opt/ericsson/nms_cif_sm/bin/log -type " ++ "error" ++
    " -filter \"severity_level = 3 AND time_stamp >= '" ++ d ++ "'\""
  let (st1, printout, err) := runCmd name cmd r st
  if err then .ret (cmdFailedLn name st1)
  else if printout.length ≤ 1 then
    .ret (CmdFailOk "there is no critical errors in CIF log at today" st1)
  else
    let st2 := put ("\tnok\tcheck critical errors of CIF log\n" ++ "\n") st1
    (forRange MonErrLog.body printout st2).andThen fun st3 =>
      .next (setVerdict name false st3)

/-- The first loop of `MonConfigExports` : the number of jobs of each owner;
`none` is a run-time panic (a line without a colon). -/
def MonConfigExports.count : List String → GoMap Int → Option (GoMap Int)
  | [], jobsCounter => some jobsCounter
  | s :: rest, jobsCounter =>
    if len s = 0 then MonConfigExports.count rest jobsCounter
    else
      match (Split s ':')[1]? with
      | none => none
      | some f =>
        let owner := Trim f " "
        match mapLookup jobsCounter owner with
        | some jobs => MonConfigExports.count rest (mapSet jobsCounter owner (jobs + 1))
        | none => MonConfigExports.count rest (mapSet jobsCounter owner 1)

/-- The body of the second loop of `MonConfigExports`. -/
def MonConfigExports.body (name : String) (e : String × Int) (st : CheckState) : Flow :=
  let owner := e.1
  let jobs := e.2
  if jobs ≤ JobsThreshold || owner = "daikud" then
    .next (put ("\tok\t" ++ fmtInt jobs ++ "\tjobs run by " ++ owner ++ "\n") st)
  else
    .next (setVerdict name false
      (put ("\tnok\t" ++ fmtInt jobs ++ "\tjobs run by " ++ owner ++ "\n") st))

/-- Function `MonConfigExports` monitors exports of configurations files in
"SYSTEM EVENT LOG". -/
def MonConfigExports (now : Now) (st : CheckState) (r : CmdResult) : Flow :=
  let name := "MonConfigExports"
  let d := dateOf now.rfc3339
  let cmd := "/opt/ericsson/nms_cif_sm/bin/log -type " ++ "system" ++
    " -filter \"event_type LIKE 'COM.ERICSSON.NMS.CIF.AM.NEW_JOB' AND time_stamp >= '" ++ d ++
    "'\" | grep Owner"
  let (st1, printout, err) := runCmd name cmd r st
  if err then .ret (cmdFailedLn name st1)
  else
    match MonConfigExports.count printout [] with
    | none => .panic st1
    | some jobsCounter => forRange (MonConfigExports.body name) jobsCounter st1

/-- The body of the loop of `MonNetLog`. -/
def MonNetLog.body (s : String) (st : CheckState) : Flow :=
  if len s = 0 then .next st
  else
    match sliceTo s 3 with
    | none => .panic st
    | some head =>
      if isLogHead head then .next (put ("\t\t" ++ s ++ "\n") st) else .next st

/-- Function `MonNetLog` monitors critical events from "NETWORK_STATUS LOG". -/
def MonNetLog (now : Now) (st : CheckState) (r : CmdResult) : Flow :=
  let name := "MonNetLog"
  let d := dateOf now.rfc3339
  let cmd := "/opt/ericsson/nms_cif_sm/bin/log -type " ++ "security" ++
    " -filter \"severity_level = 3 AND time_stamp >= '" ++ d ++ "'\""
  let (st1, printout, err) := runCmd name cmd r st
  if err then .ret (cmdFailedLn name st1)
  else if printout.length ≤ 1 then
    .ret (CmdFailOk "there is no critical security events in CIF log at today" st1)
  else
    let st2 := put ("\tnok\tcheck critical security events of CIF log\n" ++ "\n") st1
    (forRange MonNetLog.body printout st2).andThen fun st3 =>
      .next (setVerdict name false st3)

/-- Function `ValDiagProcCache` validates daily output of crontab job for its
successful completion. -/
def ValDiagProcCache (st : CheckState) (r : CmdResult) : Flow :=
  let name := "ValDiagProcCache"
  let (st1, printout, err) :=
    runCmd name "tail -4 /ericsson/syb/log/diag_proc_cache_test.txt" r st
  if err then .ret (cmdFailedLn name st1)
  else
    let failed : CheckState → Flow := fun st =>
      let st2 := put ("\tnoc\tvalidation of Diagnostics Total Procedure Cache\n" ++ "\n") st
      let st3 := setVerdict name false st2
      forRange (fun x st => .next (put ("\t\t" ++ fmtInt x.1 ++ ", " ++ x.2 ++ "\n") st))
        (indexed printout) st3
    match printout[1]? with
    | none => .panic st1
    | some p1 =>
      if Contains p1 "JSAGENT running - OK" then
        match printout[3]? with
        | none => .panic st1
        | some p3 =>
          if Contains p3 "no action necessary" then
            .ret (put ("\tok\tvalidation of Diagnostics Total Procedure Cache" ++ "\n") st1)
          else failed st1
      else failed st1

/-- The body of the loop of `CheckCoreFiles`. -/
def CheckCoreFiles.body (s : String) (st : CheckState) : Flow :=
  if len s = 0 then .next st else .next (put ("\t\t" ++ s ++ "\n") st)

/-- Function `CheckCoreFiles` checks all core files; files should not exists. -/
def CheckCoreFiles (st : CheckState) (r : CmdResult) : Flow :=
  let name := "CheckCoreFiles"
  let (st1, printout, err) := runCmd name "ls -erth /var/share/cores" r st
  if err then .ret (cmdFailedLn name st1)
  else if printout.length = 2 then .ret (CmdFailOk "no any core files" st1)
  else
    let st2 := put ("\tnok\tcore files found\n" ++ "\n") st1
    (forRange CheckCoreFiles.body printout st2).andThen fun st3 =>
      .next (setVerdict name false st3)

/-- The body of the loop of `CheckOutOfMem`. -/
def CheckOutOfMem.body (s : String) (st : CheckState) : Flow :=
  let l := Fields s
  if l.length ≤ 2 then .next st
  else
    match l[2]?, l[8]?, l[5]?, l[6]?, l[9]? with
    | some l2, some l8, some l5, some l6, some l9 =>
      .next (put ("\t\t" ++ l2 ++ "\t" ++ l8 ++ " " ++ l5 ++ "," ++ l6 ++ "\t" ++ l9 ++ "\n") st)
    | _, _, _, _, _ => .panic st

/-- Function `CheckOutOfMem` checks all out of memory dump files; files should
not exists. -/
def CheckOutOfMem (st : CheckState) (r : CmdResult) : Flow :=
  let name := "CheckOutOfMem"
  let (st1, printout, err) := runCmd name "ls -erth /ossrc/upgrade/*/*" r st
  if err then .ret (CmdFailOk "no any out of memory dump files" st1)
  else
    let st2 := put ("\tnok\tout of memory dump files found\n" ++ "\n") st1
    (forRange CheckOutOfMem.body printout st2).andThen fun st3 =>
      .next (setVerdict name false st3)

/-- The body of the loop of `CheckSecurity`. -/
def CheckSecurity.body (s : String) (st : CheckState) : Flow :=
  if len s > 0 then .next (put ("\t\t" ++ s ++ "\n") st) else .next st

/-- Function `CheckSecurity` checks security status of COBRA and RMI/JMS. -/
def CheckSecurity (st : CheckState) (r : CmdResult) : Flow :=
  let name := "CheckSecurity"
  let (st1, printout, err) :=
    runCmd name "/opt/ericsson/secpf/scripts/bin/security.ksh -status" r st
  if err then .ret (cmdFailedLn name st1)
  else
    let ok := "Currently set to ON"
    let failed : CheckState → Flow := fun st =>
      let st2 := put ("\tnok\tsecurity status\n" ++ "\n") st
      (forRange CheckSecurity.body printout st2).andThen fun st3 =>
        .next (setVerdict name false st3)
    match printout[1]? with
    | none => .panic st1
    | some p1 =>
      if p1 = ok then
        match printout[4]? with
        | none => .panic st1
        | some p4 =>
          if p4 = ok then .ret (put ("\tok\tsecurity status" ++ "\n") st1)
          else failed st1
      else failed st1

/-- The body of the loop of `CheckVeritas`. -/
def CheckVeritas.body (name : String) (s : String) (st : CheckState) : Flow :=
  if len s = 0 then .next st
  else
    let l := Fields s
    match l[0]?, l[2]?, l[3]? with
    | some group, some system, some state =>
      match sliceTo group 3 with
      | none => .panic st
      | some g3 =>
        if (g3 = "Oss" && Contains system "1bl") || (g3 = "Syb" && Contains system "2bl") then
          .next (put ("\tok\t" ++ group ++ "\t" ++ state ++ " " ++ system ++ "\n") st)
        else
          .next (setVerdict name false
            (put ("\tnok\t" ++ group ++ "\t" ++ state ++ " " ++ system ++ "\n") st))
    | _, _, _ => .panic st

/-- Function `CheckVeritas` checks status of Veritas Cluster Servers. -/
def CheckVeritas (st : CheckState) (r : CmdResult) : Flow :=
  let name := "CheckVeritas"
  let (st1, printout, err) :=
    runCmd name "/opt/VRTSvcs/bin/hagrp -state | grep State | grep -v ONLINE" r st
  if err then .ret (cmdFailedLn name st1)
  else forRange (CheckVeritas.body name) printout st1

/-- The body of the loop of `CheckSyDump`. -/
def CheckSyDump.body (name : String) (s : String) (st : CheckState) : Flow :=
  if Contains s "csmd" then
    let st1 := put ("\tnoc\tSybase Configurable Shared Memory Dump found\n" ++ "\n") st
    let st2 := put ("\t\t" ++ s ++ "\n") st1
    .ret (setVerdict name false st2)
  else .next st

/-- Function `CheckSyDump` checks for the occurrence of a Sybase Configurable
Shared Memory Dump. -/
def CheckSyDump (st : CheckState) (r : CmdResult) : Flow :=
  let name := "CheckSyDump"
  let (st1, printout, err) := runCmd name "su - sybase -c /ericsson/syb/conf/csmd_check" r st
  if err then .ret (cmdFailedLn name st1)
  else
    (forRange (CheckSyDump.body name) printout st1).andThen fun st2 =>
      .next (put ("\tok\tno any Sybase Configurable Shared Memory Dump" ++ "\n") st2)

/-- The users to whom it is allowed to execute restart, of `MonRestarts`. -/
def MonRestarts.noc : List String := [
  "tdsemen", "td_egosh", "artgal", "aidtul", "stakos", "alelis", "bekkal", "yerkal", "dmileo",
  "zhakosba", "magber", "yevbarn", "andnov", "olmesh", "aindui", "maruse", "alymus", "igonau",
  "ruszan", "nurzha", "gilyev", "marakm", "almism", "dmizak", "yersai", "zhazha", "aziabd",
  "manzho", "irilee", "aksnur", "tolsad", "osmmam", "td_bater", "aiybat"
]

/-- The first loop of `MonRestarts` : the users outside the NOC group that
executed restarts; `none` is a run-time panic (a line without a colon). -/
def MonRestarts.collect : List String → List String → Option (List String)
  | [], notNoc => some notNoc
  | s :: rest, notNoc =>
    if len s = 0 then MonRestarts.collect rest notNoc
    else
      match (Split s ':')[1]? with
      | none => none
      | some f =>
        let user := Trim f " "
        if IsStrInArr MonRestarts.noc user then MonRestarts.collect rest notNoc
        else if IsStrInArr notNoc user then MonRestarts.collect rest notNoc
        else MonRestarts.collect rest (notNoc ++ [user])

/-- The verb `%s` of `fmt` on a slice of strings. -/
def fmtStrings (l : List String) : String := "[" ++ Join l " " ++ "]"

/-- The body of the inner loop of `MonRestarts` over the lines of the restart
log of the `i`-th user; `run [i, j]` is what the `grep` for the `j`-th line
gives back. -/
def MonRestarts.inner (name user : String) (i : Nat) (run : List Nat → CmdResult)
    (x : Nat × String) (st : CheckState) : Flow :=
  let s := x.2
  if len s = 0 then .next st
  else
    match sliceTo s 3 with
    | none => .panic st
    | some head =>
      if head = "Add" then
        match lastElem (Fields s) with
        | none => .panic st
        | some node =>
          if (Split node '.').length ≠ 4 then
            .next (put ("\t" ++ s ++ "\n")
              (put ("\tWarning : " ++ user ++ " restarted " ++ node ++ "\n") st))
          else
            let (st1, printout, err) :=
              exec ("grep \"" ++ node ++ "\" /opt/ericsson/amos/moshell/sitefiles/ipdatabase")
                (run [i, x.1]) st
            if err then .ret (cmdFailedLn name st1)
            else
              match printout[0]? with
              | none => .panic st1
              | some p0 =>
                match (Fields p0)[0]? with
                | none => .panic st1
                | some nodename =>
                  .next (put ("\t" ++ s ++ "\n")
                    (put ("\tWarining : " ++ user ++ " restarted " ++ nodename ++ "\n") st1))
      else .next st

/-- The body of the outer loop of `MonRestarts` over the users; `run [i]` is
what the log command of the `i`-th user gives back. -/
def MonRestarts.outer (name d : String) (run : List Nat → CmdResult) (x : Nat × String)
    (st : CheckState) : Flow :=
  let user := x.2
  let cmd := "/opt/ericsson/nms_cif_sm/bin/log -type " ++ "command" ++
    " -filter \"command_name LIKE '" ++ "acc%restart%" ++ "' AND time_stamp >= '" ++ d ++
    "' AND user_id LIKE '" ++ user ++ "'\""
  let (st1, printout, err) := exec cmd (run [x.1]) st
  if err then .ret (cmdFailedLn name st1)
  else forRange (MonRestarts.inner name user x.1 run) (indexed printout) st1

/-- Function `MonRestarts` monitors nodes manual restarts by select entries
which record contains 'restart' from "COMMAND LOG"; `run []` is what the first
command gives back. -/
def MonRestarts (now : Now) (run : List Nat → CmdResult) (st : CheckState) : Flow :=
  let name := "MonRestarts"
  let d := dateOf now.rfc3339
  let cmd := "/opt/ericsson/nms_cif_sm/bin/log -type " ++ "command" ++
    " -filter \"command_name LIKE '" ++ "acc%restart%" ++ "' AND time_stamp >= '" ++ d ++
    "'\" | grep User"
  let (st1, printout, err) := runCmd name cmd (run []) st
  if err then .ret (put "\n" (CmdFailOk "no nodes restarts found" st1))
  else
    match MonRestarts.collect printout [] with
    | none => .panic st1
    | some notNoc =>
      if notNoc.length = 0 then
        .ret (put ("\tok\tonly users from NOC group executed restarts during requested period"
          ++ "\n") st1)
      else
        let st2 := put ("\tnok\t" ++ fmtStrings notNoc ++ " not allowed to execute restarts\n") st1
        let st3 := setVerdict name false st2
        forRange (MonRestarts.outer name d run) (indexed notNoc) st3

/-- What the checks use of `float64`, taken as given: the zero value,
`strconv.ParseFloat(s, 32)` (`none` when it returns an error), `math.Floor`, the
comparison `s < c` with an integer constant `c`, and the verb `%v`. -/
structure Float64 where
  /-- The carrier. -/
  F : Type
  /-- The zero value of a `float64` variable. -/
  zero : F
  /-- Go `strconv.ParseFloat(s, 32)`, `none` when `err != nil`. -/
  ParseFloat : String → Option F
  /-- Go `math.Floor`. -/
  Floor : F → F
  /-- The comparison `s < c` with an integer constant. -/
  lt : F → Int → Bool
  /-- The verb `%v`. -/
  fmt : F → String

/-- The body of the loop of `CheckHomeSU` and of `CheckMoshellLogSU`, which
differ in the threshold only. -/
def CheckHomeSU.body (fl : Float64) (name : String) (threshold : Int) (s : String)
    (st : CheckState) : Flow :=
  if !Contains s "G" then .next st
  else
    let l := Split s 'G'
    match l[1]?, l[0]? with
    | some dir, some l0 =>
      let size : fl.F :=
        match fl.ParseFloat (Trim l0 " ") with
        | some size => fl.Floor size
        | none => fl.zero
      if fl.lt size threshold then
        .next (put ("\tok\t" ++ fl.fmt size ++ "G\t" ++ dir ++ "\n") st)
      else
        .next (setVerdict name false (put ("\tnok\t" ++ fl.fmt size ++ "G\t" ++ dir ++ "\n") st))
    | _, _ => .panic st

/-- Function `CheckHomeSU` checks home directory space usage. -/
def CheckHomeSU (fl : Float64) (st : CheckState) (r : CmdResult) : Flow :=
  let name := "CheckHomeSU"
  let (st1, printout, err) := runCmd name "du -sh /home/*" r st
  if err then .ret (cmdFailedLn name st1)
  else
    (forRange (CheckHomeSU.body fl name HomeSizeThreshold) printout st1).andThen fun st2 =>
      if verdict name st2 then
        .next (put ("\tok\tthere is no big directories found" ++ "\n") st2)
      else .next st2

/-- Function `CheckMoshellLogSU` checks moshell logs directory space usage. -/
def CheckMoshellLogSU (fl : Float64) (st : CheckState) (r : CmdResult) : Flow :=
  let name := "CheckMoshellLogSU"
  let (st1, printout, err) :=
    runCmd name "du -sh /var/opt/ericsson/amos/moshell_logfiles/*" r st
  if err then .ret (cmdFailedLn name st1)
  else
    (forRange (CheckHomeSU.body fl name MoshellLogSizeThreshold) printout st1).andThen fun st2 =>
      if verdict name st2 then
        .next (put ("\tok\tthere is no big directories found" ++ "\n") st2)
      else .next st2

/-- The body of the loop of `CheckDBA`. -/
def CheckDBA.body (name : String) (s : String) (st : CheckState) : Flow :=
  let l := Split s '.'
  match l[0]?, lastElem l with
  | some check, some result =>
    if result = "OK!" then .next (put ("\tok\t" ++ check ++ "\n") st)
    else .next (setVerdict name false (put ("\tnok\t" ++ check ++ "\n") st))
  | _, _ => .panic st

/-- Function `CheckDBA` runs OSS-RC's native database healthcheck. -/
def CheckDBA (st : CheckState) (r : CmdResult) : Flow :=
  let name := "CheckDBA"
  let (st1, printout, err) :=
    runCmd name "su - sybase -c /ericsson/syb/util/dba_tools <<EOF\n13\n\n0\nEOF" r st
  if err then .ret (cmdFailedLn name st1)
  else
    match sliceList printout 42 53 with
    | none => .panic st1
    | some lines => forRange (CheckDBA.body name) lines st1

/-- The body of the loop of `CheckVrstDb`. -/
def CheckVrstDb.body (name : String) (printout : List String) (x : Nat × String)
    (st : CheckState) : Flow :=
  let l := Fields x.2
  match l[0]?, l[2]? with
  | some db, some mode =>
    match printout[x.1 + 57]? with
    | none => .panic st
    | some p =>
      match (Fields p)[2]? with
      | none => .panic st
      | some status =>
        if mode = "Multi-user" && status = "Online" then
          .next (put ("\tok\t" ++ mode ++ ", " ++ status ++ " - " ++ db ++ "\n") st)
        else
          .next (setVerdict name false
            (put ("\tnok\t" ++ mode ++ ", " ++ status ++ " - " ++ db ++ "\n") st))
  | _, _ => .panic st

/-- Function `CheckVrstDb` checks mode and status of all versant databases. -/
def CheckVrstDb (st : CheckState) (r : CmdResult) : Flow :=
  let name := "CheckVrstDb"
  let (st1, printout, err) :=
    runCmd name "su - nmsadm -c /ericsson/versant/bin/vrsnt_admin.sh <<EOF\n1\n\n0\nEOF" r st
  if err then .ret (cmdFailedLn name st1)
  else
    match sliceList printout 48 54 with
    | none => .panic st1
    | some lines => forRange (CheckVrstDb.body name printout) (indexed lines) st1

/-- The body of the loop of `CheckVrstDbSU`; the error of `strconv.Atoi` is
discarded. -/
def CheckVrstDbSU.body (name : String) (s : String) (st : CheckState) : Flow :=
  let l := Fields s
  match l[0]?, l[5]? with
  | some db, some l5 =>
    let su := AtoiValue (Trim l5 "%")
    if su < VrstDbThreshold then
      .next (put ("\tok\t" ++ fmtInt su ++ "%" ++ "\tspace usage of " ++ db ++ "\n") st)
    else
      .next (setVerdict name false
        (put ("\tnok\t" ++ fmtInt su ++ "%" ++ "\tspace usage of " ++ db ++ "\n") st))
  | _, _ => .panic st

/-- Function `CheckVrstDbSU` checks space usage of all versant databases. -/
def CheckVrstDbSU (st : CheckState) (r : CmdResult) : Flow :=
  let name := "CheckVrstDbSU"
  let (st1, printout, err) :=
    runCmd name "su - nmsadm -c /ericsson/versant/bin/vrsnt_admin.sh <<EOF\n6\n\n0\nEOF" r st
  if err then .ret (cmdFailedLn name st1)
  else
    match sliceList printout 49 55 with
    | none => .panic st1
    | some lines => forRange (CheckVrstDbSU.body name) lines st1

/-- The first loop of `MonVrstDb` : the lines that hold the dates of alarms. -/
def MonVrstDb.dates : List String → List String → Option (List String)
  | [], dates => some dates
  | s :: rest, dates =>
    if len s < 6 then MonVrstDb.dates rest dates
    else
      match sliceTo s 6 with
      | none => none
      | some head =>
        if head = "***** " then MonVrstDb.dates rest (dates ++ [s])
        else MonVrstDb.dates rest dates

/-- Function `MonVrstDb` checks if the new critical alarms if versant databases
appeared. -/
def MonVrstDb (st : CheckState) (r : CmdResult) : Flow :=
  let name := "MonVrstDb"
  let (st1, printout, err) :=
    runCmd name
      "su - nmsadm -c /ericsson/versant/bin/vrsnt_admin.sh <<EOF\n16\nall\nCRITICAL\nq\nq\n\n0\nEOF"
      r st
  if err then .ret (cmdFailedLn name st1)
  else
    match MonVrstDb.dates printout [] with
    | none => .panic st1
    | some dates =>
      match lastElem dates with
      | none => .panic st1
      | some last =>
        if last = TimestampOfLastVrstCriticalAlarm then
          .next (put ("\tok\tno new critical alarms of versant databases found" ++ "\n") st1)
        else
          .next (setVerdict name false
            (put ("\tnok\tnew critical alarm of versant databases appeared" ++ "\n") st1))

/-- The body of the loop of `CheckBsmAdjusts`. -/
def CheckBsmAdjusts.body (name : String) (s : String) (st : CheckState) : Flow :=
  if len s = 0 then .next st
  else
    let l := Fields s
    match l[0]?, l[1]? with
    | some bsc, some status =>
      if status = "COMPLETED" then .next (put ("\tok\t" ++ bsc ++ "\n") st)
      else
        .next (setVerdict name false
          (put ("\tnok\t" ++ bsc ++ ", BSM Adjust Job in status " ++ status ++ "\n") st))
    | _, _ => .panic st

/-- Function `CheckBsmAdjusts` checks BSM adjust-jobs execution result on
OSS-RC. -/
def CheckBsmAdjusts (now : Now) (st : CheckState) (r : CmdResult) : Flow :=
  let name := "CheckBsmAdjusts"
  let d := ReplaceAll (dateOf now.rfc3339) '-' ':'
  let cmd := "grep \"" ++ d ++
    "\" /var/opt/ericsson/ncms/js/jobs/SCHED_*BSM*/0/*/data | grep TASK | awk '" ++ "NR%2 == 0"
    ++ "' | awk \x7b'print $3\" \"$6'\x7d"
  let (st1, printout, err) := runCmd name cmd r st
  if err then .ret (cmdFailedLn name st1)
  else forRange (CheckBsmAdjusts.body name) printout st1

/-- The body of the loop of `CheckCnaAdjusts`. -/
def CheckCnaAdjusts.body (name : String) (s : String) (st : CheckState) : Flow :=
  if len s = 0 then .next st
  else
    let l := Fields s
    match l[0]?, l[1]? with
    | some l0, some status =>
      let bsc := TrimPrefix l0 "SCHED_"
      if status = "Completed" then .next (put ("\tok\t" ++ bsc ++ "\n") st)
      else
        .next (setVerdict name false
          (put ("\tnok\t" ++ bsc ++ ", CNA Adjust Job in status " ++ status ++ "\n") st))
    | _, _ => .panic st

/-- Function `CheckCnaAdjusts` checks CNA adjust-jobs execution result on
OSS-RC. -/
def CheckCnaAdjusts (now : Now) (st : CheckState) (r : CmdResult) : Flow :=
  let name := "CheckCnaAdjusts"
  let d := ReplaceAll (dateOf now.rfc3339) '-' ':'
  let cmd := "grep \"" ++ d ++
    ".*Job\" /var/opt/ericsson/ncms/js/jobs/*SCHED_*CNA*/0/*/data | awk '" ++ "NR%2 == 0" ++
    "' | awk -F/ '\x7bprint $10\" \"$11\x7d' | awk '\x7bprint $1\" \"$5\x7d'"
  let (st1, printout, err) := runCmd name cmd r st
  if err then .ret (cmdFailedLn name st1)
  else forRange (CheckCnaAdjusts.body name) printout st1

/-- The first loop of `KillOldSessions` : it reports each old session and
collects its pid; the second component is the list of pids so far. -/
def KillOldSessions.collect : List String → List String → CheckState → Flow × List String
  | [], pids, st => (.next st, pids)
  | s :: rest, pids, st =>
    if len s = 0 then KillOldSessions.collect rest pids st
    else
      let l := Fields s
      if l.length < 2 then (.panic st, pids)
      else
        match l[l.length - 2]? with
        | none => (.panic st, pids)
        | some pid =>
          KillOldSessions.collect rest (pids ++ [pid]) (put ("\tnok\t" ++ s ++ "\n") st)

/-- The body of the second loop of `KillOldSessions`; `run (i + 1)` is what the
`kill` of the `i`-th pid gives back. -/
def KillOldSessions.kill (run : Nat → CmdResult) (x : Nat × String) (st : CheckState) : Flow :=
  let (st1, _, err) := exec ("kill -9 " ++ x.2) (run (x.1 + 1)) st
  if !err then .next (put ("\tok\tsession successfully killed" ++ "\n") st1)
  else .next (put ("\tnok\tkilling of session is failed" ++ "\n") st1)

/-- Function `KillOldSessions` checks users session and kills the old one;
`run 0` is what the first command gives back. -/
def KillOldSessions (now : Now) (run : Nat → CmdResult) (st : CheckState) : Flow :=
  let name := "KillOldSessions"
  let cmd := "who -uH | perl -nE 'print \"$_\", unless /" ++ now.month.abbrev ++ "\\s+" ++
    fmtInt now.day ++ "/;'"
  let (st1, printout, err) := runCmd name cmd (run 0) st
  if err then .ret (cmdFailedLn name st1)
  else if printout.length = 2 then .ret (put ("\tok\tno any old sessions" ++ "\n") st1)
  else
    let st2 := setVerdict name false st1
    match sliceFrom printout 1 with
    | none => .panic st2
    | some lines =>
      match KillOldSessions.collect lines [] st2 with
      | (.next st3, pids) => forRange (KillOldSessions.kill run) (indexed pids) st3
      | (other, _) => other

/-- The first loop of `CheckNetBackupClients` : the clients, each once. -/
def CheckNetBackupClients.clients : List String → List String → List String
  | [], clients => clients
  | s :: rest, clients =>
    if len s = 0 then CheckNetBackupClients.clients rest clients
    else if IsStrInArr clients s then CheckNetBackupClients.clients rest clients
    else CheckNetBackupClients.clients rest (clients ++ [s])

/-- The body of the second loop of `CheckNetBackupClients`; `run (i + 1)` is
what the connection test of the `i`-th client gives back. -/
def CheckNetBackupClients.body (name : String) (run : Nat → CmdResult) (x : Nat × String)
    (st : CheckState) : Flow :=
  let host := x.2
  let (st1, _, err) :=
    exec ("/usr/openv/netbackup/bin/admincmd/bptestbpcd -connect_timeout 5 -client " ++ host)
      (run (x.1 + 1)) st
  if !err then .next (put ("\tok\t" ++ host ++ " connected\n") st1)
  else .next (setVerdict name false (put ("\tnok\t" ++ host ++ " disconnected\n") st1))

/-- Function `CheckNetBackupClients` checks connection between OMBS and
NetBackup's clients; `run 0` is what the first command gives back. -/
def CheckNetBackupClients (run : Nat → CmdResult) (st : CheckState) : Flow :=
  let name := "CheckNetBackupClients"
  let (st1, printout, err) :=
    runCmd name "egrep '192|172' /etc/hosts | awk '\x7bprint $2\x7d' | grep -v 'alenmnas\\b'"
      (run 0) st
  if err then .ret (cmdFailedLn name st1)
  else
    forRange (CheckNetBackupClients.body name run)
      (indexed (CheckNetBackupClients.clients printout [])) st1

/-- The policies scheduler of `CheckBackupPoliciesSchedExec`. -/
def CheckBackupPoliciesSchedExec.sched : GoMap (GoMap String) := [
  ("almaty-oss-ombs", [
    ("ENIQ_STATS_MULTIBLADE_CORDINATOR_DATA_aleniq1bk", "Saturday"),
    ("ENIQ_STATS_MULTIBLADE_DATA_aleniq1enbk", "Tuesday, Thursday, Saturday"),
    ("ENIQ_STATS_MULTIBLADE_DATA_aleniq1rdbk", "Tuesday, Thursday, Saturday"),
    ("ENIQ_STATS_MULTIBLADE_DATA_aleniq1wrbk", "Tuesday, Thursday, Saturday"),
    ("ENIQ_STATS_ONBLADE_RAW_aleniq1bk", "Sunday"),
    ("ENIQ_STATS_ROOT_aleniq1bk", "Tuesday, Thursday, Saturday"),
    ("ENIQ_STATS_ROOT_aleniq1enbk", "Tuesday, Thursday, Saturday"),
    ("ENIQ_STATS_ROOT_aleniq1rdbk", "Tuesday, Thursday, Saturday"),
    ("ENIQ_STATS_ROOT_aleniq1wrbk", "Tuesday, Thursday, Saturday"),
    ("ENM_SCHEDULED_alenmmsbk", "Tuesday, Thursday, Saturday"),
    ("alenmombs_FILES", "All"),
    ("alenmombs_Hot_Catalog", "All"),
    ("alomsas1bk_FILES", "All"),
    ("almbis1bk_windows", "All")]),
  ("astana-oss-ombs", [
    ("OSS_i386_DATA_MD_syb1bkup", "All"),
    ("OSS_i386_DATA_MS_ossbkup", "All"),
    ("OSS_i386_ROOT_MD_syb1bkup", "All"),
    ("OSS_i386_ROOT_MS_ossbkup", "All"),
    ("astinf1bl-bk_FILES", "All"),
    ("astinf2bl-bk_FILES", "All"),
    ("astmws-bk_FILES", "All"),
    ("astnedss_FILES", "All"),
    ("astombs1bl_FILES", "All"),
    ("astombs1bl_Hot_Catalog", "All"),
    ("astomsas_FILES", "All"),
    ("astxts1bl-bk_FILES", "All"),
    ("astxts2bl_FILES", "All")])
]

/-- The body of the loop of `CheckBackupPoliciesSchedExec` over the policies of
the host; `run i` is what the command of the `i`-th policy gives back. -/
def CheckBackupPoliciesSchedExec.body (name host weekday date : String) (run : Nat → CmdResult)
    (x : Nat × (String × String)) (st : CheckState) : Flow :=
  let policy := x.2.1
  let weekdays := x.2.2
  if !Contains weekdays weekday && !Contains weekdays "All" then .next st
  else
    let cmd :=
      if host = "almaty-oss-ombs" then "/ericsson/ombsl/bin/last_successful_backup.bsh -p " ++ policy
      else "/ericsson/ombss/bin/last_successful_backup.bsh -p " ++ policy
    let (st1, printout, err) := exec cmd (run x.1) st
    if err then .ret (cmdFailedLn name st1)
    else if printout.length < 3 then .panic st1
    else
      match printout[printout.length - 3]? with
      | none => .panic st1
      | some p =>
        let l := Fields p
        match l[2]? with
        | none => .panic st1
        | some l2 =>
          if l2 = date then
            match l[7]?, l[6]?, l[4]? with
            | some l7, some l6, some l4 =>
              .next (put ("\tok\tpolicy " ++ l7 ++ " with type " ++ l6 ++
                " was succussfully executed on " ++ l4 ++ "\n") st1)
            | _, _, _ => .panic st1
          else
            match l[0]?, l[1]?, l[3]?, l[6]?, l[4]?, l[7]? with
            | some l0, some l1, some l3, some l6, some l4, some l7 =>
              .next (setVerdict name false
                (put ("\tnok\t" ++ l0 ++ "T" ++ l1 ++ " - " ++ l2 ++ "T" ++ l3 ++ " " ++ l6 ++ " "
                  ++ l4 ++ "\t" ++ l7 ++ "\n") st1))
            | _, _, _, _, _, _ => .panic st1

/-- Function `CheckBackupPoliciesSchedExec` checks if the required backup
policies in scheduler were executed. -/
def CheckBackupPoliciesSchedExec (host : String) (now : Now) (run : Nat → CmdResult)
    (st : CheckState) : Flow :=
  let name := "CheckBackupPoliciesSchedExec"
  let st1 := setVerdict name true st
  let weekday := now.weekday.str
  let date := dateOf now.rfc3339
  forRange (CheckBackupPoliciesSchedExec.body name host weekday date run)
    (indexed (mapGet [] CheckBackupPoliciesSchedExec.sched host)) st1

/-- The shape shared by the fourteen ENM checks from `CheckHwResources` to
`CheckMdt` : after a failed command there is no `return`, and every line of the
printout is echoed behind a tab. -/
def passThrough (name cmd : String) (r : CmdResult) (st : CheckState) : Flow :=
  let (st1, printout, err) := runCmd name cmd r st
  let st2 := if err then cmdFailedLn name st1 else st1
  forRange (fun s st => .next (put ("\t" ++ s ++ "\n") st)) printout st2

/-- Function `CheckHwResources` : one of the ENM checks that echo the output of the native
healthcheck. -/
def CheckHwResources (st : CheckState) (r : CmdResult) : Flow :=
  passThrough "CheckHwResources"
    "/opt/ericsson/enminst/bin/enm_healthcheck.sh --action hw_resources_healthcheck --verbose" r st

/-- Function `CheckNas` : one of the ENM checks that echo the output of the native
healthcheck. -/
def CheckNas (st : CheckState) (r : CmdResult) : Flow :=
  passThrough "CheckNas"
    "/opt/ericsson/enminst/bin/enm_healthcheck.sh --action nas_healthcheck --verbose" r st

/-- Function `CheckStoragePool` : one of the ENM checks that echo the output of the native
healthcheck. -/
def CheckStoragePool (st : CheckState) (r : CmdResult) : Flow :=
  passThrough "CheckStoragePool"
    "/opt/ericsson/enminst/bin/enm_healthcheck.sh --action storagepool_healthcheck --verbose" r st

/-- Function `CheckStaleMount` : one of the ENM checks that echo the output of the native
healthcheck. -/
def CheckStaleMount (st : CheckState) (r : CmdResult) : Flow :=
  passThrough "CheckStaleMount"
    "/opt/ericsson/enminst/bin/enm_healthcheck.sh --action stale_mount_healthcheck --verbose" r st

/-- Function `CheckNodeFs` : one of the ENM checks that echo the output of the native
healthcheck. -/
def CheckNodeFs (st : CheckState) (r : CmdResult) : Flow :=
  passThrough "CheckNodeFs"
    "/opt/ericsson/enminst/bin/enm_healthcheck.sh --action node_fs_healthcheck --verbose" r st

/-- Function `CheckSystemService` : one of the ENM checks that echo the output of the native
healthcheck. -/
def CheckSystemService (st : CheckState) (r : CmdResult) : Flow :=
  passThrough "CheckSystemService"
    "/opt/ericsson/enminst/bin/enm_healthcheck.sh --action system_service_healthcheck --verbose" r st

/-- Function `CheckVcsCluster` : one of the ENM checks that echo the output of the native
healthcheck. -/
def CheckVcsCluster (st : CheckState) (r : CmdResult) : Flow :=
  passThrough "CheckVcsCluster"
    "/opt/ericsson/enminst/bin/enm_healthcheck.sh --action vcs_cluster_healthcheck --verbose" r st

/-- Function `CheckVcsLltHeartbeat` : one of the ENM checks that echo the output of the native
healthcheck. -/
def CheckVcsLltHeartbeat (st : CheckState) (r : CmdResult) : Flow :=
  passThrough "CheckVcsLltHeartbeat"
    "/opt/ericsson/enminst/bin/enm_healthcheck.sh --action vcs_llt_heartbeat_healthcheck --verbose" r st

/-- Function `CheckVcsServiceGroup` : one of the ENM checks that echo the output of the native
healthcheck. -/
def CheckVcsServiceGroup (st : CheckState) (r : CmdResult) : Flow :=
  passThrough "CheckVcsServiceGroup"
    "/opt/ericsson/enminst/bin/enm_healthcheck.sh --action vcs_service_group_healthcheck --verbose" r st

/-- Function `CheckConsul` : one of the ENM checks that echo the output of the native
healthcheck. -/
def CheckConsul (st : CheckState) (r : CmdResult) : Flow :=
  passThrough "CheckConsul"
    "/opt/ericsson/enminst/bin/enm_healthcheck.sh --action consul_healthcheck --verbose" r st

/-- Function `CheckMultipathActive` : one of the ENM checks that echo the output of the native
healthcheck. -/
def CheckMultipathActive (st : CheckState) (r : CmdResult) : Flow :=
  passThrough "CheckMultipathActive"
    "/opt/ericsson/enminst/bin/enm_healthcheck.sh --action multipath_active_healthcheck --verbose" r st

/-- Function `CheckPuppetEnabled` : one of the ENM checks that echo the output of the native
healthcheck. -/
def CheckPuppetEnabled (st : CheckState) (r : CmdResult) : Flow :=
  passThrough "CheckPuppetEnabled"
    "/opt/ericsson/enminst/bin/enm_healthcheck.sh --action puppet_enabled_healthcheck --verbose" r st

/-- Function `CheckSanAlert` : one of the ENM checks that echo the output of the native
healthcheck. -/
def CheckSanAlert (st : CheckState) (r : CmdResult) : Flow :=
  passThrough "CheckSanAlert"
    "/opt/ericsson/enminst/bin/enm_healthcheck.sh --action san_alert_healthcheck --verbose" r st

/-- Function `CheckMdt` : one of the ENM checks that echo the output of the native
healthcheck. -/
def CheckMdt (st : CheckState) (r : CmdResult) : Flow :=
  passThrough "CheckMdt"
    "/opt/ericsson/enminst/bin/enm_healthcheck.sh --action mdt_healthcheck --verbose" r st

/-- The body of the loop of `CheckZfsPoolStatus`. -/
def CheckZfsPoolStatus.body (name : String) (s : String) (st : CheckState) : Flow :=
  let l := Fields s
  match l[0]?, l[6]? with
  | some fsname, some status =>
    if status = "ONLINE" then
      .next (put ("\tok\t" ++ status ++ " - " ++ fsname ++ "\n") st)
    else
      .next (setVerdict name false (put ("\tnok\t" ++ status ++ " - " ++ fsname ++ "\n") st))
  | _, _ => .panic st

/-- Function `CheckZfsPoolStatus` checks the status of ZFS pool file systems;
there is no `return` after a failed command. -/
def CheckZfsPoolStatus (st : CheckState) (r : CmdResult) : Flow :=
  let name := "CheckZfsPoolStatus"
  let (st1, printout, err) := runCmd name "/usr/sbin/zpool list" r st
  let st2 := if err then cmdFailedLn name st1 else st1
  match sliceList printout 1 4 with
  | none => .panic st2
  | some lines => forRange (CheckZfsPoolStatus.body name) lines st2

/-- The map of normal hosts filesystems space usage of `CheckZfsPoolSU`. -/
def CheckZfsPoolSU.thresholds : GoMap (GoMap Int) := [
  ("eniq-coordinator", [("eniq_sp_1", 50), ("rpool", 70), ("stats_coordinator_pool", 70)]),
  ("eniq-engine", [("eniq_sp_1", 50), ("rpool", 70), ("stats_engine_pool", 5)]),
  ("eniq-reader", [("eniq_sp_1", 50), ("rpool", 50), ("stats_iqr_pool", 20)]),
  ("eniq-writer", [("eniq_sp_1", 50), ("rpool", 50), ("stats_iqr_pool", 20)])
]

/-- The body of the loop of `CheckZfsPoolSU`; after a failed `strconv.Atoi`
there is neither `return` nor `continue`. -/
def CheckZfsPoolSU.body (name host : String) (s : String) (st : CheckState) : Flow :=
  let l := Fields s
  match l[0]?, l[4]? with
  | some fsname, some l4 =>
    let su := AtoiValue (TrimRight l4 "%")
    let st1 := if (Atoi (TrimRight l4 "%")).isNone then cmdFailedLn name st else st
    if su ≤ mapGet 0 (mapGet [] CheckZfsPoolSU.thresholds host) fsname then
      .next (put ("\tok\t" ++ fmtInt su ++ "%" ++ "\t" ++ fsname ++ "\n") st1)
    else
      .next (setVerdict name false
        (put ("\tnok\t" ++ fmtInt su ++ "%" ++ "\t" ++ fsname ++ "\n") st1))
  | _, _ => .panic st

/-- Function `CheckZfsPoolSU` checks ZFS pool space usage; there is no `return`
after a failed command. -/
def CheckZfsPoolSU (host : String) (st : CheckState) (r : CmdResult) : Flow :=
  let name := "CheckZfsPoolSU"
  let (st1, printout, err) := runCmd name "/usr/sbin/zpool list" r st
  let st2 := if err then cmdFailedLn name st1 else st1
  match sliceList printout 1 4 with
  | none => .panic st2
  | some lines => forRange (CheckZfsPoolSU.body name host) lines st2

/-- The body of the loop of `CheckZfsPoolErrors`. -/
def CheckZfsPoolErrors.body (name : String) (printout : List String) (x : Nat × String)
    (st : CheckState) : Flow :=
  let s := x.2
  if len s = 0 then .next st
  else if Contains s "pool:" then
    match (Fields s)[1]? with
    | none => .panic st
    | some fsname =>
      match printout[x.1 + 1]? with
      | none => .panic st
      | some p =>
        match (SplitSep p ": ")[1]? with
        | none => .panic st
        | some errs =>
          if errs = "No known data errors" then
            .next (put ("\tok\tno errors\t" ++ fsname ++ "\n") st)
          else
            .next (setVerdict name false (put ("\tnok\t" ++ fsname ++ " - " ++ errs ++ "\n") st))
  else .next st

/-- Function `CheckZfsPoolErrors` checks if there are any error in ZFS pool;
there is no `return` after a failed command. -/
def CheckZfsPoolErrors (st : CheckState) (r : CmdResult) : Flow :=
  let name := "CheckZfsPoolErrors"
  let (st1, printout, err) :=
    runCmd name "/usr/sbin/zpool status | egrep 'pool:|errors'" r st
  let st2 := if err then cmdFailedLn name st1 else st1
  forRange (CheckZfsPoolErrors.body name printout) (indexed printout) st2

/-- Function `CheckHostUptime` checks host uptime to ensure that it was not
restarted; the error of `strconv.Atoi` is never read. -/
def CheckHostUptime (st : CheckState) (r : CmdResult) : Flow :=
  let name := "CheckHostUptime"
  let (st1, printout, err) := runCmd name "uptime" r st
  if err then .ret (cmdFailedLn name st1)
  else
    match printout[0]? with
    | none => .panic st1
    | some p0 =>
      match (Fields p0)[2]? with
      | none => .panic st1
      | some f =>
        let days := AtoiValue f
        if days > UptimeThreshold then
          .next (put ("\tok\tup " ++ fmtInt days ++ " day(s)\n") st1)
        else
          .next (setVerdict name false
            (put ("\tnok\tup " ++ fmtInt days ++
              " day(s). Looks like the server was restarted\n") st1))

/-- The map of required "svcs" cmd of `CheckSrvs`. -/
def CheckSrvs.srvs : GoMap (List String) := [
  ("eniq-coordinator", [
    "svc:/storage/NASd:default",
    "svc:/licensing/sentinel:default",
    "svc:/eniq/esm:default",
    "svc:/eniq/rmiregistry:default",
    "svc:/eniq/licmgr:default",
    "svc:/eniq/connectd:default",
    "svc:/eniq/repdb:default",
    "svc:/eniq/dwhdb:default",
    "svc:/eniq/webserver:default",
    "svc:/system/scheduler:default",
    "svc:/application/cups/scheduler:default",
    "svc:/eniq/scheduler:default",
    "svc:/eniq/sim:default",
    "svc:/ericsson/eric_monitor/ddc:default",
    "svc:/eniq/roll-snap:default",
    "svc:/storage/NASd:default",
    "svc:/milestone/NAS-online:default"]),
  ("eniq-engine", [
    "svc:/storage/NASd:default",
    "svc:/eniq/esm:default",
    "svc:/eniq/rmiregistry:default",
    "svc:/eniq/connectd:default",
    "svc:/eniq/engine:default",
    "svc:/ericsson/eric_monitor/ddc:default",
    "svc:/eniq/roll-snap:default"]),
  ("eniq-reader", [
    "svc:/eniq/esm:default",
    "svc:/eniq/dwh_reader:default",
    "svc:/eniq/roll-snap:default",
    "svc:/ericsson/eric_monitor/ddc:default"]),
  ("eniq-writer", [
    "svc:/eniq/esm:default",
    "svc:/eniq/dwh_reader:default",
    "svc:/eniq/roll-snap:default",
    "svc:/ericsson/eric_monitor/ddc:default"])
]

/-- The expression `strings.Join(strings.Fields(s)[1:], " ")`, `none` when the
slice panics (no field at all). -/
def restOfFields (s : String) : Option String :=
  match sliceFrom (Fields s) 1 with
  | none => none
  | some l => some (Join l " ")

/-- The body of the loop of `CheckSrvs`; `run i` is what the command of the
`i`-th service gives back. -/
def CheckSrvs.body (name : String) (run : Nat → CmdResult) (x : Nat × String)
    (st : CheckState) : Flow :=
  let srv := x.2
  let (st1, printout, err) := exec ("svcs -l " ++ srv) (run x.1) st
  if err then .next (CmdFailed name st1)
  else
    match printout[1]? with
    | none => .panic st1
    | some p1 =>
      match restOfFields p1 with
      | none => .panic st1
      | some desc =>
        match printout[2]? with
        | none => .panic st1
        | some p2 =>
          match (Fields p2)[1]? with
          | none => .panic st1
          | some status =>
            match printout[3]? with
            | none => .panic st1
            | some p3 =>
              match (Fields p3)[1]? with
              | none => .panic st1
              | some state =>
                if state = "online" && status = "true" then
                  .next (put ("\tok\t" ++ status ++ "/" ++ state ++ "\t" ++ desc ++ "\n") st1)
                else
                  .next (setVerdict name false
                    (put ("\tnok\t" ++ status ++ "/" ++ state ++ "\t" ++ desc ++ "\n") st1))

/-- Function `CheckSrvs` checks services states, all required services should
be online. -/
def CheckSrvs (host : String) (run : Nat → CmdResult) (st : CheckState) : Flow :=
  let name := "CheckSrvs"
  let st1 := setVerdict name true st
  forRange (CheckSrvs.body name run) (indexed (mapGet [] CheckSrvs.srvs host)) st1

/-- The map of required "svcs" cmd of `CheckSrvsUptime`. -/
def CheckSrvsUptime.srvs : GoMap (List String) := [
  ("eniq-coordinator", [
    "svc:/storage/NASd:default",
    "svc:/licensing/sentinel:default",
    "svc:/eniq/esm:default",
    "svc:/eniq/rmiregistry:default",
    "svc:/eniq/licmgr:default",
    "svc:/eniq/connectd:default",
    "svc:/eniq/repdb:default",
    "svc:/eniq/dwhdb:default",
    "svc:/eniq/webserver:default",
    "svc:/system/scheduler:default",
    "svc:/application/cups/scheduler:default",
    "svc:/eniq/scheduler:default",
    "svc:/eniq/sim:default",
    "svc:/eniq/roll-snap:default",
    "svc:/storage/NASd:default",
    "svc:/milestone/NAS-online:default"]),
  ("eniq-engine", [
    "svc:/storage/NASd:default",
    "svc:/eniq/esm:default",
    "svc:/eniq/rmiregistry:default",
    "svc:/eniq/connectd:default",
    "svc:/eniq/engine:default",
    "svc:/eniq/roll-snap:default"]),
  ("eniq-reader", [
    "svc:/eniq/esm:default",
    "svc:/eniq/dwh_reader:default",
    "svc:/eniq/roll-snap:default"]),
  ("eniq-writer", [
    "svc:/eniq/esm:default",
    "svc:/eniq/dwh_reader:default",
    "svc:/eniq/roll-snap:default"])
]

/-- The loop of `CheckSrvsUptime` that builds the map of previously saved
services start time; `none` is a run-time panic (a line of white space only). -/
def CheckSrvsUptime.load : List String → GoMap String → Option (GoMap String)
  | [], prevTime => some prevTime
  | s :: rest, prevTime =>
    if len s = 0 then CheckSrvsUptime.load rest prevTime
    else
      let l := Fields s
      match l[0]?, sliceFrom l 1 with
      | some srv, some tl => CheckSrvsUptime.load rest (mapSet prevTime srv (Join tl " "))
      | _, _ => none

/-- The loop of `CheckSrvsUptime` over the services; the second component is
the text written to `wSrvs` so far; `run i` is what the command of the `i`-th
service gives back. -/
def CheckSrvsUptime.loop (name : String) (prevTime : GoMap String) (run : Nat → CmdResult) :
    List (Nat × String) → String → CheckState → Flow × String
  | [], wSrvs, st => (.next st, wSrvs)
  | x :: rest, wSrvs, st =>
    let srv := x.2
    let (st1, printout, err) := exec ("svcs -l " ++ srv) (run x.1) st
    if err then CheckSrvsUptime.loop name prevTime run rest wSrvs (CmdFailed name st1)
    else
      match printout[1]? with
      | none => (.panic st1, wSrvs)
      | some p1 =>
        match restOfFields p1 with
        | none => (.panic st1, wSrvs)
        | some desc =>
          match printout[5]? with
          | none => (.panic st1, wSrvs)
          | some p5 =>
            match restOfFields p5 with
            | none => (.panic st1, wSrvs)
            | some time =>
              let prev := mapGet "" prevTime srv
              let st2 :=
                if time = prev then
                  put ("\tok\t" ++ prev ++ " == " ++ time ++ "\t" ++ desc ++ "\n") st1
                else
                  setVerdict name false
                    (put ("\tnok\t" ++ prev ++ " => " ++ time ++ "\t" ++ desc ++ "\n") st1)
              CheckSrvsUptime.loop name prevTime run rest
                (wSrvs ++ (srv ++ " " ++ time ++ "\n")) st2

/-- The statement behind `common.GetWriter` in `CheckSrvsUptime` : when the
writer cannot be obtained its error is printed as a `nok` line, and `Checks` is
left as it is. -/
def CheckSrvsUptime.writer (createErr : Option String) (st : CheckState) : CheckState :=
  match createErr with
  | some e => put ("\tnok\t" ++ e ++ "\n") st
  | none => st

/-- The call of `common.CloseWriter` behind the loop of `CheckSrvsUptime` : a
failed flush of the buffered writer ends the process. -/
def CheckSrvsUptime.close (createErr : Option String) (flushErr : Bool) :
    Flow × String → Flow × String
  | (.next st3, wSrvs) =>
    if createErr.isNone && flushErr then (.fatal st3, wSrvs) else (.next st3, wSrvs)
  | other => other

/-- Function `CheckSrvsUptime` checks each service which must be available on
certain host to ensure that the service start time was not updated.

`history` is the content of the file `var/<host>.srvs` (`none` when it cannot be
read, which ends the process in `common.GetFileStrings`); `createErr` is the
error text of `common.GetWriter` (`none` when the file was created: then
`wSrvs` is the buffered writer of the emptied file, else it is the standard
output); `flushErr` tells that the final flush of `common.CloseWriter` fails,
which ends the process.  The result is how the check ends and the text
written to `wSrvs`. -/
def CheckSrvsUptime (host : String) (history : Option String) (createErr : Option String)
    (flushErr : Bool) (run : Nat → CmdResult) (st : CheckState) : Flow × String :=
  let name := "CheckSrvsUptime"
  let st1 := setVerdict name true st
  match history with
  | none => (.fatal st1, "")
  | some content =>
    match CheckSrvsUptime.load (Split content '\n') [] with
    | none => (.panic st1, "")
    | some prevTime =>
      CheckSrvsUptime.close createErr flushErr
        (CheckSrvsUptime.loop name prevTime run
          (indexed (mapGet [] CheckSrvsUptime.srvs host)) "" (CheckSrvsUptime.writer createErr st1))

/-- Function `CheckMountingOk` checks if all required disk are mounted
properly. -/
def CheckMountingOk (st : CheckState) (r : CmdResult) : Flow :=
  let name := "CheckMountingOk"
  let (st1, _, err) := runCmd name "df -kh" r st
  if !err then .next (put ("\tok\tall disks mounted properly" ++ "\n") st1)
  else .next (setVerdict name false (put ("\tnok\terror in disks mounting" ++ "\n") st1))

/-- Function `CheckBashrc` checks /etc/bashrc file for custom settings. -/
def CheckBashrc (st : CheckState) (r : CmdResult) : Flow :=
  let name := "CheckBashrc"
  let cmd := "for i in $(cat /etc/hosts | egrep \"scp-.-(amos|scripting)\\b\" | awk '\x7bprint $2\x7d'); do ssh -i /root/.ssh/vm_private_key cloud-user@$\x7bi\x7d 'grep \"if.*nodesAliases\" /etc/bashrc'; done"
  let (st1, printout, err) := runCmd name cmd r st
  if err then .ret (cmdFailedLn name st1)
  else if printout.length = 5 then
    .next (put ("\tok\tcustom settings are found in the bashrc" ++ "\n") st1)
  else
    .next (setVerdict name false
      (put ("\tnok\tcustom settings not found in the bashrc" ++ "\n") st1))

/-- The body of the loop of `CheckNodesFilesUpdate` over the files. -/
def CheckNodesFilesUpdate.body (name d : String) (printout : List String) (file : String)
    (st : CheckState) : Flow :=
  let counter : Int := (printout.countP (fun s => Contains s file && Contains s d) : Nat)
  if counter = 4 then
    .next (put ("\tok\tfound " ++ fmtInt counter ++ " " ++ file ++ " of " ++ d ++ "\n") st)
  else
    .next (setVerdict name false
      (put ("\tnok\tfound " ++ fmtInt counter ++ " " ++ file ++ " of " ++ d ++ "\n") st))

/-- Function `CheckNodesFilesUpdate` checks that ipdatabase and nodesAliases
files are up to date. -/
def CheckNodesFilesUpdate (now : Now) (st : CheckState) (r : CmdResult) : Flow :=
  let name := "CheckNodesFilesUpdate"
  let d := dateOf now.rfc3339
  let files := ["nodesAliases", "ipdatabase"]
  let cmd := "for i in $(cat /etc/hosts | egrep \"scp-.-(amos|scripting)\\b\" | awk '\x7bprint $2\x7d'); do ssh -i /root/.ssh/vm_private_key cloud-user@$\x7bi\x7d 'ls -l --time-style=long-iso /home/shared/common/sitefiles/ | grep -v backup' ; done"
  let (st1, printout, err) := runCmd name cmd r st
  if err then .ret (cmdFailedLn name st1)
  else forRange (CheckNodesFilesUpdate.body name d printout) files st1

/-! ## Notions used to state the properties of the checks -/

/-- The map of `s2` is the map of `s1`, or the map of `s1` with false recorded
under `name` : between the two states nothing was recorded but failures of the
check `name`. -/
def Falls (name : String) (s1 s2 : CheckState) : Prop :=
  s2.Checks = s1.Checks ∨ s2.Checks = mapSet s1.Checks name false

/-- The map of `s2` is the map of `s1` with one verdict recorded under `name`. -/
def Records (name : String) (s1 s2 : CheckState) : Prop :=
  ∃ b, s2.Checks = mapSet s1.Checks name b


/-! ## The checks grouped by what they do after a failed command -/

/-- A check that runs one command: the key it uses in `Checks` and the function. -/
abbrev NamedCheck : Type := String × (CheckState → CmdResult → Flow)

/-- The one-command checks with `CmdFailed(name, w)` followed by `return` in
their `if err != nil` branch. -/
def returningChecks (now : Now) (host : String) (fl : Float64) : List NamedCheck := [
  ("CheckBeadm", CheckBeadm),
  ("CheckSnapshots", CheckSnapshots now),
  ("CheckSyDb", CheckSyDb),
  ("CheckVrstDataMon", CheckVrstDataMon),
  ("CheckWtmpx", CheckWtmpx),
  ("CheckSyLogSize", CheckSyLogSize),
  ("CheckNrOfBackupPolicies", CheckNrOfBackupPolicies host),
  ("MonErrLog", MonErrLog now),
  ("MonConfigExports", MonConfigExports now),
  ("MonNetLog", MonNetLog now),
  ("ValDiagProcCache", ValDiagProcCache),
  ("CheckCoreFiles", CheckCoreFiles),
  ("CheckSecurity", CheckSecurity),
  ("CheckVeritas", CheckVeritas),
  ("CheckSyDump", CheckSyDump),
  ("CheckHomeSU", CheckHomeSU fl),
  ("CheckMoshellLogSU", CheckMoshellLogSU fl),
  ("CheckDBA", CheckDBA),
  ("CheckVrstDb", CheckVrstDb),
  ("CheckVrstDbSU", CheckVrstDbSU),
  ("MonVrstDb", MonVrstDb),
  ("CheckBsmAdjusts", CheckBsmAdjusts now),
  ("CheckCnaAdjusts", CheckCnaAdjusts now),
  ("CheckHostUptime", CheckHostUptime),
  ("CheckBashrc", CheckBashrc),
  ("CheckNodesFilesUpdate", CheckNodesFilesUpdate now)
]

/-- The checks with `CmdFailed(name, w)` in their `if err != nil` branch and no
`return` behind it, whose loop then prints every line of the printout:
`EnmNativeHC` and the fourteen ENM checks from `CheckHwResources` to `CheckMdt`. -/
def echoingChecks : List NamedCheck := [
  ("EnmNativeHC", EnmNativeHC),
  ("CheckHwResources", CheckHwResources),
  ("CheckNas", CheckNas),
  ("CheckStoragePool", CheckStoragePool),
  ("CheckStaleMount", CheckStaleMount),
  ("CheckNodeFs", CheckNodeFs),
  ("CheckSystemService", CheckSystemService),
  ("CheckVcsCluster", CheckVcsCluster),
  ("CheckVcsLltHeartbeat", CheckVcsLltHeartbeat),
  ("CheckVcsServiceGroup", CheckVcsServiceGroup),
  ("CheckConsul", CheckConsul),
  ("CheckMultipathActive", CheckMultipathActive),
  ("CheckPuppetEnabled", CheckPuppetEnabled),
  ("CheckSanAlert", CheckSanAlert),
  ("CheckMdt", CheckMdt)
]

/-- The three ZFS checks: `CmdFailed(name, w)` in the `if err != nil` branch, no
`return` behind it, and then the lines of the printout are indexed. -/
def zfsChecks (host : String) : List NamedCheck := [
  ("CheckZfsPoolStatus", CheckZfsPoolStatus),
  ("CheckZfsPoolSU", CheckZfsPoolSU host),
  ("CheckZfsPoolErrors", CheckZfsPoolErrors)
]

/-- The one-command checks with `CmdFailOk(message, w)` followed by `return` in
their `if err != nil` branch. -/
def absenceChecks (now : Now) : List NamedCheck := [
  ("CheckMCs", CheckMCs),
  ("CheckDisks", CheckDisks),
  ("CheckFailProc", CheckFailProc),
  ("CheckSyErrLog", CheckSyErrLog now),
  ("CheckOutOfMem", CheckOutOfMem)
]

/-- Every check of the package that runs exactly one command and works on the
`Flow` model, `CheckSyBackLog` apart. -/
def singleChecks (now : Now) (host : String) (fl : Float64) : List NamedCheck :=
  returningChecks now host fl ++ echoingChecks ++ zfsChecks host ++ absenceChecks now ++
    [("CheckMountingOk", CheckMountingOk)]

/-- A stand-in for `float64` on whole numbers, to evaluate the checks that
parse a float on concrete outputs. -/
def Float64.whole : Float64 where
  F := Int
  zero := 0
  ParseFloat := Atoi
  Floor := id
  lt := fun a c => decide (a < c)
  fmt := fmtInt

/-- Every key of the map `m` has a text in the table of descriptions. -/
def AllDescribed (m : GoMap Bool) : Prop := ∀ p ∈ m, description p.1 ≠ ""

/-! ## Program `prepNodesForBackup` -/

/-- Variable `nrOfFiles` : number of files with the nodes, 30 is 1-30 days of
month. -/
def nrOfFiles : Nat := 30

/-- Type `nodesMap` : the Go `map[int][]string`, as the list of its entries. -/
abbrev nodesMap : Type := List (Nat × List String)

/-- Indexing `m[k]` of a `nodesMap` : the nil slice when `k` is absent. -/
def nodesMap.get : nodesMap → Nat → List String
  | [], _ => []
  | (k2, v) :: rest, k => if k2 = k then v else nodesMap.get rest k

/-- Assignment `m[k] = v` of a `nodesMap`. -/
def nodesMap.set : nodesMap → Nat → List String → nodesMap
  | [], k, v => [(k, v)]
  | (k2, v2) :: rest, k, v =>
    if k2 = k then (k, v) :: rest else (k2, v2) :: nodesMap.set rest k v

/-- The strings that the calls of `bufio.Reader.ReadString('\n')` return before
`io.EOF` : the pieces of the content up to and including each newline. What
follows the last newline is returned together with `io.EOF`. -/
def readStrings (content : String) : List String :=
  ((Split content '\n').dropLast).map (fun s => s ++ "\n")

/-- The test of `devideNodesToMap` that skips test nodes, RNCs, MGWs. -/
def devideNodesToMap.skip (node : String) : Bool :=
  Contains node "RNC" || Contains node "test" || Contains node "TEST" ||
    (decide (len node ≤ 7) && Contains node "_")

/-- The loop of `devideNodesToMap` over the strings read; `failAt = some n` says
that the read `n` calls ahead returns an error other than `io.EOF`. The result
is the map and whether the returned error is not nil; `none` is a run-time
panic (a string without a field). -/
def devideNodesToMap.loop : Option Nat → List String → Nat → nodesMap → Option (nodesMap × Bool)
  | some 0, _, _, m => some (m, true)
  | _, [], _, m => some (m, false)
  | failAt, s :: rest, counter, m =>
    match (Fields s)[0]? with
    | none => none
    | some node =>
      if devideNodesToMap.skip node then
        devideNodesToMap.loop (failAt.map (fun n => n - 1)) rest counter m
      else
        let m1 := m.set counter (m.get counter ++ [node])
        let counter1 := counter + 1
        let counter2 := if counter1 > nrOfFiles then 1 else counter1
        devideNodesToMap.loop (failAt.map (fun n => n - 1)) rest counter2 m1

/-- Function `devideNodesToMap` devides all nodes in file into map with
required number of nodes sets; `content` is the content of the file. -/
def devideNodesToMap (content : String) (failAt : Option Nat) : Option (nodesMap × Bool) :=
  devideNodesToMap.loop failAt (readStrings content) 1 []

/-- The nodes `devideNodesToMap` keeps of the lines of a file, in the order of
the lines: the first field of each line, unless the test skips it. -/
def retainedNodes (lines : List String) : List String :=
  (lines.filterMap (fun l => (Fields l)[0]?)).filter (fun n => !devideNodesToMap.skip n)

/-! ## Notions used to state the properties of `CheckSrvsUptime` -/

/-- What `CheckSrvsUptime` reads in the output of `svcs -l` : the description
(the fields of the second line after the first one) and the start time (the
fields of the sixth line after the first one); `none` when the code stops in a
run-time panic on that output. -/
def CheckSrvsUptime.observe (output : String) : Option (String × String) :=
  match (Split output '\n')[1]? with
  | none => none
  | some p1 =>
    match restOfFields p1 with
    | none => none
    | some desc =>
      match (Split output '\n')[5]? with
      | none => none
      | some p5 =>
        match restOfFields p5 with
        | none => none
        | some time => some (desc, time)

/-- The service at position `x.1` passes: its command succeeds and the start
time read equals the one saved for the service. -/
def CheckSrvsUptime.itemPass (prevTime : GoMap String) (run : Nat → CmdResult)
    (x : Nat × String) : Bool :=
  !(run x.1).err &&
    match CheckSrvsUptime.observe (run x.1).output with
    | some (_, time) => decide (time = mapGet "" prevTime x.2)
    | none => true

/-- The text `CheckSrvsUptime` writes to the report for the service at position
`x.1`. -/
def CheckSrvsUptime.itemReport (prevTime : GoMap String) (run : Nat → CmdResult)
    (x : Nat × String) : String :=
  "\n->> " ++ ("svcs -l " ++ x.2) ++ "\n" ++
    (if (run x.1).err then "\tnok\tcommand execution failed" ++ "\n"
     else
      match CheckSrvsUptime.observe (run x.1).output with
      | some (desc, time) =>
        if time = mapGet "" prevTime x.2 then
          "\tok\t" ++ mapGet "" prevTime x.2 ++ " == " ++ time ++ "\t" ++ desc ++ "\n"
        else "\tnok\t" ++ mapGet "" prevTime x.2 ++ " => " ++ time ++ "\t" ++ desc ++ "\n"
      | none => "")

/-- The line `CheckSrvsUptime` writes to `wSrvs` for the service at position
`x.1` : nothing when its command fails. -/
def CheckSrvsUptime.itemSaved (run : Nat → CmdResult) (x : Nat × String) : String :=
  if (run x.1).err then ""
  else
    match CheckSrvsUptime.observe (run x.1).output with
    | some (_, time) => x.2 ++ " " ++ time ++ "\n"
    | none => ""

/-- The command of every service of the list either fails or gives an output
on which the code does not stop in a run-time panic. -/
def CheckSrvsUptime.readable (run : Nat → CmdResult) (l : List (Nat × String)) : Prop :=
  ∀ x ∈ l, (run x.1).err = true ∨ (CheckSrvsUptime.observe (run x.1).output).isSome = true

/-- A text without white space that is not empty: one field of `strings.Fields`. -/
def isToken (s : String) : Prop := s.data ≠ [] ∧ ∀ c ∈ s.data, isSpace c = false

/-! ## Notions used to state the rule on `nok` lines -/

/-- No line of the text `t` begins with the `nok` tag. -/
def NokFree (t : String) : Prop :=
  ∀ line ∈ Split t '\n', beginsWith "\tnok\t" line = false

/-- No line of a command output looks like a `nok` line of the report, with or
without the tab in front: some checks echo the lines of the output as they are
or behind one tab. -/
def Plain (output : String) : Prop :=
  ∀ line ∈ Split output '\n',
    beginsWith "\tnok\t" line = false ∧ beginsWith "nok\t" line = false

/-- The text holds no newline. -/
def NoNL (s : String) : Prop := '\n' ∉ s.data

instance (s : String) : Decidable (NoNL s) :=
  inferInstanceAs (Decidable ('\n' ∉ s.data))

/-- The text is a sequence of whole lines, each ended by a newline, none of
which begins with the `nok` tag. -/
inductive CleanText (t : String) : Prop where
  /-- The lines of the text. -/
  | intro (lines : List String)
      (h1 : ∀ l ∈ lines, NoNL l ∧ beginsWith "\tnok\t" l = false)
      (h2 : t = joinText (lines.map fun l => l ++ "\n"))

/-- From the state `s` to the state `s2` the check `name` kept to the rule:
either its verdict in `s2` is `false`, or `Checks` is as in `s` and the text
written in between is made of whole lines none of which begins with the `nok`
tag. -/
inductive Judged (name : String) (s s2 : CheckState) : Prop where
  /-- The verdict of the check is `false`. -/
  | failed (h : verdict name s2 = false)
  /-- Nothing was recorded and no `nok` line was written. -/
  | clean (hc : s2.Checks = s.Checks) (t : String) (hw : s2.w = s.w ++ t) (ht : CleanText t)

/-- The piece of code that ends as `f`, started in the state `s`, kept to the
rule if it ran to completion. -/
inductive JudgedF (name : String) (s : CheckState) : Flow → Prop where
  /-- Control reaches the end of the piece, the rule kept. -/
  | next (s2 : CheckState) (h : Judged name s s2) : JudgedF name s (Flow.next s2)
  /-- A `return`, the rule kept. -/
  | ret (s2 : CheckState) (h : Judged name s s2) : JudgedF name s (Flow.ret s2)
  /-- A run-time panic: nothing is recorded. -/
  | panic (s2 : CheckState) : JudgedF name s (Flow.panic s2)
  /-- The end of the process: nothing is recorded. -/
  | fatal (s2 : CheckState) : JudgedF name s (Flow.fatal s2)

/-- The rule of AND semantics on a run `f` of the check `name` that started with
the writer of `st`: when the run comes to its end and the verdict under `name`
is `true` there, no line of the text the run wrote begins with the `nok` tag. -/
def AndRule (name : String) (st : CheckState) (f : Flow) : Prop :=
  f.completed = true → verdict name f.state = true →
    ∃ t, f.state.w = st.w ++ t ∧ NokFree t

/-! ## Properties -/

/-! ## Lemmas on maps -/

theorem mapLookup_mapSet_self {α : Type} (m : GoMap α) (k : String) (v : α) :
    mapLookup (mapSet m k v) k = some v := by
  induction m with
  | nil => simp [mapSet, mapLookup]
  | cons p rest ih =>
    obtain ⟨k', v'⟩ := p
    by_cases h : k' = k
    · simp [mapSet, mapLookup, h]
    · simp [mapSet, mapLookup, h, ih]

theorem mapLookup_mapSet_other {α : Type} (m : GoMap α) (k k2 : String) (v : α) (h : k ≠ k2) :
    mapLookup (mapSet m k v) k2 = mapLookup m k2 := by
  induction m with
  | nil => simp [mapSet, mapLookup, h]
  | cons p rest ih =>
    obtain ⟨k', v'⟩ := p
    by_cases h1 : k' = k
    · subst h1
      simp [mapSet, mapLookup, h]
    · by_cases h2 : k' = k2
      · subst h2
        simp [mapSet, mapLookup, h1]
      · simp [mapSet, mapLookup, h1, h2, ih]

theorem mapGet_mapSet_self {α : Type} (zero : α) (m : GoMap α) (k : String) (v : α) :
    mapGet zero (mapSet m k v) k = v := by
  simp [mapGet, mapLookup_mapSet_self]

theorem mapGet_mapSet_other {α : Type} (zero : α) (m : GoMap α) (k k2 : String) (v : α)
    (h : k ≠ k2) : mapGet zero (mapSet m k v) k2 = mapGet zero m k2 := by
  simp [mapGet, mapLookup_mapSet_other m k k2 v h]

theorem mapGet_eq_zero_or_mem {α : Type} (zero : α) (m : GoMap α) (k : String) :
    mapGet zero m k = zero ∨ mapGet zero m k ∈ m.map Prod.snd := by
  induction m with
  | nil => left; rfl
  | cons p rest ih =>
    obtain ⟨k', v'⟩ := p
    by_cases h : k' = k
    · right
      simp [mapGet, mapLookup, h]
    · have e : mapGet zero ((k', v') :: rest) k = mapGet zero rest k := by
        simp [mapGet, mapLookup, h]
      rw [e]
      rcases ih with ih | ih
      · left; exact ih
      · right
        exact List.mem_cons_of_mem _ ih

/-! ## Lemmas on text -/

theorem splitChars_ne_nil (sep : Char) (l : List Char) : splitChars sep l ≠ [] := by
  cases l with
  | nil => simp [splitChars]
  | cons c cs =>
    unfold splitChars
    split
    · simp
    · split <;> simp

theorem splitChars_of_not_mem (sep : Char) (l : List Char) (h : sep ∉ l) :
    splitChars sep l = [l] := by
  induction l with
  | nil => rfl
  | cons c cs ih =>
    have hc : c ≠ sep := fun e => h (by simp [e])
    have hcs : sep ∉ cs := fun e => h (List.mem_cons_of_mem _ e)
    simp [splitChars, hc, ih hcs]

theorem splitChars_append_sep (sep : Char) (l rest : List Char) (h : sep ∉ l) :
    splitChars sep (l ++ sep :: rest) = l :: splitChars sep rest := by
  induction l with
  | nil => simp [splitChars]
  | cons c cs ih =>
    have hc : c ≠ sep := fun e => h (by simp [e])
    have hcs : sep ∉ cs := fun e => h (List.mem_cons_of_mem _ e)
    simp [splitChars, hc, ih hcs]

theorem textLines_line_append (a b : String) (h : '\n' ∉ a.data) :
    textLines (a ++ "\n" ++ b) = a :: textLines b := by
  have e : (a ++ "\n" ++ b).data = a.data ++ '\n' :: b.data := by
    simp [String.data_append]
  simp [textLines, Split, e, splitChars_append_sep _ _ _ h]

theorem textLines_empty : textLines "" = [""] := by decide

/-! ## Lemmas on `AuditSummary` -/

theorem printLoop_eq (Checks : GoMap Bool) (w : String) :
    AuditSummary.printLoop Checks w = w ++ summaryText Checks := by
  induction Checks generalizing w with
  | nil => simp [AuditSummary.printLoop, summaryText]
  | cons p rest ih =>
    obtain ⟨check, ok⟩ := p
    cases ok <;>
      simp [AuditSummary.printLoop, summaryText, summaryLine, ih, String.append_assoc]

theorem resultLoop_fst (Checks : GoMap Bool) :
    (AuditSummary.resultLoop Checks).1 = Checks.all (fun p => p.2) := by
  induction Checks with
  | nil => rfl
  | cons p rest ih =>
    obtain ⟨check, ok⟩ := p
    cases ok <;> simp [AuditSummary.resultLoop, ih]

theorem resultLoop_snd (Checks : GoMap Bool) :
    (AuditSummary.resultLoop Checks).2 = [] := by
  induction Checks with
  | nil => rfl
  | cons p rest ih =>
    obtain ⟨check, ok⟩ := p
    cases ok <;> simp [AuditSummary.resultLoop, ih]

theorem AuditSummary_w (host w : String) (Checks : GoMap Bool) :
    (AuditSummary host w Checks).w = w ++ ("\n" ++ host ++ ":\n" ++ summaryText Checks) := by
  simp [AuditSummary, printLoop_eq, String.append_assoc]

theorem description_no_newline (check : String) : '\n' ∉ (description check).data := by
  have hall : ∀ v ∈ descriptionTable.map Prod.snd, '\n' ∉ v.data := by decide
  rcases mapGet_eq_zero_or_mem "" descriptionTable check with h | h
  · unfold description
    rw [h]
    decide
  · exact hall _ h

theorem summaryText_eq_joinText (Checks : GoMap Bool) :
    summaryText Checks = joinText (Checks.map (fun p => summaryLine p ++ "\n")) := by
  induction Checks with
  | nil => rfl
  | cons p rest ih => simp [summaryText, joinText, ih, String.append_assoc]

theorem beginsWith_mem (p s : String) (h : beginsWith p s = true) :
    ∀ c ∈ p.data, c ∈ s.data := by
  intro c hc
  have hp : p.data <+: s.data := List.isPrefixOf_iff_prefix.mp h
  exact hp.subset hc

theorem summaryLine_no_newline (p : String × Bool) (h : '\n' ∉ p.1.data) :
    '\n' ∉ (summaryLine p).data := by
  have hd := description_no_newline p.1
  obtain ⟨name, ok⟩ := p
  cases ok <;> simp_all [summaryLine, String.data_append]

theorem beginsWith_nok_summaryLine (p : String × Bool) :
    beginsWith "nok\t" (summaryLine p) = !p.2 := by
  obtain ⟨name, ok⟩ := p
  cases ok <;> simp [summaryLine, beginsWith, String.data_append, List.isPrefixOf]

theorem beginsWith_ok_summaryLine (p : String × Bool) :
    beginsWith "ok\t" (summaryLine p) = p.2 := by
  obtain ⟨name, ok⟩ := p
  cases ok <;> simp [summaryLine, beginsWith, String.data_append, List.isPrefixOf]

theorem textLines_summaryText (Checks : GoMap Bool) (h : ∀ p ∈ Checks, '\n' ∉ p.1.data) :
    textLines (summaryText Checks) = Checks.map summaryLine ++ [""] := by
  induction Checks with
  | nil => simp [summaryText, textLines_empty]
  | cons p rest ih =>
    have hp : '\n' ∉ (summaryLine p).data :=
      summaryLine_no_newline p (h p (List.mem_cons_self _ _))
    have hrest : ∀ q ∈ rest, '\n' ∉ q.1.data := fun q hq => h q (List.mem_cons_of_mem _ hq)
    simp [summaryText, textLines_line_append _ _ hp, ih hrest]

theorem textLines_summary (host : String) (Checks : GoMap Bool)
    (hhost : '\n' ∉ host.data) (h : ∀ p ∈ Checks, '\n' ∉ p.1.data) :
    textLines ("\n" ++ host ++ ":\n" ++ summaryText Checks)
      = "" :: (host ++ ":") :: (Checks.map summaryLine ++ [""]) := by
  have e : "\n" ++ host ++ ":\n" ++ summaryText Checks
      = "" ++ "\n" ++ ((host ++ ":") ++ "\n" ++ summaryText Checks) := by
    have e2 : (":\n" : String) = ":" ++ "\n" := by decide
    rw [e2]
    simp [String.append_assoc]
  have h0 : '\n' ∉ ("" : String).data := by decide
  have h1 : '\n' ∉ (host ++ ":").data := by
    simp [String.data_append, hhost]
  rw [e, textLines_line_append _ _ h0, textLines_line_append _ _ h1,
    textLines_summaryText Checks h]

theorem countP_nok_lines (Checks : GoMap Bool) :
    (Checks.map summaryLine).countP (beginsWith "nok\t") = Checks.countP (fun p => !p.2) := by
  rw [List.countP_map]
  congr 1
  funext p
  simp [beginsWith_nok_summaryLine]

theorem countP_ok_lines (Checks : GoMap Bool) :
    (Checks.map summaryLine).countP (beginsWith "ok\t") = Checks.countP (fun p => p.2) := by
  rw [List.countP_map]
  congr 1
  funext p
  simp [beginsWith_ok_summaryLine]

theorem countP_true_add_false (Checks : GoMap Bool) :
    Checks.countP (fun p => p.2) + Checks.countP (fun p => !p.2) = Checks.length := by
  induction Checks with
  | nil => rfl
  | cons p rest ih =>
    obtain ⟨name, ok⟩ := p
    cases ok <;> simp [List.countP_cons] <;> omega

theorem mem_mapSet {α : Type} (m : GoMap α) (k : String) (v : α) (e : String × α)
    (h : e ∈ mapSet m k v) : e ∈ m ∨ e = (k, v) := by
  induction m with
  | nil =>
    right
    simpa [mapSet] using h
  | cons p rest ih =>
    obtain ⟨k', v'⟩ := p
    by_cases hk : k' = k
    · simp [mapSet, hk] at h
      rcases h with h | h
      · right; exact h
      · left; exact List.mem_cons_of_mem _ h
    · simp [mapSet, hk] at h
      rcases h with h | h
      · left; rw [h]; exact List.mem_cons_self _ _
      · rcases ih h with h2 | h2
        · left; exact List.mem_cons_of_mem _ h2
        · right; exact h2

theorem mem_applyRecords (m : GoMap Bool) (records : List (String × Bool)) (e : String × Bool)
    (h : e ∈ applyRecords m records) : e ∈ m ∨ e ∈ records := by
  induction records generalizing m with
  | nil => left; simpa [applyRecords] using h
  | cons r rest ih =>
    have h2 : e ∈ applyRecords (mapSet m r.1 r.2) rest := by
      simpa [applyRecords] using h
    rcases ih _ h2 with h3 | h3
    · rcases mem_mapSet m r.1 r.2 e h3 with h4 | h4
      · left; exact h4
      · right; rw [h4]; exact List.mem_cons_self _ _
    · right; exact List.mem_cons_of_mem _ h3

/-! ## The aggregator: `AuditSummary` -/

/-- C1: `AuditSummary` returns true exactly when every verdict recorded in
`Checks` is true, for every host name and writer content; on the empty map it
returns true. -/
theorem AuditSummary_ret_iff_all_true (host w : String) (Checks : GoMap Bool) :
    ((AuditSummary host w Checks).ret = true ↔ ∀ p ∈ Checks, p.2 = true) ∧
    (AuditSummary host w []).ret = true := by
  constructor
  · simp [AuditSummary, resultLoop_fst, List.all_eq_true]
  · rfl

/-- C2: when exactly one recorded verdict is false (so there are `N ≥ 1`
entries), `AuditSummary` returns false and the text it appends to the writer is
the host header followed by one summary line per entry, of which exactly one
begins with the tag `nok` and `N - 1` begin with the tag `ok` (a tag is followed
by a tab).  When host and check names are single-line tokens (no newline in
either, no tab in the host name) these are the counts over all the lines of
the appended text. -/
theorem AuditSummary_exactly_one_nok (host w : String) (Checks : GoMap Bool)
    (hone : Checks.countP (fun p => !p.2) = 1) :
    1 ≤ Checks.length ∧
    (AuditSummary host w Checks).ret = false ∧
    (AuditSummary host w Checks).w = w ++ ("\n" ++ host ++ ":\n" ++ summaryText Checks) ∧
    (Checks.map summaryLine).countP (beginsWith "nok\t") = 1 ∧
    (Checks.map summaryLine).countP (beginsWith "ok\t") = Checks.length - 1 ∧
    ('\n' ∉ host.data → '\t' ∉ host.data → (∀ p ∈ Checks, '\n' ∉ p.1.data) →
      (textLines ("\n" ++ host ++ ":\n" ++ summaryText Checks)).countP (beginsWith "nok\t") = 1 ∧
      (textLines ("\n" ++ host ++ ":\n" ++ summaryText Checks)).countP (beginsWith "ok\t")
        = Checks.length - 1) := by
  have hlen := countP_true_add_false Checks
  have hempty_nok : beginsWith "nok\t" "" = false := by decide
  have hempty_ok : beginsWith "ok\t" "" = false := by decide
  have hnok : (Checks.map summaryLine).countP (beginsWith "nok\t") = 1 := by
    rw [countP_nok_lines, hone]
  have hok : (Checks.map summaryLine).countP (beginsWith "ok\t") = Checks.length - 1 := by
    rw [countP_ok_lines]
    omega
  refine ⟨by omega, ?_, AuditSummary_w host w Checks, hnok, hok, ?_⟩
  · have hex : ∃ p ∈ Checks, (!p.2) = true := by
      have hpos : 0 < Checks.countP (fun p => !p.2) := by omega
      exact List.countP_pos_iff.mp hpos
    obtain ⟨p, hp, hp2⟩ := hex
    cases hr : (AuditSummary host w Checks).ret with
    | false => rfl
    | true =>
      have hall : ∀ q ∈ Checks, q.2 = true := by
        simpa [AuditSummary, resultLoop_fst, List.all_eq_true] using hr
      have := hall p hp
      simp [this] at hp2
  · intro hnl htab hnames
    have hhead_nok : beginsWith "nok\t" (host ++ ":") = false := by
      cases hb : beginsWith "nok\t" (host ++ ":") with
      | false => rfl
      | true =>
        have := beginsWith_mem _ _ hb '\t' (by decide)
        simp [String.data_append, htab] at this
    have hhead_ok : beginsWith "ok\t" (host ++ ":") = false := by
      cases hb : beginsWith "ok\t" (host ++ ":") with
      | false => rfl
      | true =>
        have := beginsWith_mem _ _ hb '\t' (by decide)
        simp [String.data_append, htab] at this
    rw [textLines_summary host Checks hnl hnames]
    constructor
    · rw [List.countP_cons, List.countP_cons, List.countP_append, hnok]
      simp [hhead_nok, hempty_nok]
    · rw [List.countP_cons, List.countP_cons, List.countP_append, hok]
      simp [hhead_ok, hempty_ok]

/-- Witness of C2 on two recorded checks of which one failed: the verdict, the
appended text and the counts over its lines. -/
theorem AuditSummary_exactly_one_nok_witness :
    (AuditSummary "eniq-engine" "" [("CheckDisksSU", true), ("CheckBeadm", false)]).ret = false ∧
    (AuditSummary "eniq-engine" "" [("CheckDisksSU", true), ("CheckBeadm", false)]).w =
      "" ++ ("\n" ++ "eniq-engine" ++ ":\n" ++
        summaryText [("CheckDisksSU", true), ("CheckBeadm", false)]) ∧
    (textLines ("\n" ++ "eniq-engine" ++ ":\n" ++
        summaryText [("CheckDisksSU", true), ("CheckBeadm", false)])).countP
      (beginsWith "nok\t") = 1 ∧
    (textLines ("\n" ++ "eniq-engine" ++ ":\n" ++
        summaryText [("CheckDisksSU", true), ("CheckBeadm", false)])).countP
      (beginsWith "ok\t") = [("CheckDisksSU", true), ("CheckBeadm", false)].length - 1 :=
  have h := AuditSummary_exactly_one_nok "eniq-engine" ""
    [("CheckDisksSU", true), ("CheckBeadm", false)] (by decide)
  ⟨h.2.1, h.2.2.1, h.2.2.2.2.2 (by decide) (by decide) (by decide)⟩

/-- C3: whatever `AuditSummary` returns, it leaves `Checks` empty; so the map
the next host's checks build on it is the map they build on the empty map, and
each of its entries is an assignment those checks made. -/
theorem AuditSummary_clears_Checks (host w : String) (Checks : GoMap Bool) :
    (AuditSummary host w Checks).Checks = [] ∧
    ∀ recordsB : List (String × Bool),
      applyRecords (AuditSummary host w Checks).Checks recordsB = applyRecords [] recordsB ∧
      ∀ e ∈ applyRecords (AuditSummary host w Checks).Checks recordsB, e ∈ recordsB := by
  have h0 : (AuditSummary host w Checks).Checks = [] := by
    simp [AuditSummary, resultLoop_snd]
  refine ⟨h0, fun recordsB => ⟨by rw [h0], fun e he => ?_⟩⟩
  rw [h0] at he
  rcases mem_applyRecords [] recordsB e he with h | h
  · simp at h
  · exact h

/-! ## The run-level fold: `ExecAudit` over the hosts -/

theorem AuditSummary_ret (host w : String) (Checks : GoMap Bool) :
    (AuditSummary host w Checks).ret = Checks.all (fun p => p.2) := by
  simp [AuditSummary, resultLoop_fst]

theorem AuditSummary_Checks (host w : String) (Checks : GoMap Bool) :
    (AuditSummary host w Checks).Checks = [] := by
  simp [AuditSummary, resultLoop_snd]

theorem ExecAudit_eq (st : AuditState) (h : HostRun) (hf : h.fatal = false) :
    ExecAudit st h = some (afterHost st h) := by
  cases hp : st.isPassed <;>
    simp [ExecAudit, afterHost, hf, hp, AuditSummary_ret, AuditSummary_Checks, AuditSummary_w]

theorem runHosts_fold (st : AuditState) (hosts : List HostRun) (hC : st.Checks = [])
    (hf : ∀ h ∈ hosts, h.fatal = false) :
    ∃ st1, runHosts st hosts = some st1 ∧ st1.Checks = [] ∧
      st1.isPassed =
        (st.isPassed && hosts.all (fun h => (applyRecords [] h.records).all (fun p => p.2))) := by
  induction hosts generalizing st with
  | nil => exact ⟨st, rfl, hC, by simp⟩
  | cons h rest ih =>
    have hh : h.fatal = false := hf h (List.mem_cons_self _ _)
    have hrest : ∀ x ∈ rest, x.fatal = false := fun x hx => hf x (List.mem_cons_of_mem _ hx)
    obtain ⟨st1, h1, h2, h3⟩ := ih (afterHost st h) rfl hrest
    refine ⟨st1, ?_, h2, ?_⟩
    · simp only [runHosts, ExecAudit_eq st h hh]
      exact h1
    · rw [h3]
      simp [afterHost, hC, Bool.and_assoc]

theorem runHosts_latch (st : AuditState) (hosts : List HostRun) (hp : st.isPassed = false)
    (hf : ∀ h ∈ hosts, h.fatal = false) :
    ∃ st1, runHosts st hosts = some st1 ∧ st1.isPassed = false := by
  induction hosts generalizing st with
  | nil => exact ⟨st, rfl, hp⟩
  | cons h rest ih =>
    have hh : h.fatal = false := hf h (List.mem_cons_self _ _)
    have hrest : ∀ x ∈ rest, x.fatal = false := fun x hx => hf x (List.mem_cons_of_mem _ hx)
    obtain ⟨st1, h1, h2⟩ := ih (afterHost st h) (by simp [afterHost, hp]) hrest
    refine ⟨st1, ?_, h2⟩
    simp only [runHosts, ExecAudit_eq st h hh]
    exact h1

/-- C4: starting from `isPassed = true` and the empty map, after `ExecAudit` has
run for every host in order (each host reached), `isPassed` is the conjunction,
over all hosts, of all the verdicts the map holds when that host is
summarised. -/
theorem runHosts_isPassed_eq_conjunction (detailed summary : String) (hosts : List HostRun)
    (hreached : ∀ h ∈ hosts, h.fatal = false) :
    ∃ st, runHosts (initialState detailed summary) hosts = some st ∧
      st.isPassed = hosts.all (fun h => (applyRecords [] h.records).all (fun p => p.2)) := by
  obtain ⟨st, h1, _, h3⟩ := runHosts_fold (initialState detailed summary) hosts rfl hreached
  exact ⟨st, h1, by simpa [initialState] using h3⟩

/-- Witness of C4: two hosts, a failed check on the first. -/
theorem runHosts_isPassed_eq_conjunction_witness :
    ∃ st, runHosts (initialState "" "")
        [⟨"eniq-coordinator", false, [("CheckDisksSU", true), ("CheckBeadm", false)], ""⟩,
         ⟨"eniq-engine", false, [("CheckDisksSU", true)], ""⟩] = some st ∧
      st.isPassed =
        ([⟨"eniq-coordinator", false, [("CheckDisksSU", true), ("CheckBeadm", false)], ""⟩,
          ⟨"eniq-engine", false, [("CheckDisksSU", true)], ""⟩] : List HostRun).all
          (fun h => (applyRecords [] h.records).all (fun p => p.2)) :=
  runHosts_isPassed_eq_conjunction "" ""
    [⟨"eniq-coordinator", false, [("CheckDisksSU", true), ("CheckBeadm", false)], ""⟩,
     ⟨"eniq-engine", false, [("CheckDisksSU", true)], ""⟩] (by decide)

/-- C5: `isPassed` is a one-way latch: from a state in which it is false, it is
false after any further sequence of hosts, whatever verdicts those hosts
record. -/
theorem isPassed_one_way_latch (st : AuditState) (later : List HostRun)
    (hfalse : st.isPassed = false) (hreached : ∀ h ∈ later, h.fatal = false) :
    ∃ st1, runHosts st later = some st1 ∧ st1.isPassed = false :=
  runHosts_latch st later hfalse hreached

/-- Witness of C5: an all-true host after the flag went false. -/
theorem isPassed_one_way_latch_witness :
    ∃ st1, runHosts ⟨false, [], "", ""⟩ [⟨"eniq-reader", false, [("CheckDisksSU", true)], ""⟩]
        = some st1 ∧ st1.isPassed = false :=
  isPassed_one_way_latch ⟨false, [], "", ""⟩ [⟨"eniq-reader", false, [("CheckDisksSU", true)], ""⟩]
    (by decide) (by decide)

/-- C6: a host processed while `isPassed` is false still gets its summary: the
summary buffer receives the header and one line per entry of `Checks`, the same
text as when `isPassed` is true, and `Checks` is cleared. -/
theorem ExecAudit_reports_after_failure (st : AuditState) (h : HostRun)
    (hfalse : st.isPassed = false) (hreached : h.fatal = false) :
    ∃ st1 st2, ExecAudit st h = some st1 ∧
      ExecAudit { st with isPassed := true } h = some st2 ∧
      st1.summary = st2.summary ∧
      st1.summary = st.summary ++
        ("\n" ++ h.host ++ ":\n" ++ summaryText (applyRecords st.Checks h.records)) ∧
      st1.summary = (AuditSummary h.host st.summary (applyRecords st.Checks h.records)).w ∧
      st1.Checks = [] ∧ st1.isPassed = false := by
  refine ⟨_, _, ExecAudit_eq st h hreached, ExecAudit_eq _ h hreached, rfl, rfl, ?_, rfl, ?_⟩
  · simp [afterHost, AuditSummary_w]
  · simp [afterHost, hfalse]

/-- Witness of C6: a host with one passed and one failed check, after a failure. -/
theorem ExecAudit_reports_after_failure_witness :
    ∃ st1 st2,
      ExecAudit ⟨false, [], "", ""⟩ ⟨"ombs", false, [("CheckNas", true), ("CheckMdt", false)], ""⟩
        = some st1 ∧
      ExecAudit { (⟨false, [], "", ""⟩ : AuditState) with isPassed := true }
        ⟨"ombs", false, [("CheckNas", true), ("CheckMdt", false)], ""⟩ = some st2 ∧
      st1.summary = st2.summary ∧
      st1.summary = (⟨false, [], "", ""⟩ : AuditState).summary ++
        ("\n" ++ (⟨"ombs", false, [("CheckNas", true), ("CheckMdt", false)], ""⟩ : HostRun).host
          ++ ":\n" ++ summaryText (applyRecords (⟨false, [], "", ""⟩ : AuditState).Checks
            (⟨"ombs", false, [("CheckNas", true), ("CheckMdt", false)], ""⟩ : HostRun).records)) ∧
      st1.summary = (AuditSummary
        (⟨"ombs", false, [("CheckNas", true), ("CheckMdt", false)], ""⟩ : HostRun).host
        (⟨false, [], "", ""⟩ : AuditState).summary
        (applyRecords (⟨false, [], "", ""⟩ : AuditState).Checks
          (⟨"ombs", false, [("CheckNas", true), ("CheckMdt", false)], ""⟩ : HostRun).records)).w ∧
      st1.Checks = [] ∧ st1.isPassed = false :=
  ExecAudit_reports_after_failure ⟨false, [], "", ""⟩
    ⟨"ombs", false, [("CheckNas", true), ("CheckMdt", false)], ""⟩ (by decide) (by decide)

/-- C7: after the host header `AuditSummary` writes one line per entry of
`Checks`, in iteration order, and nothing else: the tag `ok` (verdict true) or
`nok` (verdict false), a tab, the check name, `" - "`, `description[name]` and
the newline.  When host and check names hold no newline, the lines of the
appended text are: an empty line, the header, these lines. -/
theorem AuditSummary_one_line_per_check (host w : String) (Checks : GoMap Bool) :
    (AuditSummary host w Checks).w =
      w ++ ("\n" ++ host ++ ":\n" ++
        joinText (Checks.map (fun p =>
          (if p.2 then "ok" else "nok") ++ "\t" ++ p.1 ++ " - " ++
            mapGet "" descriptionTable p.1 ++ "\n"))) ∧
    ('\n' ∉ host.data → (∀ p ∈ Checks, '\n' ∉ p.1.data) →
      ∃ text, (AuditSummary host w Checks).w = w ++ text ∧
        textLines text = "" :: (host ++ ":") ::
          (Checks.map (fun p => (if p.2 then "ok" else "nok") ++ "\t" ++ p.1 ++ " - " ++
              mapGet "" descriptionTable p.1) ++ [""])) := by
  constructor
  · rw [AuditSummary_w, summaryText_eq_joinText]
    rfl
  · intro hhost hnames
    exact ⟨_, AuditSummary_w host w Checks, textLines_summary host Checks hhost hnames⟩

/-- Witness of C7 on a registered and an unregistered check name: the lines of
the appended text. -/
theorem AuditSummary_one_line_per_check_witness :
    ∃ text, (AuditSummary "oss" "" [("CheckMdt", true), ("CheckX", false)]).w = "" ++ text ∧
      textLines text = "" :: ("oss" ++ ":") ::
        ([("CheckMdt", true), ("CheckX", false)].map
          (fun p => (if p.2 then "ok" else "nok") ++ "\t" ++ p.1 ++ " - " ++
            mapGet "" descriptionTable p.1) ++ [""]) :=
  (AuditSummary_one_line_per_check "oss" "" [("CheckMdt", true), ("CheckX", false)]).2
    (by decide) (by decide)

/-! ## Threshold checks: `CheckDisksSU` and `CheckOssDisksSU` -/

theorem mapSet_mapSet_same {α : Type} (m : GoMap α) (k : String) (v v2 : α) :
    mapSet (mapSet m k v) k v2 = mapSet m k v2 := by
  induction m with
  | nil => simp [mapSet]
  | cons p rest ih =>
    obtain ⟨k', x⟩ := p
    by_cases h : k' = k
    · simp [mapSet, h]
    · simp [mapSet, h, ih]

theorem splitChars_of_mem (sep : Char) (l : List Char) (h : sep ∈ l) :
    ∃ a b rest, splitChars sep l = a :: b :: rest := by
  induction l with
  | nil => simp at h
  | cons c cs ih =>
    by_cases hc : c = sep
    · have hne := splitChars_ne_nil sep cs
      cases hs : splitChars sep cs with
      | nil => exact absurd hs hne
      | cons b rest => exact ⟨[], b, rest, by simp [splitChars, hc, hs]⟩
    · have hcs : sep ∈ cs := by
        rcases List.mem_cons.mp h with h1 | h1
        · exact absurd h1.symm hc
        · exact h1
      obtain ⟨a, b, rest, e⟩ := ih hcs
      exact ⟨c :: a, b, rest, by simp [splitChars, hc, e]⟩

theorem Split_of_not_mem (s : String) (sep : Char) (h : sep ∉ s.data) : Split s sep = [s] := by
  simp [Split, splitChars_of_not_mem sep s.data h]

theorem Split_of_mem (s : String) (sep : Char) (h : sep ∈ s.data) :
    ∃ a b rest, Split s sep = a :: b :: rest := by
  obtain ⟨a, b, rest, e⟩ := splitChars_of_mem sep s.data h
  exact ⟨String.mk a, String.mk b, rest.map String.mk, by simp [Split, e]⟩

theorem Split_append_sep (a b : String) (sep : Char) (h : sep ∉ a.data) :
    Split (a ++ String.singleton sep ++ b) sep = a :: Split b sep := by
  have e : (a ++ String.singleton sep ++ b).data = a.data ++ sep :: b.data := by
    simp [String.data_append, String.singleton]
  simp [Split, e, splitChars_append_sep _ _ _ h]

theorem parseUsage_of_shape (num disk : String) (n : Int) (hn : Atoi num = some n)
    (hnum : '%' ∉ num.data) (hdisk : '%' ∉ disk.data) :
    parseUsage (num ++ "%" ++ disk) = some (n, disk) := by
  have e : ("%" : String) = String.singleton '%' := by decide
  rw [e]
  simp [parseUsage, Split_append_sep num disk '%' hnum, Split_of_not_mem disk '%' hdisk, hn]

theorem joinText_cons (s : String) (rest : List String) :
    joinText (s :: rest) = s ++ joinText rest := rfl

theorem CheckDisksSU_loop_eq (name : String) (lines : List String) (st : CheckState)
    (hshape : ∀ s ∈ lines, '%' ∉ s.data → Atoi s = none) :
    CheckDisksSU.loop name lines st = some
      { Checks :=
          if lines.all CheckDisksSU.lineOk then st.Checks else mapSet st.Checks name false,
        w := st.w ++ joinText (lines.map CheckDisksSU.report) } := by
  induction lines generalizing st with
  | nil => simp [CheckDisksSU.loop, joinText]
  | cons s rest ih =>
    have hrest : ∀ x ∈ rest, '%' ∉ x.data → Atoi x = none :=
      fun x hx => hshape x (List.mem_cons_of_mem _ hx)
    by_cases hp : '%' ∈ s.data
    · obtain ⟨a, b, r, e⟩ := Split_of_mem s '%' hp
      cases ha : Atoi a with
      | none =>
        have hpu : parseUsage s = none := by simp [parseUsage, e, ha]
        simp [CheckDisksSU.loop, e, ha, ih _ hrest, CheckDisksSU.report, CheckDisksSU.lineOk, hpu, joinText]
      | some su =>
        have hpu : parseUsage s = some (su, b) := by simp [parseUsage, e, ha]
        by_cases hlt : su < 40
        · simp [CheckDisksSU.loop, e, ha, DfThreshold, hlt, ih _ hrest, CheckDisksSU.report,
            CheckDisksSU.lineOk, hpu,
            joinText, usageLine, String.append_assoc]
        · simp [CheckDisksSU.loop, e, ha, DfThreshold, hlt, ih _ hrest, CheckDisksSU.report,
            CheckDisksSU.lineOk, hpu,
            joinText, usageLine, String.append_assoc, mapSet_mapSet_same]
    · have e := Split_of_not_mem s '%' hp
      have ha : Atoi s = none := hshape s (List.mem_cons_self _ _) hp
      have hpu : parseUsage s = none := by simp [parseUsage, e]
      simp [CheckDisksSU.loop, e, ha, ih _ hrest, CheckDisksSU.report, CheckDisksSU.lineOk, hpu, joinText]

theorem all_lineOk_iff (lines : List String) :
    lines.all CheckDisksSU.lineOk = true ↔
      ∀ s ∈ lines, ∀ n disk, parseUsage s = some (n, disk) → n < 40 := by
  rw [List.all_eq_true]
  constructor
  · intro h s hs n disk hp
    have := h s hs
    simpa [CheckDisksSU.lineOk, hp] using this
  · intro h s hs
    cases hp : parseUsage s with
    | none => simp [CheckDisksSU.lineOk, hp]
    | some q =>
      obtain ⟨n, disk⟩ := q
      simpa [CheckDisksSU.lineOk, hp] using h s hs n disk hp

theorem CheckDisksSU_eq (st : CheckState) (output : String)
    (hshape : ∀ s ∈ Split output '\n', '%' ∉ s.data → Atoi s = none) :
    CheckDisksSU st ⟨output, false⟩ = some
      { Checks :=
          if (Split output '\n').all CheckDisksSU.lineOk then mapSet st.Checks "CheckDisksSU" true
          else mapSet st.Checks "CheckDisksSU" false,
        w := st.w ++ ("\n->> " ++ "df -h | awk '\x7bprint $5$1\x7d'" ++ "\n") ++
          joinText ((Split output '\n').map CheckDisksSU.report) } := by
  simp [CheckDisksSU, ExecCmd, CheckDisksSU_loop_eq _ _ _ hshape, mapSet_mapSet_same,
    String.append_assoc]

/-- C8: `CheckDisksSU` compares strictly with `DfThreshold = 40`.  On a
successful command whose output has no line that is a bare integer, the check
completes; each usage line `<n>%<disk>` is reported `ok` when `n < 40` and `nok`
otherwise, so a usage of exactly 40 is `nok` and makes the verdict false; the
recorded verdict is true exactly when every usage line has `n < 40`. -/
theorem CheckDisksSU_strict_comparator (st : CheckState) (output : String)
    (hshape : ∀ s ∈ Split output '\n', '%' ∉ s.data → Atoi s = none) :
    ∃ st1, CheckDisksSU st ⟨output, false⟩ = some st1 ∧
      st1.w = st.w ++ ("\n->> " ++ "df -h | awk '\x7bprint $5$1\x7d'" ++ "\n") ++
        joinText ((Split output '\n').map CheckDisksSU.report) ∧
      (∀ s n disk, parseUsage s = some (n, disk) →
        CheckDisksSU.report s =
          (if n < DfThreshold then "\tok\t" else "\tnok\t") ++ fmtInt n ++ "%" ++ "\t" ++ disk
            ++ "\n") ∧
      (mapGet false st1.Checks "CheckDisksSU" = true ↔
        ∀ s ∈ Split output '\n', ∀ n disk, parseUsage s = some (n, disk) → n < DfThreshold) ∧
      (∀ s ∈ Split output '\n', ∀ disk, parseUsage s = some (40, disk) →
        mapGet false st1.Checks "CheckDisksSU" = false ∧
        CheckDisksSU.report s = "\tnok\t" ++ "40" ++ "%" ++ "\t" ++ disk ++ "\n") ∧
      (∀ num disk n, Atoi num = some n → '%' ∉ num.data → '%' ∉ disk.data →
        parseUsage (num ++ "%" ++ disk) = some (n, disk)) := by
  have hiff := all_lineOk_iff (Split output '\n')
  have hverdict : mapGet false
      (if (Split output '\n').all CheckDisksSU.lineOk then mapSet st.Checks "CheckDisksSU" true
        else mapSet st.Checks "CheckDisksSU" false) "CheckDisksSU"
      = (Split output '\n').all CheckDisksSU.lineOk := by
    cases (Split output '\n').all CheckDisksSU.lineOk <;> simp [mapGet_mapSet_self]
  refine ⟨_, CheckDisksSU_eq st output hshape, rfl, ?_, ?_, ?_, ?_⟩
  · intro s n disk hp
    by_cases hlt : n < 40 <;>
      simp [CheckDisksSU.report, hp, usageLine, DfThreshold, hlt, String.append_assoc]
  · simp only [hverdict, DfThreshold]
    exact hiff
  · intro s hs disk hp
    constructor
    · simp only [hverdict]
      cases hall : (Split output '\n').all CheckDisksSU.lineOk with
      | false => rfl
      | true =>
        have := hiff.mp hall s hs 40 disk hp
        omega
    · have e : fmtInt 40 = "40" := by decide
      simp [CheckDisksSU.report, hp, usageLine, e, String.append_assoc]
  · intro num disk n hn hnum hdisk
    exact parseUsage_of_shape num disk n hn hnum hdisk

/-- Witness of C8: a disk at exactly 40 next to one at 39, and the state the
check leaves on that output. -/
theorem CheckDisksSU_strict_comparator_witness :
    (∃ st1, CheckDisksSU ⟨[], ""⟩ ⟨"Use%Filesystem\n40%/\n39%/usr\n", false⟩ = some st1 ∧
      st1.w = (⟨[], ""⟩ : CheckState).w ++ ("\n->> " ++ "df -h | awk '\x7bprint $5$1\x7d'" ++ "\n") ++
        joinText ((Split "Use%Filesystem\n40%/\n39%/usr\n" '\n').map CheckDisksSU.report) ∧
      (∀ s n disk, parseUsage s = some (n, disk) →
        CheckDisksSU.report s =
          (if n < DfThreshold then "\tok\t" else "\tnok\t") ++ fmtInt n ++ "%" ++ "\t" ++ disk
            ++ "\n") ∧
      (mapGet false st1.Checks "CheckDisksSU" = true ↔
        ∀ s ∈ Split "Use%Filesystem\n40%/\n39%/usr\n" '\n', ∀ n disk,
          parseUsage s = some (n, disk) → n < DfThreshold) ∧
      (∀ s ∈ Split "Use%Filesystem\n40%/\n39%/usr\n" '\n', ∀ disk,
        parseUsage s = some (40, disk) →
        mapGet false st1.Checks "CheckDisksSU" = false ∧
        CheckDisksSU.report s = "\tnok\t" ++ "40" ++ "%" ++ "\t" ++ disk ++ "\n") ∧
      (∀ num disk n, Atoi num = some n → '%' ∉ num.data → '%' ∉ disk.data →
        parseUsage (num ++ "%" ++ disk) = some (n, disk))) ∧
    CheckDisksSU ⟨[], ""⟩ ⟨"Use%Filesystem\n40%/\n39%/usr\n", false⟩
      = some ⟨[("CheckDisksSU", false)],
          "\n->> df -h | awk '\x7bprint $5$1\x7d'\n\tnok\t40%\t/\n\tok\t39%\t/usr\n"⟩ :=
  ⟨CheckDisksSU_strict_comparator ⟨[], ""⟩ "Use%Filesystem\n40%/\n39%/usr\n" (by decide),
    by decide⟩

theorem length_eq_zero_iff (s : String) : s.length = 0 ↔ s = "" := by
  cases s with
  | mk d =>
    cases d with
    | nil => simp [String.length]
    | cons c cs =>
      simp [String.length]
      intro h
      have := congrArg String.data h
      simp at this

theorem all_ossLineOk_iff (lines : List String) :
    lines.all CheckOssDisksSU.lineOk = true ↔
      ∀ s ∈ lines, ∀ n disk, parseUsage s = some (n, disk) →
        n ≤ mapGet 0 CheckOssDisksSU.threshold disk := by
  rw [List.all_eq_true]
  constructor
  · intro h s hs n disk hp
    have := h s hs
    simpa [CheckOssDisksSU.lineOk, hp] using this
  · intro h s hs
    cases hp : parseUsage s with
    | none => simp [CheckOssDisksSU.lineOk, hp]
    | some q =>
      obtain ⟨n, disk⟩ := q
      simpa [CheckOssDisksSU.lineOk, hp] using h s hs n disk hp

theorem CheckOssDisksSU_loop_eq (name : String) (lines : List String) (st : CheckState)
    (hshape : ∀ s ∈ lines, s ≠ "" → parseUsage s ≠ none) :
    CheckOssDisksSU.loop name lines st = some
      { Checks :=
          if lines.all CheckOssDisksSU.lineOk then st.Checks else mapSet st.Checks name false,
        w := st.w ++ joinText (lines.map CheckOssDisksSU.report) } := by
  induction lines generalizing st with
  | nil => simp [CheckOssDisksSU.loop, joinText]
  | cons s rest ih =>
    have hrest : ∀ x ∈ rest, x ≠ "" → parseUsage x ≠ none :=
      fun x hx => hshape x (List.mem_cons_of_mem _ hx)
    by_cases hz : s.length = 0
    · have hs : s = "" := (length_eq_zero_iff s).mp hz
      have hpu : parseUsage s = none := by rw [hs]; decide
      simp [CheckOssDisksSU.loop, hz, ih _ hrest, CheckOssDisksSU.report,
        CheckOssDisksSU.lineOk, hpu, joinText]
    · have hs : s ≠ "" := fun e => hz ((length_eq_zero_iff s).mpr e)
      have hne := hshape s (List.mem_cons_self _ _) hs
      cases e : Split s '%' with
      | nil => exact absurd (by simp [parseUsage, e]) hne
      | cons l0 tl =>
        cases tl with
        | nil => exact absurd (by simp [parseUsage, e]) hne
        | cons disk r =>
          cases ha : Atoi l0 with
          | none => exact absurd (by simp [parseUsage, e, ha]) hne
          | some su =>
            have hpu : parseUsage s = some (su, disk) := by simp [parseUsage, e, ha]
            by_cases hle : su ≤ mapGet 0 CheckOssDisksSU.threshold disk
            · simp [CheckOssDisksSU.loop, hz, e, ha, hle, ih _ hrest, CheckOssDisksSU.report,
                CheckOssDisksSU.lineOk, hpu, joinText, usageLine, String.append_assoc]
            · simp [CheckOssDisksSU.loop, hz, e, ha, hle, ih _ hrest, CheckOssDisksSU.report,
                CheckOssDisksSU.lineOk, hpu, joinText, usageLine, String.append_assoc,
                mapSet_mapSet_same]

theorem CheckOssDisksSU_eq (st : CheckState) (output : String)
    (hshape : ∀ s ∈ Split output '\n', s ≠ "" → parseUsage s ≠ none) :
    CheckOssDisksSU st ⟨output, false⟩ = some
      { Checks :=
          if (Split output '\n').all CheckOssDisksSU.lineOk then
            mapSet st.Checks "CheckOssDisksSU" true
          else mapSet st.Checks "CheckOssDisksSU" false,
        w := st.w ++
          ("\n->> " ++ "df -lh | egrep '^/dev/vx/dsk' | awk '\x7bprint $5$6\x7d'" ++ "\n") ++
          joinText ((Split output '\n').map CheckOssDisksSU.report) } := by
  simp [CheckOssDisksSU, ExecCmd, CheckOssDisksSU_loop_eq _ _ _ hshape, mapSet_mapSet_same,
    String.append_assoc]

/-- C9: `CheckOssDisksSU` compares inclusively with the per-path threshold
table.  On the output `91%/ossrc/sybdev/oss/sybdata` (threshold 91) it writes an
`ok` line and records true, on `92%/ossrc/sybdev/oss/sybdata` a `nok` line and
false; on any successful output whose non-empty lines are usage lines
`<n>%<disk>` the check completes, each line is `ok` exactly when
`n ≤ threshold[disk]`, and the verdict is true exactly when all are. -/
theorem CheckOssDisksSU_inclusive_comparator (st : CheckState) (output : String)
    (hshape : ∀ s ∈ Split output '\n', s ≠ "" → parseUsage s ≠ none) :
    (∃ st1, CheckOssDisksSU st ⟨output, false⟩ = some st1 ∧
      st1.w = st.w ++
        ("\n->> " ++ "df -lh | egrep '^/dev/vx/dsk' | awk '\x7bprint $5$6\x7d'" ++ "\n") ++
        joinText ((Split output '\n').map CheckOssDisksSU.report) ∧
      (∀ s n disk, parseUsage s = some (n, disk) →
        CheckOssDisksSU.report s =
          (if n ≤ mapGet 0 CheckOssDisksSU.threshold disk then "\tok\t" else "\tnok\t")
            ++ fmtInt n ++ "%" ++ "\t" ++ disk ++ "\n") ∧
      (mapGet false st1.Checks "CheckOssDisksSU" = true ↔
        ∀ s ∈ Split output '\n', ∀ n disk, parseUsage s = some (n, disk) →
          n ≤ mapGet 0 CheckOssDisksSU.threshold disk)) ∧
    CheckOssDisksSU st ⟨"91%/ossrc/sybdev/oss/sybdata", false⟩ = some
      { Checks := mapSet st.Checks "CheckOssDisksSU" true,
        w := st.w ++ "\n->> df -lh | egrep '^/dev/vx/dsk' | awk '\x7bprint $5$6\x7d'\n"
          ++ "\tok\t91%\t/ossrc/sybdev/oss/sybdata\n" } ∧
    CheckOssDisksSU st ⟨"92%/ossrc/sybdev/oss/sybdata", false⟩ = some
      { Checks := mapSet st.Checks "CheckOssDisksSU" false,
        w := st.w ++ "\n->> df -lh | egrep '^/dev/vx/dsk' | awk '\x7bprint $5$6\x7d'\n"
          ++ "\tnok\t92%\t/ossrc/sybdev/oss/sybdata\n" } ∧
    mapGet 0 CheckOssDisksSU.threshold "/ossrc/sybdev/oss/sybdata" = 91 := by
  have hiff := all_ossLineOk_iff (Split output '\n')
  have hverdict : mapGet false
      (if (Split output '\n').all CheckOssDisksSU.lineOk then
          mapSet st.Checks "CheckOssDisksSU" true
        else mapSet st.Checks "CheckOssDisksSU" false) "CheckOssDisksSU"
      = (Split output '\n').all CheckOssDisksSU.lineOk := by
    cases (Split output '\n').all CheckOssDisksSU.lineOk <;> simp [mapGet_mapSet_self]
  refine ⟨⟨_, CheckOssDisksSU_eq st output hshape, rfl, ?_, ?_⟩, ?_, ?_, by decide⟩
  · intro s n disk hp
    by_cases hle : n ≤ mapGet 0 CheckOssDisksSU.threshold disk <;>
      simp [CheckOssDisksSU.report, hp, usageLine, hle, String.append_assoc]
  · simp only [hverdict]
    exact hiff
  · rw [CheckOssDisksSU_eq st _ (by decide)]
    have h1 : (Split "91%/ossrc/sybdev/oss/sybdata" '\n').all CheckOssDisksSU.lineOk = true := by
      decide
    have h2 : joinText ((Split "91%/ossrc/sybdev/oss/sybdata" '\n').map CheckOssDisksSU.report)
        = "\tok\t91%\t/ossrc/sybdev/oss/sybdata\n" := by decide
    have h3 : "\n->> " ++ "df -lh | egrep '^/dev/vx/dsk' | awk '\x7bprint $5$6\x7d'" ++ "\n"
        = "\n->> df -lh | egrep '^/dev/vx/dsk' | awk '\x7bprint $5$6\x7d'\n" := by decide
    rw [h1, h2, h3]
    simp
  · rw [CheckOssDisksSU_eq st _ (by decide)]
    have h1 : (Split "92%/ossrc/sybdev/oss/sybdata" '\n').all CheckOssDisksSU.lineOk = false := by
      decide
    have h2 : joinText ((Split "92%/ossrc/sybdev/oss/sybdata" '\n').map CheckOssDisksSU.report)
        = "\tnok\t92%\t/ossrc/sybdev/oss/sybdata\n" := by decide
    have h3 : "\n->> " ++ "df -lh | egrep '^/dev/vx/dsk' | awk '\x7bprint $5$6\x7d'" ++ "\n"
        = "\n->> df -lh | egrep '^/dev/vx/dsk' | awk '\x7bprint $5$6\x7d'\n" := by decide
    rw [h1, h2, h3]
    simp

/-- Witness of C9: a disk at its threshold next to one below it, and the state
the check leaves on that output. -/
theorem CheckOssDisksSU_inclusive_comparator_witness :
    ((∃ st1, CheckOssDisksSU ⟨[], ""⟩ ⟨"91%/ossrc/sybdev/oss/syblog\n5%/export\n", false⟩
        = some st1 ∧
      st1.w = (⟨[], ""⟩ : CheckState).w ++
        ("\n->> " ++ "df -lh | egrep '^/dev/vx/dsk' | awk '\x7bprint $5$6\x7d'" ++ "\n") ++
        joinText ((Split "91%/ossrc/sybdev/oss/syblog\n5%/export\n" '\n').map
          CheckOssDisksSU.report) ∧
      (∀ s n disk, parseUsage s = some (n, disk) →
        CheckOssDisksSU.report s =
          (if n ≤ mapGet 0 CheckOssDisksSU.threshold disk then "\tok\t" else "\tnok\t")
            ++ fmtInt n ++ "%" ++ "\t" ++ disk ++ "\n") ∧
      (mapGet false st1.Checks "CheckOssDisksSU" = true ↔
        ∀ s ∈ Split "91%/ossrc/sybdev/oss/syblog\n5%/export\n" '\n', ∀ n disk,
          parseUsage s = some (n, disk) → n ≤ mapGet 0 CheckOssDisksSU.threshold disk)) ∧
    CheckOssDisksSU ⟨[], ""⟩ ⟨"91%/ossrc/sybdev/oss/sybdata", false⟩ = some
      { Checks := mapSet (⟨[], ""⟩ : CheckState).Checks "CheckOssDisksSU" true,
        w := (⟨[], ""⟩ : CheckState).w ++
          "\n->> df -lh | egrep '^/dev/vx/dsk' | awk '\x7bprint $5$6\x7d'\n"
          ++ "\tok\t91%\t/ossrc/sybdev/oss/sybdata\n" } ∧
    CheckOssDisksSU ⟨[], ""⟩ ⟨"92%/ossrc/sybdev/oss/sybdata", false⟩ = some
      { Checks := mapSet (⟨[], ""⟩ : CheckState).Checks "CheckOssDisksSU" false,
        w := (⟨[], ""⟩ : CheckState).w ++
          "\n->> df -lh | egrep '^/dev/vx/dsk' | awk '\x7bprint $5$6\x7d'\n"
          ++ "\tnok\t92%\t/ossrc/sybdev/oss/sybdata\n" } ∧
    mapGet 0 CheckOssDisksSU.threshold "/ossrc/sybdev/oss/sybdata" = 91) ∧
    CheckOssDisksSU ⟨[], ""⟩ ⟨"91%/ossrc/sybdev/oss/syblog\n5%/export\n", false⟩
      = some ⟨[("CheckOssDisksSU", true)],
          "\n->> df -lh | egrep '^/dev/vx/dsk' | awk '\x7bprint $5$6\x7d'\n\tok\t91%\t/ossrc/sybdev/oss/syblog\n\tok\t5%\t/export\n"⟩ :=
  ⟨CheckOssDisksSU_inclusive_comparator ⟨[], ""⟩ "91%/ossrc/sybdev/oss/syblog\n5%/export\n"
    (by decide), by decide⟩

/-! ## Set reconciliation: `FindKnownInParsed` -/

theorem mapHas_iff {α : Type} (m : GoMap α) (k : String) :
    mapHas m k = true ↔ k ∈ mapKeys m := by
  induction m with
  | nil => simp [mapHas, mapLookup, mapKeys]
  | cons p rest ih =>
    obtain ⟨k', v'⟩ := p
    by_cases h : k' = k
    · simp [mapHas, mapLookup, mapKeys, h]
    · have h2 : ¬ k = k' := fun e => h e.symm
      simp only [mapHas, mapKeys] at ih
      simp [mapHas, mapLookup, mapKeys, h, h2, ih]

theorem FindKnownInParsed_loop_eq (name : String) (have_ must : GoMap Int) (st : CheckState) :
    FindKnownInParsed.loop name have_ must st =
      { Checks :=
          if must.all (fun e => decide (e.1 ∈ mapKeys have_)) then st.Checks
          else mapSet st.Checks name false,
        w := st.w ++ joinText (must.map (fun e => FindKnownInParsed.report have_ e.1)) } := by
  induction must generalizing st with
  | nil => simp [FindKnownInParsed.loop, joinText]
  | cons e rest ih =>
    obtain ⟨k, v⟩ := e
    by_cases hk : k ∈ mapKeys have_
    · have hh : mapHas have_ k = true := (mapHas_iff have_ k).mpr hk
      have hd : decide (k ∈ mapKeys have_) = true := decide_eq_true hk
      simp only [FindKnownInParsed.loop, hh, if_true, ih, List.all_cons, List.map_cons, joinText,
        FindKnownInParsed.report, hk, hd, Bool.true_and, String.append_assoc, decide_True]
    · have hh : mapHas have_ k = false := by
        cases hb : mapHas have_ k with
        | false => rfl
        | true => exact absurd ((mapHas_iff have_ k).mp hb) hk
      have hd : decide (k ∈ mapKeys have_) = false := decide_eq_false hk
      simp only [FindKnownInParsed.loop, hh, ih, List.all_cons, List.map_cons, joinText,
        FindKnownInParsed.report, hk, hd, Bool.false_and, String.append_assoc, if_false,
        mapSet_mapSet_same]
      simp

theorem joinText_mapKeys (have_ must : GoMap Int) :
    joinText (must.map (fun e => FindKnownInParsed.report have_ e.1)) =
      joinText ((mapKeys must).map (fun k =>
          if k ∈ mapKeys have_ then "\tok\texists in today's log\t" ++ k ++ "\n"
          else "\tnok\tabsent in today's log\t" ++ k ++ "\n")) := by
  induction must with
  | nil => rfl
  | cons e rest ih =>
    simp only [mapKeys, List.map_cons, joinText] at ih ⊢
    rw [ih]
    rfl

theorem all_keys_iff (have_ must : GoMap Int) :
    must.all (fun e => decide (e.1 ∈ mapKeys have_)) = true ↔
      ∀ k ∈ mapKeys must, k ∈ mapKeys have_ := by
  induction must with
  | nil => simp [mapKeys]
  | cons e rest ih =>
    simp only [mapKeys, List.map_cons, List.all_cons, Bool.and_eq_true, decide_eq_true_eq,
      List.forall_mem_cons] at ih ⊢
    rw [ih]

/-- C10: `FindKnownInParsed` returns true exactly when every key of `must` is a
key of `have`; after its header it writes one line per key of `must`, an `ok`
line `exists in today's log` for a key present in `have` and a `nok` line
`absent in today's log` for a missing one; it records what it returns.  With
`have = {A:1, B:1}` and `must = {A:1, B:1, C:1}` it reports A and B as found, C
as absent, and returns false. -/
theorem FindKnownInParsed_known_in_parsed (have_ must : GoMap Int) (st : CheckState) :
    ((FindKnownInParsed have_ must st).1 = true ↔ ∀ k ∈ mapKeys must, k ∈ mapKeys have_) ∧
    (FindKnownInParsed have_ must st).2.w =
      st.w ++ ("\n->>> check, that all known entries are found in the log" ++ "\n") ++
        joinText ((mapKeys must).map (fun k =>
          if k ∈ mapKeys have_ then "\tok\texists in today's log\t" ++ k ++ "\n"
          else "\tnok\tabsent in today's log\t" ++ k ++ "\n")) ∧
    mapGet false (FindKnownInParsed have_ must st).2.Checks "FindKnownInParsed"
      = (FindKnownInParsed have_ must st).1 ∧
    FindKnownInParsed [("A", 1), ("B", 1)] [("A", 1), ("B", 1), ("C", 1)] ⟨[], ""⟩ =
      (false,
        ⟨[("FindKnownInParsed", false)],
          "\n->>> check, that all known entries are found in the log\n" ++
          "\tok\texists in today's log\tA\n" ++
          "\tok\texists in today's log\tB\n" ++
          "\tnok\tabsent in today's log\tC\n"⟩) := by
  refine ⟨?_, ?_, rfl, by decide⟩
  · rw [← all_keys_iff]
    simp only [FindKnownInParsed, FindKnownInParsed_loop_eq]
    cases must.all (fun e => decide (e.1 ∈ mapKeys have_)) <;>
      simp [mapGet_mapSet_self, mapSet_mapSet_same]
  · rw [← joinText_mapKeys]
    simp only [FindKnownInParsed, FindKnownInParsed_loop_eq, String.append_assoc]

/-! ## Set reconciliation: `FindParsedInKnown`, `CompareNumParsed`, `DeepCheckETLC` -/

theorem FindParsedInKnown_loop_eq (name : String) (must have_ : GoMap Int) (st : CheckState) :
    FindParsedInKnown.loop name must have_ st =
      { Checks :=
          if have_.all (fun e => decide (e.1 ∈ mapKeys must)) then st.Checks
          else mapSet st.Checks name false,
        w := st.w ++ joinText (have_.map (fun e => FindParsedInKnown.report must e.1)) } := by
  induction have_ generalizing st with
  | nil => simp [FindParsedInKnown.loop, joinText]
  | cons e rest ih =>
    obtain ⟨k, v⟩ := e
    by_cases hk : k ∈ mapKeys must
    · have hh : mapHas must k = true := (mapHas_iff must k).mpr hk
      have hd : decide (k ∈ mapKeys must) = true := decide_eq_true hk
      simp only [FindParsedInKnown.loop, hh, if_true, ih, List.all_cons, List.map_cons, joinText,
        FindParsedInKnown.report, hk, hd, Bool.true_and, String.append_assoc, decide_True]
    · have hh : mapHas must k = false := by
        cases hb : mapHas must k with
        | false => rfl
        | true => exact absurd ((mapHas_iff must k).mp hb) hk
      have hd : decide (k ∈ mapKeys must) = false := decide_eq_false hk
      simp only [FindParsedInKnown.loop, hh, ih, List.all_cons, List.map_cons, joinText,
        FindParsedInKnown.report, hk, hd, Bool.false_and, String.append_assoc, if_false,
        mapSet_mapSet_same]
      simp

theorem map_report_mapKeys (f : String → String) (m : GoMap Int) :
    m.map (fun e => f e.1) = (mapKeys m).map f := by
  simp [mapKeys, List.map_map, Function.comp_def]

theorem FindParsedInKnown_eq (have_ must : GoMap Int) (st : CheckState) :
    FindParsedInKnown have_ must st =
      (have_.all (fun e => decide (e.1 ∈ mapKeys must)),
        { Checks := mapSet st.Checks "FindParsedInKnown"
            (have_.all (fun e => decide (e.1 ∈ mapKeys must))),
          w := st.w ++ FindParsedInKnown.text have_ must }) := by
  simp only [FindParsedInKnown, FindParsedInKnown_loop_eq, FindParsedInKnown.text,
    ← map_report_mapKeys]
  cases have_.all (fun e => decide (e.1 ∈ mapKeys must)) <;>
    simp [mapGet_mapSet_self, mapSet_mapSet_same, String.append_assoc]

theorem FindKnownInParsed_eq (have_ must : GoMap Int) (st : CheckState) :
    FindKnownInParsed have_ must st =
      (must.all (fun e => decide (e.1 ∈ mapKeys have_)),
        { Checks := mapSet st.Checks "FindKnownInParsed"
            (must.all (fun e => decide (e.1 ∈ mapKeys have_))),
          w := st.w ++ FindKnownInParsed.text have_ must }) := by
  simp only [FindKnownInParsed, FindKnownInParsed_loop_eq, FindKnownInParsed.text,
    ← map_report_mapKeys]
  cases must.all (fun e => decide (e.1 ∈ mapKeys have_)) <;>
    simp [mapGet_mapSet_self, mapSet_mapSet_same, String.append_assoc]

theorem CompareNumParsed_loop_eq (name : String) (have_ must : GoMap Int) (st : CheckState) :
    CompareNumParsed.loop name have_ must st =
      { Checks :=
          if must.all (fun e => decide (observedCount have_ e.1 ≥ e.2)) then st.Checks
          else mapSet st.Checks name false,
        w := st.w ++ joinText (must.map (CompareNumParsed.report have_)) } := by
  induction must generalizing st with
  | nil => simp [CompareNumParsed.loop, joinText]
  | cons e rest ih =>
    obtain ⟨k, v⟩ := e
    have hvh : (match mapLookup have_ k with
        | some x => x
        | none => (0 : Int)) = observedCount have_ k := by
      cases h : mapLookup have_ k <;> simp [observedCount, mapGet, h]
    by_cases hge : observedCount have_ k ≥ v
    · have hd : decide (observedCount have_ k ≥ v) = true := decide_eq_true hge
      simp only [CompareNumParsed.loop, hvh, hge, if_true, ih, List.all_cons, List.map_cons,
        joinText, CompareNumParsed.report, hd, Bool.true_and, String.append_assoc, decide_True]
    · have hd : decide (observedCount have_ k ≥ v) = false := decide_eq_false hge
      simp only [CompareNumParsed.loop, hvh, hge, if_false, ih, List.all_cons, List.map_cons,
        joinText, CompareNumParsed.report, hd, Bool.false_and, String.append_assoc,
        mapSet_mapSet_same, decide_False]
      simp

theorem CompareNumParsed_eq (have_ must : GoMap Int) (st : CheckState) :
    CompareNumParsed have_ must st =
      (must.all (fun e => decide (observedCount have_ e.1 ≥ e.2)),
        { Checks := mapSet st.Checks "CompareNumParsed"
            (must.all (fun e => decide (observedCount have_ e.1 ≥ e.2))),
          w := st.w ++ CompareNumParsed.text have_ must }) := by
  simp only [CompareNumParsed, CompareNumParsed_loop_eq, CompareNumParsed.text]
  cases must.all (fun e => decide (observedCount have_ e.1 ≥ e.2)) <;>
    simp [mapGet_mapSet_self, mapSet_mapSet_same, String.append_assoc]

theorem all_counts_iff (have_ must : GoMap Int) :
    must.all (fun e => decide (observedCount have_ e.1 ≥ e.2)) = true ↔
      ∀ e ∈ must, observedCount have_ e.1 ≥ e.2 := by
  simp [List.all_eq_true]

theorem mapGet_congr_lookup {α : Type} (zero : α) (m1 m2 : GoMap α) (k : String)
    (h : mapLookup m1 k = mapLookup m2 k) : mapGet zero m1 k = mapGet zero m2 k := by
  simp [mapGet, h]

theorem mapLookup_eq_none_iff {α : Type} (m : GoMap α) (k : String) :
    mapLookup m k = none ↔ k ∉ mapKeys m := by
  rw [← mapHas_iff]
  cases h : mapLookup m k <;> simp [mapHas, h]

/-- C11: `FindParsedInKnown` returns true exactly when every key of `have` is a
key of `must`; the result depends on the keys only, not on the counts stored as
values; the returned boolean is what the map holds under `FindParsedInKnown`
afterwards. -/
theorem FindParsedInKnown_parsed_in_known (have_ must : GoMap Int) (st : CheckState) :
    ((FindParsedInKnown have_ must st).1 = true ↔ ∀ k ∈ mapKeys have_, k ∈ mapKeys must) ∧
    (∀ have2 must2 : GoMap Int, mapKeys have2 = mapKeys have_ → mapKeys must2 = mapKeys must →
      (FindParsedInKnown have2 must2 st).1 = (FindParsedInKnown have_ must st).1) ∧
    mapLookup (FindParsedInKnown have_ must st).2.Checks "FindParsedInKnown"
      = some (FindParsedInKnown have_ must st).1 ∧
    (∀ k, k ≠ "FindParsedInKnown" →
      mapLookup (FindParsedInKnown have_ must st).2.Checks k = mapLookup st.Checks k) ∧
    (FindParsedInKnown have_ must st).2.w =
      st.w ++ ("\n->>> check, that all parsed entries are known already" ++ "\n" ++
        joinText ((mapKeys have_).map (fun k =>
          if k ∈ mapKeys must then "\tok\ttable is known\t" ++ k ++ "\n"
          else "\tnok\ttable is unknown\t" ++ k ++ "\n"))) := by
  have hiff : ∀ h m : GoMap Int, (FindParsedInKnown h m st).1 = true ↔
      ∀ k ∈ mapKeys h, k ∈ mapKeys m := by
    intro h m
    rw [FindParsedInKnown_eq]
    exact all_keys_iff m h
  refine ⟨hiff have_ must, ?_, ?_, ?_, ?_⟩
  · intro have2 must2 h1 h2
    rw [Bool.eq_iff_iff, hiff have2 must2, hiff have_ must, h1, h2]
  · rw [FindParsedInKnown_eq]
    exact mapLookup_mapSet_self _ _ _
  · intro k hk
    rw [FindParsedInKnown_eq]
    exact mapLookup_mapSet_other _ _ _ _ (fun e => hk e.symm)
  · rw [FindParsedInKnown_eq]
    rfl

/-- C12: `CompareNumParsed` returns true exactly when, for every entry `k : v`
of `must`, the observed count (`have[k]`, 0 when `k` is absent from `have`) is
at least `v`; the entries of `have` under keys that `must` does not have never
change the result; the returned boolean is recorded under `CompareNumParsed`. -/
theorem CompareNumParsed_counts (have_ must : GoMap Int) (st : CheckState) :
    ((CompareNumParsed have_ must st).1 = true ↔
      ∀ e ∈ must, observedCount have_ e.1 ≥ e.2) ∧
    (∀ k, (k ∉ mapKeys have_ → observedCount have_ k = 0) ∧
      (∀ v, mapLookup have_ k = some v → observedCount have_ k = v)) ∧
    (∀ have2 : GoMap Int, (∀ k ∈ mapKeys must, mapLookup have2 k = mapLookup have_ k) →
      (CompareNumParsed have2 must st).1 = (CompareNumParsed have_ must st).1) ∧
    mapLookup (CompareNumParsed have_ must st).2.Checks "CompareNumParsed"
      = some (CompareNumParsed have_ must st).1 := by
  have hiff : ∀ h : GoMap Int, (CompareNumParsed h must st).1 = true ↔
      ∀ e ∈ must, observedCount h e.1 ≥ e.2 := by
    intro h
    rw [CompareNumParsed_eq]
    exact all_counts_iff h must
  refine ⟨hiff have_, ?_, ?_, ?_⟩
  · intro k
    constructor
    · intro hk
      have := (mapLookup_eq_none_iff have_ k).mpr hk
      simp [observedCount, mapGet, this]
    · intro v hv
      simp [observedCount, mapGet, hv]
  · intro have2 hsame
    rw [Bool.eq_iff_iff, hiff have2, hiff have_]
    have hcount : ∀ e ∈ must, observedCount have2 e.1 = observedCount have_ e.1 := by
      intro e he
      have hk : e.1 ∈ mapKeys must := List.mem_map_of_mem Prod.fst he
      exact mapGet_congr_lookup 0 have2 have_ e.1 (hsame e.1 hk)
    constructor
    · intro h e he
      rw [← hcount e he]
      exact h e he
    · intro h e he
      rw [hcount e he]
      exact h e he
  · rw [CompareNumParsed_eq]
    exact mapLookup_mapSet_self _ _ _

theorem reconcile_eq (have_ must : GoMap Int) (st : CheckState) :
    (DeepCheckETLC.reconcile "DeepCheckETLC" have_ must st).w =
      st.w ++ FindParsedInKnown.text have_ must ++ FindKnownInParsed.text have_ must ++
        CompareNumParsed.text have_ must ∧
    verdict "DeepCheckETLC" (DeepCheckETLC.reconcile "DeepCheckETLC" have_ must st) =
      (verdict "DeepCheckETLC" st &&
        (have_.all (fun e => decide (e.1 ∈ mapKeys must)) &&
          (must.all (fun e => decide (e.1 ∈ mapKeys have_)) &&
            must.all (fun e => decide (observedCount have_ e.1 ≥ e.2))))) := by
  have n1 : "FindParsedInKnown" ≠ "DeepCheckETLC" := by decide
  have n2 : "FindKnownInParsed" ≠ "DeepCheckETLC" := by decide
  have n3 : "CompareNumParsed" ≠ "DeepCheckETLC" := by decide
  simp only [DeepCheckETLC.reconcile, FindParsedInKnown_eq, FindKnownInParsed_eq,
    CompareNumParsed_eq]
  cases have_.all (fun e => decide (e.1 ∈ mapKeys must)) <;>
  cases must.all (fun e => decide (e.1 ∈ mapKeys have_)) <;>
  cases must.all (fun e => decide (observedCount have_ e.1 ≥ e.2)) <;>
  simp [setVerdict, verdict, mapGet_mapSet_self, mapGet_mapSet_other, n1, n2, n3,
    String.append_assoc]

/-- On a successful command whose output parses, `DeepCheckETLC` runs
`FindParsedInKnown`, then `FindKnownInParsed`, then `CompareNumParsed` on the
parsed entries, whatever the earlier ones returned: the text of all three
follows the command line, and the verdict recorded under `DeepCheckETLC` is true
exactly when all three return true. -/
theorem DeepCheckETLC_of_parse (now : String) (st : CheckState)
    (output : String) (have_ : GoMap Int)
    (hparse : DeepCheckETLC.parse (Split output '\n') [] = some have_) :
    (∃ st1, DeepCheckETLC now st ⟨output, false⟩ = Flow.next st1 ∧
      st1.w = st.w ++
        ("\n->> " ++ ("grep -i parsed /eniq/log/sw_log/engine/engine-" ++
          ReplaceAll (dateOf now) '-' '_' ++ ".log") ++ "\n") ++
        FindParsedInKnown.text have_ DeepCheckETLC.must ++
        FindKnownInParsed.text have_ DeepCheckETLC.must ++
        CompareNumParsed.text have_ DeepCheckETLC.must ∧
      ∀ s1 s2 s3 : CheckState,
        (verdict "DeepCheckETLC" st1 = true ↔
          (FindParsedInKnown have_ DeepCheckETLC.must s1).1 = true ∧
          (FindKnownInParsed have_ DeepCheckETLC.must s2).1 = true ∧
          (CompareNumParsed have_ DeepCheckETLC.must s3).1 = true)) ∧
    (∀ s : CheckState,
      verdict "DeepCheckETLC" (DeepCheckETLC.reconcile "DeepCheckETLC"
        [("A", 1), ("B", 1)] [("A", 1), ("B", 1), ("C", 1)] s) = false ∧
      (FindParsedInKnown [("A", 1), ("B", 1)] [("A", 1), ("B", 1), ("C", 1)] s).1 = true ∧
      (FindKnownInParsed [("A", 1), ("B", 1)] [("A", 1), ("B", 1), ("C", 1)] s).1 = false ∧
      (CompareNumParsed [("A", 1), ("B", 1)] [("A", 1), ("B", 1), ("C", 1)] s).1 = false) := by
  constructor
  · have hrec := reconcile_eq have_ DeepCheckETLC.must
      { Checks := mapSet st.Checks "DeepCheckETLC" true,
        w := st.w ++ "\n->> " ++ ("grep -i parsed /eniq/log/sw_log/engine/engine-" ++
          ReplaceAll (dateOf now) '-' '_' ++ ".log") ++ "\n" }
    refine ⟨DeepCheckETLC.reconcile "DeepCheckETLC" have_ DeepCheckETLC.must
      { Checks := mapSet st.Checks "DeepCheckETLC" true,
        w := st.w ++ "\n->> " ++ ("grep -i parsed /eniq/log/sw_log/engine/engine-" ++
          ReplaceAll (dateOf now) '-' '_' ++ ".log") ++ "\n" }, ?_, ?_, ?_⟩
    · simp only [DeepCheckETLC, runCmd, ExecCmd, setVerdict, hparse]
      rfl
    · rw [hrec.1]
      simp [String.append_assoc]
    · intro s1 s2 s3
      rw [hrec.2]
      simp [verdict, mapGet_mapSet_self, FindParsedInKnown_eq, FindKnownInParsed_eq,
        CompareNumParsed_eq]
  · intro s
    refine ⟨?_, ?_, ?_, ?_⟩
    · rw [(reconcile_eq _ _ s).2]
      have : ([("A", 1), ("B", 1), ("C", 1)] : GoMap Int).all
          (fun e => decide (e.1 ∈ mapKeys ([("A", 1), ("B", 1)] : GoMap Int))) = false := by
        decide
      simp [this]
    · rw [FindParsedInKnown_eq]
      show List.all _ _ = true
      decide
    · rw [FindKnownInParsed_eq]
      show List.all _ _ = false
      decide
    · rw [CompareNumParsed_eq]
      show List.all _ _ = false
      decide

/-- C13: what `DeepCheckETLC` does after a successful command. When the parsing
loop gets through the output, the three reconciliations `FindParsedInKnown`,
`FindKnownInParsed` and `CompareNumParsed` all run, whatever the earlier ones
returned, and the verdict recorded under `DeepCheckETLC` is true exactly when
all three return true; for observed `{A:1, B:1}` against expected
`{A:1, B:1, C:1}` the verdict is false. When the parsing loop does not get
through (a line with fewer than five fields, or a fifth field without a dot)
the check stops in a run-time panic before any reconciliation, with only its
own name in `Checks`, set to `true`. The line
`java.lang.Exception: File could not be parsed` of a stack trace is such a line:
its fifth field `be` has no dot. -/
theorem DeepCheckETLC_three_reconciliations (now : String) (st : CheckState)
    (output : String) :
    (∀ have_ : GoMap Int, DeepCheckETLC.parse (Split output '\n') [] = some have_ →
      ∃ st1, DeepCheckETLC now st ⟨output, false⟩ = Flow.next st1 ∧
        st1.w = st.w ++
          ("\n->> " ++ ("grep -i parsed /eniq/log/sw_log/engine/engine-" ++
            ReplaceAll (dateOf now) '-' '_' ++ ".log") ++ "\n") ++
          FindParsedInKnown.text have_ DeepCheckETLC.must ++
          FindKnownInParsed.text have_ DeepCheckETLC.must ++
          CompareNumParsed.text have_ DeepCheckETLC.must ∧
        ∀ s1 s2 s3 : CheckState,
          (verdict "DeepCheckETLC" st1 = true ↔
            (FindParsedInKnown have_ DeepCheckETLC.must s1).1 = true ∧
            (FindKnownInParsed have_ DeepCheckETLC.must s2).1 = true ∧
            (CompareNumParsed have_ DeepCheckETLC.must s3).1 = true)) ∧
    (∀ s : CheckState,
      verdict "DeepCheckETLC" (DeepCheckETLC.reconcile "DeepCheckETLC"
        [("A", 1), ("B", 1)] [("A", 1), ("B", 1), ("C", 1)] s) = false ∧
      (FindParsedInKnown [("A", 1), ("B", 1)] [("A", 1), ("B", 1), ("C", 1)] s).1 = true ∧
      (FindKnownInParsed [("A", 1), ("B", 1)] [("A", 1), ("B", 1), ("C", 1)] s).1 = false ∧
      (CompareNumParsed [("A", 1), ("B", 1)] [("A", 1), ("B", 1), ("C", 1)] s).1 = false) ∧
    (DeepCheckETLC.parse (Split output '\n') [] = none →
      DeepCheckETLC now st ⟨output, false⟩ =
        Flow.panic
          { Checks := mapSet st.Checks "DeepCheckETLC" true,
            w := st.w ++ "\n->> " ++ ("grep -i parsed /eniq/log/sw_log/engine/engine-" ++
              ReplaceAll (dateOf now) '-' '_' ++ ".log") ++ "\n" }) ∧
    DeepCheckETLC.parse
      (Split "java.lang.Exception: File could not be parsed" '\n') [] = none ∧
    DeepCheckETLC "2020-10-07T06:00:00+06:00" ⟨[], ""⟩
        ⟨"java.lang.Exception: File could not be parsed", false⟩ =
      Flow.panic ⟨[("DeepCheckETLC", true)],
        "\n->> grep -i parsed /eniq/log/sw_log/engine/engine-2020_10_07.log\n"⟩ := by
  refine ⟨fun have_ h => (DeepCheckETLC_of_parse now st output have_ h).1, ?_, ?_,
    by decide, by decide⟩
  · exact (DeepCheckETLC_of_parse now st "" [] (by decide)).2
  · intro h
    simp only [DeepCheckETLC, runCmd, ExecCmd, setVerdict, h]
    rfl

theorem DeepCheckETLC_three_reconciliations_witness :
    ∃ st1, DeepCheckETLC "2020-10-07T06:00:00+06:00" ⟨[], ""⟩
        ⟨"07.10 01:00:11 12 INFO etl.INTF_DC_E_RBS-eniq_oss_2.Adapter : Parsed 5 rows\n", false⟩
        = Flow.next st1 ∧
      st1.w = (⟨[], ""⟩ : CheckState).w ++
        ("\n->> " ++ ("grep -i parsed /eniq/log/sw_log/engine/engine-" ++
          ReplaceAll (dateOf "2020-10-07T06:00:00+06:00") '-' '_' ++ ".log") ++ "\n") ++
        FindParsedInKnown.text [("DC_E_RBS-eniq_oss_2", 1)] DeepCheckETLC.must ++
        FindKnownInParsed.text [("DC_E_RBS-eniq_oss_2", 1)] DeepCheckETLC.must ++
        CompareNumParsed.text [("DC_E_RBS-eniq_oss_2", 1)] DeepCheckETLC.must ∧
      ∀ s1 s2 s3 : CheckState,
        (verdict "DeepCheckETLC" st1 = true ↔
          (FindParsedInKnown [("DC_E_RBS-eniq_oss_2", 1)] DeepCheckETLC.must s1).1 = true ∧
          (FindKnownInParsed [("DC_E_RBS-eniq_oss_2", 1)] DeepCheckETLC.must s2).1 = true ∧
          (CompareNumParsed [("DC_E_RBS-eniq_oss_2", 1)] DeepCheckETLC.must s3).1 = true) :=
  (DeepCheckETLC_three_reconciliations "2020-10-07T06:00:00+06:00" ⟨[], ""⟩
    "07.10 01:00:11 12 INFO etl.INTF_DC_E_RBS-eniq_oss_2.Adapter : Parsed 5 rows\n").1
    [("DC_E_RBS-eniq_oss_2", 1)] (by decide)

/-! ## What every check does to the verdict map -/

theorem falls_refl (name : String) (s : CheckState) : Falls name s s := Or.inl rfl

theorem falls_trans (name : String) (s1 s2 s3 : CheckState) (h1 : Falls name s1 s2)
    (h2 : Falls name s2 s3) : Falls name s1 s3 := by
  rcases h1 with h1 | h1 <;> rcases h2 with h2 | h2
  · exact Or.inl (h2.trans h1)
  · exact Or.inr (by rw [h2, h1])
  · exact Or.inr (h2.trans h1)
  · exact Or.inr (by rw [h2, h1, mapSet_mapSet_same])

theorem falls_put (name t : String) (s1 s2 : CheckState) (h : Falls name s1 s2) :
    Falls name s1 (put t s2) := h

theorem falls_setVerdict (name : String) (s1 s2 : CheckState) (h : Falls name s1 s2) :
    Falls name s1 (setVerdict name false s2) :=
  falls_trans name s1 s2 _ h (Or.inr rfl)

theorem falls_CmdFailed (name : String) (s1 s2 : CheckState) (h : Falls name s1 s2) :
    Falls name s1 (CmdFailed name s2) :=
  falls_trans name s1 s2 _ h (Or.inr rfl)

theorem falls_cmdFailedLn (name : String) (s1 s2 : CheckState) (h : Falls name s1 s2) :
    Falls name s1 (cmdFailedLn name s2) :=
  falls_trans name s1 s2 _ h (Or.inr rfl)

theorem falls_CmdFailOk (name t : String) (s1 s2 : CheckState) (h : Falls name s1 s2) :
    Falls name s1 (CmdFailOk t s2) := h

theorem falls_exec (name cmd : String) (r : CmdResult) (s1 s2 : CheckState)
    (h : Falls name s1 s2) : Falls name s1 (exec cmd r s2).1 := h

theorem falls_verdict (name : String) (s1 s2 : CheckState) (h : Falls name s1 s2)
    (hv : verdict name s1 = false) : verdict name s2 = false := by
  rcases h with h | h
  · simpa [verdict, h] using hv
  · simp [verdict, h, mapGet_mapSet_self]

theorem falls_lookup (name : String) (s1 s2 : CheckState) (h : Falls name s1 s2) (k : String)
    (hk : k ≠ name) : mapLookup s2.Checks k = mapLookup s1.Checks k := by
  rcases h with h | h
  · rw [h]
  · rw [h]
    exact mapLookup_mapSet_other _ _ _ _ (fun e => hk e.symm)

theorem forRange_falls {α : Type} (name : String) (body : α → CheckState → Flow)
    (hbody : ∀ x s, Falls name s (body x s).state) (l : List α) (s : CheckState) :
    Falls name s (forRange body l s).state := by
  induction l generalizing s with
  | nil => exact falls_refl name s
  | cons x xs ih =>
    have hx := hbody x s
    unfold forRange
    cases hb : body x s with
    | next s1 =>
      rw [hb] at hx
      exact falls_trans name s s1 _ hx (ih s1)
    | ret s1 => rw [hb] at hx; exact hx
    | panic s1 => rw [hb] at hx; exact hx
    | fatal s1 => rw [hb] at hx; exact hx

theorem andThen_falls (name : String) (f : Flow) (k : CheckState → Flow) (s : CheckState)
    (hf : Falls name s f.state) (hk : ∀ s1, Falls name s1 (k s1).state) :
    Falls name s (f.andThen k).state := by
  cases f with
  | next s1 => exact falls_trans name s s1 _ hf (hk s1)
  | ret s1 => exact hf
  | panic s1 => exact hf
  | fatal s1 => exact hf

theorem forRange_falls_from {α : Type} (name : String) (body : α → CheckState → Flow)
    (l : List α) (s0 s : CheckState) (hs : Falls name s0 s)
    (hbody : ∀ x s, Falls name s (body x s).state) :
    Falls name s0 (forRange body l s).state :=
  falls_trans name s0 s _ hs (forRange_falls name body hbody l s)

theorem andThen_falls_from (name : String) (f : Flow) (k : CheckState → Flow) (s0 : CheckState)
    (hf : Falls name s0 f.state) (hk : ∀ s1, Falls name s1 (k s1).state) :
    Falls name s0 (f.andThen k).state :=
  andThen_falls name f k s0 hf hk

theorem CheckSnapshots_body_falls (name : String) (x : String) (s : CheckState) :
    Falls name s (CheckSnapshots.body name x s).state := by
  unfold CheckSnapshots.body
  try simp only [exec, ExecCmd]
  repeat' (first | split | simp only [])
  all_goals
    repeat (first
      | exact Or.inl rfl
      | apply falls_setVerdict
      | apply falls_put
      | apply falls_cmdFailedLn
      | apply falls_CmdFailed
      | apply falls_CmdFailOk
      | apply andThen_falls_from
      | apply forRange_falls_from
      | intro _)

theorem CheckETLC_body_falls (name d : String) (run : Nat → CmdResult) (x : Nat × String) (s : CheckState) :
    Falls name s (CheckETLC.body name d run x s).state := by
  unfold CheckETLC.body
  try simp only [exec, ExecCmd]
  repeat' (first | split | simp only [])
  all_goals
    repeat (first
      | exact Or.inl rfl
      | apply falls_setVerdict
      | apply falls_put
      | apply falls_cmdFailedLn
      | apply falls_CmdFailed
      | apply falls_CmdFailOk
      | apply andThen_falls_from
      | apply forRange_falls_from
      | intro _)

theorem CheckMCs_body_falls (name : String) (x : String) (s : CheckState) :
    Falls name s (CheckMCs.body  x s).state := by
  unfold CheckMCs.body
  try simp only [exec, ExecCmd]
  repeat' (first | split | simp only [])
  all_goals
    repeat (first
      | exact Or.inl rfl
      | apply falls_setVerdict
      | apply falls_put
      | apply falls_cmdFailedLn
      | apply falls_CmdFailed
      | apply falls_CmdFailOk
      | apply andThen_falls_from
      | apply forRange_falls_from
      | intro _)

theorem CheckDisks_body_falls (name : String) (x : String) (s : CheckState) :
    Falls name s (CheckDisks.body  x s).state := by
  unfold CheckDisks.body
  try simp only [exec, ExecCmd]
  repeat' (first | split | simp only [])
  all_goals
    repeat (first
      | exact Or.inl rfl
      | apply falls_setVerdict
      | apply falls_put
      | apply falls_cmdFailedLn
      | apply falls_CmdFailed
      | apply falls_CmdFailOk
      | apply andThen_falls_from
      | apply forRange_falls_from
      | intro _)

theorem CheckSyDb_body_falls (name : String) (x : String) (s : CheckState) :
    Falls name s (CheckSyDb.body name x s).state := by
  unfold CheckSyDb.body
  try simp only [exec, ExecCmd]
  repeat' (first | split | simp only [])
  all_goals
    repeat (first
      | exact Or.inl rfl
      | apply falls_setVerdict
      | apply falls_put
      | apply falls_cmdFailedLn
      | apply falls_CmdFailed
      | apply falls_CmdFailOk
      | apply andThen_falls_from
      | apply forRange_falls_from
      | intro _)

theorem CheckSyLogSize_body_falls (name : String) (x : String) (s : CheckState) :
    Falls name s (CheckSyLogSize.body name x s).state := by
  unfold CheckSyLogSize.body
  try simp only [exec, ExecCmd]
  repeat' (first | split | simp only [])
  all_goals
    repeat (first
      | exact Or.inl rfl
      | apply falls_setVerdict
      | apply falls_put
      | apply falls_cmdFailedLn
      | apply falls_CmdFailed
      | apply falls_CmdFailOk
      | apply andThen_falls_from
      | apply forRange_falls_from
      | intro _)

theorem MonErrLog_body_falls (name : String) (x : String) (s : CheckState) :
    Falls name s (MonErrLog.body  x s).state := by
  unfold MonErrLog.body
  try simp only [exec, ExecCmd]
  repeat' (first | split | simp only [])
  all_goals
    repeat (first
      | exact Or.inl rfl
      | apply falls_setVerdict
      | apply falls_put
      | apply falls_cmdFailedLn
      | apply falls_CmdFailed
      | apply falls_CmdFailOk
      | apply andThen_falls_from
      | apply forRange_falls_from
      | intro _)

theorem MonConfigExports_body_falls (name : String) (x : String × Int) (s : CheckState) :
    Falls name s (MonConfigExports.body name x s).state := by
  unfold MonConfigExports.body
  try simp only [exec, ExecCmd]
  repeat' (first | split | simp only [])
  all_goals
    repeat (first
      | exact Or.inl rfl
      | apply falls_setVerdict
      | apply falls_put
      | apply falls_cmdFailedLn
      | apply falls_CmdFailed
      | apply falls_CmdFailOk
      | apply andThen_falls_from
      | apply forRange_falls_from
      | intro _)

theorem MonNetLog_body_falls (name : String) (x : String) (s : CheckState) :
    Falls name s (MonNetLog.body  x s).state := by
  unfold MonNetLog.body
  try simp only [exec, ExecCmd]
  repeat' (first | split | simp only [])
  all_goals
    repeat (first
      | exact Or.inl rfl
      | apply falls_setVerdict
      | apply falls_put
      | apply falls_cmdFailedLn
      | apply falls_CmdFailed
      | apply falls_CmdFailOk
      | apply andThen_falls_from
      | apply forRange_falls_from
      | intro _)

theorem CheckCoreFiles_body_falls (name : String) (x : String) (s : CheckState) :
    Falls name s (CheckCoreFiles.body  x s).state := by
  unfold CheckCoreFiles.body
  try simp only [exec, ExecCmd]
  repeat' (first | split | simp only [])
  all_goals
    repeat (first
      | exact Or.inl rfl
      | apply falls_setVerdict
      | apply falls_put
      | apply falls_cmdFailedLn
      | apply falls_CmdFailed
      | apply falls_CmdFailOk
      | apply andThen_falls_from
      | apply forRange_falls_from
      | intro _)

theorem CheckOutOfMem_body_falls (name : String) (x : String) (s : CheckState) :
    Falls name s (CheckOutOfMem.body  x s).state := by
  unfold CheckOutOfMem.body
  try simp only [exec, ExecCmd]
  repeat' (first | split | simp only [])
  all_goals
    repeat (first
      | exact Or.inl rfl
      | apply falls_setVerdict
      | apply falls_put
      | apply falls_cmdFailedLn
      | apply falls_CmdFailed
      | apply falls_CmdFailOk
      | apply andThen_falls_from
      | apply forRange_falls_from
      | intro _)

theorem CheckSecurity_body_falls (name : String) (x : String) (s : CheckState) :
    Falls name s (CheckSecurity.body  x s).state := by
  unfold CheckSecurity.body
  try simp only [exec, ExecCmd]
  repeat' (first | split | simp only [])
  all_goals
    repeat (first
      | exact Or.inl rfl
      | apply falls_setVerdict
      | apply falls_put
      | apply falls_cmdFailedLn
      | apply falls_CmdFailed
      | apply falls_CmdFailOk
      | apply andThen_falls_from
      | apply forRange_falls_from
      | intro _)

theorem CheckVeritas_body_falls (name : String) (x : String) (s : CheckState) :
    Falls name s (CheckVeritas.body name x s).state := by
  unfold CheckVeritas.body
  try simp only [exec, ExecCmd]
  repeat' (first | split | simp only [])
  all_goals
    repeat (first
      | exact Or.inl rfl
      | apply falls_setVerdict
      | apply falls_put
      | apply falls_cmdFailedLn
      | apply falls_CmdFailed
      | apply falls_CmdFailOk
      | apply andThen_falls_from
      | apply forRange_falls_from
      | intro _)

theorem CheckSyDump_body_falls (name : String) (x : String) (s : CheckState) :
    Falls name s (CheckSyDump.body name x s).state := by
  unfold CheckSyDump.body
  try simp only [exec, ExecCmd]
  repeat' (first | split | simp only [])
  all_goals
    repeat (first
      | exact Or.inl rfl
      | apply falls_setVerdict
      | apply falls_put
      | apply falls_cmdFailedLn
      | apply falls_CmdFailed
      | apply falls_CmdFailOk
      | apply andThen_falls_from
      | apply forRange_falls_from
      | intro _)

theorem CheckHomeSU_body_falls (fl : Float64) (name : String) (threshold : Int) (x : String) (s : CheckState) :
    Falls name s (CheckHomeSU.body fl name threshold x s).state := by
  unfold CheckHomeSU.body
  try simp only [exec, ExecCmd]
  repeat' (first | split | simp only [])
  all_goals
    repeat (first
      | exact Or.inl rfl
      | apply falls_setVerdict
      | apply falls_put
      | apply falls_cmdFailedLn
      | apply falls_CmdFailed
      | apply falls_CmdFailOk
      | apply andThen_falls_from
      | apply forRange_falls_from
      | intro _)

theorem CheckDBA_body_falls (name : String) (x : String) (s : CheckState) :
    Falls name s (CheckDBA.body name x s).state := by
  unfold CheckDBA.body
  try simp only [exec, ExecCmd]
  repeat' (first | split | simp only [])
  all_goals
    repeat (first
      | exact Or.inl rfl
      | apply falls_setVerdict
      | apply falls_put
      | apply falls_cmdFailedLn
      | apply falls_CmdFailed
      | apply falls_CmdFailOk
      | apply andThen_falls_from
      | apply forRange_falls_from
      | intro _)

theorem CheckVrstDb_body_falls (name : String) (printout : List String) (x : Nat × String) (s : CheckState) :
    Falls name s (CheckVrstDb.body name printout x s).state := by
  unfold CheckVrstDb.body
  try simp only [exec, ExecCmd]
  repeat' (first | split | simp only [])
  all_goals
    repeat (first
      | exact Or.inl rfl
      | apply falls_setVerdict
      | apply falls_put
      | apply falls_cmdFailedLn
      | apply falls_CmdFailed
      | apply falls_CmdFailOk
      | apply andThen_falls_from
      | apply forRange_falls_from
      | intro _)

theorem CheckVrstDbSU_body_falls (name : String) (x : String) (s : CheckState) :
    Falls name s (CheckVrstDbSU.body name x s).state := by
  unfold CheckVrstDbSU.body
  try simp only [exec, ExecCmd]
  repeat' (first | split | simp only [])
  all_goals
    repeat (first
      | exact Or.inl rfl
      | apply falls_setVerdict
      | apply falls_put
      | apply falls_cmdFailedLn
      | apply falls_CmdFailed
      | apply falls_CmdFailOk
      | apply andThen_falls_from
      | apply forRange_falls_from
      | intro _)

theorem CheckBsmAdjusts_body_falls (name : String) (x : String) (s : CheckState) :
    Falls name s (CheckBsmAdjusts.body name x s).state := by
  unfold CheckBsmAdjusts.body
  try simp only [exec, ExecCmd]
  repeat' (first | split | simp only [])
  all_goals
    repeat (first
      | exact Or.inl rfl
      | apply falls_setVerdict
      | apply falls_put
      | apply falls_cmdFailedLn
      | apply falls_CmdFailed
      | apply falls_CmdFailOk
      | apply andThen_falls_from
      | apply forRange_falls_from
      | intro _)

theorem CheckCnaAdjusts_body_falls (name : String) (x : String) (s : CheckState) :
    Falls name s (CheckCnaAdjusts.body name x s).state := by
  unfold CheckCnaAdjusts.body
  try simp only [exec, ExecCmd]
  repeat' (first | split | simp only [])
  all_goals
    repeat (first
      | exact Or.inl rfl
      | apply falls_setVerdict
      | apply falls_put
      | apply falls_cmdFailedLn
      | apply falls_CmdFailed
      | apply falls_CmdFailOk
      | apply andThen_falls_from
      | apply forRange_falls_from
      | intro _)

theorem KillOldSessions_kill_falls (name : String) (run : Nat → CmdResult) (x : Nat × String) (s : CheckState) :
    Falls name s (KillOldSessions.kill  run x s).state := by
  unfold KillOldSessions.kill
  try simp only [exec, ExecCmd]
  repeat' (first | split | simp only [])
  all_goals
    repeat (first
      | exact Or.inl rfl
      | apply falls_setVerdict
      | apply falls_put
      | apply falls_cmdFailedLn
      | apply falls_CmdFailed
      | apply falls_CmdFailOk
      | apply andThen_falls_from
      | apply forRange_falls_from
      | intro _)

theorem CheckNetBackupClients_body_falls (name : String) (run : Nat → CmdResult) (x : Nat × String) (s : CheckState) :
    Falls name s (CheckNetBackupClients.body name run x s).state := by
  unfold CheckNetBackupClients.body
  try simp only [exec, ExecCmd]
  repeat' (first | split | simp only [])
  all_goals
    repeat (first
      | exact Or.inl rfl
      | apply falls_setVerdict
      | apply falls_put
      | apply falls_cmdFailedLn
      | apply falls_CmdFailed
      | apply falls_CmdFailOk
      | apply andThen_falls_from
      | apply forRange_falls_from
      | intro _)

theorem CheckBackupPoliciesSchedExec_body_falls (name host weekday date : String) (run : Nat → CmdResult) (x : Nat × (String × String)) (s : CheckState) :
    Falls name s (CheckBackupPoliciesSchedExec.body name host weekday date run x s).state := by
  unfold CheckBackupPoliciesSchedExec.body
  try simp only [exec, ExecCmd]
  repeat' (first | split | simp only [])
  all_goals
    repeat (first
      | exact Or.inl rfl
      | apply falls_setVerdict
      | apply falls_put
      | apply falls_cmdFailedLn
      | apply falls_CmdFailed
      | apply falls_CmdFailOk
      | apply andThen_falls_from
      | apply forRange_falls_from
      | intro _)

theorem CheckZfsPoolStatus_body_falls (name : String) (x : String) (s : CheckState) :
    Falls name s (CheckZfsPoolStatus.body name x s).state := by
  unfold CheckZfsPoolStatus.body
  try simp only [exec, ExecCmd]
  repeat' (first | split | simp only [])
  all_goals
    repeat (first
      | exact Or.inl rfl
      | apply falls_setVerdict
      | apply falls_put
      | apply falls_cmdFailedLn
      | apply falls_CmdFailed
      | apply falls_CmdFailOk
      | apply andThen_falls_from
      | apply forRange_falls_from
      | intro _)

theorem CheckZfsPoolSU_body_falls (name host : String) (x : String) (s : CheckState) :
    Falls name s (CheckZfsPoolSU.body name host x s).state := by
  unfold CheckZfsPoolSU.body
  try simp only [exec, ExecCmd]
  repeat' (first | split | simp only [])
  all_goals
    repeat (first
      | exact Or.inl rfl
      | apply falls_setVerdict
      | apply falls_put
      | apply falls_cmdFailedLn
      | apply falls_CmdFailed
      | apply falls_CmdFailOk
      | apply andThen_falls_from
      | apply forRange_falls_from
      | intro _)

theorem CheckZfsPoolErrors_body_falls (name : String) (printout : List String) (x : Nat × String) (s : CheckState) :
    Falls name s (CheckZfsPoolErrors.body name printout x s).state := by
  unfold CheckZfsPoolErrors.body
  try simp only [exec, ExecCmd]
  repeat' (first | split | simp only [])
  all_goals
    repeat (first
      | exact Or.inl rfl
      | apply falls_setVerdict
      | apply falls_put
      | apply falls_cmdFailedLn
      | apply falls_CmdFailed
      | apply falls_CmdFailOk
      | apply andThen_falls_from
      | apply forRange_falls_from
      | intro _)

theorem CheckSrvs_body_falls (name : String) (run : Nat → CmdResult) (x : Nat × String) (s : CheckState) :
    Falls name s (CheckSrvs.body name run x s).state := by
  unfold CheckSrvs.body
  try simp only [exec, ExecCmd]
  repeat' (first | split | simp only [])
  all_goals
    repeat (first
      | exact Or.inl rfl
      | apply falls_setVerdict
      | apply falls_put
      | apply falls_cmdFailedLn
      | apply falls_CmdFailed
      | apply falls_CmdFailOk
      | apply andThen_falls_from
      | apply forRange_falls_from
      | intro _)

theorem CheckNodesFilesUpdate_body_falls (name d : String) (printout : List String) (x : String) (s : CheckState) :
    Falls name s (CheckNodesFilesUpdate.body name d printout x s).state := by
  unfold CheckNodesFilesUpdate.body
  try simp only [exec, ExecCmd]
  repeat' (first | split | simp only [])
  all_goals
    repeat (first
      | exact Or.inl rfl
      | apply falls_setVerdict
      | apply falls_put
      | apply falls_cmdFailedLn
      | apply falls_CmdFailed
      | apply falls_CmdFailOk
      | apply andThen_falls_from
      | apply forRange_falls_from
      | intro _)

theorem MonRestarts_inner_falls (name user : String) (i : Nat) (run : List Nat → CmdResult) (x : Nat × String) (s : CheckState) :
    Falls name s (MonRestarts.inner name user i run x s).state := by
  unfold MonRestarts.inner
  try simp only [exec, ExecCmd]
  repeat' (first | split | simp only [])
  all_goals
    repeat (first
      | exact Or.inl rfl
      | apply falls_setVerdict
      | apply falls_put
      | apply falls_cmdFailedLn
      | apply falls_CmdFailed
      | apply falls_CmdFailOk
      | apply andThen_falls_from
      | apply forRange_falls_from
      | intro _)

theorem CheckBeadm_falls (st : CheckState) (r : CmdResult) :
    Falls "CheckBeadm" (setVerdict "CheckBeadm" true st) (CheckBeadm st r).state := by
  simp only [CheckBeadm, runCmd, exec, ExecCmd]
  repeat' (first | split | simp only [])
  all_goals
    repeat (first
      | exact Or.inl rfl
      | exact Or.inl (mapSet_mapSet_same _ _ _ _)
      | split
      | apply andThen_falls_from
      | apply forRange_falls_from
      | apply falls_setVerdict
      | apply falls_put
      | apply falls_cmdFailedLn
      | apply falls_CmdFailed
      | apply falls_CmdFailOk
      | intro _)

theorem CheckSnapshots_falls (now : Now) (st : CheckState) (r : CmdResult) :
    Falls "CheckSnapshots" (setVerdict "CheckSnapshots" true st) (CheckSnapshots now st r).state := by
  simp only [CheckSnapshots, runCmd, exec, ExecCmd]
  repeat' (first | split | simp only [])
  all_goals
    repeat (first
      | exact Or.inl rfl
      | exact Or.inl (mapSet_mapSet_same _ _ _ _)
      | split
      | apply CheckSnapshots_body_falls
      | apply andThen_falls_from
      | apply forRange_falls_from
      | apply falls_setVerdict
      | apply falls_put
      | apply falls_cmdFailedLn
      | apply falls_CmdFailed
      | apply falls_CmdFailOk
      | intro _)

theorem EnmNativeHC_falls (st : CheckState) (r : CmdResult) :
    Falls "EnmNativeHC" (setVerdict "EnmNativeHC" true st) (EnmNativeHC st r).state := by
  simp only [EnmNativeHC, runCmd, exec, ExecCmd]
  repeat' (first | split | simp only [])
  all_goals
    repeat (first
      | exact Or.inl rfl
      | exact Or.inl (mapSet_mapSet_same _ _ _ _)
      | split
      | apply andThen_falls_from
      | apply forRange_falls_from
      | apply falls_setVerdict
      | apply falls_put
      | apply falls_cmdFailedLn
      | apply falls_CmdFailed
      | apply falls_CmdFailOk
      | intro _)

theorem CheckMCs_falls (st : CheckState) (r : CmdResult) :
    Falls "CheckMCs" (setVerdict "CheckMCs" true st) (CheckMCs st r).state := by
  simp only [CheckMCs, runCmd, exec, ExecCmd]
  repeat' (first | split | simp only [])
  all_goals
    repeat (first
      | exact Or.inl rfl
      | exact Or.inl (mapSet_mapSet_same _ _ _ _)
      | split
      | apply CheckMCs_body_falls
      | apply andThen_falls_from
      | apply forRange_falls_from
      | apply falls_setVerdict
      | apply falls_put
      | apply falls_cmdFailedLn
      | apply falls_CmdFailed
      | apply falls_CmdFailOk
      | intro _)

theorem CheckDisks_falls (st : CheckState) (r : CmdResult) :
    Falls "CheckDisks" (setVerdict "CheckDisks" true st) (CheckDisks st r).state := by
  simp only [CheckDisks, runCmd, exec, ExecCmd]
  repeat' (first | split | simp only [])
  all_goals
    repeat (first
      | exact Or.inl rfl
      | exact Or.inl (mapSet_mapSet_same _ _ _ _)
      | split
      | apply CheckDisks_body_falls
      | apply andThen_falls_from
      | apply forRange_falls_from
      | apply falls_setVerdict
      | apply falls_put
      | apply falls_cmdFailedLn
      | apply falls_CmdFailed
      | apply falls_CmdFailOk
      | intro _)

theorem CheckSyDb_falls (st : CheckState) (r : CmdResult) :
    Falls "CheckSyDb" (setVerdict "CheckSyDb" true st) (CheckSyDb st r).state := by
  simp only [CheckSyDb, runCmd, exec, ExecCmd]
  repeat' (first | split | simp only [])
  all_goals
    repeat (first
      | exact Or.inl rfl
      | exact Or.inl (mapSet_mapSet_same _ _ _ _)
      | split
      | apply CheckSyDb_body_falls
      | apply andThen_falls_from
      | apply forRange_falls_from
      | apply falls_setVerdict
      | apply falls_put
      | apply falls_cmdFailedLn
      | apply falls_CmdFailed
      | apply falls_CmdFailOk
      | intro _)

theorem CheckVrstDataMon_falls (st : CheckState) (r : CmdResult) :
    Falls "CheckVrstDataMon" (setVerdict "CheckVrstDataMon" true st) (CheckVrstDataMon st r).state := by
  simp only [CheckVrstDataMon, runCmd, exec, ExecCmd]
  repeat' (first | split | simp only [])
  all_goals
    repeat (first
      | exact Or.inl rfl
      | exact Or.inl (mapSet_mapSet_same _ _ _ _)
      | split
      | apply andThen_falls_from
      | apply forRange_falls_from
      | apply falls_setVerdict
      | apply falls_put
      | apply falls_cmdFailedLn
      | apply falls_CmdFailed
      | apply falls_CmdFailOk
      | intro _)

theorem CheckFailProc_falls (st : CheckState) (r : CmdResult) :
    Falls "CheckFailProc" (setVerdict "CheckFailProc" true st) (CheckFailProc st r).state := by
  simp only [CheckFailProc, runCmd, exec, ExecCmd]
  repeat' (first | split | simp only [])
  all_goals
    repeat (first
      | exact Or.inl rfl
      | exact Or.inl (mapSet_mapSet_same _ _ _ _)
      | split
      | apply andThen_falls_from
      | apply forRange_falls_from
      | apply falls_setVerdict
      | apply falls_put
      | apply falls_cmdFailedLn
      | apply falls_CmdFailed
      | apply falls_CmdFailOk
      | intro _)

theorem CheckWtmpx_falls (st : CheckState) (r : CmdResult) :
    Falls "CheckWtmpx" (setVerdict "CheckWtmpx" true st) (CheckWtmpx st r).state := by
  simp only [CheckWtmpx, runCmd, exec, ExecCmd]
  repeat' (first | split | simp only [])
  all_goals
    repeat (first
      | exact Or.inl rfl
      | exact Or.inl (mapSet_mapSet_same _ _ _ _)
      | split
      | apply andThen_falls_from
      | apply forRange_falls_from
      | apply falls_setVerdict
      | apply falls_put
      | apply falls_cmdFailedLn
      | apply falls_CmdFailed
      | apply falls_CmdFailOk
      | intro _)

theorem CheckSyLogSize_falls (st : CheckState) (r : CmdResult) :
    Falls "CheckSyLogSize" (setVerdict "CheckSyLogSize" true st) (CheckSyLogSize st r).state := by
  simp only [CheckSyLogSize, runCmd, exec, ExecCmd]
  repeat' (first | split | simp only [])
  all_goals
    repeat (first
      | exact Or.inl rfl
      | exact Or.inl (mapSet_mapSet_same _ _ _ _)
      | split
      | apply CheckSyLogSize_body_falls
      | apply andThen_falls_from
      | apply forRange_falls_from
      | apply falls_setVerdict
      | apply falls_put
      | apply falls_cmdFailedLn
      | apply falls_CmdFailed
      | apply falls_CmdFailOk
      | intro _)

theorem CheckNrOfBackupPolicies_falls (host : String) (st : CheckState) (r : CmdResult) :
    Falls "CheckNrOfBackupPolicies" (setVerdict "CheckNrOfBackupPolicies" true st) (CheckNrOfBackupPolicies host st r).state := by
  simp only [CheckNrOfBackupPolicies, runCmd, exec, ExecCmd]
  repeat' (first | split | simp only [])
  all_goals
    repeat (first
      | exact Or.inl rfl
      | exact Or.inl (mapSet_mapSet_same _ _ _ _)
      | split
      | apply andThen_falls_from
      | apply forRange_falls_from
      | apply falls_setVerdict
      | apply falls_put
      | apply falls_cmdFailedLn
      | apply falls_CmdFailed
      | apply falls_CmdFailOk
      | intro _)

theorem CheckSyErrLog_falls (now : Now) (st : CheckState) (r : CmdResult) :
    Falls "CheckSyErrLog" (setVerdict "CheckSyErrLog" true st) (CheckSyErrLog now st r).state := by
  simp only [CheckSyErrLog, runCmd, exec, ExecCmd]
  repeat' (first | split | simp only [])
  all_goals
    repeat (first
      | exact Or.inl rfl
      | exact Or.inl (mapSet_mapSet_same _ _ _ _)
      | split
      | apply andThen_falls_from
      | apply forRange_falls_from
      | apply falls_setVerdict
      | apply falls_put
      | apply falls_cmdFailedLn
      | apply falls_CmdFailed
      | apply falls_CmdFailOk
      | intro _)

theorem MonErrLog_falls (now : Now) (st : CheckState) (r : CmdResult) :
    Falls "MonErrLog" (setVerdict "MonErrLog" true st) (MonErrLog now st r).state := by
  simp only [MonErrLog, runCmd, exec, ExecCmd]
  repeat' (first | split | simp only [])
  all_goals
    repeat (first
      | exact Or.inl rfl
      | exact Or.inl (mapSet_mapSet_same _ _ _ _)
      | split
      | apply MonErrLog_body_falls
      | apply andThen_falls_from
      | apply forRange_falls_from
      | apply falls_setVerdict
      | apply falls_put
      | apply falls_cmdFailedLn
      | apply falls_CmdFailed
      | apply falls_CmdFailOk
      | intro _)

theorem MonConfigExports_falls (now : Now) (st : CheckState) (r : CmdResult) :
    Falls "MonConfigExports" (setVerdict "MonConfigExports" true st) (MonConfigExports now st r).state := by
  simp only [MonConfigExports, runCmd, exec, ExecCmd]
  repeat' (first | split | simp only [])
  all_goals
    repeat (first
      | exact Or.inl rfl
      | exact Or.inl (mapSet_mapSet_same _ _ _ _)
      | split
      | apply MonConfigExports_body_falls
      | apply andThen_falls_from
      | apply forRange_falls_from
      | apply falls_setVerdict
      | apply falls_put
      | apply falls_cmdFailedLn
      | apply falls_CmdFailed
      | apply falls_CmdFailOk
      | intro _)

theorem MonNetLog_falls (now : Now) (st : CheckState) (r : CmdResult) :
    Falls "MonNetLog" (setVerdict "MonNetLog" true st) (MonNetLog now st r).state := by
  simp only [MonNetLog, runCmd, exec, ExecCmd]
  repeat' (first | split | simp only [])
  all_goals
    repeat (first
      | exact Or.inl rfl
      | exact Or.inl (mapSet_mapSet_same _ _ _ _)
      | split
      | apply MonNetLog_body_falls
      | apply andThen_falls_from
      | apply forRange_falls_from
      | apply falls_setVerdict
      | apply falls_put
      | apply falls_cmdFailedLn
      | apply falls_CmdFailed
      | apply falls_CmdFailOk
      | intro _)

theorem ValDiagProcCache_falls (st : CheckState) (r : CmdResult) :
    Falls "ValDiagProcCache" (setVerdict "ValDiagProcCache" true st) (ValDiagProcCache st r).state := by
  simp only [ValDiagProcCache, runCmd, exec, ExecCmd]
  repeat' (first | split | simp only [])
  all_goals
    repeat (first
      | exact Or.inl rfl
      | exact Or.inl (mapSet_mapSet_same _ _ _ _)
      | split
      | apply andThen_falls_from
      | apply forRange_falls_from
      | apply falls_setVerdict
      | apply falls_put
      | apply falls_cmdFailedLn
      | apply falls_CmdFailed
      | apply falls_CmdFailOk
      | intro _)

theorem CheckCoreFiles_falls (st : CheckState) (r : CmdResult) :
    Falls "CheckCoreFiles" (setVerdict "CheckCoreFiles" true st) (CheckCoreFiles st r).state := by
  simp only [CheckCoreFiles, runCmd, exec, ExecCmd]
  repeat' (first | split | simp only [])
  all_goals
    repeat (first
      | exact Or.inl rfl
      | exact Or.inl (mapSet_mapSet_same _ _ _ _)
      | split
      | apply CheckCoreFiles_body_falls
      | apply andThen_falls_from
      | apply forRange_falls_from
      | apply falls_setVerdict
      | apply falls_put
      | apply falls_cmdFailedLn
      | apply falls_CmdFailed
      | apply falls_CmdFailOk
      | intro _)

theorem CheckOutOfMem_falls (st : CheckState) (r : CmdResult) :
    Falls "CheckOutOfMem" (setVerdict "CheckOutOfMem" true st) (CheckOutOfMem st r).state := by
  simp only [CheckOutOfMem, runCmd, exec, ExecCmd]
  repeat' (first | split | simp only [])
  all_goals
    repeat (first
      | exact Or.inl rfl
      | exact Or.inl (mapSet_mapSet_same _ _ _ _)
      | split
      | apply CheckOutOfMem_body_falls
      | apply andThen_falls_from
      | apply forRange_falls_from
      | apply falls_setVerdict
      | apply falls_put
      | apply falls_cmdFailedLn
      | apply falls_CmdFailed
      | apply falls_CmdFailOk
      | intro _)

theorem CheckSecurity_falls (st : CheckState) (r : CmdResult) :
    Falls "CheckSecurity" (setVerdict "CheckSecurity" true st) (CheckSecurity st r).state := by
  simp only [CheckSecurity, runCmd, exec, ExecCmd]
  repeat' (first | split | simp only [])
  all_goals
    repeat (first
      | exact Or.inl rfl
      | exact Or.inl (mapSet_mapSet_same _ _ _ _)
      | split
      | apply CheckSecurity_body_falls
      | apply andThen_falls_from
      | apply forRange_falls_from
      | apply falls_setVerdict
      | apply falls_put
      | apply falls_cmdFailedLn
      | apply falls_CmdFailed
      | apply falls_CmdFailOk
      | intro _)

theorem CheckVeritas_falls (st : CheckState) (r : CmdResult) :
    Falls "CheckVeritas" (setVerdict "CheckVeritas" true st) (CheckVeritas st r).state := by
  simp only [CheckVeritas, runCmd, exec, ExecCmd]
  repeat' (first | split | simp only [])
  all_goals
    repeat (first
      | exact Or.inl rfl
      | exact Or.inl (mapSet_mapSet_same _ _ _ _)
      | split
      | apply CheckVeritas_body_falls
      | apply andThen_falls_from
      | apply forRange_falls_from
      | apply falls_setVerdict
      | apply falls_put
      | apply falls_cmdFailedLn
      | apply falls_CmdFailed
      | apply falls_CmdFailOk
      | intro _)

theorem CheckSyDump_falls (st : CheckState) (r : CmdResult) :
    Falls "CheckSyDump" (setVerdict "CheckSyDump" true st) (CheckSyDump st r).state := by
  simp only [CheckSyDump, runCmd, exec, ExecCmd]
  repeat' (first | split | simp only [])
  all_goals
    repeat (first
      | exact Or.inl rfl
      | exact Or.inl (mapSet_mapSet_same _ _ _ _)
      | split
      | apply CheckSyDump_body_falls
      | apply andThen_falls_from
      | apply forRange_falls_from
      | apply falls_setVerdict
      | apply falls_put
      | apply falls_cmdFailedLn
      | apply falls_CmdFailed
      | apply falls_CmdFailOk
      | intro _)

theorem CheckHomeSU_falls (fl : Float64) (st : CheckState) (r : CmdResult) :
    Falls "CheckHomeSU" (setVerdict "CheckHomeSU" true st) (CheckHomeSU fl st r).state := by
  simp only [CheckHomeSU, runCmd, exec, ExecCmd]
  repeat' (first | split | simp only [])
  all_goals
    repeat (first
      | exact Or.inl rfl
      | exact Or.inl (mapSet_mapSet_same _ _ _ _)
      | split
      | apply CheckHomeSU_body_falls
      | apply andThen_falls_from
      | apply forRange_falls_from
      | apply falls_setVerdict
      | apply falls_put
      | apply falls_cmdFailedLn
      | apply falls_CmdFailed
      | apply falls_CmdFailOk
      | intro _)

theorem CheckMoshellLogSU_falls (fl : Float64) (st : CheckState) (r : CmdResult) :
    Falls "CheckMoshellLogSU" (setVerdict "CheckMoshellLogSU" true st) (CheckMoshellLogSU fl st r).state := by
  simp only [CheckMoshellLogSU, runCmd, exec, ExecCmd]
  repeat' (first | split | simp only [])
  all_goals
    repeat (first
      | exact Or.inl rfl
      | exact Or.inl (mapSet_mapSet_same _ _ _ _)
      | split
      | apply CheckHomeSU_body_falls
      | apply andThen_falls_from
      | apply forRange_falls_from
      | apply falls_setVerdict
      | apply falls_put
      | apply falls_cmdFailedLn
      | apply falls_CmdFailed
      | apply falls_CmdFailOk
      | intro _)

theorem CheckDBA_falls (st : CheckState) (r : CmdResult) :
    Falls "CheckDBA" (setVerdict "CheckDBA" true st) (CheckDBA st r).state := by
  simp only [CheckDBA, runCmd, exec, ExecCmd]
  repeat' (first | split | simp only [])
  all_goals
    repeat (first
      | exact Or.inl rfl
      | exact Or.inl (mapSet_mapSet_same _ _ _ _)
      | split
      | apply CheckDBA_body_falls
      | apply andThen_falls_from
      | apply forRange_falls_from
      | apply falls_setVerdict
      | apply falls_put
      | apply falls_cmdFailedLn
      | apply falls_CmdFailed
      | apply falls_CmdFailOk
      | intro _)

theorem CheckVrstDb_falls (st : CheckState) (r : CmdResult) :
    Falls "CheckVrstDb" (setVerdict "CheckVrstDb" true st) (CheckVrstDb st r).state := by
  simp only [CheckVrstDb, runCmd, exec, ExecCmd]
  repeat' (first | split | simp only [])
  all_goals
    repeat (first
      | exact Or.inl rfl
      | exact Or.inl (mapSet_mapSet_same _ _ _ _)
      | split
      | apply CheckVrstDb_body_falls
      | apply andThen_falls_from
      | apply forRange_falls_from
      | apply falls_setVerdict
      | apply falls_put
      | apply falls_cmdFailedLn
      | apply falls_CmdFailed
      | apply falls_CmdFailOk
      | intro _)

theorem CheckVrstDbSU_falls (st : CheckState) (r : CmdResult) :
    Falls "CheckVrstDbSU" (setVerdict "CheckVrstDbSU" true st) (CheckVrstDbSU st r).state := by
  simp only [CheckVrstDbSU, runCmd, exec, ExecCmd]
  repeat' (first | split | simp only [])
  all_goals
    repeat (first
      | exact Or.inl rfl
      | exact Or.inl (mapSet_mapSet_same _ _ _ _)
      | split
      | apply CheckVrstDbSU_body_falls
      | apply andThen_falls_from
      | apply forRange_falls_from
      | apply falls_setVerdict
      | apply falls_put
      | apply falls_cmdFailedLn
      | apply falls_CmdFailed
      | apply falls_CmdFailOk
      | intro _)

theorem MonVrstDb_falls (st : CheckState) (r : CmdResult) :
    Falls "MonVrstDb" (setVerdict "MonVrstDb" true st) (MonVrstDb st r).state := by
  simp only [MonVrstDb, runCmd, exec, ExecCmd]
  repeat' (first | split | simp only [])
  all_goals
    repeat (first
      | exact Or.inl rfl
      | exact Or.inl (mapSet_mapSet_same _ _ _ _)
      | split
      | apply andThen_falls_from
      | apply forRange_falls_from
      | apply falls_setVerdict
      | apply falls_put
      | apply falls_cmdFailedLn
      | apply falls_CmdFailed
      | apply falls_CmdFailOk
      | intro _)

theorem CheckBsmAdjusts_falls (now : Now) (st : CheckState) (r : CmdResult) :
    Falls "CheckBsmAdjusts" (setVerdict "CheckBsmAdjusts" true st) (CheckBsmAdjusts now st r).state := by
  simp only [CheckBsmAdjusts, runCmd, exec, ExecCmd]
  repeat' (first | split | simp only [])
  all_goals
    repeat (first
      | exact Or.inl rfl
      | exact Or.inl (mapSet_mapSet_same _ _ _ _)
      | split
      | apply CheckBsmAdjusts_body_falls
      | apply andThen_falls_from
      | apply forRange_falls_from
      | apply falls_setVerdict
      | apply falls_put
      | apply falls_cmdFailedLn
      | apply falls_CmdFailed
      | apply falls_CmdFailOk
      | intro _)

theorem CheckCnaAdjusts_falls (now : Now) (st : CheckState) (r : CmdResult) :
    Falls "CheckCnaAdjusts" (setVerdict "CheckCnaAdjusts" true st) (CheckCnaAdjusts now st r).state := by
  simp only [CheckCnaAdjusts, runCmd, exec, ExecCmd]
  repeat' (first | split | simp only [])
  all_goals
    repeat (first
      | exact Or.inl rfl
      | exact Or.inl (mapSet_mapSet_same _ _ _ _)
      | split
      | apply CheckCnaAdjusts_body_falls
      | apply andThen_falls_from
      | apply forRange_falls_from
      | apply falls_setVerdict
      | apply falls_put
      | apply falls_cmdFailedLn
      | apply falls_CmdFailed
      | apply falls_CmdFailOk
      | intro _)

theorem CheckHwResources_falls (st : CheckState) (r : CmdResult) :
    Falls "CheckHwResources" (setVerdict "CheckHwResources" true st) (CheckHwResources st r).state := by
  simp only [CheckHwResources, passThrough, runCmd, exec, ExecCmd]
  repeat' (first | split | simp only [])
  all_goals
    repeat (first
      | exact Or.inl rfl
      | exact Or.inl (mapSet_mapSet_same _ _ _ _)
      | split
      | apply andThen_falls_from
      | apply forRange_falls_from
      | apply falls_setVerdict
      | apply falls_put
      | apply falls_cmdFailedLn
      | apply falls_CmdFailed
      | apply falls_CmdFailOk
      | intro _)

theorem CheckNas_falls (st : CheckState) (r : CmdResult) :
    Falls "CheckNas" (setVerdict "CheckNas" true st) (CheckNas st r).state := by
  simp only [CheckNas, passThrough, runCmd, exec, ExecCmd]
  repeat' (first | split | simp only [])
  all_goals
    repeat (first
      | exact Or.inl rfl
      | exact Or.inl (mapSet_mapSet_same _ _ _ _)
      | split
      | apply andThen_falls_from
      | apply forRange_falls_from
      | apply falls_setVerdict
      | apply falls_put
      | apply falls_cmdFailedLn
      | apply falls_CmdFailed
      | apply falls_CmdFailOk
      | intro _)

theorem CheckStoragePool_falls (st : CheckState) (r : CmdResult) :
    Falls "CheckStoragePool" (setVerdict "CheckStoragePool" true st) (CheckStoragePool st r).state := by
  simp only [CheckStoragePool, passThrough, runCmd, exec, ExecCmd]
  repeat' (first | split | simp only [])
  all_goals
    repeat (first
      | exact Or.inl rfl
      | exact Or.inl (mapSet_mapSet_same _ _ _ _)
      | split
      | apply andThen_falls_from
      | apply forRange_falls_from
      | apply falls_setVerdict
      | apply falls_put
      | apply falls_cmdFailedLn
      | apply falls_CmdFailed
      | apply falls_CmdFailOk
      | intro _)

theorem CheckStaleMount_falls (st : CheckState) (r : CmdResult) :
    Falls "CheckStaleMount" (setVerdict "CheckStaleMount" true st) (CheckStaleMount st r).state := by
  simp only [CheckStaleMount, passThrough, runCmd, exec, ExecCmd]
  repeat' (first | split | simp only [])
  all_goals
    repeat (first
      | exact Or.inl rfl
      | exact Or.inl (mapSet_mapSet_same _ _ _ _)
      | split
      | apply andThen_falls_from
      | apply forRange_falls_from
      | apply falls_setVerdict
      | apply falls_put
      | apply falls_cmdFailedLn
      | apply falls_CmdFailed
      | apply falls_CmdFailOk
      | intro _)

theorem CheckNodeFs_falls (st : CheckState) (r : CmdResult) :
    Falls "CheckNodeFs" (setVerdict "CheckNodeFs" true st) (CheckNodeFs st r).state := by
  simp only [CheckNodeFs, passThrough, runCmd, exec, ExecCmd]
  repeat' (first | split | simp only [])
  all_goals
    repeat (first
      | exact Or.inl rfl
      | exact Or.inl (mapSet_mapSet_same _ _ _ _)
      | split
      | apply andThen_falls_from
      | apply forRange_falls_from
      | apply falls_setVerdict
      | apply falls_put
      | apply falls_cmdFailedLn
      | apply falls_CmdFailed
      | apply falls_CmdFailOk
      | intro _)

theorem CheckSystemService_falls (st : CheckState) (r : CmdResult) :
    Falls "CheckSystemService" (setVerdict "CheckSystemService" true st) (CheckSystemService st r).state := by
  simp only [CheckSystemService, passThrough, runCmd, exec, ExecCmd]
  repeat' (first | split | simp only [])
  all_goals
    repeat (first
      | exact Or.inl rfl
      | exact Or.inl (mapSet_mapSet_same _ _ _ _)
      | split
      | apply andThen_falls_from
      | apply forRange_falls_from
      | apply falls_setVerdict
      | apply falls_put
      | apply falls_cmdFailedLn
      | apply falls_CmdFailed
      | apply falls_CmdFailOk
      | intro _)

theorem CheckVcsCluster_falls (st : CheckState) (r : CmdResult) :
    Falls "CheckVcsCluster" (setVerdict "CheckVcsCluster" true st) (CheckVcsCluster st r).state := by
  simp only [CheckVcsCluster, passThrough, runCmd, exec, ExecCmd]
  repeat' (first | split | simp only [])
  all_goals
    repeat (first
      | exact Or.inl rfl
      | exact Or.inl (mapSet_mapSet_same _ _ _ _)
      | split
      | apply andThen_falls_from
      | apply forRange_falls_from
      | apply falls_setVerdict
      | apply falls_put
      | apply falls_cmdFailedLn
      | apply falls_CmdFailed
      | apply falls_CmdFailOk
      | intro _)

theorem CheckVcsLltHeartbeat_falls (st : CheckState) (r : CmdResult) :
    Falls "CheckVcsLltHeartbeat" (setVerdict "CheckVcsLltHeartbeat" true st) (CheckVcsLltHeartbeat st r).state := by
  simp only [CheckVcsLltHeartbeat, passThrough, runCmd, exec, ExecCmd]
  repeat' (first | split | simp only [])
  all_goals
    repeat (first
      | exact Or.inl rfl
      | exact Or.inl (mapSet_mapSet_same _ _ _ _)
      | split
      | apply andThen_falls_from
      | apply forRange_falls_from
      | apply falls_setVerdict
      | apply falls_put
      | apply falls_cmdFailedLn
      | apply falls_CmdFailed
      | apply falls_CmdFailOk
      | intro _)

theorem CheckVcsServiceGroup_falls (st : CheckState) (r : CmdResult) :
    Falls "CheckVcsServiceGroup" (setVerdict "CheckVcsServiceGroup" true st) (CheckVcsServiceGroup st r).state := by
  simp only [CheckVcsServiceGroup, passThrough, runCmd, exec, ExecCmd]
  repeat' (first | split | simp only [])
  all_goals
    repeat (first
      | exact Or.inl rfl
      | exact Or.inl (mapSet_mapSet_same _ _ _ _)
      | split
      | apply andThen_falls_from
      | apply forRange_falls_from
      | apply falls_setVerdict
      | apply falls_put
      | apply falls_cmdFailedLn
      | apply falls_CmdFailed
      | apply falls_CmdFailOk
      | intro _)

theorem CheckConsul_falls (st : CheckState) (r : CmdResult) :
    Falls "CheckConsul" (setVerdict "CheckConsul" true st) (CheckConsul st r).state := by
  simp only [CheckConsul, passThrough, runCmd, exec, ExecCmd]
  repeat' (first | split | simp only [])
  all_goals
    repeat (first
      | exact Or.inl rfl
      | exact Or.inl (mapSet_mapSet_same _ _ _ _)
      | split
      | apply andThen_falls_from
      | apply forRange_falls_from
      | apply falls_setVerdict
      | apply falls_put
      | apply falls_cmdFailedLn
      | apply falls_CmdFailed
      | apply falls_CmdFailOk
      | intro _)

theorem CheckMultipathActive_falls (st : CheckState) (r : CmdResult) :
    Falls "CheckMultipathActive" (setVerdict "CheckMultipathActive" true st) (CheckMultipathActive st r).state := by
  simp only [CheckMultipathActive, passThrough, runCmd, exec, ExecCmd]
  repeat' (first | split | simp only [])
  all_goals
    repeat (first
      | exact Or.inl rfl
      | exact Or.inl (mapSet_mapSet_same _ _ _ _)
      | split
      | apply andThen_falls_from
      | apply forRange_falls_from
      | apply falls_setVerdict
      | apply falls_put
      | apply falls_cmdFailedLn
      | apply falls_CmdFailed
      | apply falls_CmdFailOk
      | intro _)

theorem CheckPuppetEnabled_falls (st : CheckState) (r : CmdResult) :
    Falls "CheckPuppetEnabled" (setVerdict "CheckPuppetEnabled" true st) (CheckPuppetEnabled st r).state := by
  simp only [CheckPuppetEnabled, passThrough, runCmd, exec, ExecCmd]
  repeat' (first | split | simp only [])
  all_goals
    repeat (first
      | exact Or.inl rfl
      | exact Or.inl (mapSet_mapSet_same _ _ _ _)
      | split
      | apply andThen_falls_from
      | apply forRange_falls_from
      | apply falls_setVerdict
      | apply falls_put
      | apply falls_cmdFailedLn
      | apply falls_CmdFailed
      | apply falls_CmdFailOk
      | intro _)

theorem CheckSanAlert_falls (st : CheckState) (r : CmdResult) :
    Falls "CheckSanAlert" (setVerdict "CheckSanAlert" true st) (CheckSanAlert st r).state := by
  simp only [CheckSanAlert, passThrough, runCmd, exec, ExecCmd]
  repeat' (first | split | simp only [])
  all_goals
    repeat (first
      | exact Or.inl rfl
      | exact Or.inl (mapSet_mapSet_same _ _ _ _)
      | split
      | apply andThen_falls_from
      | apply forRange_falls_from
      | apply falls_setVerdict
      | apply falls_put
      | apply falls_cmdFailedLn
      | apply falls_CmdFailed
      | apply falls_CmdFailOk
      | intro _)

theorem CheckMdt_falls (st : CheckState) (r : CmdResult) :
    Falls "CheckMdt" (setVerdict "CheckMdt" true st) (CheckMdt st r).state := by
  simp only [CheckMdt, passThrough, runCmd, exec, ExecCmd]
  repeat' (first | split | simp only [])
  all_goals
    repeat (first
      | exact Or.inl rfl
      | exact Or.inl (mapSet_mapSet_same _ _ _ _)
      | split
      | apply andThen_falls_from
      | apply forRange_falls_from
      | apply falls_setVerdict
      | apply falls_put
      | apply falls_cmdFailedLn
      | apply falls_CmdFailed
      | apply falls_CmdFailOk
      | intro _)

theorem CheckZfsPoolStatus_falls (st : CheckState) (r : CmdResult) :
    Falls "CheckZfsPoolStatus" (setVerdict "CheckZfsPoolStatus" true st) (CheckZfsPoolStatus st r).state := by
  simp only [CheckZfsPoolStatus, runCmd, exec, ExecCmd]
  repeat' (first | split | simp only [])
  all_goals
    repeat (first
      | exact Or.inl rfl
      | exact Or.inl (mapSet_mapSet_same _ _ _ _)
      | split
      | apply CheckZfsPoolStatus_body_falls
      | apply andThen_falls_from
      | apply forRange_falls_from
      | apply falls_setVerdict
      | apply falls_put
      | apply falls_cmdFailedLn
      | apply falls_CmdFailed
      | apply falls_CmdFailOk
      | intro _)

theorem CheckZfsPoolSU_falls (host : String) (st : CheckState) (r : CmdResult) :
    Falls "CheckZfsPoolSU" (setVerdict "CheckZfsPoolSU" true st) (CheckZfsPoolSU host st r).state := by
  simp only [CheckZfsPoolSU, runCmd, exec, ExecCmd]
  repeat' (first | split | simp only [])
  all_goals
    repeat (first
      | exact Or.inl rfl
      | exact Or.inl (mapSet_mapSet_same _ _ _ _)
      | split
      | apply CheckZfsPoolSU_body_falls
      | apply andThen_falls_from
      | apply forRange_falls_from
      | apply falls_setVerdict
      | apply falls_put
      | apply falls_cmdFailedLn
      | apply falls_CmdFailed
      | apply falls_CmdFailOk
      | intro _)

theorem CheckZfsPoolErrors_falls (st : CheckState) (r : CmdResult) :
    Falls "CheckZfsPoolErrors" (setVerdict "CheckZfsPoolErrors" true st) (CheckZfsPoolErrors st r).state := by
  simp only [CheckZfsPoolErrors, runCmd, exec, ExecCmd]
  repeat' (first | split | simp only [])
  all_goals
    repeat (first
      | exact Or.inl rfl
      | exact Or.inl (mapSet_mapSet_same _ _ _ _)
      | split
      | apply CheckZfsPoolErrors_body_falls
      | apply andThen_falls_from
      | apply forRange_falls_from
      | apply falls_setVerdict
      | apply falls_put
      | apply falls_cmdFailedLn
      | apply falls_CmdFailed
      | apply falls_CmdFailOk
      | intro _)

theorem CheckHostUptime_falls (st : CheckState) (r : CmdResult) :
    Falls "CheckHostUptime" (setVerdict "CheckHostUptime" true st) (CheckHostUptime st r).state := by
  simp only [CheckHostUptime, runCmd, exec, ExecCmd]
  repeat' (first | split | simp only [])
  all_goals
    repeat (first
      | exact Or.inl rfl
      | exact Or.inl (mapSet_mapSet_same _ _ _ _)
      | split
      | apply andThen_falls_from
      | apply forRange_falls_from
      | apply falls_setVerdict
      | apply falls_put
      | apply falls_cmdFailedLn
      | apply falls_CmdFailed
      | apply falls_CmdFailOk
      | intro _)

theorem CheckMountingOk_falls (st : CheckState) (r : CmdResult) :
    Falls "CheckMountingOk" (setVerdict "CheckMountingOk" true st) (CheckMountingOk st r).state := by
  simp only [CheckMountingOk, runCmd, exec, ExecCmd]
  repeat' (first | split | simp only [])
  all_goals
    repeat (first
      | exact Or.inl rfl
      | exact Or.inl (mapSet_mapSet_same _ _ _ _)
      | split
      | apply andThen_falls_from
      | apply forRange_falls_from
      | apply falls_setVerdict
      | apply falls_put
      | apply falls_cmdFailedLn
      | apply falls_CmdFailed
      | apply falls_CmdFailOk
      | intro _)

theorem CheckBashrc_falls (st : CheckState) (r : CmdResult) :
    Falls "CheckBashrc" (setVerdict "CheckBashrc" true st) (CheckBashrc st r).state := by
  simp only [CheckBashrc, runCmd, exec, ExecCmd]
  repeat' (first | split | simp only [])
  all_goals
    repeat (first
      | exact Or.inl rfl
      | exact Or.inl (mapSet_mapSet_same _ _ _ _)
      | split
      | apply andThen_falls_from
      | apply forRange_falls_from
      | apply falls_setVerdict
      | apply falls_put
      | apply falls_cmdFailedLn
      | apply falls_CmdFailed
      | apply falls_CmdFailOk
      | intro _)

theorem CheckNodesFilesUpdate_falls (now : Now) (st : CheckState) (r : CmdResult) :
    Falls "CheckNodesFilesUpdate" (setVerdict "CheckNodesFilesUpdate" true st) (CheckNodesFilesUpdate now st r).state := by
  simp only [CheckNodesFilesUpdate, runCmd, exec, ExecCmd]
  repeat' (first | split | simp only [])
  all_goals
    repeat (first
      | exact Or.inl rfl
      | exact Or.inl (mapSet_mapSet_same _ _ _ _)
      | split
      | apply CheckNodesFilesUpdate_body_falls
      | apply andThen_falls_from
      | apply forRange_falls_from
      | apply falls_setVerdict
      | apply falls_put
      | apply falls_cmdFailedLn
      | apply falls_CmdFailed
      | apply falls_CmdFailOk
      | intro _)

theorem CheckETLC_falls (now : Now) (run : Nat → CmdResult) (st : CheckState) :
    Falls "CheckETLC" (setVerdict "CheckETLC" true st) (CheckETLC now run st).state := by
  simp only [CheckETLC, runCmd, exec, ExecCmd]
  repeat (first
    | exact Or.inl rfl
    | exact Or.inl (mapSet_mapSet_same _ _ _ _)
    | split
    | apply CheckETLC_body_falls
    | apply andThen_falls_from
    | apply forRange_falls_from
    | apply falls_setVerdict
    | apply falls_put
    | apply falls_cmdFailedLn
    | apply falls_CmdFailed
    | apply falls_CmdFailOk
    | intro _)

theorem CheckSrvs_falls (host : String) (run : Nat → CmdResult) (st : CheckState) :
    Falls "CheckSrvs" (setVerdict "CheckSrvs" true st) (CheckSrvs host run st).state := by
  simp only [CheckSrvs, runCmd, exec, ExecCmd]
  repeat (first
    | exact Or.inl rfl
    | exact Or.inl (mapSet_mapSet_same _ _ _ _)
    | split
    | apply CheckSrvs_body_falls
    | apply andThen_falls_from
    | apply forRange_falls_from
    | apply falls_setVerdict
    | apply falls_put
    | apply falls_cmdFailedLn
    | apply falls_CmdFailed
    | apply falls_CmdFailOk
    | intro _)

theorem CheckNetBackupClients_falls (run : Nat → CmdResult) (st : CheckState) :
    Falls "CheckNetBackupClients" (setVerdict "CheckNetBackupClients" true st) (CheckNetBackupClients run st).state := by
  simp only [CheckNetBackupClients, runCmd, exec, ExecCmd]
  repeat' (first | split | simp only [])
  all_goals
    repeat (first
      | exact Or.inl rfl
      | exact Or.inl (mapSet_mapSet_same _ _ _ _)
      | split
      | apply CheckNetBackupClients_body_falls
      | apply andThen_falls_from
      | apply forRange_falls_from
      | apply falls_setVerdict
      | apply falls_put
      | apply falls_cmdFailedLn
      | apply falls_CmdFailed
      | apply falls_CmdFailOk
      | intro _)

theorem CheckBackupPoliciesSchedExec_falls (host : String) (now : Now) (run : Nat → CmdResult) (st : CheckState) :
    Falls "CheckBackupPoliciesSchedExec" (setVerdict "CheckBackupPoliciesSchedExec" true st) (CheckBackupPoliciesSchedExec host now run st).state := by
  simp only [CheckBackupPoliciesSchedExec, runCmd, exec, ExecCmd]
  repeat (first
    | exact Or.inl rfl
    | exact Or.inl (mapSet_mapSet_same _ _ _ _)
    | split
    | apply CheckBackupPoliciesSchedExec_body_falls
    | apply andThen_falls_from
    | apply forRange_falls_from
    | apply falls_setVerdict
    | apply falls_put
    | apply falls_cmdFailedLn
    | apply falls_CmdFailed
    | apply falls_CmdFailOk
    | intro _)

theorem MonRestarts_outer_falls (name d : String) (run : List Nat → CmdResult) (x : Nat × String)
    (s : CheckState) : Falls name s (MonRestarts.outer name d run x s).state := by
  unfold MonRestarts.outer
  simp only [exec, ExecCmd]
  repeat' (first | split | simp only [])
  all_goals
    repeat (first
      | exact Or.inl rfl
      | exact Or.inl (mapSet_mapSet_same _ _ _ _)
      | split
      | apply MonRestarts_inner_falls
      | apply andThen_falls_from
      | apply forRange_falls_from
      | apply falls_setVerdict
      | apply falls_put
      | apply falls_cmdFailedLn
      | apply falls_CmdFailed
      | apply falls_CmdFailOk
      | intro _)

theorem MonRestarts_falls (now : Now) (run : List Nat → CmdResult) (st : CheckState) :
    Falls "MonRestarts" (setVerdict "MonRestarts" true st) (MonRestarts now run st).state := by
  simp only [MonRestarts, runCmd, exec, ExecCmd]
  repeat' (first | split | simp only [])
  all_goals
    repeat (first
      | exact Or.inl rfl
      | exact Or.inl (mapSet_mapSet_same _ _ _ _)
      | split
      | apply MonRestarts_outer_falls
      | apply andThen_falls_from
      | apply forRange_falls_from
      | apply falls_setVerdict
      | apply falls_put
      | apply falls_cmdFailedLn
      | apply falls_CmdFailed
      | apply falls_CmdFailOk
      | intro _)

theorem KillOldSessions_collect_falls (name : String) (l pids : List String) (s : CheckState) :
    Falls name s (KillOldSessions.collect l pids s).1.state := by
  induction l generalizing pids s with
  | nil => exact Or.inl rfl
  | cons x rest ih =>
    unfold KillOldSessions.collect
    repeat' (first | split | simp only [])
    · exact ih _ _
    · exact Or.inl rfl
    · exact Or.inl rfl
    · exact falls_trans _ _ _ _ (falls_put _ _ _ _ (falls_refl _ _)) (ih _ _)

theorem KillOldSessions_collect_falls_of_eq (name : String) (l pids : List String)
    (s : CheckState) (f : Flow) (pids2 : List String)
    (h : KillOldSessions.collect l pids s = (f, pids2)) : Falls name s f.state := by
  have h0 := KillOldSessions_collect_falls name l pids s
  rw [h] at h0
  exact h0

theorem KillOldSessions_falls (now : Now) (run : Nat → CmdResult) (st : CheckState) :
    Falls "KillOldSessions" (setVerdict "KillOldSessions" true st)
      (KillOldSessions now run st).state := by
  simp only [KillOldSessions, runCmd, exec, ExecCmd]
  repeat' (first | split | simp only [])
  · exact falls_cmdFailedLn _ _ _ (Or.inl rfl)
  · exact falls_put _ _ _ _ (Or.inl rfl)
  · exact falls_setVerdict _ _ _ (Or.inl rfl)
  · rename_i st3 pids heq
    have h := KillOldSessions_collect_falls_of_eq "KillOldSessions" _ _ _ _ _ heq
    refine forRange_falls_from _ _ _ _ _ ?_ (fun x s => KillOldSessions_kill_falls _ run x s)
    exact falls_trans _ _ _ _ (falls_setVerdict _ _ _ (Or.inl rfl)) h
  · rename_i heq
    have h := KillOldSessions_collect_falls_of_eq "KillOldSessions" _ _ _ _ _ heq
    exact falls_trans _ _ _ _ (falls_setVerdict _ _ _ (Or.inl rfl)) h

theorem CheckSrvsUptime_loop_falls (name : String) (prevTime : GoMap String)
    (run : Nat → CmdResult) (l : List (Nat × String)) (wSrvs : String) (s : CheckState) :
    Falls name s (CheckSrvsUptime.loop name prevTime run l wSrvs s).1.state := by
  induction l generalizing wSrvs s with
  | nil => exact Or.inl rfl
  | cons x rest ih =>
    unfold CheckSrvsUptime.loop
    simp only [exec, ExecCmd]
    repeat' (first | split | simp only [])
    all_goals
      first
      | exact Or.inl rfl
      | (refine falls_trans _ _ _ _ ?_ (ih _ _)
         repeat (first
           | exact Or.inl rfl
           | apply falls_setVerdict
           | apply falls_put
           | apply falls_CmdFailed))

theorem CheckSrvsUptime_loop_falls_of_eq (name : String) (prevTime : GoMap String)
    (run : Nat → CmdResult) (l : List (Nat × String)) (wSrvs : String) (s : CheckState)
    (f : Flow) (w2 : String) (h : CheckSrvsUptime.loop name prevTime run l wSrvs s = (f, w2)) :
    Falls name s f.state := by
  have h0 := CheckSrvsUptime_loop_falls name prevTime run l wSrvs s
  rw [h] at h0
  exact h0

theorem CheckSrvsUptime_writer_falls (name : String) (createErr : Option String)
    (s : CheckState) : Falls name s (CheckSrvsUptime.writer createErr s) := by
  cases createErr <;> exact Or.inl rfl

theorem CheckSrvsUptime_close_falls (name : String) (createErr : Option String)
    (flushErr : Bool) (s : CheckState) (p : Flow × String) (h : Falls name s p.1.state) :
    Falls name s (CheckSrvsUptime.close createErr flushErr p).1.state := by
  rcases p with ⟨f, w⟩
  cases f <;> simp only [CheckSrvsUptime.close] <;> first | exact h | (split <;> exact h)

theorem CheckSrvsUptime_falls (host : String) (history createErr : Option String)
    (flushErr : Bool) (run : Nat → CmdResult) (st : CheckState) :
    Falls "CheckSrvsUptime" (setVerdict "CheckSrvsUptime" true st)
      (CheckSrvsUptime host history createErr flushErr run st).1.state := by
  unfold CheckSrvsUptime
  simp only []
  split
  · exact Or.inl rfl
  · split
    · exact Or.inl rfl
    · exact CheckSrvsUptime_close_falls _ _ _ _ _
        (falls_trans _ _ _ _ (CheckSrvsUptime_writer_falls _ _ _)
          (CheckSrvsUptime_loop_falls _ _ _ _ _ _))

theorem CheckSyBackLog_falls (now : Now) (st : CheckState) (r : CmdResult)
    (hday : now.weekday = Weekday.Sunday) :
    Falls "CheckSyBackLog" (setVerdict "CheckSyBackLog" true st) (CheckSyBackLog now st r).state := by
  have hs : now.weekday.str = "Sunday" := by rw [hday]; rfl
  simp only [CheckSyBackLog, hs, ne_eq, not_true_eq_false, if_false, runCmd, exec, ExecCmd]
  repeat' (first | split | simp only [])
  all_goals
    repeat (first
      | exact Or.inl rfl
      | exact Or.inl (mapSet_mapSet_same _ _ _ _)
      | split
      | apply andThen_falls_from
      | apply forRange_falls_from
      | apply falls_setVerdict
      | apply falls_put
      | apply falls_cmdFailedLn
      | apply falls_CmdFailed
      | apply falls_CmdFailOk
      | intro _)

/-! ### What the checks do after a failed command -/

theorem verdict_CmdFailed (name : String) (s : CheckState) :
    verdict name (CmdFailed name s) = false := by
  simp [verdict, CmdFailed, mapGet_mapSet_self]

theorem verdict_cmdFailedLn (name : String) (s : CheckState) :
    verdict name (cmdFailedLn name s) = false := by
  simp [verdict, cmdFailedLn, put, CmdFailed, mapGet_mapSet_self]

theorem verdict_setVerdict (name : String) (b : Bool) (s : CheckState) :
    verdict name (setVerdict name b s) = b := by
  simp [verdict, setVerdict, mapGet_mapSet_self]

theorem verdict_put (name t : String) (s : CheckState) :
    verdict name (put t s) = verdict name s := rfl

theorem put_put (a b : String) (s : CheckState) : put b (put a s) = put (a ++ b) s := by
  simp [put, String.append_assoc]

theorem put_empty (s : CheckState) : put "" s = s := by
  simp [put]

theorem forRange_echo {α : Type} (f : α → String) (l : List α) (s : CheckState) :
    forRange (fun x st => Flow.next (put (f x) st)) l s = Flow.next (put (joinText (l.map f)) s) := by
  induction l generalizing s with
  | nil => simp [forRange, joinText, put_empty]
  | cons x xs ih => simp [forRange, joinText, ih, put_put]

theorem CmdFailed_setVerdict_twice (name : String) (s : CheckState) (w : String) :
    CmdFailed name { Checks := (setVerdict name true (setVerdict name true s)).Checks, w := w } =
      CmdFailed name { Checks := (setVerdict name true s).Checks, w := w } := by
  simp [CmdFailed, setVerdict, mapSet_mapSet_same]

theorem returningChecks_abort (now : Now) (host : String) (fl : Float64) (c : NamedCheck)
    (hc : c ∈ returningChecks now host fl) :
    ∃ (cmd : String) (blank : Bool), ∀ st output,
      c.2 st ⟨output, true⟩ =
        Flow.ret (if blank then cmdFailedLn c.1 (runCmd c.1 cmd ⟨"", true⟩ st).1
          else CmdFailed c.1 (runCmd c.1 cmd ⟨"", true⟩ st).1) := by
  simp only [returningChecks, List.mem_cons, List.mem_singleton, List.not_mem_nil, or_false] at hc
  rcases hc with rfl | rfl | rfl | rfl | rfl | rfl | rfl | rfl | rfl | rfl | rfl | rfl | rfl | rfl | rfl | rfl | rfl | rfl | rfl | rfl | rfl | rfl | rfl | rfl | rfl | rfl
  · exact ⟨_, false, fun st output => rfl⟩
  · exact ⟨_, false, fun st output => congrArg Flow.ret (CmdFailed_setVerdict_twice _ _ _)⟩
  all_goals exact ⟨_, true, fun st output => rfl⟩

theorem echoingChecks_echo (c : NamedCheck) (hc : c ∈ echoingChecks) :
    ∃ cmd pre, ∀ st r,
      c.2 st r =
        forRange (fun s st => Flow.next (put (pre ++ s ++ "\n") st)) (Split r.output '\n')
          (if r.err then cmdFailedLn c.1 (runCmd c.1 cmd r st).1 else (runCmd c.1 cmd r st).1) := by
  simp only [echoingChecks, List.mem_cons, List.mem_singleton, List.not_mem_nil, or_false] at hc
  rcases hc with rfl | rfl | rfl | rfl | rfl | rfl | rfl | rfl | rfl | rfl | rfl | rfl | rfl | rfl | rfl
  · refine ⟨"/opt/ericsson/enminst/bin/enm_healthcheck.sh --verbose", "", fun st r => ?_⟩
    simp only [String.empty_append]
    rfl
  all_goals exact ⟨_, "\t", fun st r => rfl⟩

theorem zfsChecks_error (host : String) (c : NamedCheck) (hc : c ∈ zfsChecks host)
    (st : CheckState) (output : String) :
    verdict c.1 (c.2 st ⟨output, true⟩).state = false := by
  simp only [zfsChecks, List.mem_cons, List.mem_singleton, List.not_mem_nil, or_false] at hc
  rcases hc with rfl | rfl | rfl
  · simp only [CheckZfsPoolStatus, runCmd, ExecCmd, if_true]
    split
    · exact verdict_cmdFailedLn _ _
    · exact falls_verdict _ _ _ (forRange_falls _ _ (CheckZfsPoolStatus_body_falls _) _ _)
        (verdict_cmdFailedLn _ _)
  · simp only [CheckZfsPoolSU, runCmd, ExecCmd, if_true]
    split
    · exact verdict_cmdFailedLn _ _
    · exact falls_verdict _ _ _ (forRange_falls _ _ (CheckZfsPoolSU_body_falls _ _) _ _)
        (verdict_cmdFailedLn _ _)
  · simp only [CheckZfsPoolErrors, runCmd, ExecCmd, if_true]
    exact falls_verdict _ _ _ (forRange_falls _ _ (CheckZfsPoolErrors_body_falls _ _) _ _)
      (verdict_cmdFailedLn _ _)

theorem forRange_hit {α : Type} (name : String) (body : α → CheckState → Flow)
    (hfalls : ∀ y s, Falls name s (body y s).state)
    (hret : ∀ y s s1, body y s = Flow.ret s1 → verdict name s1 = false)
    (x : α) (hhit : ∀ s, verdict name (body x s).state = false)
    (l : List α) (hx : x ∈ l) (s : CheckState)
    (hc : (forRange body l s).completed = true) :
    verdict name (forRange body l s).state = false := by
  induction l generalizing s with
  | nil => cases hx
  | cons y ys ih =>
    unfold forRange at hc ⊢
    cases hb : body y s with
    | next s1 =>
      rw [hb] at hc
      simp only []
      rcases List.mem_cons.mp hx with h | h
      · subst h
        have h1 := hhit s
        rw [hb] at h1
        exact falls_verdict _ _ _ (forRange_falls name body hfalls ys s1) h1
      · exact ih h s1 hc
    | ret s1 => exact hret y s s1 hb
    | panic s1 => rw [hb] at hc; cases hc
    | fatal s1 => rw [hb] at hc; cases hc

theorem CheckETLC_error (now : Now) (run : Nat → CmdResult) (st : CheckState)
    (h : (run 0).err = true ∨ (run 1).err = true) :
    (CheckETLC now run st).completed = true ∧
      verdict "CheckETLC" (CheckETLC now run st).state = false := by
  have hnext : ∀ y s, ∃ s1, CheckETLC.body "CheckETLC"
      (ReplaceAll (dateOf now.rfc3339) '-' '_') run y s = Flow.next s1 := by
    intro y s
    unfold CheckETLC.body
    simp only [exec, ExecCmd]
    repeat' (first | split | simp only [])
    all_goals exact ⟨_, rfl⟩
  have hl : indexed ["oss_2", "oss_3"] = [(0, "oss_2"), (1, "oss_3")] := rfl
  obtain ⟨s1, h1⟩ := hnext (0, "oss_2") (setVerdict "CheckETLC" true st)
  obtain ⟨s2, h2⟩ := hnext (1, "oss_3") s1
  have hflow : CheckETLC now run st = Flow.next s2 := by
    simp only [CheckETLC, hl, forRange, h1, h2]
  rw [hflow]
  refine ⟨rfl, ?_⟩
  have hf2 := CheckETLC_body_falls "CheckETLC" (ReplaceAll (dateOf now.rfc3339) '-' '_') run
    (1, "oss_3") s1
  rw [h2] at hf2
  rcases h with h | h
  · refine falls_verdict _ _ _ hf2 ?_
    have : s1 = (CheckETLC.body "CheckETLC" (ReplaceAll (dateOf now.rfc3339) '-' '_') run
        (0, "oss_2") (setVerdict "CheckETLC" true st)).state := by rw [h1]; rfl
    rw [this]
    simp [CheckETLC.body, exec, ExecCmd, h, Flow.state, verdict_CmdFailed]
  · have : s2 = (CheckETLC.body "CheckETLC" (ReplaceAll (dateOf now.rfc3339) '-' '_') run
        (1, "oss_3") s1).state := by rw [h2]; rfl
    rw [this]
    simp [CheckETLC.body, exec, ExecCmd, h, Flow.state, verdict_CmdFailed]

theorem CheckSrvs_body_ret (name : String) (run : Nat → CmdResult) (y : Nat × String)
    (s s1 : CheckState) (h : CheckSrvs.body name run y s = Flow.ret s1) :
    verdict name s1 = false := by
  revert h
  unfold CheckSrvs.body
  simp only [exec, ExecCmd]
  repeat' (first | split | simp only [])
  all_goals (intro h; cases h)

theorem CheckSrvs_error (host : String) (run : Nat → CmdResult) (st : CheckState)
    (i : Nat) (srv : String) (hi : (mapGet [] CheckSrvs.srvs host)[i]? = some srv)
    (herr : (run i).err = true) (hc : (CheckSrvs host run st).completed = true) :
    verdict "CheckSrvs" (CheckSrvs host run st).state = false := by
  simp only [CheckSrvs] at hc ⊢
  refine forRange_hit "CheckSrvs" _ (CheckSrvs_body_falls _ _) (CheckSrvs_body_ret _ _)
    (i, srv) ?_ _ (List.mk_mem_enum_iff_getElem?.mpr hi) _ hc
  intro s
  simp [CheckSrvs.body, exec, ExecCmd, herr, Flow.state, verdict_CmdFailed]

theorem CheckSrvsUptime_loop_hit (name : String) (prevTime : GoMap String)
    (run : Nat → CmdResult) (x : Nat × String) (herr : (run x.1).err = true)
    (l : List (Nat × String)) (hx : x ∈ l) (wSrvs : String) (s : CheckState)
    (f : Flow) (w2 : String)
    (heq : CheckSrvsUptime.loop name prevTime run l wSrvs s = (f, w2))
    (hc : f.completed = true) : verdict name f.state = false := by
  induction l generalizing wSrvs s with
  | nil => cases hx
  | cons y ys ih =>
    unfold CheckSrvsUptime.loop at heq
    simp only [exec, ExecCmd] at heq
    cases hy : (run y.1).err with
    | true =>
      simp only [hy, if_true] at heq
      exact falls_verdict _ _ _ (CheckSrvsUptime_loop_falls_of_eq _ _ _ _ _ _ _ _ heq)
        (verdict_CmdFailed _ _)
    | false =>
      have hxy : x ∈ ys := by
        rcases List.mem_cons.mp hx with h | h
        · subst h; rw [hy] at herr; cases herr
        · exact h
      simp only [hy, Bool.false_eq_true, if_false] at heq
      repeat' (first | split at heq | simp only [] at heq)
      all_goals first
        | (cases heq; cases hc)
        | exact ih hxy _ _ heq

theorem CheckSrvsUptime_close_hit (name : String) (createErr : Option String)
    (flushErr : Bool) (p : Flow × String)
    (hp : p.1.completed = true → verdict name p.1.state = false)
    (hc : (CheckSrvsUptime.close createErr flushErr p).1.completed = true) :
    verdict name (CheckSrvsUptime.close createErr flushErr p).1.state = false := by
  rcases p with ⟨f, w⟩
  cases f with
  | next s =>
    simp only [CheckSrvsUptime.close] at hc ⊢
    split
    · rename_i h; rw [if_pos h] at hc; cases hc
    · exact hp rfl
  | ret s => exact hp rfl
  | panic s => cases hc
  | fatal s => cases hc

theorem CheckSrvsUptime_error (host : String) (history createErr : Option String)
    (flushErr : Bool) (run : Nat → CmdResult) (st : CheckState)
    (i : Nat) (srv : String) (hi : (mapGet [] CheckSrvsUptime.srvs host)[i]? = some srv)
    (herr : (run i).err = true)
    (hc : (CheckSrvsUptime host history createErr flushErr run st).1.completed = true) :
    verdict "CheckSrvsUptime"
      (CheckSrvsUptime host history createErr flushErr run st).1.state = false := by
  have hmem : (i, srv) ∈ indexed (mapGet [] CheckSrvsUptime.srvs host) :=
    List.mk_mem_enum_iff_getElem?.mpr hi
  unfold CheckSrvsUptime at hc ⊢
  simp only [] at hc ⊢
  cases history with
  | none => cases hc
  | some content =>
    simp only [] at hc ⊢
    cases hl : CheckSrvsUptime.load (Split content '\n') [] with
    | none => rw [hl] at hc; cases hc
    | some prevTime =>
      rw [hl] at hc
      simp only [] at hc ⊢
      exact CheckSrvsUptime_close_hit _ _ _ _
        (fun hpc => CheckSrvsUptime_loop_hit "CheckSrvsUptime" prevTime run (i, srv) herr _ hmem
          _ _ _ _ rfl hpc) hc

theorem KillOldSessions_error (now : Now) (run : Nat → CmdResult) (st : CheckState)
    (h : (run 0).err = true) :
    (KillOldSessions now run st).completed = true ∧
      verdict "KillOldSessions" (KillOldSessions now run st).state = false := by
  simp only [KillOldSessions, runCmd, ExecCmd, h, if_true]
  exact ⟨rfl, verdict_cmdFailedLn _ _⟩

theorem CheckNetBackupClients_error (run : Nat → CmdResult) (st : CheckState)
    (h : (run 0).err = true) :
    (CheckNetBackupClients run st).completed = true ∧
      verdict "CheckNetBackupClients" (CheckNetBackupClients run st).state = false := by
  simp only [CheckNetBackupClients, runCmd, ExecCmd, h, if_true]
  exact ⟨rfl, verdict_cmdFailedLn _ _⟩

theorem CheckNetBackupClients_body_next (name : String) (run : Nat → CmdResult)
    (y : Nat × String) (s : CheckState) :
    ∃ s1, CheckNetBackupClients.body name run y s = Flow.next s1 := by
  unfold CheckNetBackupClients.body
  simp only [exec, ExecCmd]
  split <;> exact ⟨_, rfl⟩

theorem forRange_next {α : Type} (body : α → CheckState → Flow)
    (h : ∀ y s, ∃ s1, body y s = Flow.next s1) (l : List α) (s : CheckState) :
    ∃ s1, forRange body l s = Flow.next s1 := by
  induction l generalizing s with
  | nil => exact ⟨s, rfl⟩
  | cons y ys ih =>
    obtain ⟨s1, h1⟩ := h y s
    obtain ⟨s2, h2⟩ := ih s1
    exact ⟨s2, by simp only [forRange, h1, h2]⟩

theorem CheckNetBackupClients_client_error (run : Nat → CmdResult) (st : CheckState)
    (i : Nat) (client : String) (h0 : (run 0).err = false)
    (hi : (CheckNetBackupClients.clients (Split (run 0).output '\n') [])[i]? = some client)
    (herr : (run (i + 1)).err = true) :
    (CheckNetBackupClients run st).completed = true ∧
      verdict "CheckNetBackupClients" (CheckNetBackupClients run st).state = false := by
  simp only [CheckNetBackupClients, runCmd, ExecCmd, h0, Bool.false_eq_true, if_false]
  have hcomp : ∀ s, (forRange (CheckNetBackupClients.body "CheckNetBackupClients" run)
      (indexed (CheckNetBackupClients.clients (Split (run 0).output '\n') [])) s).completed
        = true := by
    intro s
    obtain ⟨s1, h1⟩ := forRange_next _ (CheckNetBackupClients_body_next _ run) (indexed
      (CheckNetBackupClients.clients (Split (run 0).output '\n') [])) s
    rw [h1]
    rfl
  refine ⟨hcomp _, ?_⟩
  refine forRange_hit "CheckNetBackupClients" _ (CheckNetBackupClients_body_falls _ _) ?_
    (i, client) ?_ _ (List.mk_mem_enum_iff_getElem?.mpr hi) _ (hcomp _)
  · intro y s s1 h
    obtain ⟨s2, h2⟩ := CheckNetBackupClients_body_next "CheckNetBackupClients" run y s
    rw [h2] at h
    cases h
  · intro s
    simp [CheckNetBackupClients.body, exec, ExecCmd, herr, Flow.state, verdict_setVerdict]

theorem CheckBackupPoliciesSchedExec_body_ret (name host weekday date : String)
    (run : Nat → CmdResult) (y : Nat × (String × String)) (s s1 : CheckState)
    (h : CheckBackupPoliciesSchedExec.body name host weekday date run y s = Flow.ret s1) :
    verdict name s1 = false := by
  revert h
  unfold CheckBackupPoliciesSchedExec.body
  simp only [exec, ExecCmd]
  repeat' (first | split | simp only [])
  all_goals intro h
  all_goals first
    | (cases h; exact verdict_cmdFailedLn _ _)
    | cases h

theorem CheckBackupPoliciesSchedExec_error (host : String) (now : Now) (run : Nat → CmdResult)
    (st : CheckState) (i : Nat) (policy weekdays : String)
    (hi : (mapGet [] CheckBackupPoliciesSchedExec.sched host)[i]? = some (policy, weekdays))
    (hday : Contains weekdays now.weekday.str = true ∨ Contains weekdays "All" = true)
    (herr : (run i).err = true)
    (hc : (CheckBackupPoliciesSchedExec host now run st).completed = true) :
    verdict "CheckBackupPoliciesSchedExec"
      (CheckBackupPoliciesSchedExec host now run st).state = false := by
  simp only [CheckBackupPoliciesSchedExec] at hc ⊢
  refine forRange_hit "CheckBackupPoliciesSchedExec" _
    (CheckBackupPoliciesSchedExec_body_falls _ _ _ _ _)
    (CheckBackupPoliciesSchedExec_body_ret _ _ _ _ _)
    (i, (policy, weekdays)) ?_ _ (List.mk_mem_enum_iff_getElem?.mpr hi) _ hc
  intro s
  have hcond : (!Contains weekdays now.weekday.str && !Contains weekdays "All") = false := by
    rcases hday with h | h <;> simp [h]
  simp only [CheckBackupPoliciesSchedExec.body, exec, ExecCmd, hcond, herr, Bool.false_eq_true,
    if_false, if_true, Flow.state]
  exact verdict_cmdFailedLn _ _

theorem CheckSyBackLog_error (now : Now) (st : CheckState) (output : String)
    (hday : now.weekday = Weekday.Sunday) :
    (CheckSyBackLog now st ⟨output, true⟩).completed = true ∧
      verdict "CheckSyBackLog" (CheckSyBackLog now st ⟨output, true⟩).state = false := by
  have hs : now.weekday.str = "Sunday" := by rw [hday]; rfl
  simp only [CheckSyBackLog, hs, ne_eq, not_true_eq_false, if_false, runCmd, ExecCmd, if_true]
  exact ⟨rfl, verdict_cmdFailedLn _ _⟩

theorem CheckMountingOk_error (st : CheckState) (output : String) :
    (CheckMountingOk st ⟨output, true⟩).completed = true ∧
      verdict "CheckMountingOk" (CheckMountingOk st ⟨output, true⟩).state = false :=
  ⟨rfl, verdict_setVerdict _ _ _⟩

theorem CheckDisksSU_error (st : CheckState) (output : String) :
    ∃ s, CheckDisksSU st ⟨output, true⟩ = some s ∧ verdict "CheckDisksSU" s = false :=
  ⟨_, rfl, verdict_CmdFailed _ _⟩

theorem CheckOssDisksSU_error (st : CheckState) (output : String) :
    ∃ s, CheckOssDisksSU st ⟨output, true⟩ = some s ∧ verdict "CheckOssDisksSU" s = false :=
  ⟨_, rfl, verdict_cmdFailedLn _ _⟩

theorem MonRestarts_later_commands (now : Now) (run : List Nat → CmdResult) (st : CheckState)
    (notNoc : List String) (h0 : (run []).err = false)
    (hcol : MonRestarts.collect (Split (run []).output '\n') [] = some notNoc)
    (hlen : notNoc.length ≠ 0) :
    verdict "MonRestarts" (MonRestarts now run st).state = false := by
  simp only [MonRestarts, runCmd, ExecCmd, h0, Bool.false_eq_true, if_false, hcol, hlen]
  exact falls_verdict _ _ _ (forRange_falls _ _ (MonRestarts_outer_falls _ _ _) _ _)
    (verdict_setVerdict _ _ _)

/-- C14: in every default-policy check a failed command leaves the verdict
`false` under the name of the check, whatever the returned output is. The
one-command checks that return after `CmdFailed`, the ENM checks that go on
printing the output, and `CheckMountingOk` run to their end with the verdict
`false`; the three ZFS checks hold `false` in the state where they stop;
`CheckDisksSU` and `CheckOssDisksSU` return with `false`; `CheckSyBackLog` runs
its command on a Sunday only and then returns with `false`; in the checks with
several commands the verdict is `false` at the end of the check as soon as one
of the commands that were run has failed; `MonRestarts` runs its later commands
with the verdict `false` already recorded. -/
theorem command_error_records_false (now : Now) (host : String) (fl : Float64)
    (st : CheckState) (output : String) :
    (∀ c ∈ returningChecks now host fl ++ echoingChecks ++
        [("CheckMountingOk", CheckMountingOk)],
      (c.2 st ⟨output, true⟩).completed = true ∧
        verdict c.1 (c.2 st ⟨output, true⟩).state = false) ∧
    (∀ c ∈ zfsChecks host, verdict c.1 (c.2 st ⟨output, true⟩).state = false) ∧
    (∃ s, CheckDisksSU st ⟨output, true⟩ = some s ∧ verdict "CheckDisksSU" s = false) ∧
    (∃ s, CheckOssDisksSU st ⟨output, true⟩ = some s ∧ verdict "CheckOssDisksSU" s = false) ∧
    (now.weekday = Weekday.Sunday →
      (CheckSyBackLog now st ⟨output, true⟩).completed = true ∧
        verdict "CheckSyBackLog" (CheckSyBackLog now st ⟨output, true⟩).state = false) ∧
    (∀ run : Nat → CmdResult, (run 0).err = true →
      (KillOldSessions now run st).completed = true ∧
        verdict "KillOldSessions" (KillOldSessions now run st).state = false) ∧
    (∀ run : Nat → CmdResult, (run 0).err = true →
      (CheckNetBackupClients run st).completed = true ∧
        verdict "CheckNetBackupClients" (CheckNetBackupClients run st).state = false) ∧
    (∀ (run : Nat → CmdResult) (i : Nat) (client : String), (run 0).err = false →
      (CheckNetBackupClients.clients (Split (run 0).output '\n') [])[i]? = some client →
      (run (i + 1)).err = true →
      (CheckNetBackupClients run st).completed = true ∧
        verdict "CheckNetBackupClients" (CheckNetBackupClients run st).state = false) ∧
    (∀ run : Nat → CmdResult, (run 0).err = true ∨ (run 1).err = true →
      (CheckETLC now run st).completed = true ∧
        verdict "CheckETLC" (CheckETLC now run st).state = false) ∧
    (∀ (run : Nat → CmdResult) (i : Nat) (srv : String),
      (mapGet [] CheckSrvs.srvs host)[i]? = some srv → (run i).err = true →
      (CheckSrvs host run st).completed = true →
      verdict "CheckSrvs" (CheckSrvs host run st).state = false) ∧
    (∀ (history createErr : Option String) (flushErr : Bool) (run : Nat → CmdResult) (i : Nat)
        (srv : String),
      (mapGet [] CheckSrvsUptime.srvs host)[i]? = some srv → (run i).err = true →
      (CheckSrvsUptime host history createErr flushErr run st).1.completed = true →
      verdict "CheckSrvsUptime"
        (CheckSrvsUptime host history createErr flushErr run st).1.state = false) ∧
    (∀ (run : Nat → CmdResult) (i : Nat) (policy weekdays : String),
      (mapGet [] CheckBackupPoliciesSchedExec.sched host)[i]? = some (policy, weekdays) →
      (Contains weekdays now.weekday.str = true ∨ Contains weekdays "All" = true) →
      (run i).err = true →
      (CheckBackupPoliciesSchedExec host now run st).completed = true →
      verdict "CheckBackupPoliciesSchedExec"
        (CheckBackupPoliciesSchedExec host now run st).state = false) ∧
    ((DeepCheckETLC now.rfc3339 st ⟨output, true⟩).completed = true ∧
      verdict "DeepCheckETLC" (DeepCheckETLC now.rfc3339 st ⟨output, true⟩).state = false) ∧
    (∀ (run : List Nat → CmdResult) (notNoc : List String), (run []).err = false →
      MonRestarts.collect (Split (run []).output '\n') [] = some notNoc → notNoc.length ≠ 0 →
      verdict "MonRestarts" (MonRestarts now run st).state = false) := by
  refine ⟨?_, fun c hc => zfsChecks_error host c hc st output, CheckDisksSU_error st output,
    CheckOssDisksSU_error st output, CheckSyBackLog_error now st output,
    fun run h => KillOldSessions_error now run st h,
    fun run h => CheckNetBackupClients_error run st h,
    fun run i client h0 hi herr => CheckNetBackupClients_client_error run st i client h0 hi herr,
    fun run h => CheckETLC_error now run st h,
    fun run i srv hi herr hc => CheckSrvs_error host run st i srv hi herr hc,
    fun history createErr flushErr run i srv hi herr hc =>
      CheckSrvsUptime_error host history createErr flushErr run st i srv hi herr hc,
    fun run i policy weekdays hi hday herr hc =>
      CheckBackupPoliciesSchedExec_error host now run st i policy weekdays hi hday herr hc,
    ⟨rfl, verdict_CmdFailed _ _⟩,
    fun run notNoc h0 hcol hlen => MonRestarts_later_commands now run st notNoc h0 hcol hlen⟩
  intro c hc
  rcases List.mem_append.mp hc with hc | hc
  · rcases List.mem_append.mp hc with hc | hc
    · obtain ⟨cmd, blank, h⟩ := returningChecks_abort now host fl c hc
      rw [h st output]
      cases blank
      · exact ⟨rfl, verdict_CmdFailed _ _⟩
      · exact ⟨rfl, verdict_cmdFailedLn _ _⟩
    · obtain ⟨cmd, pre, h⟩ := echoingChecks_echo c hc
      rw [h st ⟨output, true⟩, forRange_echo]
      exact ⟨rfl, verdict_cmdFailedLn _ _⟩
  · rw [List.mem_singleton.mp hc]
    exact CheckMountingOk_error st output

theorem command_error_records_false_witness :
    verdict "CheckSyDb" (CheckSyDb ⟨[], ""⟩ ⟨"no such file", true⟩).state = false ∧
    verdict "EnmNativeHC" (EnmNativeHC ⟨[], ""⟩ ⟨"no such file", true⟩).state = false ∧
    verdict "CheckZfsPoolSU"
      (CheckZfsPoolSU "eniq-coordinator" ⟨[], ""⟩ ⟨"no such file", true⟩).state = false ∧
    verdict "CheckSrvs"
      (CheckSrvs "eniq-coordinator" (fun _ => ⟨"no such file", true⟩) ⟨[], ""⟩).state = false :=
  have h := command_error_records_false
    ⟨"2020-10-11T06:00:00+06:00", Weekday.Sunday, Month.October, 11, 2020⟩ "eniq-coordinator"
    Float64.whole ⟨[], ""⟩ "no such file"
  ⟨(h.1 ("CheckSyDb", CheckSyDb) (by simp [returningChecks])).2,
    (h.1 ("EnmNativeHC", EnmNativeHC) (by simp [echoingChecks])).2,
    h.2.1 ("CheckZfsPoolSU", CheckZfsPoolSU "eniq-coordinator") (by simp [zfsChecks]),
    h.2.2.2.2.2.2.2.2.2.1 (fun _ => ⟨"no such file", true⟩) 0 "svc:/storage/NASd:default"
      (by decide) rfl (by decide)⟩

/-! ### The checks that take a failed command as the good case -/

theorem forRange_quiet {α : Type} (body : α → CheckState → Flow)
    (h : ∀ y s, (∃ s1, body y s = Flow.next s1 ∧ s1.Checks = s.Checks) ∨
      (∃ s1, body y s = Flow.panic s1 ∧ s1.Checks = s.Checks))
    (l : List α) (s : CheckState) :
    (∃ s1, forRange body l s = Flow.next s1 ∧ s1.Checks = s.Checks) ∨
      (∃ s1, forRange body l s = Flow.panic s1 ∧ s1.Checks = s.Checks) := by
  induction l generalizing s with
  | nil => exact Or.inl ⟨s, rfl, rfl⟩
  | cons y ys ih =>
    rcases h y s with ⟨s1, h1, hs1⟩ | ⟨s1, h1, hs1⟩
    · rcases ih s1 with ⟨s2, h2, hs2⟩ | ⟨s2, h2, hs2⟩
      · exact Or.inl ⟨s2, by simp only [forRange, h1, h2], hs2.trans hs1⟩
      · exact Or.inr ⟨s2, by simp only [forRange, h1, h2], hs2.trans hs1⟩
    · exact Or.inr ⟨s1, by simp only [forRange, h1], hs1⟩

theorem CheckMCs_body_quiet (y : String) (s : CheckState) :
    (∃ s1, CheckMCs.body y s = Flow.next s1 ∧ s1.Checks = s.Checks) ∨
      (∃ s1, CheckMCs.body y s = Flow.panic s1 ∧ s1.Checks = s.Checks) := by
  unfold CheckMCs.body
  repeat' (first | split | simp only [])
  all_goals first
    | exact Or.inl ⟨_, rfl, rfl⟩
    | exact Or.inr ⟨_, rfl, rfl⟩

theorem CheckDisks_body_quiet (y : String) (s : CheckState) :
    (∃ s1, CheckDisks.body y s = Flow.next s1 ∧ s1.Checks = s.Checks) ∨
      (∃ s1, CheckDisks.body y s = Flow.panic s1 ∧ s1.Checks = s.Checks) := by
  unfold CheckDisks.body
  repeat' (first | split | simp only [])
  all_goals first
    | exact Or.inl ⟨_, rfl, rfl⟩
    | exact Or.inr ⟨_, rfl, rfl⟩

theorem CheckOutOfMem_body_quiet (y : String) (s : CheckState) :
    (∃ s1, CheckOutOfMem.body y s = Flow.next s1 ∧ s1.Checks = s.Checks) ∨
      (∃ s1, CheckOutOfMem.body y s = Flow.panic s1 ∧ s1.Checks = s.Checks) := by
  unfold CheckOutOfMem.body
  repeat' (first | split | simp only [])
  all_goals first
    | exact Or.inl ⟨_, rfl, rfl⟩
    | exact Or.inr ⟨_, rfl, rfl⟩

theorem found_after_loop (name : String) (f : Flow) (s : CheckState)
    (hs : verdict name s = true)
    (h : (∃ s1, f = Flow.next s1 ∧ s1.Checks = s.Checks) ∨
      (∃ s1, f = Flow.panic s1 ∧ s1.Checks = s.Checks)) :
    ((f.andThen fun st2 => Flow.next (setVerdict name false st2)).completed = true ∧
      verdict name (f.andThen fun st2 => Flow.next (setVerdict name false st2)).state = false) ∨
    ((f.andThen fun st2 => Flow.next (setVerdict name false st2)).panicked = true ∧
      verdict name (f.andThen fun st2 => Flow.next (setVerdict name false st2)).state = true) := by
  rcases h with ⟨s1, h1, hs1⟩ | ⟨s1, h1, hs1⟩
  · subst h1
    exact Or.inl ⟨rfl, verdict_setVerdict _ _ _⟩
  · subst h1
    refine Or.inr ⟨rfl, ?_⟩
    simpa [Flow.andThen, Flow.state, verdict, hs1] using hs

theorem absenceChecks_found (now : Now) (c : NamedCheck) (hc : c ∈ absenceChecks now)
    (st : CheckState) (output : String) :
    ((c.2 st ⟨output, false⟩).completed = true ∧
      verdict c.1 (c.2 st ⟨output, false⟩).state = false) ∨
    ((c.2 st ⟨output, false⟩).panicked = true ∧
      verdict c.1 (c.2 st ⟨output, false⟩).state = true) := by
  simp only [absenceChecks, List.mem_cons, List.mem_singleton, List.not_mem_nil, or_false] at hc
  rcases hc with rfl | rfl | rfl | rfl | rfl
  · simp only [CheckMCs, runCmd, ExecCmd, Bool.false_eq_true, if_false]
    exact found_after_loop _ _ _ (verdict_setVerdict _ _ _)
      (forRange_quiet _ CheckMCs_body_quiet _ _)
  · simp only [CheckDisks, runCmd, ExecCmd, Bool.false_eq_true, if_false]
    exact found_after_loop _ _ _ (verdict_setVerdict _ _ _)
      (forRange_quiet _ CheckDisks_body_quiet _ _)
  · simp only [CheckFailProc, runCmd, ExecCmd, Bool.false_eq_true, if_false]
    repeat' (first | split | simp only [])
    · exact Or.inr ⟨rfl, verdict_setVerdict _ _ _⟩
    · exact Or.inr ⟨rfl, verdict_setVerdict _ _ _⟩
    · exact Or.inl ⟨rfl, verdict_setVerdict _ _ _⟩
  · simp only [CheckSyErrLog, runCmd, ExecCmd, Bool.false_eq_true, if_false]
    exact found_after_loop _ _ _ (verdict_setVerdict _ _ _)
      (Or.inl ⟨_, forRange_echo _ _ _, rfl⟩)
  · simp only [CheckOutOfMem, runCmd, ExecCmd, Bool.false_eq_true, if_false]
    exact found_after_loop _ _ _ (verdict_setVerdict _ _ _)
      (forRange_quiet _ CheckOutOfMem_body_quiet _ _)

theorem absenceChecks_ok (now : Now) (c : NamedCheck) (hc : c ∈ absenceChecks now) :
    ∃ cmd msg, ∀ st output,
      c.2 st ⟨output, true⟩ =
        Flow.ret (put ("\tok\t" ++ msg ++ "\n") (runCmd c.1 cmd ⟨"", true⟩ st).1) := by
  simp only [absenceChecks, List.mem_cons, List.mem_singleton, List.not_mem_nil, or_false] at hc
  rcases hc with rfl | rfl | rfl | rfl | rfl
  all_goals exact ⟨_, _, fun st output => rfl⟩

theorem forRange_shaped {α : Type} (body : α → CheckState → Flow) (good : α → Prop)
    (hgood : ∀ y s, good y → ∃ s1, body y s = Flow.next s1 ∧ s1.Checks = s.Checks)
    (hbad : ∀ y s, ¬ good y → ∃ s1, body y s = Flow.panic s1 ∧ s1.Checks = s.Checks)
    (l : List α) (s : CheckState) :
    ((∀ y ∈ l, good y) → ∃ s1, forRange body l s = Flow.next s1 ∧ s1.Checks = s.Checks) ∧
    ((∃ y ∈ l, ¬ good y) → ∃ s1, forRange body l s = Flow.panic s1 ∧ s1.Checks = s.Checks) := by
  induction l generalizing s with
  | nil =>
    refine ⟨fun _ => ⟨s, rfl, rfl⟩, ?_⟩
    rintro ⟨y, hy, _⟩
    cases hy
  | cons x xs ih =>
    by_cases hx : good x
    · obtain ⟨s1, h1, hs1⟩ := hgood x s hx
      constructor
      · intro hall
        obtain ⟨s2, h2, hs2⟩ := (ih s1).1 (fun y hy => hall y (List.mem_cons_of_mem _ hy))
        exact ⟨s2, by simp only [forRange, h1, h2], hs2.trans hs1⟩
      · rintro ⟨y, hy, hny⟩
        rcases List.mem_cons.mp hy with e | e
        · subst e
          exact absurd hx hny
        · obtain ⟨s2, h2, hs2⟩ := (ih s1).2 ⟨y, e, hny⟩
          exact ⟨s2, by simp only [forRange, h1, h2], hs2.trans hs1⟩
    · obtain ⟨s1, h1, hs1⟩ := hbad x s hx
      constructor
      · intro hall
        exact absurd (hall x (List.mem_cons_self _ _)) hx
      · intro _
        exact ⟨s1, by simp only [forRange, h1], hs1⟩

theorem found_of_shaped {α : Type} (name : String) (body : α → CheckState → Flow)
    (good : α → Prop)
    (hgood : ∀ y s, good y → ∃ s1, body y s = Flow.next s1 ∧ s1.Checks = s.Checks)
    (hbad : ∀ y s, ¬ good y → ∃ s1, body y s = Flow.panic s1 ∧ s1.Checks = s.Checks)
    (l : List α) (s : CheckState) (hs : verdict name s = true) :
    ((∀ y ∈ l, good y) →
      ((forRange body l s).andThen fun st2 => Flow.next (setVerdict name false st2)).completed
          = true ∧
        verdict name
          ((forRange body l s).andThen fun st2 => Flow.next (setVerdict name false st2)).state
          = false) ∧
    ((∃ y ∈ l, ¬ good y) →
      ((forRange body l s).andThen fun st2 => Flow.next (setVerdict name false st2)).panicked
          = true ∧
        verdict name
          ((forRange body l s).andThen fun st2 => Flow.next (setVerdict name false st2)).state
          = true) := by
  constructor
  · intro h
    obtain ⟨s1, h1, _⟩ := (forRange_shaped body good hgood hbad l s).1 h
    rw [h1]
    exact ⟨rfl, verdict_setVerdict _ _ _⟩
  · intro h
    obtain ⟨s1, h1, hs1⟩ := (forRange_shaped body good hgood hbad l s).2 h
    rw [h1]
    refine ⟨rfl, ?_⟩
    simpa [Flow.andThen, Flow.state, verdict, hs1] using hs

theorem CheckMCs_body_shaped (y : String) (s : CheckState) :
    ((len y = 0 ∨ 2 ≤ (Fields y).length) →
      ∃ s1, CheckMCs.body y s = Flow.next s1 ∧ s1.Checks = s.Checks) ∧
    (¬ (len y = 0 ∨ 2 ≤ (Fields y).length) →
      ∃ s1, CheckMCs.body y s = Flow.panic s1 ∧ s1.Checks = s.Checks) := by
  unfold CheckMCs.body
  by_cases h0 : len y = 0
  · simp only [h0, if_true, true_or, not_true_eq_false, false_implies, and_true]
    exact fun _ => ⟨s, rfl, rfl⟩
  · simp only [h0, if_false, false_or]
    rcases hf : Fields y with _ | ⟨a, _ | ⟨b, t⟩⟩
    · simp
    · simp
    · simp [put]

theorem CheckDisks_body_shaped (y : String) (s : CheckState) :
    ((len y = 0 ∨ 7 ≤ (Fields y).length) →
      ∃ s1, CheckDisks.body y s = Flow.next s1 ∧ s1.Checks = s.Checks) ∧
    (¬ (len y = 0 ∨ 7 ≤ (Fields y).length) →
      ∃ s1, CheckDisks.body y s = Flow.panic s1 ∧ s1.Checks = s.Checks) := by
  unfold CheckDisks.body
  by_cases h0 : len y = 0
  · simp only [h0, if_true, true_or, not_true_eq_false, false_implies, and_true]
    exact fun _ => ⟨s, rfl, rfl⟩
  · simp only [h0, if_false, false_or]
    rcases hf : Fields y with _ | ⟨a, _ | ⟨b, _ | ⟨c, _ | ⟨d, _ | ⟨e, _ | ⟨f, _ | ⟨g, t⟩⟩⟩⟩⟩⟩⟩
    all_goals simp [put]

theorem CheckOutOfMem_body_shaped (y : String) (s : CheckState) :
    (((Fields y).length ≤ 2 ∨ 10 ≤ (Fields y).length) →
      ∃ s1, CheckOutOfMem.body y s = Flow.next s1 ∧ s1.Checks = s.Checks) ∧
    (¬ ((Fields y).length ≤ 2 ∨ 10 ≤ (Fields y).length) →
      ∃ s1, CheckOutOfMem.body y s = Flow.panic s1 ∧ s1.Checks = s.Checks) := by
  unfold CheckOutOfMem.body
  rcases hf : Fields y with _ | ⟨a, _ | ⟨b, _ | ⟨c, _ | ⟨d, _ | ⟨e, _ | ⟨f, _ | ⟨g, _ | ⟨h,
    _ | ⟨i, _ | ⟨j, t⟩⟩⟩⟩⟩⟩⟩⟩⟩⟩
  all_goals simp [put]

/-- C15: in the checks `CheckMCs`, `CheckDisks`, `CheckFailProc`, `CheckSyErrLog`
and `CheckOutOfMem` a failed command makes the check return behind one `ok`
line with the verdict `true`, and so does the first command of `MonRestarts`
(with an empty line behind the `ok` line). When the command succeeds,
`CheckSyErrLog` always runs to its end with the verdict `false`. The other four
do so exactly on the outputs whose lines have the fields they index: at least
two fields in every non-empty line for `CheckMCs`, at least seven for
`CheckDisks`, at least one field in the first line for `CheckFailProc`, at most
two or at least ten fields in every line for `CheckOutOfMem`. On any other
output they stop in a run-time panic with the verdict still `true`; the outputs
`fm_server`, `Disk group: recoverdg` (the header `vxprint` prints for a disk
group), the empty output and `/ossrc/upgrade/R1/old dumps 2019:` (the header
`ls` prints for a directory) are such outputs. -/
theorem absence_is_success (now : Now) (st : CheckState) (output : String) :
    (∀ c ∈ absenceChecks now, ∃ cmd msg,
      c.2 st ⟨output, true⟩ =
        Flow.ret (put ("\tok\t" ++ msg ++ "\n") (runCmd c.1 cmd ⟨"", true⟩ st).1) ∧
      verdict c.1 (c.2 st ⟨output, true⟩).state = true) ∧
    (∀ run : List Nat → CmdResult, (run []).err = true → ∃ cmd,
      MonRestarts now run st =
        Flow.ret (put "\n" (put ("\tok\t" ++ "no nodes restarts found" ++ "\n")
          (runCmd "MonRestarts" cmd ⟨"", true⟩ st).1)) ∧
      verdict "MonRestarts" (MonRestarts now run st).state = true) ∧
    (((∀ s ∈ Split output '\n', len s = 0 ∨ 2 ≤ (Fields s).length) →
        (CheckMCs st ⟨output, false⟩).completed = true ∧
        verdict "CheckMCs" (CheckMCs st ⟨output, false⟩).state = false) ∧
      ((∃ s ∈ Split output '\n', ¬ (len s = 0 ∨ 2 ≤ (Fields s).length)) →
        (CheckMCs st ⟨output, false⟩).panicked = true ∧
        verdict "CheckMCs" (CheckMCs st ⟨output, false⟩).state = true)) ∧
    (((∀ s ∈ Split output '\n', len s = 0 ∨ 7 ≤ (Fields s).length) →
        (CheckDisks st ⟨output, false⟩).completed = true ∧
        verdict "CheckDisks" (CheckDisks st ⟨output, false⟩).state = false) ∧
      ((∃ s ∈ Split output '\n', ¬ (len s = 0 ∨ 7 ≤ (Fields s).length)) →
        (CheckDisks st ⟨output, false⟩).panicked = true ∧
        verdict "CheckDisks" (CheckDisks st ⟨output, false⟩).state = true)) ∧
    (∀ p0, (Split output '\n')[0]? = some p0 →
      (Fields p0 ≠ [] →
        (CheckFailProc st ⟨output, false⟩).completed = true ∧
        verdict "CheckFailProc" (CheckFailProc st ⟨output, false⟩).state = false) ∧
      (Fields p0 = [] →
        (CheckFailProc st ⟨output, false⟩).panicked = true ∧
        verdict "CheckFailProc" (CheckFailProc st ⟨output, false⟩).state = true)) ∧
    ((CheckSyErrLog now st ⟨output, false⟩).completed = true ∧
      verdict "CheckSyErrLog" (CheckSyErrLog now st ⟨output, false⟩).state = false) ∧
    (((∀ s ∈ Split output '\n', (Fields s).length ≤ 2 ∨ 10 ≤ (Fields s).length) →
        (CheckOutOfMem st ⟨output, false⟩).completed = true ∧
        verdict "CheckOutOfMem" (CheckOutOfMem st ⟨output, false⟩).state = false) ∧
      ((∃ s ∈ Split output '\n', ¬ ((Fields s).length ≤ 2 ∨ 10 ≤ (Fields s).length)) →
        (CheckOutOfMem st ⟨output, false⟩).panicked = true ∧
        verdict "CheckOutOfMem" (CheckOutOfMem st ⟨output, false⟩).state = true)) ∧
    CheckMCs ⟨[], ""⟩ ⟨"fm_server", false⟩ =
      Flow.panic ⟨[("CheckMCs", true)],
        "\n->> /opt/ericsson/bin/smtool -l | egrep -v \"started|unlicensed\"\n"⟩ ∧
    CheckDisks ⟨[], ""⟩ ⟨"Disk group: recoverdg", false⟩ =
      Flow.panic ⟨[("CheckDisks", true)], "\n->> vxprint | egrep -i \"iofail|recover\"\n"⟩ ∧
    CheckFailProc ⟨[], ""⟩ ⟨"", false⟩ =
      Flow.panic ⟨[("CheckFailProc", true)], "\n->> ls -l /var/tmp/failed_process\n"⟩ ∧
    CheckOutOfMem ⟨[], ""⟩ ⟨"/ossrc/upgrade/R1/old dumps 2019:", false⟩ =
      Flow.panic ⟨[("CheckOutOfMem", true)],
        "\n->> ls -erth /ossrc/upgrade/*/*\n" ++
        "\tnok\tout of memory dump files found\n" ++ "\n"⟩ := by
  refine ⟨?_, ?_, ?_, ?_, ?_, ?_, ?_, by decide, by decide, by decide, by decide⟩
  · intro c hc
    obtain ⟨cmd, msg, h⟩ := absenceChecks_ok now c hc
    refine ⟨cmd, msg, h st output, ?_⟩
    rw [h st output]
    exact verdict_setVerdict _ _ _
  · intro run h
    refine ⟨"/opt/ericsson/nms_cif_sm/bin/log -type " ++ "command" ++
      " -filter \"command_name LIKE '" ++ "acc%restart%" ++ "' AND time_stamp >= '" ++
      dateOf now.rfc3339 ++ "'\" | grep User", ?_, ?_⟩
    · simp only [MonRestarts, runCmd, ExecCmd, h, if_true]
      rfl
    · simp only [MonRestarts, runCmd, ExecCmd, h, if_true]
      exact verdict_setVerdict _ _ _
  · simp only [CheckMCs, runCmd, ExecCmd, Bool.false_eq_true, if_false]
    exact found_of_shaped "CheckMCs" CheckMCs.body _
      (fun y s => (CheckMCs_body_shaped y s).1) (fun y s => (CheckMCs_body_shaped y s).2)
      _ _ (verdict_setVerdict _ _ _)
  · simp only [CheckDisks, runCmd, ExecCmd, Bool.false_eq_true, if_false]
    exact found_of_shaped "CheckDisks" CheckDisks.body _
      (fun y s => (CheckDisks_body_shaped y s).1) (fun y s => (CheckDisks_body_shaped y s).2)
      _ _ (verdict_setVerdict _ _ _)
  · intro p0 h0
    simp only [CheckFailProc, runCmd, ExecCmd, Bool.false_eq_true, if_false, h0, lastElem]
    constructor
    · intro hne
      obtain ⟨file, hfile⟩ : ∃ file, (Fields p0).getLast? = some file := by
        cases hf : Fields p0 with
        | nil => exact absurd hf hne
        | cons a t =>
          cases hl : (a :: t).getLast? with
          | none => exact absurd (List.getLast?_eq_none_iff.mp hl) (by simp)
          | some f => exact ⟨f, rfl⟩
      simp only [hfile]
      exact ⟨rfl, verdict_setVerdict _ _ _⟩
    · intro he
      simp only [he, List.getLast?_nil]
      exact ⟨rfl, verdict_setVerdict _ _ _⟩
  · simp only [CheckSyErrLog, runCmd, ExecCmd, Bool.false_eq_true, if_false, forRange_echo]
    exact ⟨rfl, verdict_setVerdict _ _ _⟩
  · simp only [CheckOutOfMem, runCmd, ExecCmd, Bool.false_eq_true, if_false]
    exact found_of_shaped "CheckOutOfMem" CheckOutOfMem.body _
      (fun y s => (CheckOutOfMem_body_shaped y s).1)
      (fun y s => (CheckOutOfMem_body_shaped y s).2)
      _ _ (verdict_setVerdict _ _ _)

theorem absence_is_success_witness :
    verdict "CheckMCs" (CheckMCs ⟨[], ""⟩ ⟨"ssh: timeout", true⟩).state = true ∧
    (CheckMCs ⟨[], ""⟩ ⟨"fm_server offline\nsm_server failed", false⟩).completed = true ∧
    verdict "CheckMCs"
      (CheckMCs ⟨[], ""⟩ ⟨"fm_server offline\nsm_server failed", false⟩).state = false ∧
    verdict "CheckFailProc"
      (CheckFailProc ⟨[], ""⟩
        ⟨"-rw-r--r-- 1 root root 0 Oct 11 02:00 /var/tmp/failed_process", false⟩).state = false ∧
    verdict "CheckOutOfMem"
      (CheckOutOfMem ⟨[], ""⟩
        ⟨"-rw-r--r-- 1 nmsadm nms 2.1G Oct 11 02:00:11 2020 /ossrc/upgrade/core/java.hprof",
          false⟩).state = false :=
  have h := absence_is_success
    ⟨"2020-10-11T06:00:00+06:00", Weekday.Sunday, Month.October, 11, 2020⟩ ⟨[], ""⟩
  ⟨((h "ssh: timeout").1 ("CheckMCs", CheckMCs) (by simp [absenceChecks])).elim
      fun _ h1 => h1.elim fun _ h2 => h2.2,
    ((h "fm_server offline\nsm_server failed").2.2.1.1 (by decide)).1,
    ((h "fm_server offline\nsm_server failed").2.2.1.1 (by decide)).2,
    (((h "-rw-r--r-- 1 root root 0 Oct 11 02:00 /var/tmp/failed_process").2.2.2.2.1
      "-rw-r--r-- 1 root root 0 Oct 11 02:00 /var/tmp/failed_process" (by decide)).1
      (by decide)).2,
    ((h "-rw-r--r-- 1 nmsadm nms 2.1G Oct 11 02:00:11 2020 /ossrc/upgrade/core/java.hprof"
      ).2.2.2.2.2.2.1.1 (by decide)).2⟩

theorem records_of_falls (name : String) (st s2 : CheckState)
    (h : Falls name (setVerdict name true st) s2) : Records name st s2 := by
  rcases h with h | h
  · exact ⟨true, h⟩
  · exact ⟨false, by rw [h]; exact mapSet_mapSet_same _ _ _ _⟩

theorem returningChecks_records (now : Now) (host : String) (fl : Float64) (c : NamedCheck)
    (hc : c ∈ returningChecks now host fl) (st : CheckState) (r : CmdResult) :
    Records c.1 st (c.2 st r).state := by
  simp only [returningChecks, List.mem_cons, List.mem_singleton, List.not_mem_nil, or_false] at hc
  rcases hc with rfl | rfl | rfl | rfl | rfl | rfl | rfl | rfl | rfl | rfl | rfl | rfl | rfl | rfl | rfl | rfl | rfl | rfl | rfl | rfl | rfl | rfl | rfl | rfl | rfl | rfl
  · exact records_of_falls _ _ _ (CheckBeadm_falls st r)
  · exact records_of_falls _ _ _ (CheckSnapshots_falls now st r)
  · exact records_of_falls _ _ _ (CheckSyDb_falls st r)
  · exact records_of_falls _ _ _ (CheckVrstDataMon_falls st r)
  · exact records_of_falls _ _ _ (CheckWtmpx_falls st r)
  · exact records_of_falls _ _ _ (CheckSyLogSize_falls st r)
  · exact records_of_falls _ _ _ (CheckNrOfBackupPolicies_falls host st r)
  · exact records_of_falls _ _ _ (MonErrLog_falls now st r)
  · exact records_of_falls _ _ _ (MonConfigExports_falls now st r)
  · exact records_of_falls _ _ _ (MonNetLog_falls now st r)
  · exact records_of_falls _ _ _ (ValDiagProcCache_falls st r)
  · exact records_of_falls _ _ _ (CheckCoreFiles_falls st r)
  · exact records_of_falls _ _ _ (CheckSecurity_falls st r)
  · exact records_of_falls _ _ _ (CheckVeritas_falls st r)
  · exact records_of_falls _ _ _ (CheckSyDump_falls st r)
  · exact records_of_falls _ _ _ (CheckHomeSU_falls fl st r)
  · exact records_of_falls _ _ _ (CheckMoshellLogSU_falls fl st r)
  · exact records_of_falls _ _ _ (CheckDBA_falls st r)
  · exact records_of_falls _ _ _ (CheckVrstDb_falls st r)
  · exact records_of_falls _ _ _ (CheckVrstDbSU_falls st r)
  · exact records_of_falls _ _ _ (MonVrstDb_falls st r)
  · exact records_of_falls _ _ _ (CheckBsmAdjusts_falls now st r)
  · exact records_of_falls _ _ _ (CheckCnaAdjusts_falls now st r)
  · exact records_of_falls _ _ _ (CheckHostUptime_falls st r)
  · exact records_of_falls _ _ _ (CheckBashrc_falls st r)
  · exact records_of_falls _ _ _ (CheckNodesFilesUpdate_falls now st r)

theorem echoingChecks_records  (c : NamedCheck)
    (hc : c ∈ echoingChecks ) (st : CheckState) (r : CmdResult) :
    Records c.1 st (c.2 st r).state := by
  simp only [echoingChecks, List.mem_cons, List.mem_singleton, List.not_mem_nil, or_false] at hc
  rcases hc with rfl | rfl | rfl | rfl | rfl | rfl | rfl | rfl | rfl | rfl | rfl | rfl | rfl | rfl | rfl
  · exact records_of_falls _ _ _ (EnmNativeHC_falls st r)
  · exact records_of_falls _ _ _ (CheckHwResources_falls st r)
  · exact records_of_falls _ _ _ (CheckNas_falls st r)
  · exact records_of_falls _ _ _ (CheckStoragePool_falls st r)
  · exact records_of_falls _ _ _ (CheckStaleMount_falls st r)
  · exact records_of_falls _ _ _ (CheckNodeFs_falls st r)
  · exact records_of_falls _ _ _ (CheckSystemService_falls st r)
  · exact records_of_falls _ _ _ (CheckVcsCluster_falls st r)
  · exact records_of_falls _ _ _ (CheckVcsLltHeartbeat_falls st r)
  · exact records_of_falls _ _ _ (CheckVcsServiceGroup_falls st r)
  · exact records_of_falls _ _ _ (CheckConsul_falls st r)
  · exact records_of_falls _ _ _ (CheckMultipathActive_falls st r)
  · exact records_of_falls _ _ _ (CheckPuppetEnabled_falls st r)
  · exact records_of_falls _ _ _ (CheckSanAlert_falls st r)
  · exact records_of_falls _ _ _ (CheckMdt_falls st r)

theorem zfsChecks_records (host : String) (c : NamedCheck)
    (hc : c ∈ zfsChecks host) (st : CheckState) (r : CmdResult) :
    Records c.1 st (c.2 st r).state := by
  simp only [zfsChecks, List.mem_cons, List.mem_singleton, List.not_mem_nil, or_false] at hc
  rcases hc with rfl | rfl | rfl
  · exact records_of_falls _ _ _ (CheckZfsPoolStatus_falls st r)
  · exact records_of_falls _ _ _ (CheckZfsPoolSU_falls host st r)
  · exact records_of_falls _ _ _ (CheckZfsPoolErrors_falls st r)

theorem absenceChecks_records (now : Now) (c : NamedCheck)
    (hc : c ∈ absenceChecks now) (st : CheckState) (r : CmdResult) :
    Records c.1 st (c.2 st r).state := by
  simp only [absenceChecks, List.mem_cons, List.mem_singleton, List.not_mem_nil, or_false] at hc
  rcases hc with rfl | rfl | rfl | rfl | rfl
  · exact records_of_falls _ _ _ (CheckMCs_falls st r)
  · exact records_of_falls _ _ _ (CheckDisks_falls st r)
  · exact records_of_falls _ _ _ (CheckFailProc_falls st r)
  · exact records_of_falls _ _ _ (CheckSyErrLog_falls now st r)
  · exact records_of_falls _ _ _ (CheckOutOfMem_falls st r)

theorem singleChecks_records (now : Now) (host : String) (fl : Float64) (c : NamedCheck)
    (hc : c ∈ singleChecks now host fl) (st : CheckState) (r : CmdResult) :
    Records c.1 st (c.2 st r).state := by
  simp only [singleChecks, List.mem_append, List.mem_singleton] at hc
  rcases hc with (((hc | hc) | hc) | hc) | hc
  · exact returningChecks_records now host fl c hc st r
  · exact echoingChecks_records c hc st r
  · exact zfsChecks_records host c hc st r
  · exact absenceChecks_records now c hc st r
  · rw [hc]
    exact records_of_falls _ _ _ (CheckMountingOk_falls st r)

theorem CheckDisksSU_loop_falls (name : String) (lines : List String) (st s : CheckState)
    (h : CheckDisksSU.loop name lines st = some s) : Falls name st s := by
  induction lines generalizing st with
  | nil =>
    simp only [CheckDisksSU.loop, Option.some.injEq] at h
    exact Or.inl (by rw [h])
  | cons x rest ih =>
    unfold CheckDisksSU.loop at h
    repeat' (first | split at h | simp only [] at h)
    all_goals first
      | cases h
      | (refine falls_trans _ _ _ _ ?_ (ih _ h)
         first
           | exact Or.inl rfl
           | exact Or.inr rfl)

theorem CheckOssDisksSU_loop_falls (name : String) (lines : List String) (st s : CheckState)
    (h : CheckOssDisksSU.loop name lines st = some s) : Falls name st s := by
  induction lines generalizing st with
  | nil =>
    simp only [CheckOssDisksSU.loop, Option.some.injEq] at h
    exact Or.inl (by rw [h])
  | cons x rest ih =>
    unfold CheckOssDisksSU.loop at h
    repeat' (first | split at h | simp only [] at h)
    all_goals first
      | (cases h; done)
      | (refine falls_trans _ _ _ _ ?_ (ih _ h)
         first
           | exact Or.inl rfl
           | exact Or.inr rfl)
      | (cases h; exact Or.inr rfl)

theorem CheckDisksSU_records (st : CheckState) (r : CmdResult) (s : CheckState)
    (h : CheckDisksSU st r = some s) : Records "CheckDisksSU" st s := by
  apply records_of_falls
  simp only [CheckDisksSU, ExecCmd] at h
  split at h
  · simp only [Option.some.injEq] at h
    rw [← h]
    exact Or.inr rfl
  · refine falls_trans _ _ _ _ ?_ (CheckDisksSU_loop_falls _ _ _ _ h)
    exact Or.inl rfl

theorem CheckOssDisksSU_records (st : CheckState) (r : CmdResult) (s : CheckState)
    (h : CheckOssDisksSU st r = some s) : Records "CheckOssDisksSU" st s := by
  apply records_of_falls
  simp only [CheckOssDisksSU, ExecCmd] at h
  split at h
  · simp only [Option.some.injEq] at h
    rw [← h]
    exact Or.inr rfl
  · refine falls_trans _ _ _ _ ?_ (CheckOssDisksSU_loop_falls _ _ _ _ h)
    exact Or.inl rfl

theorem DeepCheckETLC_touched (now : String) (st : CheckState) (output : String)
    (have_ : GoMap Int) (hparse : DeepCheckETLC.parse (Split output '\n') [] = some have_) :
    (∀ k, k ∉ ["DeepCheckETLC", "FindParsedInKnown", "FindKnownInParsed", "CompareNumParsed"] →
      mapLookup (DeepCheckETLC now st ⟨output, false⟩).state.Checks k = mapLookup st.Checks k) ∧
    (∀ k ∈ ["DeepCheckETLC", "FindParsedInKnown", "FindKnownInParsed", "CompareNumParsed"],
      (mapLookup (DeepCheckETLC now st ⟨output, false⟩).state.Checks k).isSome = true) := by
  have n1 : "FindParsedInKnown" ≠ "DeepCheckETLC" := by decide
  have n2 : "FindKnownInParsed" ≠ "DeepCheckETLC" := by decide
  have n3 : "CompareNumParsed" ≠ "DeepCheckETLC" := by decide
  have n4 : "FindParsedInKnown" ≠ "FindKnownInParsed" := by decide
  have n5 : "FindParsedInKnown" ≠ "CompareNumParsed" := by decide
  have n6 : "FindKnownInParsed" ≠ "CompareNumParsed" := by decide
  simp only [DeepCheckETLC, runCmd, ExecCmd, hparse, Bool.false_eq_true, if_false, Flow.state,
    DeepCheckETLC.reconcile, FindParsedInKnown_eq, FindKnownInParsed_eq, CompareNumParsed_eq]
  constructor
  · intro k hk
    simp only [List.mem_cons, List.mem_singleton, List.not_mem_nil, or_false, not_or] at hk
    obtain ⟨k1, k2, k3, k4⟩ := hk
    cases have_.all (fun e => decide (e.1 ∈ mapKeys DeepCheckETLC.must)) <;>
    cases DeepCheckETLC.must.all (fun e => decide (e.1 ∈ mapKeys have_)) <;>
    cases DeepCheckETLC.must.all (fun e => decide (observedCount have_ e.1 ≥ e.2)) <;>
    simp [setVerdict, mapLookup_mapSet_other, Ne.symm k1, Ne.symm k2, Ne.symm k3, Ne.symm k4]
  · intro k hk
    simp only [List.mem_cons, List.mem_singleton, List.not_mem_nil, or_false] at hk
    rcases hk with rfl | rfl | rfl | rfl <;>
    cases have_.all (fun e => decide (e.1 ∈ mapKeys DeepCheckETLC.must)) <;>
    cases DeepCheckETLC.must.all (fun e => decide (e.1 ∈ mapKeys have_)) <;>
    cases DeepCheckETLC.must.all (fun e => decide (observedCount have_ e.1 ≥ e.2)) <;>
    simp [setVerdict, mapLookup_mapSet_other, mapLookup_mapSet_self, n1, n2, n3, n4, n5, n6,
      Ne.symm n1, Ne.symm n2, Ne.symm n3, Ne.symm n4, Ne.symm n5, Ne.symm n6]

/-- C17 (counterexample): on a Monday `CheckSyBackLog` returns before anything
is recorded, so the map has no key `CheckSyBackLog` afterwards; and
`DeepCheckETLC` on a successful command with an empty output leaves four keys in
a map that was empty. -/
theorem CheckSyBackLog_records_nothing_on_monday :
    CheckSyBackLog ⟨"2020-10-12T06:00:00+06:00", Weekday.Monday, Month.October, 12, 2020⟩
      ⟨[], ""⟩ ⟨"", false⟩ = Flow.ret ⟨[], ""⟩ ∧
    mapKeys (DeepCheckETLC "2020-10-12T06:00:00+06:00" ⟨[], ""⟩ ⟨"", false⟩).state.Checks =
      ["DeepCheckETLC", "FindParsedInKnown", "FindKnownInParsed", "CompareNumParsed"] := by
  decide

/-- C17 (amended): every check other than `CheckSyBackLog` and `DeepCheckETLC`
sets exactly one key of the verdict map, its own name: the map in the state
where the check stops is the map before the call with the name of the check set
to its verdict. `CheckSyBackLog` does so on a Sunday and leaves the map as it is
on any other day. `DeepCheckETLC` sets its own name alone when the command fails
or the output does not parse; otherwise it sets four keys, its own name and the
names of the three reconciliations, and no other. -/
theorem check_records_own_name (now : Now) (host : String) (fl : Float64) (st : CheckState) :
    (∀ c ∈ singleChecks now host fl, ∀ r, Records c.1 st (c.2 st r).state) ∧
    (∀ r s, CheckDisksSU st r = some s → Records "CheckDisksSU" st s) ∧
    (∀ r s, CheckOssDisksSU st r = some s → Records "CheckOssDisksSU" st s) ∧
    (∀ have_ must, Records "FindParsedInKnown" st (FindParsedInKnown have_ must st).2) ∧
    (∀ have_ must, Records "FindKnownInParsed" st (FindKnownInParsed have_ must st).2) ∧
    (∀ have_ must, Records "CompareNumParsed" st (CompareNumParsed have_ must st).2) ∧
    (∀ run, Records "CheckETLC" st (CheckETLC now run st).state) ∧
    (∀ run, Records "CheckSrvs" st (CheckSrvs host run st).state) ∧
    (∀ history createErr flushErr run, Records "CheckSrvsUptime" st
      (CheckSrvsUptime host history createErr flushErr run st).1.state) ∧
    (∀ run, Records "MonRestarts" st (MonRestarts now run st).state) ∧
    (∀ run, Records "KillOldSessions" st (KillOldSessions now run st).state) ∧
    (∀ run, Records "CheckNetBackupClients" st (CheckNetBackupClients run st).state) ∧
    (∀ run, Records "CheckBackupPoliciesSchedExec" st
      (CheckBackupPoliciesSchedExec host now run st).state) ∧
    (∀ r, now.weekday = Weekday.Sunday →
      Records "CheckSyBackLog" st (CheckSyBackLog now st r).state) ∧
    (∀ r, now.weekday ≠ Weekday.Sunday → CheckSyBackLog now st r = Flow.ret st) ∧
    (∀ r, r.err = true ∨ DeepCheckETLC.parse (Split r.output '\n') [] = none →
      Records "DeepCheckETLC" st (DeepCheckETLC now.rfc3339 st r).state) ∧
    (∀ output have_, DeepCheckETLC.parse (Split output '\n') [] = some have_ →
      (∀ k, k ∉ ["DeepCheckETLC", "FindParsedInKnown", "FindKnownInParsed", "CompareNumParsed"] →
        mapLookup (DeepCheckETLC now.rfc3339 st ⟨output, false⟩).state.Checks k =
          mapLookup st.Checks k) ∧
      (∀ k ∈ ["DeepCheckETLC", "FindParsedInKnown", "FindKnownInParsed", "CompareNumParsed"],
        (mapLookup (DeepCheckETLC now.rfc3339 st ⟨output, false⟩).state.Checks k).isSome
          = true)) := by
  refine ⟨fun c hc r => singleChecks_records now host fl c hc st r,
    fun r s h => CheckDisksSU_records st r s h,
    fun r s h => CheckOssDisksSU_records st r s h,
    fun have_ must => ⟨_, by rw [FindParsedInKnown_eq]⟩,
    fun have_ must => ⟨_, by rw [FindKnownInParsed_eq]⟩,
    fun have_ must => ⟨_, by rw [CompareNumParsed_eq]⟩,
    fun run => records_of_falls _ _ _ (CheckETLC_falls now run st),
    fun run => records_of_falls _ _ _ (CheckSrvs_falls host run st),
    fun history createErr flushErr run =>
      records_of_falls _ _ _ (CheckSrvsUptime_falls host history createErr flushErr run st),
    fun run => records_of_falls _ _ _ (MonRestarts_falls now run st),
    fun run => records_of_falls _ _ _ (KillOldSessions_falls now run st),
    fun run => records_of_falls _ _ _ (CheckNetBackupClients_falls run st),
    fun run => records_of_falls _ _ _ (CheckBackupPoliciesSchedExec_falls host now run st),
    fun r hday => records_of_falls _ _ _ (CheckSyBackLog_falls now st r hday),
    ?_, ?_, fun output have_ h => DeepCheckETLC_touched now.rfc3339 st output have_ h⟩
  · intro r hday
    have hs : now.weekday.str ≠ "Sunday" := by
      revert hday
      cases now.weekday <;> simp [Weekday.str]
    simp only [CheckSyBackLog, hs, ne_eq, not_false_eq_true, if_true]
  · intro r h
    apply records_of_falls
    simp only [DeepCheckETLC, runCmd, ExecCmd]
    rcases h with h | h
    · simp only [h, if_true]
      exact Or.inr rfl
    · simp only [h]
      split <;> first | exact Or.inr rfl | exact Or.inl rfl

theorem check_records_own_name_witness :
    Records "CheckSyDb" ⟨[("CheckDisksSU", true)], ""⟩
      (CheckSyDb ⟨[("CheckDisksSU", true)], ""⟩ ⟨"hdr\nmaster 10 90 10", false⟩).state ∧
    Records "CheckDisksSU" ⟨[], ""⟩
      ⟨[("CheckDisksSU", false)],
        "\n->> df -h | awk '\x7bprint $5$1\x7d'\n" ++ "\tnok\t45%\t/var\n"⟩ :=
  have h := check_records_own_name
    ⟨"2020-10-12T06:00:00+06:00", Weekday.Monday, Month.October, 12, 2020⟩ "eniq-coordinator"
    Float64.whole
  ⟨(h ⟨[("CheckDisksSU", true)], ""⟩).1 ("CheckSyDb", CheckSyDb)
      (by simp [singleChecks, returningChecks]) ⟨"hdr\nmaster 10 90 10", false⟩,
    (h ⟨[], ""⟩).2.1 ⟨"45%/var", false⟩ _ (by decide)⟩

/-- C19: outputs on which the six checks stop in an index or slice bound
violation although the command succeeded. `CheckDisksSU` and `CheckOssDisksSU`
index `l[1]` on the line `12`, which has no `%`; `CheckSnapshots` slices
`str[:4]` on the line `ab`; `CheckSyDb` indexes `l[5]` on a line of three fields;
`CheckVrstDataMon` indexes `printout[1]` on an output of one line;
`CheckZfsPoolStatus` slices `printout[1:4]` on an output of two lines. -/
theorem unexpected_shape_panics :
    CheckDisksSU ⟨[], ""⟩ ⟨"12", false⟩ = none ∧
    CheckOssDisksSU ⟨[], ""⟩ ⟨"12", false⟩ = none ∧
    (CheckSnapshots ⟨"2020-10-12T06:00:00+06:00", Weekday.Monday, Month.October, 12, 2020⟩
      ⟨[], ""⟩ ⟨"ab", false⟩).panicked = true ∧
    (CheckSyDb ⟨[], ""⟩ ⟨"Database Size Used\nmaster 10 90", false⟩).panicked = true ∧
    (CheckVrstDataMon ⟨[], ""⟩ ⟨"online", false⟩).panicked = true ∧
    (CheckZfsPoolStatus ⟨[], ""⟩ ⟨"NAME SIZE\nrpool 278G", false⟩).panicked = true := by
  decide

/-! ### The integer `strconv.Atoi` returns with an error -/

theorem parseDigits_ge (ds : List Char) (n m : Nat) (h : parseDigits ds n = some m) : n ≤ m := by
  induction ds generalizing n with
  | nil =>
    simp only [parseDigits, Option.some.injEq] at h
    omega
  | cons c cs ih =>
    simp only [parseDigits] at h
    split at h
    · have := ih _ h
      omega
    · cases h

theorem parseUintLoop_of_parseDigits (ds : List Char) (n m : Nat)
    (h : parseDigits ds n = some m) (hm : m < 2 ^ 64) : parseUintLoop ds n = .value m := by
  induction ds generalizing n with
  | nil =>
    simp only [parseDigits, Option.some.injEq] at h
    simp only [parseUintLoop, h]
  | cons c cs ih =>
    simp only [parseDigits] at h
    split at h
    · rename_i d hd
      have hge := parseDigits_ge _ _ _ h
      have h1 : ¬ n ≥ (2 ^ 64 - 1) / 10 + 1 := by omega
      have h2 : ¬ n * 10 + d > 2 ^ 64 - 1 := by omega
      simp only [parseUintLoop, hd, h1, h2, if_false]
      exact ih _ h
    · cases h

theorem AtoiValue_signed_of_range (neg : Bool) (ds : List Char) (n : Nat) (hne : ds ≠ [])
    (h : parseDigits ds 0 = some n) (hr : if neg then n ≤ 2 ^ 63 else n < 2 ^ 63) :
    AtoiValue.signed neg ds = if neg then -(n : Int) else (n : Int) := by
  have hn : n < 2 ^ 64 := by
    cases neg
    · simp only [Bool.false_eq_true, if_false] at hr
      omega
    · simp only [if_true] at hr
      omega
  simp only [AtoiValue.signed, hne, if_false, parseUintLoop_of_parseDigits ds 0 n h hn]
  cases neg
  · simp only [Bool.false_eq_true, if_false] at hr
    simp only [Bool.not_false, Bool.true_and, decide_eq_true_eq, Bool.false_and,
      Bool.false_eq_true, if_false]
    rw [if_neg (by omega)]
  · simp only [if_true] at hr
    simp only [Bool.not_true, Bool.false_and, Bool.false_eq_true, if_false, Bool.true_and,
      decide_eq_true_eq, if_true]
    rw [if_neg (by omega)]

theorem Atoi_cases (s : String) :
    ∃ (neg : Bool) (ds : List Char),
      AtoiValue s = AtoiValue.signed neg ds ∧ ds.length ≤ s.data.length ∧
      (ds.length = s.data.length ∨ ds.length + 1 = s.data.length) ∧
      Atoi s =
        if ds = [] then none
        else match parseDigits ds 0 with
          | some n =>
            if (if neg then n ≤ 2 ^ 63 else n < 2 ^ 63) then
              some (if neg then -(n : Int) else (n : Int))
            else none
          | none => none := by
  obtain ⟨data⟩ := s
  simp only [Atoi, AtoiValue]
  split
  · exact ⟨false, [], rfl, by simp, by simp, by simp⟩
  · rename_i ds
    refine ⟨true, ds, rfl, by simp, by simp, ?_⟩
    simp only [if_true]
  · rename_i ds
    refine ⟨false, ds, rfl, by simp, by simp, ?_⟩
    simp only [Bool.false_eq_true, if_false]
  · rename_i h1 h2 h3
    refine ⟨false, data, rfl, le_refl _, Or.inl rfl, ?_⟩
    have hne : data ≠ [] := fun h => h1 h
    simp only [hne, Bool.false_eq_true, if_false]

theorem AtoiValue_of_Atoi (s : String) (v : Int) (h : Atoi s = some v) : AtoiValue s = v := by
  obtain ⟨neg, ds, hv, _, _, ha⟩ := Atoi_cases s
  rw [ha] at h
  by_cases hne : ds = []
  · simp only [hne, if_true] at h
    cases h
  · cases hn : parseDigits ds 0 with
    | none =>
      simp only [hne, if_false, hn] at h
      cases h
    | some n =>
      by_cases hr : (if neg then n ≤ 2 ^ 63 else n < 2 ^ 63)
      · simp only [hne, if_false, hn, hr, if_true, Option.some.injEq] at h
        rw [hv, AtoiValue_signed_of_range neg ds n hne hn hr, h]
      · simp only [hne, if_false, hn, hr] at h
        cases h

theorem splitChars_no_sep (sep : Char) (l : List Char) :
    ∀ p ∈ splitChars sep l, sep ∉ p := by
  induction l with
  | nil => simp [splitChars]
  | cons c cs ih =>
    unfold splitChars
    split
    · intro p hp
      rcases List.mem_cons.mp hp with h | h
      · subst h; simp
      · exact ih p h
    · rename_i hc
      split
      · intro p hp
        simp only [List.mem_singleton] at hp
        subst hp
        simpa using fun h => hc h.symm
      · rename_i q qs heq
        intro p hp
        rcases List.mem_cons.mp hp with h | h
        · subst h
          have hq := ih q (by rw [heq]; exact List.mem_cons_self _ _)
          simp only [List.mem_cons, not_or]
          exact ⟨fun h => hc h.symm, hq⟩
        · exact ih p (by rw [heq]; exact List.mem_cons_of_mem _ h)

theorem Join_splitChars (sep : Char) (l : List Char) :
    Join ((splitChars sep l).map String.mk) (String.singleton sep) = String.mk l := by
  induction l with
  | nil => rfl
  | cons c cs ih =>
    unfold splitChars
    split
    · rename_i hc
      cases hs : splitChars sep cs with
      | nil => exact absurd hs (splitChars_ne_nil sep cs)
      | cons q qs =>
        rw [hs] at ih
        simp only [List.map_cons, Join]
        rw [← List.map_cons, ih, hc]
        apply String.ext
        simp [String.singleton]
    · cases hs : splitChars sep cs with
      | nil => exact absurd hs (splitChars_ne_nil sep cs)
      | cons q qs =>
        rw [hs] at ih
        cases qs with
        | nil =>
          simp only [List.map_cons, List.map_nil, Join] at ih ⊢
          have := congrArg String.data ih
          simp only at this
          rw [this]
        | cons q2 qs2 =>
          simp only [List.map_cons, Join] at ih ⊢
          apply String.ext
          have := congrArg String.data ih
          simp only [String.data_append] at this ⊢
          rw [← this]
          simp [String.singleton]

/-- C26: `ExecCmd` writes the line of the attempted command to the report
writer, whatever the command then gives back, and returns the combined output
split at the newlines, in order: the list is never empty, joined with a newline
it is the output again, and no line of it holds a newline; the error is passed
on as it is. -/
theorem ExecCmd_lines (w cmd : String) (r : CmdResult) :
    (ExecCmd w cmd r).1 = w ++ "\n->> " ++ cmd ++ "\n" ∧
    (ExecCmd w cmd r).2.1 ≠ [] ∧
    Join (ExecCmd w cmd r).2.1 "\n" = r.output ∧
    (∀ line ∈ (ExecCmd w cmd r).2.1, '\n' ∉ line.data) ∧
    (ExecCmd w cmd r).2.2 = r.err := by
  refine ⟨rfl, ?_, ?_, ?_, rfl⟩
  · simp only [ExecCmd, Split, ne_eq, List.map_eq_nil_iff]
    exact splitChars_ne_nil _ _
  · exact Join_splitChars '\n' r.output.data
  · intro line hl
    simp only [ExecCmd, Split, List.mem_map] at hl
    obtain ⟨p, hp, rfl⟩ := hl
    exact splitChars_no_sep '\n' _ p hp

theorem ExecCmd_lines_witness :
    (ExecCmd "" "uptime" ⟨"up 3 days\nload 0.1\n", false⟩).2.1 = ["up 3 days", "load 0.1", ""] ∧
    Join (ExecCmd "" "uptime" ⟨"up 3 days\nload 0.1\n", false⟩).2.1 "\n" =
      "up 3 days\nload 0.1\n" :=
  ⟨by decide, (ExecCmd_lines "" "uptime" ⟨"up 3 days\nload 0.1\n", false⟩).2.2.1⟩

/-! ### `devideNodesToMap` -/

theorem fieldsChars_cons (c : Char) (cs : List Char) :
    fieldsChars (c :: cs) =
      if isSpace c then fieldsChars cs
      else
        match cs with
        | [] => [[c]]
        | d :: _ =>
          if isSpace d then [c] :: fieldsChars cs
          else
            match fieldsChars cs with
            | [] => [[c]]
            | f :: fs => (c :: f) :: fs := by
  cases cs <;> rfl

theorem fieldsChars_space (c : Char) (cs : List Char) (h : isSpace c = true) :
    fieldsChars (c :: cs) = fieldsChars cs := by
  rw [fieldsChars_cons]
  simp only [h, if_true]

theorem fieldsChars_single (c : Char) (h : isSpace c = false) : fieldsChars [c] = [[c]] := by
  rw [fieldsChars_cons]
  simp only [h, Bool.false_eq_true, if_false]

theorem fieldsChars_cons_space (c d : Char) (cs : List Char) (hc : isSpace c = false)
    (hd : isSpace d = true) : fieldsChars (c :: d :: cs) = [c] :: fieldsChars (d :: cs) := by
  rw [fieldsChars_cons]
  simp only [hc, hd, Bool.false_eq_true, if_false, if_true]

theorem fieldsChars_cons_cons (c d : Char) (cs : List Char) (hc : isSpace c = false)
    (hd : isSpace d = false) :
    fieldsChars (c :: d :: cs) =
      (c :: (fieldsChars (d :: cs)).headD []) :: (fieldsChars (d :: cs)).tail := by
  rw [fieldsChars_cons]
  simp only [hc, hd, Bool.false_eq_true, if_false]
  cases fieldsChars (d :: cs) <;> rfl

theorem fieldsChars_append_space (l : List Char) (c : Char) (hc : isSpace c = true) :
    fieldsChars (l ++ [c]) = fieldsChars l := by
  induction l with
  | nil =>
    rw [List.nil_append, fieldsChars_space _ _ hc]
  | cons a l ih =>
    cases ha : isSpace a with
    | true =>
      rw [List.cons_append, fieldsChars_space _ _ ha, fieldsChars_space _ _ ha, ih]
    | false =>
      cases l with
      | nil =>
        rw [List.cons_append, List.nil_append, fieldsChars_cons_space _ _ _ ha hc,
          fieldsChars_space _ _ hc, fieldsChars_single _ ha]
        rfl
      | cons d l2 =>
        have ih2 : fieldsChars (d :: (l2 ++ [c])) = fieldsChars (d :: l2) := ih
        cases hd : isSpace d with
        | true =>
          rw [List.cons_append, List.cons_append, fieldsChars_cons_space _ _ _ ha hd,
            fieldsChars_cons_space _ _ _ ha hd, ih2]
        | false =>
          rw [List.cons_append, List.cons_append, fieldsChars_cons_cons _ _ _ ha hd,
            fieldsChars_cons_cons _ _ _ ha hd, ih2]

theorem Fields_append_newline (l : String) : Fields (l ++ "\n") = Fields l := by
  have e : (l ++ "\n").data = l.data ++ ['\n'] := by simp [String.data_append]
  simp only [Fields, e]
  rw [fieldsChars_append_space _ _ (by decide)]

theorem Split_joinText_lines (lines : List String) (h : ∀ l ∈ lines, '\n' ∉ l.data) :
    Split (joinText (lines.map (fun s => s ++ "\n"))) '\n' = lines ++ [""] := by
  induction lines with
  | nil => decide
  | cons l rest ih =>
    have hl := h l (List.mem_cons_self _ _)
    have hr := ih (fun x hx => h x (List.mem_cons_of_mem _ hx))
    have := textLines_line_append l (joinText (rest.map (fun s => s ++ "\n"))) hl
    simp only [textLines] at this
    simp only [List.map_cons, joinText, List.cons_append, this, hr]

theorem readStrings_joinText_lines (lines : List String) (h : ∀ l ∈ lines, '\n' ∉ l.data) :
    readStrings (joinText (lines.map (fun s => s ++ "\n"))) = lines.map (fun s => s ++ "\n") := by
  simp [readStrings, Split_joinText_lines lines h]

theorem nodesMap_get_set_self (m : nodesMap) (k : Nat) (v : List String) :
    (m.set k v).get k = v := by
  induction m with
  | nil => simp [nodesMap.set, nodesMap.get]
  | cons p rest ih =>
    obtain ⟨k2, v2⟩ := p
    by_cases h : k2 = k
    · simp [nodesMap.set, nodesMap.get, h]
    · simp [nodesMap.set, nodesMap.get, h, ih]

theorem nodesMap_get_set_other (m : nodesMap) (k k3 : Nat) (v : List String) (hk : k ≠ k3) :
    (m.set k v).get k3 = m.get k3 := by
  induction m with
  | nil => simp [nodesMap.set, nodesMap.get, hk]
  | cons p rest ih =>
    obtain ⟨k2, v2⟩ := p
    by_cases h : k2 = k
    · subst h
      simp [nodesMap.set, nodesMap.get, hk]
    · by_cases h3 : k2 = k3
      · subst h3
        simp [nodesMap.set, nodesMap.get, h]
      · simp [nodesMap.set, nodesMap.get, h, h3, ih]

theorem nodesMap_mem_set (m : nodesMap) (k : Nat) (v : List String) (p : Nat × List String)
    (hp : p ∈ m.set k v) : p.1 = k ∨ ∃ q ∈ m, q.1 = p.1 := by
  induction m with
  | nil =>
    simp only [nodesMap.set, List.mem_singleton] at hp
    left; rw [hp]
  | cons q rest ih =>
    obtain ⟨k2, v2⟩ := q
    by_cases h : k2 = k
    · simp only [nodesMap.set, h, if_true, List.mem_cons] at hp
      rcases hp with hp | hp
      · left; rw [hp]
      · right; exact ⟨p, List.mem_cons_of_mem _ hp, rfl⟩
    · simp only [nodesMap.set, h, if_false, List.mem_cons] at hp
      rcases hp with hp | hp
      · right; exact ⟨(k2, v2), List.mem_cons_self _ _, by rw [hp]⟩
      · rcases ih hp with h1 | ⟨q, hq, hq1⟩
        · left; exact h1
        · right; exact ⟨q, List.mem_cons_of_mem _ hq, hq1⟩

theorem devideNodesToMap_loop_none_cons (s : String) (rest : List String) (counter : Nat)
    (m : nodesMap) :
    devideNodesToMap.loop none (s :: rest) counter m =
      match (Fields s)[0]? with
      | none => none
      | some node =>
        if devideNodesToMap.skip node then devideNodesToMap.loop none rest counter m
        else
          devideNodesToMap.loop none rest (if counter + 1 > nrOfFiles then 1 else counter + 1)
            (m.set counter (m.get counter ++ [node])) := by
  rw [devideNodesToMap.loop]
  · rfl
  · intro h
    cases h

/-- The state of the loop of `devideNodesToMap` after the nodes `r` were kept. -/
theorem devideNodesToMap_loop_round_robin (reads : List String)
    (hf : ∀ s ∈ reads, Fields s ≠ []) (counter : Nat) (m : nodesMap) (r : List String)
    (hc : counter = r.length % 30 + 1)
    (hlen : ∀ k, 1 ≤ k → k ≤ 30 → (m.get k).length = (r.length + 30 - k) / 30)
    (hpos : ∀ i node, r[i]? = some node → (m.get (i % 30 + 1))[i / 30]? = some node)
    (hkeys : ∀ p ∈ m, 1 ≤ p.1 ∧ p.1 ≤ 30) :
    ∃ m2, devideNodesToMap.loop none reads counter m = some (m2, false) ∧
      (∀ k, 1 ≤ k → k ≤ 30 →
        (m2.get k).length = ((r ++ retainedNodes reads).length + 30 - k) / 30) ∧
      (∀ i node, (r ++ retainedNodes reads)[i]? = some node →
        (m2.get (i % 30 + 1))[i / 30]? = some node) ∧
      (∀ p ∈ m2, 1 ≤ p.1 ∧ p.1 ≤ 30) := by
  induction reads generalizing counter m r with
  | nil =>
    refine ⟨m, rfl, ?_, ?_, hkeys⟩
    · simpa [retainedNodes] using hlen
    · simpa [retainedNodes] using hpos
  | cons s rest ih =>
    have hrest : ∀ x ∈ rest, Fields x ≠ [] := fun x hx => hf x (List.mem_cons_of_mem _ hx)
    cases hfs : Fields s with
    | nil => exact absurd hfs (hf s (List.mem_cons_self _ _))
    | cons node tl =>
      have h0 : (Fields s)[0]? = some node := by rw [hfs]; simp
      by_cases hskip : devideNodesToMap.skip node = true
      · have hret : retainedNodes (s :: rest) = retainedNodes rest := by
          simp [retainedNodes, List.filterMap_cons, h0, hskip]
        rw [hret]
        have hl : devideNodesToMap.loop none (s :: rest) counter m =
            devideNodesToMap.loop none rest counter m := by
          rw [devideNodesToMap_loop_none_cons]
          simp only [h0, hskip, if_true]
        rw [hl]
        exact ih hrest counter m r hc hlen hpos hkeys
      · have hskip2 : devideNodesToMap.skip node = false := by
          simpa using hskip
        have hret : retainedNodes (s :: rest) = node :: retainedNodes rest := by
          simp [retainedNodes, List.filterMap_cons, h0, hskip2]
        have happ : r ++ retainedNodes (s :: rest) = (r ++ [node]) ++ retainedNodes rest := by
          rw [hret]; simp
        rw [happ]
        have hl : devideNodesToMap.loop none (s :: rest) counter m =
            devideNodesToMap.loop none rest (if counter + 1 > nrOfFiles then 1 else counter + 1)
              (m.set counter (m.get counter ++ [node])) := by
          rw [devideNodesToMap_loop_none_cons]
          simp only [h0, hskip2, Bool.false_eq_true, if_false]
        rw [hl]
        have hcl : (m.get counter).length = r.length / 30 := by
          rw [hlen counter (by omega) (by omega)]
          omega
        apply ih hrest
        · simp only [nrOfFiles, List.length_append, List.length_singleton]
          split <;> omega
        · intro k hk1 hk30
          by_cases hkc : counter = k
          · subst hkc
            rw [nodesMap_get_set_self]
            simp only [List.length_append, List.length_singleton, hcl]
            omega
          · rw [nodesMap_get_set_other _ _ _ _ hkc, hlen k hk1 hk30]
            simp only [List.length_append, List.length_singleton]
            omega
        · intro i nd hi
          by_cases hir : i < r.length
          · have hi2 : r[i]? = some nd := by
              rw [List.getElem?_append_left hir] at hi
              exact hi
            have hold := hpos i nd hi2
            by_cases hkc : counter = i % 30 + 1
            · rw [← hkc, nodesMap_get_set_self]
              rw [← hkc] at hold
              have hlt : i / 30 < (m.get counter).length := by
                rcases List.getElem?_eq_some_iff.mp hold with ⟨h, _⟩
                exact h
              rw [List.getElem?_append_left hlt]
              exact hold
            · rw [nodesMap_get_set_other _ _ _ _ hkc]
              exact hold
          · have hlen2 : i < (r ++ [node]).length := by
              rcases List.getElem?_eq_some_iff.mp hi with ⟨h, _⟩
              exact h
            simp only [List.length_append, List.length_singleton] at hlen2
            have hie : i = r.length := by omega
            subst hie
            have hnd : nd = node := by
              rw [List.getElem?_append_right (Nat.le_refl _)] at hi
              simpa using hi.symm
            rw [hnd, ← hc, nodesMap_get_set_self, ← hcl,
              List.getElem?_append_right (Nat.le_refl _)]
            simp
        · intro p hp
          rcases nodesMap_mem_set _ _ _ _ hp with h | ⟨q, hq, hq1⟩
          · rw [h]; omega
          · rw [← hq1]; exact hkeys q hq

theorem retainedNodes_reads (lines : List String) :
    retainedNodes (lines.map (fun s => s ++ "\n")) = retainedNodes lines := by
  simp only [retainedNodes, List.filterMap_map]
  congr 2
  funext l
  simp only [Function.comp, Fields_append_newline]

/-- C27: `devideNodesToMap` deals the nodes it keeps over the 30 buckets in
turn. For a file whose lines each end with a newline and have at least one
field, it returns a map and no error; the nodes kept are the first fields of the
lines, without those that hold `RNC`, `test` or `TEST` or that are at most 7
bytes long and hold `_`; the `i`-th of them (from 0, in the order of the lines)
is element `i / 30` of bucket `i mod 30 + 1`; every key of the map lies in
1..30; every element of a bucket is one of the nodes kept, at one index only;
bucket `k` has `(n + 30 - k) / 30` of the `n` nodes kept, so the sizes of the
buckets differ by at most one. -/
theorem devideNodesToMap_round_robin (lines : List String)
    (hnl : ∀ l ∈ lines, '\n' ∉ l.data) (hf : ∀ l ∈ lines, Fields l ≠ []) :
    ∃ m, devideNodesToMap (joinText (lines.map (fun l => l ++ "\n"))) none = some (m, false) ∧
      (∀ i node, (retainedNodes lines)[i]? = some node →
        (m.get (i % 30 + 1))[i / 30]? = some node) ∧
      (∀ k, 1 ≤ k → k ≤ 30 →
        (m.get k).length = ((retainedNodes lines).length + 30 - k) / 30) ∧
      (∀ p ∈ m, 1 ≤ p.1 ∧ p.1 ≤ 30) ∧
      (∀ k j node, 1 ≤ k → k ≤ 30 → (m.get k)[j]? = some node →
        (retainedNodes lines)[30 * j + (k - 1)]? = some node) ∧
      (∀ k1 k2, 1 ≤ k1 → k1 ≤ 30 → 1 ≤ k2 → k2 ≤ 30 →
        (m.get k1).length ≤ (m.get k2).length + 1) ∧
      retainedNodes lines =
        (lines.filterMap (fun l => (Fields l)[0]?)).filter (fun n =>
          !(Contains n "RNC" || Contains n "test" || Contains n "TEST" ||
            (decide (len n ≤ 7) && Contains n "_"))) := by
  have hreads : ∀ s ∈ lines.map (fun l => l ++ "\n"), Fields s ≠ [] := by
    intro s hs
    obtain ⟨l, hl, rfl⟩ := List.mem_map.mp hs
    rw [Fields_append_newline]
    exact hf l hl
  obtain ⟨m, hm, hlen, hpos, hkeys⟩ := devideNodesToMap_loop_round_robin
    (lines.map (fun l => l ++ "\n")) hreads 1 [] [] rfl
    (by intro k h1 h30; simp only [nodesMap.get, List.length_nil]; omega)
    (by intro i node h; simp at h)
    (by intro p hp; cases hp)
  rw [List.nil_append, retainedNodes_reads] at hlen hpos
  refine ⟨m, ?_, hpos, hlen, hkeys, ?_, ?_, rfl⟩
  · rw [devideNodesToMap, readStrings_joinText_lines lines hnl]
    exact hm
  · intro k j node h1 h30 hj
    have hjl : j < (m.get k).length := (List.getElem?_eq_some_iff.mp hj).1
    rw [hlen k h1 h30] at hjl
    have hi : 30 * j + (k - 1) < (retainedNodes lines).length := by omega
    have hget := hpos (30 * j + (k - 1)) _ (List.getElem?_eq_getElem hi)
    have e1 : (30 * j + (k - 1)) % 30 + 1 = k := by omega
    have e2 : (30 * j + (k - 1)) / 30 = j := by omega
    rw [e1, e2, hj] at hget
    rw [List.getElem?_eq_getElem hi, hget]
  · intro k1 k2 h1 h2 h3 h4
    rw [hlen k1 h1 h2, hlen k2 h3 h4]
    omega


theorem devideNodesToMap_round_robin_witness :
    ∃ m, devideNodesToMap (joinText (["a_b 10.0.0.1", "ERBS0001 10.0.0.2", "RNC01 10.0.0.3",
        "ERBS0002"].map (fun l => l ++ "\n"))) none = some (m, false) ∧
      (∀ i node, (retainedNodes ["a_b 10.0.0.1", "ERBS0001 10.0.0.2", "RNC01 10.0.0.3",
          "ERBS0002"])[i]? = some node → (m.get (i % 30 + 1))[i / 30]? = some node) :=
  have h := devideNodesToMap_round_robin
    ["a_b 10.0.0.1", "ERBS0001 10.0.0.2", "RNC01 10.0.0.3", "ERBS0002"]
    (by decide) (by decide)
  h.elim fun m hm => ⟨m, hm.1, hm.2.1⟩

/-! ### The names the checks record and the table of descriptions -/

theorem allDescribed_mapSet (m : GoMap Bool) (k : String) (b : Bool) (hm : AllDescribed m)
    (hk : description k ≠ "") : AllDescribed (mapSet m k b) := by
  intro p hp
  rcases mem_mapSet m k b p hp with h | h
  · exact hm p h
  · rw [h]; exact hk

theorem allDescribed_records (name : String) (s1 s2 : CheckState) (h : Records name s1 s2)
    (hk : description name ≠ "") (hm : AllDescribed s1.Checks) : AllDescribed s2.Checks := by
  obtain ⟨b, hb⟩ := h
  rw [hb]
  exact allDescribed_mapSet _ _ _ hm hk

theorem singleChecks_described (now : Now) (host : String) (fl : Float64) (c : NamedCheck)
    (hc : c ∈ singleChecks now host fl) : description c.1 ≠ "" := by
  simp only [singleChecks, returningChecks, echoingChecks, zfsChecks, absenceChecks,
    List.mem_append, List.mem_cons, List.mem_singleton, List.not_mem_nil, or_false] at hc
  rcases hc with (((hc | hc) | hc) | hc) | hc
  · rcases hc with rfl | rfl | rfl | rfl | rfl | rfl | rfl | rfl | rfl | rfl | rfl | rfl | rfl |
      rfl | rfl | rfl | rfl | rfl | rfl | rfl | rfl | rfl | rfl | rfl | rfl | rfl <;> (dsimp only; decide)
  · rcases hc with rfl | rfl | rfl | rfl | rfl | rfl | rfl | rfl | rfl | rfl | rfl | rfl | rfl |
      rfl | rfl <;> (dsimp only; decide)
  · rcases hc with rfl | rfl | rfl <;> (dsimp only; decide)
  · rcases hc with rfl | rfl | rfl | rfl | rfl <;> (dsimp only; decide)
  · rw [hc]; decide

theorem DeepCheckETLC_described (now : String) (st : CheckState) (r : CmdResult)
    (hm : AllDescribed st.Checks) : AllDescribed (DeepCheckETLC now st r).state.Checks := by
  have d0 : description "DeepCheckETLC" ≠ "" := by decide
  have d1 : description "FindParsedInKnown" ≠ "" := by decide
  have d2 : description "FindKnownInParsed" ≠ "" := by decide
  have d3 : description "CompareNumParsed" ≠ "" := by decide
  simp only [DeepCheckETLC, runCmd, ExecCmd]
  split
  · exact allDescribed_mapSet _ _ _ (allDescribed_mapSet _ _ _ hm d0) d0
  · split
    · exact allDescribed_mapSet _ _ _ hm d0
    · simp only [Flow.state, DeepCheckETLC.reconcile, FindParsedInKnown_eq, FindKnownInParsed_eq,
        CompareNumParsed_eq]
      repeat' split
      all_goals
        repeat (first
          | exact hm
          | exact d0
          | exact d1
          | exact d2
          | exact d3
          | apply allDescribed_mapSet)

/-- C28: every name a check of the package records in `Checks` has a text in
the table of descriptions. The 64 check functions record under their own name,
and `DeepCheckETLC` also under the names of the three reconciliations; each of
these names has a text that is not empty, so a map whose keys all have a text
keeps that property through any check, and the summary line `AuditSummary`
writes for an entry of such a map ends in a text that is not empty. -/
theorem description_covers_recorded_names (now : Now) (host : String) (fl : Float64)
    (st : CheckState) (hm : AllDescribed st.Checks) :
    (∀ c ∈ singleChecks now host fl, description c.1 ≠ "" ∧
      ∀ r, AllDescribed (c.2 st r).state.Checks) ∧
    (∀ r s, CheckDisksSU st r = some s → AllDescribed s.Checks) ∧
    (∀ r s, CheckOssDisksSU st r = some s → AllDescribed s.Checks) ∧
    (∀ have_ must, AllDescribed (FindParsedInKnown have_ must st).2.Checks) ∧
    (∀ have_ must, AllDescribed (FindKnownInParsed have_ must st).2.Checks) ∧
    (∀ have_ must, AllDescribed (CompareNumParsed have_ must st).2.Checks) ∧
    (∀ r, AllDescribed (DeepCheckETLC now.rfc3339 st r).state.Checks) ∧
    (∀ r, AllDescribed (CheckSyBackLog now st r).state.Checks) ∧
    (∀ run, AllDescribed (CheckETLC now run st).state.Checks) ∧
    (∀ run, AllDescribed (CheckSrvs host run st).state.Checks) ∧
    (∀ history createErr flushErr run, AllDescribed
      (CheckSrvsUptime host history createErr flushErr run st).1.state.Checks) ∧
    (∀ run, AllDescribed (MonRestarts now run st).state.Checks) ∧
    (∀ run, AllDescribed (KillOldSessions now run st).state.Checks) ∧
    (∀ run, AllDescribed (CheckNetBackupClients run st).state.Checks) ∧
    (∀ run, AllDescribed (CheckBackupPoliciesSchedExec host now run st).state.Checks) ∧
    (∀ name ∈ ["CheckDisksSU", "CheckOssDisksSU", "FindParsedInKnown", "FindKnownInParsed",
        "CompareNumParsed", "DeepCheckETLC", "CheckSyBackLog", "CheckETLC", "CheckSrvs",
        "CheckSrvsUptime", "MonRestarts", "KillOldSessions", "CheckNetBackupClients",
        "CheckBackupPoliciesSchedExec"], description name ≠ "") ∧
    (∀ (h w : String), (AuditSummary h w st.Checks).w = w ++ "\n" ++ h ++ ":\n" ++
        summaryText st.Checks ∧
      ∀ p ∈ st.Checks, summaryLine p =
        (if p.2 then "ok" else "nok") ++ "\t" ++ p.1 ++ " - " ++ description p.1 ∧
        description p.1 ≠ "") := by
  refine ⟨fun c hc => ⟨singleChecks_described now host fl c hc, fun r =>
      allDescribed_records _ _ _ (singleChecks_records now host fl c hc st r)
        (singleChecks_described now host fl c hc) hm⟩,
    fun r s h => allDescribed_records _ _ _ (CheckDisksSU_records st r s h) (by decide) hm,
    fun r s h => allDescribed_records _ _ _ (CheckOssDisksSU_records st r s h) (by decide) hm,
    fun have_ must => ?_, fun have_ must => ?_, fun have_ must => ?_,
    fun r => DeepCheckETLC_described now.rfc3339 st r hm, fun r => ?_,
    fun run => allDescribed_records _ _ _
      (records_of_falls _ _ _ (CheckETLC_falls now run st)) (by decide) hm,
    fun run => allDescribed_records _ _ _
      (records_of_falls _ _ _ (CheckSrvs_falls host run st)) (by decide) hm,
    fun history createErr flushErr run => allDescribed_records _ _ _
      (records_of_falls _ _ _ (CheckSrvsUptime_falls host history createErr flushErr run st))
      (by decide) hm,
    fun run => allDescribed_records _ _ _
      (records_of_falls _ _ _ (MonRestarts_falls now run st)) (by decide) hm,
    fun run => allDescribed_records _ _ _
      (records_of_falls _ _ _ (KillOldSessions_falls now run st)) (by decide) hm,
    fun run => allDescribed_records _ _ _
      (records_of_falls _ _ _ (CheckNetBackupClients_falls run st)) (by decide) hm,
    fun run => allDescribed_records _ _ _
      (records_of_falls _ _ _ (CheckBackupPoliciesSchedExec_falls host now run st))
      (by decide) hm,
    by decide,
    fun h w => ⟨?_, fun p hp => ⟨rfl, hm p hp⟩⟩⟩
  · rw [FindParsedInKnown_eq]; exact allDescribed_mapSet _ _ _ hm (by decide)
  · rw [FindKnownInParsed_eq]; exact allDescribed_mapSet _ _ _ hm (by decide)
  · rw [CompareNumParsed_eq]; exact allDescribed_mapSet _ _ _ hm (by decide)
  · by_cases hday : now.weekday = Weekday.Sunday
    · exact allDescribed_records _ _ _
        (records_of_falls _ _ _ (CheckSyBackLog_falls now st r hday)) (by decide) hm
    · have hs : now.weekday.str ≠ "Sunday" := by
        revert hday
        cases now.weekday <;> simp [Weekday.str]
      simp only [CheckSyBackLog, hs, ne_eq, not_false_eq_true, if_true]
      exact hm
  · rw [AuditSummary_w]
    simp only [String.append_assoc]

theorem description_covers_recorded_names_witness :
    AllDescribed (CheckSyDb ⟨[], ""⟩ ⟨"hdr\nmaster 10 90 10", false⟩).state.Checks ∧
    description "CheckSyDb" ≠ "" :=
  have h := description_covers_recorded_names
    ⟨"2020-10-12T06:00:00+06:00", Weekday.Monday, Month.October, 12, 2020⟩ "eniq-coordinator"
    Float64.whole ⟨[], ""⟩ (fun p hp => absurd hp (List.not_mem_nil p))
  have h1 := h.1 ("CheckSyDb", CheckSyDb) (by simp [singleChecks, returningChecks])
  ⟨h1.2 ⟨"hdr\nmaster 10 90 10", false⟩, h1.1⟩

/-! ### A disk without a threshold -/

theorem mapGet_of_lookup_none {α : Type} (zero : α) (m : GoMap α) (k : String)
    (h : mapLookup m k = none) : mapGet zero m k = zero := by
  simp [mapGet, h]

/-- C29: in `CheckOssDisksSU` a disk that is no key of the table of thresholds
is compared with 0, the zero value of the map: a usage line `<n>%<disk>` of such
a disk is reported `ok` exactly when `n ≤ 0`, otherwise `nok`; and on a successful
output whose non-empty lines are usage lines, one such disk with a positive usage
makes the verdict false. -/
theorem CheckOssDisksSU_unknown_disk (s : String) (n : Int) (disk : String)
    (hp : parseUsage s = some (n, disk))
    (hdisk : mapLookup CheckOssDisksSU.threshold disk = none) :
    mapGet 0 CheckOssDisksSU.threshold disk = 0 ∧
    (∀ (name : String) (rest : List String) (st : CheckState), s ≠ "" →
      CheckOssDisksSU.loop name (s :: rest) st =
        if n ≤ 0 then
          CheckOssDisksSU.loop name rest
            { st with w := st.w ++ "\tok\t" ++ fmtInt n ++ "%" ++ "\t" ++ disk ++ "\n" }
        else
          CheckOssDisksSU.loop name rest
            { Checks := mapSet st.Checks name false,
              w := st.w ++ "\tnok\t" ++ fmtInt n ++ "%" ++ "\t" ++ disk ++ "\n" }) ∧
    (∀ (st : CheckState) (output : String),
      (∀ x ∈ Split output '\n', x ≠ "" → parseUsage x ≠ none) →
      s ∈ Split output '\n' → 0 < n →
      ∃ st1, CheckOssDisksSU st ⟨output, false⟩ = some st1 ∧
        verdict "CheckOssDisksSU" st1 = false) := by
  have h0 := mapGet_of_lookup_none (0 : Int) _ _ hdisk
  refine ⟨h0, ?_, ?_⟩
  · intro name rest st hne
    have hlen : ¬ s.length = 0 := fun h => hne ((length_eq_zero_iff s).mp h)
    unfold parseUsage at hp
    split at hp
    · rename_i l0 d tail heq
      split at hp
      · rename_i su hsu
        simp only [Option.some.injEq, Prod.mk.injEq] at hp
        obtain ⟨rfl, rfl⟩ := hp
        rw [CheckOssDisksSU.loop]
        simp only [hlen, if_false, heq, hsu, h0]
      · cases hp
    · cases hp
  · intro st output hshape hmem hpos
    refine ⟨_, CheckOssDisksSU_eq st output hshape, ?_⟩
    have hall : (Split output '\n').all CheckOssDisksSU.lineOk = false := by
      rw [Bool.eq_false_iff]
      intro hall
      have := (all_ossLineOk_iff _).mp hall s hmem n disk hp
      rw [h0] at this
      omega
    simp [hall, verdict, mapGet_mapSet_self]

theorem CheckOssDisksSU_unknown_disk_witness :
    ∃ st1, CheckOssDisksSU ⟨[], ""⟩ ⟨"1%/data", false⟩ = some st1 ∧
      verdict "CheckOssDisksSU" st1 = false :=
  (CheckOssDisksSU_unknown_disk "1%/data" 1 "/data" (by decide) (by decide)).2.2
    ⟨[], ""⟩ "1%/data" (by decide) (by decide) (by decide)

/-- C30: a log line whose interface is `INTF_TERM_LOG-eniq_oss_2`. The code
passes the component to `strings.TrimLeft` with the cutset `INTF_`, which drops
every leading character out of `I`, `N`, `T`, `F` and `_` : the key counted is
`ERM_LOG-eniq_oss_2`, while the component without its prefix `INTF_` is
`TERM_LOG-eniq_oss_2`. -/
theorem DeepCheckETLC_key_loses_more_than_prefix :
    DeepCheckETLC.parse
      ["07.10 01:00:11 12 INFO etl.INTF_TERM_LOG-eniq_oss_2.Adapter : Parsed 5 rows"] [] =
      some [("ERM_LOG-eniq_oss_2", 1)] ∧
    TrimLeft "INTF_TERM_LOG-eniq_oss_2" "INTF_" = "ERM_LOG-eniq_oss_2" ∧
    TrimPrefix "INTF_TERM_LOG-eniq_oss_2" "INTF_" = "TERM_LOG-eniq_oss_2" := by
  decide

/-! ### `CheckSrvsUptime` in closed form -/

theorem CheckSrvsUptime_loop_eq (name : String) (prevTime : GoMap String)
    (run : Nat → CmdResult) (l : List (Nat × String)) (wSrvs : String) (st : CheckState)
    (h : CheckSrvsUptime.readable run l) :
    CheckSrvsUptime.loop name prevTime run l wSrvs st =
      (Flow.next
        { Checks := if l.all (CheckSrvsUptime.itemPass prevTime run) then st.Checks
            else mapSet st.Checks name false,
          w := st.w ++ joinText (l.map (CheckSrvsUptime.itemReport prevTime run)) },
        wSrvs ++ joinText (l.map (CheckSrvsUptime.itemSaved run))) := by
  induction l generalizing wSrvs st with
  | nil => simp [CheckSrvsUptime.loop, joinText]
  | cons x rest ih =>
    have hrest : CheckSrvsUptime.readable run rest :=
      fun y hy => h y (List.mem_cons_of_mem _ hy)
    have hx := h x (List.mem_cons_self _ _)
    rw [CheckSrvsUptime.loop]
    simp only [exec, ExecCmd]
    cases herr : (run x.1).err with
    | true =>
      simp only [if_true, ih _ _ hrest, List.all_cons, CheckSrvsUptime.itemPass, herr,
        Bool.not_true, Bool.false_and, Bool.false_eq_true, if_false, List.map_cons, joinText,
        CheckSrvsUptime.itemReport, CheckSrvsUptime.itemSaved, CmdFailed, mapSet_mapSet_same,
        ite_self, String.append_assoc, String.empty_append]
    | false =>
      rw [herr] at hx
      simp only [Bool.false_eq_true, false_or] at hx
      cases hobs : CheckSrvsUptime.observe (run x.1).output with
      | none => rw [hobs] at hx; cases hx
      | some q =>
        obtain ⟨desc, time⟩ := q
        unfold CheckSrvsUptime.observe at hobs
        split at hobs
        · cases hobs
        · rename_i p1 hp1
          split at hobs
          · cases hobs
          · rename_i d hd
            split at hobs
            · cases hobs
            · rename_i p5 hp5
              split at hobs
              · cases hobs
              · rename_i t ht
                simp only [Option.some.injEq, Prod.mk.injEq] at hobs
                obtain ⟨rfl, rfl⟩ := hobs
                have hobs2 : CheckSrvsUptime.observe (run x.1).output = some (d, t) := by
                  simp only [CheckSrvsUptime.observe, hp1, hd, hp5, ht]
                simp only [Bool.false_eq_true, if_false, hp1, hd, hp5, ht, ih _ _ hrest,
                  List.all_cons, CheckSrvsUptime.itemPass, herr, Bool.not_false, Bool.true_and,
                  hobs2, List.map_cons, joinText, CheckSrvsUptime.itemReport,
                  CheckSrvsUptime.itemSaved]
                by_cases hm : t = mapGet "" prevTime x.2
                · simp only [hm, if_true, decide_True, Bool.true_and, put, String.append_assoc]
                · simp only [hm, if_false, decide_False, Bool.false_and, Bool.false_eq_true,
                    put, setVerdict, mapSet_mapSet_same, ite_self, String.append_assoc]

/-! ### Fields of a line written by `CheckSrvsUptime` -/

theorem fieldsChars_tokens (l : List Char) :
    ∀ f ∈ fieldsChars l, f ≠ [] ∧ ∀ c ∈ f, isSpace c = false := by
  induction l with
  | nil => intro f hf; cases hf
  | cons a l ih =>
    intro f hf
    cases ha : isSpace a with
    | true =>
      rw [fieldsChars_space _ _ ha] at hf
      exact ih f hf
    | false =>
      cases l with
      | nil =>
        rw [fieldsChars_single _ ha] at hf
        simp only [List.mem_singleton] at hf
        subst hf
        exact ⟨by simp, by simpa using ha⟩
      | cons d l2 =>
        cases hd : isSpace d with
        | true =>
          rw [fieldsChars_cons_space _ _ _ ha hd] at hf
          rcases List.mem_cons.mp hf with h | h
          · subst h
            exact ⟨by simp, by simpa using ha⟩
          · exact ih f h
        | false =>
          rw [fieldsChars_cons_cons _ _ _ ha hd] at hf
          rcases List.mem_cons.mp hf with h | h
          · subst h
            refine ⟨by simp, ?_⟩
            intro c hc
            rcases List.mem_cons.mp hc with h2 | h2
            · rw [h2]; exact ha
            · cases hfc : fieldsChars (d :: l2) with
              | nil => rw [hfc] at h2; cases h2
              | cons g gs =>
                rw [hfc] at h2
                exact (ih g (by rw [hfc]; exact List.mem_cons_self _ _)).2 c h2
          · exact ih f (List.mem_of_mem_tail h)

theorem fieldsChars_token_space (tok : List Char) (hne : tok ≠ [])
    (hns : ∀ c ∈ tok, isSpace c = false) (c : Char) (hc : isSpace c = true) (rest : List Char) :
    fieldsChars (tok ++ c :: rest) = tok :: fieldsChars rest := by
  induction tok with
  | nil => exact absurd rfl hne
  | cons a t ih =>
    have ha : isSpace a = false := hns a (List.mem_cons_self _ _)
    cases t with
    | nil =>
      rw [List.cons_append, List.nil_append, fieldsChars_cons_space _ _ _ ha hc,
        fieldsChars_space _ _ hc]
    | cons d t2 =>
      have hd : isSpace d = false := hns d (List.mem_cons_of_mem _ (List.mem_cons_self _ _))
      have ih2 : fieldsChars (d :: (t2 ++ c :: rest)) = (d :: t2) :: fieldsChars rest :=
        ih (by simp) (fun x hx => hns x (List.mem_cons_of_mem _ hx))
      rw [List.cons_append, List.cons_append, fieldsChars_cons_cons _ _ _ ha hd, ih2]
      rfl

theorem fieldsChars_token (tok : List Char) (hne : tok ≠ [])
    (hns : ∀ c ∈ tok, isSpace c = false) : fieldsChars tok = [tok] := by
  have h := fieldsChars_token_space tok hne hns ' ' (by decide) []
  rw [fieldsChars_append_space tok ' ' (by decide)] at h
  rw [h]
  rfl

theorem Fields_tokens (s : String) : ∀ f ∈ Fields s, isToken f := by
  intro f hf
  simp only [Fields, List.mem_map] at hf
  obtain ⟨g, hg, rfl⟩ := hf
  exact fieldsChars_tokens _ g hg

theorem Join_cons_cons (a b : String) (rest : List String) (sep : String) :
    Join (a :: b :: rest) sep = a ++ sep ++ Join (b :: rest) sep := rfl

theorem Fields_Join (toks : List String) (h : ∀ t ∈ toks, isToken t) :
    Fields (Join toks " ") = toks := by
  induction toks with
  | nil => rfl
  | cons a rest ih =>
    have ha := h a (List.mem_cons_self _ _)
    cases rest with
    | nil =>
      simp only [Join, Fields, fieldsChars_token a.data ha.1 ha.2, List.map_cons, List.map_nil]
    | cons b rest2 =>
      have ih2 := ih (fun t ht => h t (List.mem_cons_of_mem _ ht))
      have e : (Join (a :: b :: rest2) " ").data = a.data ++ ' ' :: (Join (b :: rest2) " ").data := by
        rw [Join_cons_cons]
        simp [String.data_append]
      simp only [Fields] at ih2 ⊢
      rw [e, fieldsChars_token_space a.data ha.1 ha.2 ' ' (by decide), List.map_cons, ih2]

theorem Fields_srv_time (srv : String) (toks : List String) (hs : isToken srv)
    (h : ∀ t ∈ toks, isToken t) : Fields (srv ++ " " ++ Join toks " ") = srv :: toks := by
  have e : (srv ++ " " ++ Join toks " ").data = srv.data ++ ' ' :: (Join toks " ").data := by
    simp [String.data_append]
  have h2 := Fields_Join toks h
  simp only [Fields] at h2 ⊢
  rw [e, fieldsChars_token_space srv.data hs.1 hs.2 ' ' (by decide), List.map_cons, h2]

theorem Join_tokens_no_newline (toks : List String) (h : ∀ t ∈ toks, isToken t) :
    '\n' ∉ (Join toks " ").data := by
  induction toks with
  | nil => simp [Join]
  | cons a rest ih =>
    have ha := h a (List.mem_cons_self _ _)
    have hna : '\n' ∉ a.data := fun hm => by
      have := ha.2 _ hm
      revert this
      decide
    cases rest with
    | nil => simpa [Join] using hna
    | cons b rest2 =>
      have ih2 := ih (fun t ht => h t (List.mem_cons_of_mem _ ht))
      rw [Join_cons_cons]
      simp only [String.data_append, List.mem_append, not_or]
      exact ⟨⟨hna, by decide⟩, ih2⟩

theorem restOfFields_tokens (s t : String) (h : restOfFields s = some t) :
    ∃ toks : List String, (∀ x ∈ toks, isToken x) ∧ t = Join toks " " := by
  unfold restOfFields at h
  split at h
  · cases h
  · rename_i l hl
    simp only [sliceFrom] at hl
    split at hl
    · simp only [Option.some.injEq] at hl h
      subst hl
      exact ⟨_, fun x hx => Fields_tokens s x (List.mem_of_mem_drop hx), h.symm⟩
    · cases hl

theorem observe_tokens (output desc time : String)
    (h : CheckSrvsUptime.observe output = some (desc, time)) :
    ∃ toks : List String, (∀ x ∈ toks, isToken x) ∧ time = Join toks " " := by
  unfold CheckSrvsUptime.observe at h
  split at h
  · cases h
  · split at h
    · cases h
    · split at h
      · cases h
      · split at h
        · cases h
        · rename_i t ht
          simp only [Option.some.injEq, Prod.mk.injEq] at h
          rw [← h.2]
          exact restOfFields_tokens _ _ ht

/-! ### Loading the lines that `CheckSrvsUptime` saved -/

theorem len_ne_zero_of_data (s : String) (h : s.data ≠ []) : len s ≠ 0 := by
  obtain ⟨data⟩ := s
  cases data with
  | nil => exact absurd rfl h
  | cons c cs =>
    have := Char.utf8Size_pos c
    simp only [len, String.utf8ByteSize, String.utf8ByteSize.go]
    omega

theorem CheckSrvsUptime_load_cons (s : String) (rest : List String) (m : GoMap String)
    (srv : String) (tl : List String) (hs : s.data ≠ []) (hf : Fields s = srv :: tl) :
    CheckSrvsUptime.load (s :: rest) m =
      CheckSrvsUptime.load rest (mapSet m srv (Join tl " ")) := by
  rw [CheckSrvsUptime.load]
  simp only [len_ne_zero_of_data s hs, if_false, hf, sliceFrom]
  simp

theorem CheckSrvsUptime_load_saved (time : Nat → String) (xs : List (Nat × String))
    (m : GoMap String)
    (h : ∀ x ∈ xs, isToken x.2 ∧
      ∃ toks : List String, (∀ t ∈ toks, isToken t) ∧ time x.1 = Join toks " ") :
    CheckSrvsUptime.load (xs.map (fun x => x.2 ++ " " ++ time x.1) ++ [""]) m =
      some (xs.foldl (fun m x => mapSet m x.2 (time x.1)) m) := by
  induction xs generalizing m with
  | nil =>
    simp only [List.map_nil, List.nil_append, List.foldl_nil]
    rw [CheckSrvsUptime.load]
    simp only [len, String.utf8ByteSize, String.utf8ByteSize.go, if_true]
    rfl
  | cons x rest ih =>
    obtain ⟨hx, toks, htoks, ht⟩ := h x (List.mem_cons_self _ _)
    have hd : (x.2 ++ " " ++ time x.1).data ≠ [] := by
      have := hx.1
      simp only [String.data_append, ne_eq, List.append_eq_nil, not_and]
      intro h1
      exact absurd h1.1 this
    have hf : Fields (x.2 ++ " " ++ time x.1) = x.2 :: toks := by
      rw [ht]
      exact Fields_srv_time x.2 toks hx htoks
    simp only [List.map_cons, List.cons_append, List.foldl_cons]
    rw [CheckSrvsUptime_load_cons _ _ _ _ _ hd hf, ← ht]
    exact ih _ (fun y hy => h y (List.mem_cons_of_mem _ hy))

theorem mapGet_foldl_mapSet_other (time : Nat → String) (xs : List (Nat × String))
    (m : GoMap String) (k : String) (h : ∀ x ∈ xs, x.2 ≠ k) :
    mapGet "" (xs.foldl (fun m x => mapSet m x.2 (time x.1)) m) k = mapGet "" m k := by
  induction xs generalizing m with
  | nil => rfl
  | cons x rest ih =>
    rw [List.foldl_cons, ih _ (fun y hy => h y (List.mem_cons_of_mem _ hy))]
    exact mapGet_mapSet_other "" m x.2 k (time x.1) (h x (List.mem_cons_self _ _))

theorem mapGet_foldl_mapSet (time : Nat → String) (xs : List (Nat × String))
    (m : GoMap String)
    (hsame : ∀ x ∈ xs, ∀ y ∈ xs, x.2 = y.2 → time x.1 = time y.1) :
    ∀ x ∈ xs, mapGet "" (xs.foldl (fun m x => mapSet m x.2 (time x.1)) m) x.2 = time x.1 := by
  induction xs generalizing m with
  | nil => intro x hx; cases hx
  | cons a rest ih =>
    intro x hx
    rw [List.foldl_cons]
    by_cases hk : ∃ y ∈ rest, y.2 = x.2
    · obtain ⟨y, hy, hyk⟩ := hk
      have h1 := ih (mapSet m a.2 (time a.1))
        (fun u hu v hv => hsame u (List.mem_cons_of_mem _ hu) v (List.mem_cons_of_mem _ hv))
        y hy
      rw [hyk] at h1
      rw [h1]
      exact hsame y (List.mem_cons_of_mem _ hy) x hx hyk
    · have hno : ∀ y ∈ rest, y.2 ≠ x.2 := fun y hy hyk => hk ⟨y, hy, hyk⟩
      rw [mapGet_foldl_mapSet_other time rest _ x.2 hno]
      rcases List.mem_cons.mp hx with h2 | h2
      · subst h2
        exact mapGet_mapSet_self "" m x.2 (time x.1)
      · exact absurd rfl (hno x h2)

theorem CheckSrvsUptime_srvs_tokens (host : String) :
    ∀ srv ∈ mapGet [] CheckSrvsUptime.srvs host, isToken srv := by
  rcases mapGet_eq_zero_or_mem [] CheckSrvsUptime.srvs host with h | h
  · rw [h]
    intro srv hs
    cases hs
  · have hall : ∀ l ∈ CheckSrvsUptime.srvs.map Prod.snd, ∀ srv ∈ l, isToken srv := by
      unfold isToken
      decide
    exact hall _ h

/-! ### The whole of `CheckSrvsUptime` -/

theorem CheckSrvsUptime_eq (host content : String) (prevTime : GoMap String)
    (createErr : Option String) (flushErr : Bool) (run : Nat → CmdResult) (st : CheckState)
    (hload : CheckSrvsUptime.load (Split content '\n') [] = some prevTime)
    (h : CheckSrvsUptime.readable run (indexed (mapGet [] CheckSrvsUptime.srvs host))) :
    CheckSrvsUptime host (some content) createErr flushErr run st =
      CheckSrvsUptime.close createErr flushErr
        (Flow.next
          { Checks :=
              if (indexed (mapGet [] CheckSrvsUptime.srvs host)).all
                  (CheckSrvsUptime.itemPass prevTime run) then
                mapSet st.Checks "CheckSrvsUptime" true
              else mapSet st.Checks "CheckSrvsUptime" false,
            w := (CheckSrvsUptime.writer createErr st).w ++
              joinText ((indexed (mapGet [] CheckSrvsUptime.srvs host)).map
                (CheckSrvsUptime.itemReport prevTime run)) },
          joinText ((indexed (mapGet [] CheckSrvsUptime.srvs host)).map
            (CheckSrvsUptime.itemSaved run))) := by
  unfold CheckSrvsUptime
  simp only [hload]
  rw [CheckSrvsUptime_loop_eq _ _ _ _ _ _ h]
  cases createErr <;>
    simp only [CheckSrvsUptime.writer, setVerdict, put, mapSet_mapSet_same, String.empty_append]

theorem CheckSrvsUptime_items (host : String) (run : Nat → CmdResult) (desc time : Nat → String)
    (hrun : ∀ i srv, (mapGet [] CheckSrvsUptime.srvs host)[i]? = some srv →
      (run i).err = false ∧ CheckSrvsUptime.observe (run i).output = some (desc i, time i)) :
    ∀ x ∈ indexed (mapGet [] CheckSrvsUptime.srvs host),
      (run x.1).err = false ∧
        CheckSrvsUptime.observe (run x.1).output = some (desc x.1, time x.1) := by
  intro x hx
  obtain ⟨i, srv⟩ := x
  exact hrun i srv (List.mk_mem_enum_iff_getElem?.mp hx)

theorem CheckSrvsUptime_items_readable (l : List (Nat × String)) (run : Nat → CmdResult)
    (desc time : Nat → String)
    (h : ∀ x ∈ l, (run x.1).err = false ∧
      CheckSrvsUptime.observe (run x.1).output = some (desc x.1, time x.1)) :
    CheckSrvsUptime.readable run l := by
  intro x hx
  right
  rw [(h x hx).2]
  rfl

theorem CheckSrvsUptime_items_saved (l : List (Nat × String)) (run : Nat → CmdResult)
    (desc time : Nat → String)
    (h : ∀ x ∈ l, (run x.1).err = false ∧
      CheckSrvsUptime.observe (run x.1).output = some (desc x.1, time x.1)) :
    l.map (CheckSrvsUptime.itemSaved run) = l.map (fun x => x.2 ++ " " ++ time x.1 ++ "\n") := by
  apply List.map_congr_left
  intro x hx
  simp only [CheckSrvsUptime.itemSaved, (h x hx).1, (h x hx).2, Bool.false_eq_true, if_false]

theorem CheckSrvsUptime_saved_eq (host content : String) (prevTime : GoMap String)
    (run : Nat → CmdResult) (desc time : Nat → String) (st : CheckState)
    (hload : CheckSrvsUptime.load (Split content '\n') [] = some prevTime)
    (hrun : ∀ i srv, (mapGet [] CheckSrvsUptime.srvs host)[i]? = some srv →
      (run i).err = false ∧ CheckSrvsUptime.observe (run i).output = some (desc i, time i)) :
    ∃ s, CheckSrvsUptime host (some content) none false run st =
      (Flow.next s, joinText ((indexed (mapGet [] CheckSrvsUptime.srvs host)).map
        (fun x => x.2 ++ " " ++ time x.1 ++ "\n"))) := by
  have hit := CheckSrvsUptime_items host run desc time hrun
  rw [CheckSrvsUptime_eq host content prevTime none false run st hload
    (CheckSrvsUptime_items_readable _ run desc time hit),
    CheckSrvsUptime_items_saved _ run desc time hit]
  exact ⟨_, rfl⟩

set_option maxRecDepth 8000

theorem CheckSrvsUptime_close_state (createErr : Option String) (flushErr : Bool)
    (s : CheckState) (wSrvs : String) :
    (CheckSrvsUptime.close createErr flushErr (Flow.next s, wSrvs)).1.state = s := by
  simp only [CheckSrvsUptime.close]
  split <;> rfl

/-- C21 (counterexample): without a file of the baseline (`history = none`)
`CheckSrvsUptime` ends the process in `GetFileStrings` : no service is compared,
no line is written and the verdict is still `true`. And with an empty baseline
a service whose fresh start time is the empty text is reported `ok`, since the
saved time of an unknown service is the empty text too. -/
theorem CheckSrvsUptime_without_baseline :
    CheckSrvsUptime "eniq-reader" none none false
        (fun _ => ⟨"fmri svc\nname ENIQ service\nenabled true\nstate online\nnext_state none\nstate_time Tue Oct 13 11:00:00 2020\n", false⟩)
        ⟨[], ""⟩ =
      (Flow.fatal ⟨[("CheckSrvsUptime", true)], ""⟩, "") ∧
    CheckSrvsUptime "eniq-reader" (some "") none false
        (fun _ => ⟨"fmri svc\nname ENIQ service\nenabled true\nstate online\nnext_state none\nstate_time\n", false⟩)
        ⟨[], ""⟩ =
      (Flow.next ⟨[("CheckSrvsUptime", true)],
        "\n->> svcs -l svc:/eniq/esm:default\n\tok\t == \tENIQ service\n" ++
        "\n->> svcs -l svc:/eniq/dwh_reader:default\n\tok\t == \tENIQ service\n" ++
        "\n->> svcs -l svc:/eniq/roll-snap:default\n\tok\t == \tENIQ service\n"⟩,
        "svc:/eniq/esm:default \nsvc:/eniq/dwh_reader:default \nsvc:/eniq/roll-snap:default \n") := by
  decide

/-- C21 (amended): the first run of `CheckSrvsUptime`. Without a file of the
baseline the check ends the process with the verdict `true` and nothing
written, for every host and every answer of the commands. The empty file loads
as the empty set; with it, when no command makes the code stop in a run-time
panic, the report is the text of the failed writer, if any, followed by the
text of every service in turn, and a service whose command succeeds with a
start time `time` that is not empty gets the `nok` line with the empty saved
time, and the verdict is `false`. -/
theorem CheckSrvsUptime_first_run (host : String) (createErr : Option String) (flushErr : Bool)
    (run : Nat → CmdResult) (st : CheckState) :
    CheckSrvsUptime host none createErr flushErr run st =
      (Flow.fatal (setVerdict "CheckSrvsUptime" true st), "") ∧
    CheckSrvsUptime.load (Split "" '\n') [] = some [] ∧
    (CheckSrvsUptime.readable run (indexed (mapGet [] CheckSrvsUptime.srvs host)) →
      ∀ i srv desc time, (mapGet [] CheckSrvsUptime.srvs host)[i]? = some srv →
        (run i).err = false → CheckSrvsUptime.observe (run i).output = some (desc, time) →
        time ≠ "" →
        (CheckSrvsUptime host (some "") createErr flushErr run st).1.state.w =
          (CheckSrvsUptime.writer createErr st).w ++
            joinText ((indexed (mapGet [] CheckSrvsUptime.srvs host)).map
              (CheckSrvsUptime.itemReport [] run)) ∧
        CheckSrvsUptime.itemReport [] run (i, srv) =
          "\n->> " ++ ("svcs -l " ++ srv) ++ "\n" ++
            ("\tnok\t" ++ "" ++ " => " ++ time ++ "\t" ++ desc ++ "\n") ∧
        verdict "CheckSrvsUptime"
          (CheckSrvsUptime host (some "") createErr flushErr run st).1.state = false) := by
  refine ⟨rfl, by decide, ?_⟩
  intro hread i srv desc time hi herr hobs ht
  have hmem : (i, srv) ∈ indexed (mapGet [] CheckSrvsUptime.srvs host) :=
    List.mk_mem_enum_iff_getElem?.mpr hi
  have hget : mapGet "" ([] : GoMap String) srv = "" := rfl
  have hall : (indexed (mapGet [] CheckSrvsUptime.srvs host)).all
      (CheckSrvsUptime.itemPass [] run) = false := by
    rw [Bool.eq_false_iff]
    intro hall
    have := List.all_eq_true.mp hall _ hmem
    simp only [CheckSrvsUptime.itemPass, herr, hobs, hget, Bool.not_false, Bool.true_and,
      decide_eq_true_eq] at this
    exact ht this
  rw [CheckSrvsUptime_eq host "" [] createErr flushErr run st (by decide) hread,
    CheckSrvsUptime_close_state, hall]
  refine ⟨rfl, ?_, ?_⟩
  · simp only [CheckSrvsUptime.itemReport, herr, hobs, hget, ht, Bool.false_eq_true, if_false]
  · simp only [Bool.false_eq_true, if_false, verdict, mapGet_mapSet_self]

theorem CheckSrvsUptime_first_run_witness :
    verdict "CheckSrvsUptime"
      (CheckSrvsUptime "eniq-reader" (some "") none false
        (fun _ => ⟨"fmri svc\nname ENIQ service\nenabled true\nstate online\nnext_state none\nstate_time Tue Oct 13 11:00:00 2020\n", false⟩)
        ⟨[], ""⟩).1.state = false :=
  ((CheckSrvsUptime_first_run "eniq-reader" none false
    (fun _ => ⟨"fmri svc\nname ENIQ service\nenabled true\nstate online\nnext_state none\nstate_time Tue Oct 13 11:00:00 2020\n", false⟩)
    ⟨[], ""⟩).2.2 (fun _ _ => Or.inr (by dsimp only; decide))
    0 "svc:/eniq/esm:default" "ENIQ service" "Tue Oct 13 11:00:00 2020"
    (by decide) rfl (by decide) (by decide)).2.2

/-- C22: a second run of `CheckSrvsUptime` after an unchanged first run finds no
mismatch and writes the same baseline.  The first run loads its baseline,
every command of the host's list succeeds with start time `time i` and
description `desc i` (the same in both runs, and the same for a service listed
twice), the writer of the baseline is created and flushed.  Then the first run
completes and saves some text; the second run, loading that text, writes one
`ok` line for each service, records the verdict `true`, and saves the very
same text. -/
theorem CheckSrvsUptime_second_run (host content : String) (prevTime : GoMap String)
    (run : Nat → CmdResult) (desc time : Nat → String) (st1 st2 : CheckState)
    (hload : CheckSrvsUptime.load (Split content '\n') [] = some prevTime)
    (hrun : ∀ i srv, (mapGet [] CheckSrvsUptime.srvs host)[i]? = some srv →
      (run i).err = false ∧ CheckSrvsUptime.observe (run i).output = some (desc i, time i))
    (hsame : ∀ i j srv, (mapGet [] CheckSrvsUptime.srvs host)[i]? = some srv →
      (mapGet [] CheckSrvsUptime.srvs host)[j]? = some srv → time i = time j) :
    ∃ s1 saved,
      CheckSrvsUptime host (some content) none false run st1 = (Flow.next s1, saved) ∧
      CheckSrvsUptime host (some saved) none false run st2 =
        (Flow.next
          { Checks := mapSet st2.Checks "CheckSrvsUptime" true,
            w := st2.w ++ joinText ((indexed (mapGet [] CheckSrvsUptime.srvs host)).map
              (fun x => "\n->> " ++ ("svcs -l " ++ x.2) ++ "\n" ++
                ("\tok\t" ++ time x.1 ++ " == " ++ time x.1 ++ "\t" ++ desc x.1 ++ "\n"))) },
          saved) ∧
      verdict "CheckSrvsUptime"
        (CheckSrvsUptime host (some saved) none false run st2).1.state = true := by
  obtain ⟨s1, hs1⟩ := CheckSrvsUptime_saved_eq host content prevTime run desc time st1 hload hrun
  refine ⟨s1, _, hs1, ?_⟩
  have hit := CheckSrvsUptime_items host run desc time hrun
  have htok : ∀ x ∈ indexed (mapGet [] CheckSrvsUptime.srvs host), isToken x.2 ∧
      ∃ toks : List String, (∀ t ∈ toks, isToken t) ∧ time x.1 = Join toks " " := by
    intro x hx
    refine ⟨?_, observe_tokens _ _ _ (hit x hx).2⟩
    obtain ⟨i, srv⟩ := x
    exact CheckSrvsUptime_srvs_tokens host srv
      (List.mem_iff_getElem?.mpr ⟨i, List.mk_mem_enum_iff_getElem?.mp hx⟩)
  have hnl : ∀ l ∈ (indexed (mapGet [] CheckSrvsUptime.srvs host)).map
      (fun x => x.2 ++ " " ++ time x.1), '\n' ∉ l.data := by
    intro l hl
    obtain ⟨x, hx, rfl⟩ := List.mem_map.mp hl
    obtain ⟨h1, toks, h2, h3⟩ := htok x hx
    have hn1 : '\n' ∉ x.2.data := fun hm => by
      have := h1.2 _ hm
      revert this
      decide
    have hn2 := Join_tokens_no_newline toks h2
    rw [← h3] at hn2
    simp only [String.data_append, List.mem_append, not_or]
    exact ⟨⟨hn1, by decide⟩, hn2⟩
  have hsplit : Split (joinText ((indexed (mapGet [] CheckSrvsUptime.srvs host)).map
      (fun x => x.2 ++ " " ++ time x.1 ++ "\n"))) '\n' =
      (indexed (mapGet [] CheckSrvsUptime.srvs host)).map
        (fun x => x.2 ++ " " ++ time x.1) ++ [""] := by
    have := Split_joinText_lines _ hnl
    rw [List.map_map] at this
    exact this
  have hload2 := CheckSrvsUptime_load_saved time
    (indexed (mapGet [] CheckSrvsUptime.srvs host)) [] htok
  rw [← hsplit] at hload2
  have hget := mapGet_foldl_mapSet time (indexed (mapGet [] CheckSrvsUptime.srvs host)) []
    (fun x hx y hy hxy => by
      obtain ⟨i, a⟩ := x
      obtain ⟨j, b⟩ := y
      simp only at hxy
      subst hxy
      exact hsame i j a (List.mk_mem_enum_iff_getElem?.mp hx)
        (List.mk_mem_enum_iff_getElem?.mp hy))
  have hpass : (indexed (mapGet [] CheckSrvsUptime.srvs host)).all
      (CheckSrvsUptime.itemPass
        ((indexed (mapGet [] CheckSrvsUptime.srvs host)).foldl
          (fun m x => mapSet m x.2 (time x.1)) []) run) = true := by
    rw [List.all_eq_true]
    intro x hx
    simp only [CheckSrvsUptime.itemPass, (hit x hx).1, (hit x hx).2, hget x hx, Bool.not_false,
      Bool.true_and, decide_True]
  have hrep : (indexed (mapGet [] CheckSrvsUptime.srvs host)).map
      (CheckSrvsUptime.itemReport
        ((indexed (mapGet [] CheckSrvsUptime.srvs host)).foldl
          (fun m x => mapSet m x.2 (time x.1)) []) run) =
      (indexed (mapGet [] CheckSrvsUptime.srvs host)).map
        (fun x => "\n->> " ++ ("svcs -l " ++ x.2) ++ "\n" ++
          ("\tok\t" ++ time x.1 ++ " == " ++ time x.1 ++ "\t" ++ desc x.1 ++ "\n")) := by
    apply List.map_congr_left
    intro x hx
    simp only [CheckSrvsUptime.itemReport, (hit x hx).1, (hit x hx).2, hget x hx,
      Bool.false_eq_true, if_false, if_true]
  have hrun2 := CheckSrvsUptime_eq host _ _ none false run st2 hload2
    (CheckSrvsUptime_items_readable _ run desc time hit)
  rw [hpass, hrep, CheckSrvsUptime_items_saved _ run desc time hit] at hrun2
  simp only [if_true, CheckSrvsUptime.close, CheckSrvsUptime.writer, Option.isNone_none,
    Bool.and_false, Bool.false_eq_true, if_false] at hrun2
  rw [hrun2]
  exact ⟨rfl, by simp only [Flow.state, verdict, mapGet_mapSet_self]⟩

theorem CheckSrvsUptime_second_run_witness :
    ∃ s1 saved,
      CheckSrvsUptime "eniq-reader" (some "") none false
        (fun _ => ⟨"fmri svc\nname ENIQ service\nenabled true\nstate online\nnext_state none\nstate_time Tue Oct 13 11:00:00 2020\n", false⟩)
        ⟨[], ""⟩ = (Flow.next s1, saved) ∧
      verdict "CheckSrvsUptime"
        (CheckSrvsUptime "eniq-reader" (some saved) none false
          (fun _ => ⟨"fmri svc\nname ENIQ service\nenabled true\nstate online\nnext_state none\nstate_time Tue Oct 13 11:00:00 2020\n", false⟩)
          ⟨[], ""⟩).1.state = true :=
  Exists.imp (fun _ => Exists.imp (fun _ h => ⟨h.1, h.2.2⟩))
    (CheckSrvsUptime_second_run "eniq-reader" "" []
      (fun _ => ⟨"fmri svc\nname ENIQ service\nenabled true\nstate online\nnext_state none\nstate_time Tue Oct 13 11:00:00 2020\n", false⟩)
      (fun _ => "ENIQ service") (fun _ => "Tue Oct 13 11:00:00 2020") ⟨[], ""⟩ ⟨[], ""⟩
      (by decide) (fun _ _ _ => ⟨rfl, by dsimp only; decide⟩) (fun _ _ _ _ _ => rfl))

/-- C23: a run of `CheckSrvsUptime` that completes replaces the whole baseline.
For every baseline that loads and every fresh start times `time i`, when every
command succeeds and the writer of the baseline is created and flushed, the
text written to the baseline is exactly one line `<service> <fresh time>` for
each service of the host's list, in the order of the list; this holds whether
the service matched or not, and the text does not depend on the old baseline:
any other baseline that loads gives the same text. -/
theorem CheckSrvsUptime_full_replace (host content content2 : String)
    (prevTime prevTime2 : GoMap String) (run : Nat → CmdResult) (desc time : Nat → String)
    (st : CheckState)
    (hload : CheckSrvsUptime.load (Split content '\n') [] = some prevTime)
    (hload2 : CheckSrvsUptime.load (Split content2 '\n') [] = some prevTime2)
    (hrun : ∀ i srv, (mapGet [] CheckSrvsUptime.srvs host)[i]? = some srv →
      (run i).err = false ∧ CheckSrvsUptime.observe (run i).output = some (desc i, time i)) :
    (∃ s, (CheckSrvsUptime host (some content) none false run st).1 = Flow.next s) ∧
    (CheckSrvsUptime host (some content) none false run st).2 =
      joinText ((indexed (mapGet [] CheckSrvsUptime.srvs host)).map
        (fun x => x.2 ++ " " ++ time x.1 ++ "\n")) ∧
    (CheckSrvsUptime host (some content2) none false run st).2 =
      (CheckSrvsUptime host (some content) none false run st).2 := by
  obtain ⟨s, hs⟩ := CheckSrvsUptime_saved_eq host content prevTime run desc time st hload hrun
  obtain ⟨s2, hs2⟩ := CheckSrvsUptime_saved_eq host content2 prevTime2 run desc time st hload2 hrun
  rw [hs, hs2]
  exact ⟨⟨s, rfl⟩, rfl, rfl⟩

theorem CheckSrvsUptime_full_replace_witness :
    (CheckSrvsUptime "eniq-reader"
      (some "svc:/eniq/esm:default Mon Oct 12 10:00:00 2020\nsvc:/eniq/old:default Fri\n")
      none false
      (fun _ => ⟨"fmri svc\nname ENIQ service\nenabled true\nstate online\nnext_state none\nstate_time Tue Oct 13 11:00:00 2020\n", false⟩)
      ⟨[], ""⟩).2 =
      "svc:/eniq/esm:default Tue Oct 13 11:00:00 2020\nsvc:/eniq/dwh_reader:default Tue Oct 13 11:00:00 2020\nsvc:/eniq/roll-snap:default Tue Oct 13 11:00:00 2020\n" :=
  (CheckSrvsUptime_full_replace "eniq-reader"
    "svc:/eniq/esm:default Mon Oct 12 10:00:00 2020\nsvc:/eniq/old:default Fri\n" ""
    [("svc:/eniq/esm:default", "Mon Oct 12 10:00:00 2020"), ("svc:/eniq/old:default", "Fri")] []
    (fun _ => ⟨"fmri svc\nname ENIQ service\nenabled true\nstate online\nnext_state none\nstate_time Tue Oct 13 11:00:00 2020\n", false⟩)
    (fun _ => "ENIQ service") (fun _ => "Tue Oct 13 11:00:00 2020") ⟨[], ""⟩
    (by decide) (by decide) (fun _ _ _ => ⟨rfl, by dsimp only; decide⟩)).2.1

/-- C24 (counterexample): in the line `svc:/eniq/esm:default Mon  Oct 12` the
text after the first run of white space is `Mon  Oct 12`, with two spaces after
`Mon`; the loader of `CheckSrvsUptime` saves `Mon Oct 12`, with one. -/
theorem CheckSrvsUptime_load_collapses_white_space :
    CheckSrvsUptime.load (Split "svc:/eniq/esm:default Mon  Oct 12\n" '\n') [] =
      some [("svc:/eniq/esm:default", "Mon Oct 12")] ∧
    "Mon Oct 12" ≠ "Mon  Oct 12" := by
  decide

/-- C24 (amended): what the loader of `CheckSrvsUptime` saves and how it is
compared. A line with the fields `srv :: tl` maps `srv` to the fields `tl`
joined by one space each. So a line `srv`, one space, and fields joined by one
space each maps `srv` to exactly the text after the space. In the loop, a
service whose command succeeds with the start time `time` gets the `ok` line
when `time` equals the saved text as strings and the `nok` line with the
verdict `false` otherwise, and the loop goes on. -/
theorem CheckSrvsUptime_load_joins_fields :
    (∀ (s : String) (rest : List String) (m : GoMap String) (srv : String) (tl : List String),
      Fields s = srv :: tl →
      CheckSrvsUptime.load (s :: rest) m =
        CheckSrvsUptime.load rest (mapSet m srv (Join tl " "))) ∧
    (∀ (srv : String) (toks rest : List String) (m : GoMap String),
      isToken srv → (∀ t ∈ toks, isToken t) →
      CheckSrvsUptime.load ((srv ++ " " ++ Join toks " ") :: rest) m =
        CheckSrvsUptime.load rest (mapSet m srv (Join toks " "))) ∧
    (∀ (name : String) (prevTime : GoMap String) (run : Nat → CmdResult) (i : Nat)
      (srv : String) (rest : List (Nat × String)) (wSrvs : String) (st : CheckState)
      (desc time : String),
      (run i).err = false → CheckSrvsUptime.observe (run i).output = some (desc, time) →
      CheckSrvsUptime.loop name prevTime run ((i, srv) :: rest) wSrvs st =
        CheckSrvsUptime.loop name prevTime run rest (wSrvs ++ (srv ++ " " ++ time ++ "\n"))
          (if time = mapGet "" prevTime srv then
            put ("\tok\t" ++ mapGet "" prevTime srv ++ " == " ++ time ++ "\t" ++ desc ++ "\n")
              (put ("\n->> " ++ ("svcs -l " ++ srv) ++ "\n") st)
          else
            setVerdict name false
              (put ("\tnok\t" ++ mapGet "" prevTime srv ++ " => " ++ time ++ "\t" ++ desc ++ "\n")
                (put ("\n->> " ++ ("svcs -l " ++ srv) ++ "\n") st)))) := by
  refine ⟨?_, ?_, ?_⟩
  · intro s rest m srv tl hf
    have hs : s.data ≠ [] := by
      intro h0
      have : Fields s = [] := by
        simp only [Fields, h0]
        rfl
      rw [this] at hf
      cases hf
    exact CheckSrvsUptime_load_cons s rest m srv tl hs hf
  · intro srv toks rest m hsrv htoks
    have hd : (srv ++ " " ++ Join toks " ").data ≠ [] := by
      simp only [String.data_append, ne_eq, List.append_eq_nil, not_and]
      intro h1
      exact absurd h1.1 hsrv.1
    exact CheckSrvsUptime_load_cons _ rest m srv toks hd (Fields_srv_time srv toks hsrv htoks)
  · intro name prevTime run i srv rest wSrvs st desc time herr hobs
    unfold CheckSrvsUptime.observe at hobs
    split at hobs
    · cases hobs
    · rename_i p1 hp1
      split at hobs
      · cases hobs
      · rename_i d hd
        split at hobs
        · cases hobs
        · rename_i p5 hp5
          split at hobs
          · cases hobs
          · rename_i t ht
            simp only [Option.some.injEq, Prod.mk.injEq] at hobs
            obtain ⟨rfl, rfl⟩ := hobs
            rw [CheckSrvsUptime.loop]
            simp only [exec, ExecCmd, herr, Bool.false_eq_true, if_false, hp1, hd, hp5, ht]
            by_cases hm : t = mapGet "" prevTime srv
            · simp only [hm, if_true, put, String.append_assoc]
            · simp only [hm, if_false, put, setVerdict, String.append_assoc]

theorem CheckSrvsUptime_load_joins_fields_witness :
    CheckSrvsUptime.load ["svc:/eniq/esm:default Mon Oct 12", ""] [] =
      CheckSrvsUptime.load [""] (mapSet [] "svc:/eniq/esm:default" (Join ["Mon", "Oct", "12"] " ")) :=
  CheckSrvsUptime_load_joins_fields.1 "svc:/eniq/esm:default Mon Oct 12" [""] []
    "svc:/eniq/esm:default" ["Mon", "Oct", "12"] (by decide)

/-- C25 (counterexample): when the file of the baseline cannot be read
(`history = none`) `CheckSrvsUptime` ends the process: no service is compared
and the verdict is still `true`. When the writer of the baseline cannot be
created the check goes on with the baseline it loaded, not an empty one, and
with every start time as saved the verdict ends `true`. -/
theorem CheckSrvsUptime_persistence_failure_examples :
    CheckSrvsUptime "eniq-writer" none (some "open var/eniq-writer.srvs: permission denied")
        false
        (fun _ => ⟨"fmri svc\nname ENIQ service\nenabled true\nstate online\nnext_state none\nstate_time Tue Oct 13 11:00:00 2020\n", false⟩)
        ⟨[], ""⟩ =
      (Flow.fatal ⟨[("CheckSrvsUptime", true)], ""⟩, "") ∧
    CheckSrvsUptime "eniq-writer"
        (some "svc:/eniq/esm:default Tue Oct 13 11:00:00 2020\nsvc:/eniq/dwh_reader:default Tue Oct 13 11:00:00 2020\nsvc:/eniq/roll-snap:default Tue Oct 13 11:00:00 2020\n")
        (some "open var/eniq-writer.srvs: permission denied") false
        (fun _ => ⟨"fmri svc\nname ENIQ service\nenabled true\nstate online\nnext_state none\nstate_time Tue Oct 13 11:00:00 2020\n", false⟩)
        ⟨[], ""⟩ =
      (Flow.next ⟨[("CheckSrvsUptime", true)],
        "\tnok\topen var/eniq-writer.srvs: permission denied\n" ++
        "\n->> svcs -l svc:/eniq/esm:default\n\tok\tTue Oct 13 11:00:00 2020 == Tue Oct 13 11:00:00 2020\tENIQ service\n" ++
        "\n->> svcs -l svc:/eniq/dwh_reader:default\n\tok\tTue Oct 13 11:00:00 2020 == Tue Oct 13 11:00:00 2020\tENIQ service\n" ++
        "\n->> svcs -l svc:/eniq/roll-snap:default\n\tok\tTue Oct 13 11:00:00 2020 == Tue Oct 13 11:00:00 2020\tENIQ service\n"⟩,
        "svc:/eniq/esm:default Tue Oct 13 11:00:00 2020\nsvc:/eniq/dwh_reader:default Tue Oct 13 11:00:00 2020\nsvc:/eniq/roll-snap:default Tue Oct 13 11:00:00 2020\n") := by
  decide

/-- C25 (amended): failures of the persistence in `CheckSrvsUptime`. When the
file of the baseline cannot be read the check ends the process, with the
verdict `true` and nothing written. When the writer of the baseline cannot be
created with the error `e`, and no command makes the code stop in a run-time
panic, the check is not fatal: it writes the `nok` line with `e`, then the text
of every service of the host in turn, compared with the baseline it loaded;
the verdict is `true` when every service passes and `false` otherwise. -/
theorem CheckSrvsUptime_persistence_failure (host : String) (flushErr : Bool)
    (run : Nat → CmdResult) (st : CheckState) :
    (∀ createErr : Option String,
      CheckSrvsUptime host none createErr flushErr run st =
        (Flow.fatal (setVerdict "CheckSrvsUptime" true st), "")) ∧
    (∀ (e content : String) (prevTime : GoMap String),
      CheckSrvsUptime.load (Split content '\n') [] = some prevTime →
      CheckSrvsUptime.readable run (indexed (mapGet [] CheckSrvsUptime.srvs host)) →
      CheckSrvsUptime host (some content) (some e) flushErr run st =
        (Flow.next
          { Checks :=
              if (indexed (mapGet [] CheckSrvsUptime.srvs host)).all
                  (CheckSrvsUptime.itemPass prevTime run) then
                mapSet st.Checks "CheckSrvsUptime" true
              else mapSet st.Checks "CheckSrvsUptime" false,
            w := st.w ++ ("\tnok\t" ++ e ++ "\n") ++
              joinText ((indexed (mapGet [] CheckSrvsUptime.srvs host)).map
                (CheckSrvsUptime.itemReport prevTime run)) },
          joinText ((indexed (mapGet [] CheckSrvsUptime.srvs host)).map
            (CheckSrvsUptime.itemSaved run)))) := by
  refine ⟨fun _ => rfl, ?_⟩
  intro e content prevTime hload hread
  rw [CheckSrvsUptime_eq host content prevTime (some e) flushErr run st hload hread]
  simp only [CheckSrvsUptime.close, CheckSrvsUptime.writer, put, Option.isNone_some,
    Bool.false_and, Bool.false_eq_true, if_false]

theorem CheckSrvsUptime_persistence_failure_witness :
    CheckSrvsUptime "eniq-engine" (some "svc:/eniq/esm:default Mon Oct 12\n")
        (some "No file name") true (fun _ => ⟨"", true⟩) ⟨[], ""⟩ =
      (Flow.next
        { Checks :=
            if (indexed (mapGet [] CheckSrvsUptime.srvs "eniq-engine")).all
                (CheckSrvsUptime.itemPass [("svc:/eniq/esm:default", "Mon Oct 12")]
                  (fun _ => ⟨"", true⟩)) then
              mapSet [] "CheckSrvsUptime" true
            else mapSet [] "CheckSrvsUptime" false,
          w := "" ++ ("\tnok\t" ++ "No file name" ++ "\n") ++
            joinText ((indexed (mapGet [] CheckSrvsUptime.srvs "eniq-engine")).map
              (CheckSrvsUptime.itemReport [("svc:/eniq/esm:default", "Mon Oct 12")]
                (fun _ => ⟨"", true⟩))) },
        joinText ((indexed (mapGet [] CheckSrvsUptime.srvs "eniq-engine")).map
          (CheckSrvsUptime.itemSaved (fun _ => ⟨"", true⟩)))) :=
  (CheckSrvsUptime_persistence_failure "eniq-engine" true (fun _ => ⟨"", true⟩) ⟨[], ""⟩).2
    "No file name" "svc:/eniq/esm:default Mon Oct 12\n"
    [("svc:/eniq/esm:default", "Mon Oct 12")] (by decide) (fun _ _ => Or.inl rfl)

/-! ## The rule on `nok` lines, check by check -/

/-! ### Lines of the report that begin with the `nok` tag -/

theorem joinText_append (a b : List String) : joinText (a ++ b) = joinText a ++ joinText b := by
  induction a with
  | nil => simp [joinText]
  | cons x xs ih => simp [joinText, ih, String.append_assoc]

theorem cleanText_empty : CleanText "" := ⟨[], by simp, rfl⟩

theorem cleanText_append (a b : String) (ha : CleanText a) (hb : CleanText b) :
    CleanText (a ++ b) := by
  obtain ⟨la, h1, rfl⟩ := ha
  obtain ⟨lb, h2, rfl⟩ := hb
  refine ⟨la ++ lb, ?_, ?_⟩
  · intro l hl
    rcases List.mem_append.mp hl with h | h
    · exact h1 l h
    · exact h2 l h
  · rw [List.map_append, joinText_append]

theorem cleanText_line (b : String) (h1 : NoNL b) (h2 : beginsWith "\tnok\t" b = false) :
    CleanText (b ++ "\n") := by
  refine ⟨[b], ?_, ?_⟩
  · intro l hl
    simp only [List.mem_singleton] at hl
    subst hl
    exact ⟨h1, h2⟩
  · simp [joinText]

theorem cleanText_nokFree (t : String) (h : CleanText t) : NokFree t := by
  obtain ⟨lines, h1, rfl⟩ := h
  intro line hl
  rw [Split_joinText_lines lines (fun l hl => (h1 l hl).1)] at hl
  rcases List.mem_append.mp hl with h | h
  · exact (h1 line h).2
  · simp only [List.mem_singleton] at h
    subst h
    rfl

theorem noNL_append (a b : String) (ha : NoNL a) (hb : NoNL b) : NoNL (a ++ b) := by
  unfold NoNL at *
  simp only [String.data_append, List.mem_append, not_or]
  exact ⟨ha, hb⟩

theorem isPrefixOf_append_false (p a b : List Char) (h : p.isPrefixOf (a ++ b) = false) :
    p.isPrefixOf a = false := by
  cases hp : p.isPrefixOf a with
  | false => rfl
  | true =>
    rw [List.isPrefixOf_iff_prefix] at hp
    have : p <+: a ++ b := hp.trans (List.prefix_append a b)
    rw [← List.isPrefixOf_iff_prefix] at this
    rw [this] at h
    cases h

theorem cleanText_ending (a lit : String) (ha : NoNL a)
    (hlast : lit.data.getLast? = some '\n') (hrest : '\n' ∉ lit.data.dropLast)
    (hnok : beginsWith "\tnok\t" (a ++ lit) = false) : CleanText (a ++ lit) := by
  have hne : lit.data ≠ [] := by
    intro h
    rw [h] at hlast
    cases hlast
  have hd : lit.data = lit.data.dropLast ++ ['\n'] := by
    have := List.dropLast_append_getLast? '\n' hlast
    exact this.symm
  have he : a ++ lit = (a ++ String.mk lit.data.dropLast) ++ "\n" := by
    apply String.ext
    simp only [String.data_append]
    rw [List.append_assoc]
    exact congrArg _ hd
  rw [he]
  apply cleanText_line
  · exact noNL_append _ _ ha hrest
  · rw [he] at hnok
    exact isPrefixOf_append_false _ _ _ (by simpa [beginsWith, String.data_append] using hnok)

theorem cleanText_echo (cmd : String) (h : NoNL cmd) : CleanText ("\n->> " ++ cmd ++ "\n") := by
  have he : "\n->> " ++ cmd ++ "\n" = ("" ++ "\n") ++ (("->> " ++ cmd) ++ "\n") := by
    apply String.ext
    simp [String.data_append]
  rw [he]
  apply cleanText_append
  · exact cleanText_line "" (by decide) (by decide)
  · apply cleanText_line
    · exact noNL_append _ _ (by decide) h
    · simp [beginsWith, String.data_append, List.isPrefixOf]

theorem cleanText_closed (t : String)
    (h1 : ∀ l ∈ (Split t '\n').dropLast, NoNL l ∧ beginsWith "\tnok\t" l = false)
    (h2 : t = joinText ((Split t '\n').dropLast.map fun l => l ++ "\n")) : CleanText t :=
  ⟨_, h1, h2⟩

theorem splitChars_subset (sep : Char) (l : List Char) :
    ∀ p ∈ splitChars sep l, ∀ c ∈ p, c ∈ l := by
  induction l with
  | nil =>
    intro p hp c hc
    simp only [splitChars, List.mem_singleton] at hp
    subst hp
    cases hc
  | cons a as ih =>
    intro p hp c hc
    unfold splitChars at hp
    split at hp
    · rcases List.mem_cons.mp hp with h | h
      · subst h
        cases hc
      · exact List.mem_cons_of_mem _ (ih p h c hc)
    · split at hp
      · simp only [List.mem_singleton] at hp
        subst hp
        simp only [List.mem_singleton] at hc
        subst hc
        exact List.mem_cons_self _ _
      · rename_i q qs hq
        rcases List.mem_cons.mp hp with h | h
        · subst h
          rcases List.mem_cons.mp hc with h2 | h2
          · subst h2
            exact List.mem_cons_self _ _
          · exact List.mem_cons_of_mem _ (ih q (by rw [hq]; exact List.mem_cons_self _ _) c h2)
        · exact List.mem_cons_of_mem _
            (ih p (by rw [hq]; exact List.mem_cons_of_mem _ h) c hc)

theorem noNL_of_split (s : String) (sep : Char) (h : NoNL s) : ∀ p ∈ Split s sep, NoNL p := by
  intro p hp hm
  simp only [Split, List.mem_map] at hp
  obtain ⟨q, hq, rfl⟩ := hp
  exact h (splitChars_subset sep s.data q hq _ hm)

theorem noNL_of_split_get (s : String) (sep : Char) (i : Nat) (p : String) (h : NoNL s)
    (hp : (Split s sep)[i]? = some p) : NoNL p :=
  noNL_of_split s sep h p (List.mem_iff_getElem?.mpr ⟨i, hp⟩)

theorem noNL_trimPrefix (s pre : String) (h : NoNL s) : NoNL (TrimPrefix s pre) := by
  unfold TrimPrefix
  split
  · intro hm
    exact h (List.mem_of_mem_drop hm)
  · exact h

theorem digitChar_ne_newline : ∀ d, d < 10 → Nat.digitChar d ≠ '\n' := by
  decide

theorem toDigitsCore_ne_newline (fuel n : Nat) (ds : List Char) (h : '\n' ∉ ds) :
    '\n' ∉ Nat.toDigitsCore 10 fuel n ds := by
  induction fuel generalizing n ds with
  | zero => simpa [Nat.toDigitsCore] using h
  | succ k ih =>
    have hd : '\n' ∉ Nat.digitChar (n % 10) :: ds := by
      intro hm
      rcases List.mem_cons.mp hm with e | e
      · exact digitChar_ne_newline _ (Nat.mod_lt _ (by decide)) e.symm
      · exact h e
    unfold Nat.toDigitsCore
    simp only []
    split
    · exact hd
    · exact ih _ _ hd

theorem noNL_natRepr (n : Nat) : NoNL (Nat.repr n) := by
  unfold NoNL Nat.repr Nat.toDigits
  exact toDigitsCore_ne_newline _ _ _ (by simp)

theorem noNL_fmtInt (n : Int) : NoNL (fmtInt n) := by
  unfold fmtInt
  cases n with
  | ofNat m => exact noNL_natRepr m
  | negSucc m =>
    show NoNL ("-" ++ Nat.repr (m + 1))
    exact noNL_append _ _ (by decide) (noNL_natRepr _)

theorem noNL_replaceAll (s : String) (old new : Char) (h : NoNL s) (hn : new ≠ '\n') :
    NoNL (ReplaceAll s old new) := by
  unfold NoNL ReplaceAll
  simp only [List.mem_map, not_exists, not_and]
  intro c hc
  split
  · exact hn
  · intro e
    exact h (e ▸ hc)

theorem noNL_dateOf (now : String) (h : NoNL now) : NoNL (dateOf now) := by
  unfold dateOf
  cases hs : Split now 'T' with
  | nil => exact (by decide : NoNL "")
  | cons a t => exact noNL_of_split now 'T' h a (by rw [hs]; exact List.mem_cons_self _ _)

theorem noNL_monthAbbrev (m : Month) : NoNL m.abbrev := by
  cases m <;> decide

theorem noNL_join (toks : List String) (sep : String) (h : ∀ t ∈ toks, NoNL t) (hs : NoNL sep) :
    NoNL (Join toks sep) := by
  induction toks with
  | nil => exact (by decide : NoNL "")
  | cons a rest ih =>
    cases rest with
    | nil => exact h a (List.mem_cons_self _ _)
    | cons b rest2 =>
      rw [Join_cons_cons]
      exact noNL_append _ _ (noNL_append _ _ (h a (List.mem_cons_self _ _)) hs)
        (ih (fun t ht => h t (List.mem_cons_of_mem _ ht)))

theorem noNL_lines (s : String) : ∀ p ∈ Split s '\n', NoNL p := by
  intro p hp
  simp only [Split, List.mem_map] at hp
  obtain ⟨q, hq, rfl⟩ := hp
  exact splitChars_no_sep '\n' s.data q hq

theorem noNL_of_token (f : String) (h : isToken f) : NoNL f := by
  intro hm
  have := h.2 _ hm
  revert this
  decide

theorem noNL_of_fields (s : String) (i : Nat) (f : String) (h : (Fields s)[i]? = some f) :
    NoNL f :=
  noNL_of_token f (Fields_tokens s f (List.mem_iff_getElem?.mpr ⟨i, h⟩))

theorem noNL_restOfFields (s t : String) (h : restOfFields s = some t) : NoNL t := by
  obtain ⟨toks, h1, rfl⟩ := restOfFields_tokens s t h
  exact noNL_join toks " " (fun x hx => noNL_of_token x (h1 x hx)) (by decide)

/-! ### The rule on `nok` lines, step by step -/

theorem runCmd_eq (name cmd : String) (r : CmdResult) (st : CheckState) :
    runCmd name cmd r st =
      (put ("\n->> " ++ cmd ++ "\n") (setVerdict name true st), Split r.output '\n', r.err) := by
  simp [runCmd, ExecCmd, put, setVerdict, String.append_assoc]

theorem exec_eq (cmd : String) (r : CmdResult) (st : CheckState) :
    exec cmd r st = (put ("\n->> " ++ cmd ++ "\n") st, Split r.output '\n', r.err) := by
  simp [exec, ExecCmd, put, String.append_assoc]

theorem judged_refl (name : String) (s : CheckState) : Judged name s s :=
  Judged.clean rfl "" (String.append_empty _).symm cleanText_empty

theorem judged_trans (name : String) (s1 s2 s3 : CheckState) (h1 : Judged name s1 s2)
    (h2 : Judged name s2 s3) : Judged name s1 s3 := by
  rcases h2 with h2 | ⟨hc2, t2, hw2, ht2⟩
  · exact Judged.failed h2
  · rcases h1 with h1 | ⟨hc1, t1, hw1, ht1⟩
    · apply Judged.failed
      simpa [verdict, hc2] using h1
    · refine Judged.clean (hc2.trans hc1) (t1 ++ t2) ?_ (cleanText_append _ _ ht1 ht2)
      rw [hw2, hw1, String.append_assoc]

theorem judged_put (name t : String) (s0 s : CheckState) (h : Judged name s0 s)
    (ht : CleanText t) : Judged name s0 (put t s) :=
  judged_trans name s0 s _ h (Judged.clean rfl t rfl ht)

theorem judged_setVerdict (name : String) (s0 s : CheckState) :
    Judged name s0 (setVerdict name false s) := Judged.failed (verdict_setVerdict _ _ _)

theorem judged_CmdFailed (name : String) (s0 s : CheckState) :
    Judged name s0 (CmdFailed name s) := Judged.failed (verdict_CmdFailed _ _)

theorem judged_cmdFailedLn (name : String) (s0 s : CheckState) :
    Judged name s0 (cmdFailedLn name s) := Judged.failed (verdict_cmdFailedLn _ _)

theorem judged_CmdFailOk (name msg : String) (s0 s : CheckState) (h : Judged name s0 s)
    (ht : CleanText ("\tok\t" ++ msg ++ "\n")) : Judged name s0 (CmdFailOk msg s) :=
  judged_put name _ s0 s h ht

theorem judged_of_falls (name : String) (s0 s s2 : CheckState) (hv : verdict name s = false)
    (h : Falls name s s2) : Judged name s0 s2 :=
  Judged.failed (falls_verdict name s s2 h hv)

theorem judgedF_from (name : String) (s0 s : CheckState) (f : Flow) (h : Judged name s0 s)
    (hf : JudgedF name s f) : JudgedF name s0 f := by
  cases hf with
  | next s2 h2 => exact JudgedF.next s2 (judged_trans name s0 s s2 h h2)
  | ret s2 h2 => exact JudgedF.ret s2 (judged_trans name s0 s s2 h h2)
  | panic s2 => exact JudgedF.panic s2
  | fatal s2 => exact JudgedF.fatal s2

theorem forRange_judgedF {α : Type} (name : String) (body : α → CheckState → Flow)
    (l : List α) (hbody : ∀ x ∈ l, ∀ s, JudgedF name s (body x s)) (s : CheckState) :
    JudgedF name s (forRange body l s) := by
  induction l generalizing s with
  | nil => exact JudgedF.next s (judged_refl name s)
  | cons x xs ih =>
    have hx := hbody x (List.mem_cons_self _ _) s
    have ih2 := ih (fun y hy => hbody y (List.mem_cons_of_mem _ hy))
    unfold forRange
    cases hb : body x s with
    | next s1 =>
      rw [hb] at hx
      cases hx with
      | next _ h => exact judgedF_from name s s1 _ h (ih2 s1)
    | ret s1 => rw [hb] at hx; exact hx
    | panic s1 => exact JudgedF.panic s1
    | fatal s1 => exact JudgedF.fatal s1

theorem forRange_judgedF_from {α : Type} (name : String) (body : α → CheckState → Flow)
    (l : List α) (s0 s : CheckState) (hs : Judged name s0 s)
    (hbody : ∀ x ∈ l, ∀ s, JudgedF name s (body x s)) :
    JudgedF name s0 (forRange body l s) :=
  judgedF_from name s0 s _ hs (forRange_judgedF name body l hbody s)

theorem andThen_judgedF_from (name : String) (f : Flow) (k : CheckState → Flow)
    (s0 : CheckState) (hf : JudgedF name s0 f) (hk : ∀ s1, JudgedF name s1 (k s1)) :
    JudgedF name s0 (f.andThen k) := by
  cases hf with
  | next s1 h => exact judgedF_from name s0 s1 _ h (hk s1)
  | ret s1 h => exact JudgedF.ret s1 h
  | panic s1 => exact JudgedF.panic s1
  | fatal s1 => exact JudgedF.fatal s1

theorem judgedF_of_falls (name : String) (s0 s : CheckState) (f : Flow)
    (hv : verdict name s = false) (h : Falls name s f.state) : JudgedF name s0 f := by
  cases f with
  | next s1 => exact JudgedF.next s1 (judged_of_falls name s0 s s1 hv h)
  | ret s1 => exact JudgedF.ret s1 (judged_of_falls name s0 s s1 hv h)
  | panic s1 => exact JudgedF.panic s1
  | fatal s1 => exact JudgedF.fatal s1

theorem forRange_no_ret {α : Type} (body : α → CheckState → Flow)
    (h : ∀ x s s1, body x s ≠ Flow.ret s1) (l : List α) (s s1 : CheckState) :
    forRange body l s ≠ Flow.ret s1 := by
  induction l generalizing s with
  | nil => intro e; cases e
  | cons x xs ih =>
    unfold forRange
    cases hb : body x s with
    | next s2 => exact ih s2
    | ret s2 => exact absurd hb (h x s s2)
    | panic s2 => intro e; cases e
    | fatal s2 => intro e; cases e

theorem judgedF_found (name : String) (f : Flow) (s0 : CheckState)
    (h : ∀ s1, f ≠ Flow.ret s1) :
    JudgedF name s0 (f.andThen fun st => Flow.next (setVerdict name false st)) := by
  cases f with
  | next s1 => exact JudgedF.next _ (judged_setVerdict name s0 s1)
  | ret s1 => exact absurd rfl (h s1)
  | panic s1 => exact JudgedF.panic s1
  | fatal s1 => exact JudgedF.fatal s1

theorem judgedF_nokFree (name : String) (st : CheckState) (f : Flow)
    (h : JudgedF name (setVerdict name true st) f) (hc : f.completed = true)
    (hv : verdict name f.state = true) :
    f.state.Checks = mapSet st.Checks name true ∧
      ∃ t, f.state.w = st.w ++ t ∧ NokFree t := by
  have hj : Judged name (setVerdict name true st) f.state := by
    cases h with
    | next s2 h => exact h
    | ret s2 h => exact h
    | panic s2 => cases hc
    | fatal s2 => cases hc
  rcases hj with h1 | ⟨h1, t, h2, h3⟩
  · rw [h1] at hv
    cases hv
  · exact ⟨h1, t, h2, cleanText_nokFree t h3⟩

theorem noNL_piece (s : String) (sep : Char) (i : Nat) (p : String)
    (hp : (Split s sep)[i]? = some p) (h : NoNL s) : NoNL p :=
  noNL_of_split_get s sep i p h hp

theorem noNL_lastPiece (s : String) (sep : Char) (p : String)
    (hp : lastElem (Split s sep) = some p) (h : NoNL s) : NoNL p :=
  noNL_of_split s sep h p (List.mem_of_mem_getLast? hp)

theorem judged_twice (name : String) (st : CheckState) :
    Judged name (setVerdict name true st) (setVerdict name true (setVerdict name true st)) :=
  Judged.clean (by simp [setVerdict, mapSet_mapSet_same]) "" (by simp [setVerdict])
    cleanText_empty

theorem noNL_trimLeft (s cutset : String) (h : NoNL s) : NoNL (TrimLeft s cutset) := by
  unfold NoNL TrimLeft at *
  exact fun hm => h (List.dropWhile_sublist _ |>.subset hm)

theorem noNL_trimRight (s cutset : String) (h : NoNL s) : NoNL (TrimRight s cutset) := by
  unfold NoNL TrimRight at *
  intro hm
  have h1 := List.mem_reverse.mp hm
  exact h (List.mem_reverse.mp ((List.dropWhile_sublist _).subset h1))

theorem noNL_trim (s cutset : String) (h : NoNL s) : NoNL (Trim s cutset) :=
  noNL_trimRight _ _ (noNL_trimLeft _ _ h)

theorem noNL_indexed (l : List String) (h : ∀ p ∈ l, NoNL p) : ∀ x ∈ indexed l, NoNL x.2 := by
  intro x hx
  obtain ⟨i, p⟩ := x
  have h2 := (List.mem_enum hx).2
  exact h p (h2 ▸ List.getElem_mem _)

theorem noNL_indexed_slice (printout : List String) (lo hi : Nat) (lines : List String)
    (h : ∀ p ∈ printout, NoNL p) (hs : sliceList printout lo hi = some lines) :
    ∀ x ∈ indexed lines, NoNL x.2 := by
  refine noNL_indexed lines (fun p hp => h p ?_)
  unfold sliceList at hs
  split at hs
  · cases hs
    exact List.mem_of_mem_take (List.mem_of_mem_drop hp)
  · cases hs

theorem MonConfigExports_count_noNL (printout : List String) (acc jc : GoMap Int)
    (hp : ∀ p ∈ printout, NoNL p) (hacc : ∀ e ∈ acc, NoNL e.1)
    (h : MonConfigExports.count printout acc = some jc) : ∀ e ∈ jc, NoNL e.1 := by
  induction printout generalizing acc with
  | nil =>
    simp only [MonConfigExports.count] at h
    cases h
    exact hacc
  | cons s rest ih =>
    have hrest : ∀ p ∈ rest, NoNL p := fun p hp2 => hp p (List.mem_cons_of_mem _ hp2)
    have hs : NoNL s := hp s (List.mem_cons_self _ _)
    have hset : ∀ (f : String) (v : Int), (Split s ':')[1]? = some f →
        ∀ e ∈ mapSet acc (Trim f " ") v, NoNL e.1 := by
      intro f v hf e he
      rcases mem_mapSet acc _ v e he with h1 | h1
      · exact hacc e h1
      · rw [h1]
        exact noNL_trim _ _ (noNL_piece s ':' 1 f hf hs)
    unfold MonConfigExports.count at h
    split at h
    · exact ih acc hrest hacc h
    · split at h
      · cases h
      · rename_i f hf
        simp only at h
        split at h
        · exact ih _ hrest (hset f _ hf) h
        · exact ih _ hrest (hset f _ hf) h

theorem noNL_mem_lines (s x : String) (hx : x ∈ Split s '\n') : NoNL x := noNL_lines s x hx

theorem noNL_mem_sliceFrom (s : String) (lo : Nat) (lines : List String) (x : String)
    (hx : x ∈ lines) (hs : sliceFrom (Split s '\n') lo = some lines) : NoNL x := by
  unfold sliceFrom at hs
  split at hs
  · cases hs
    exact noNL_lines s x (List.mem_of_mem_drop hx)
  · cases hs

theorem noNL_mem_sliceList (s : String) (lo hi : Nat) (lines : List String) (x : String)
    (hx : x ∈ lines) (hs : sliceList (Split s '\n') lo hi = some lines) : NoNL x := by
  unfold sliceList at hs
  split at hs
  · cases hs
    exact noNL_lines s x (List.mem_of_mem_take (List.mem_of_mem_drop hx))
  · cases hs

theorem noNL_mem_indexed (s : String) (x : Nat × String) (hx : x ∈ indexed (Split s '\n')) :
    NoNL x.2 :=
  noNL_indexed _ (noNL_lines s) x hx

theorem noNL_mem_indexed_sliceList (s : String) (lo hi : Nat) (lines : List String)
    (x : Nat × String) (hx : x ∈ indexed lines)
    (hs : sliceList (Split s '\n') lo hi = some lines) : NoNL x.2 :=
  noNL_indexed_slice _ lo hi lines (noNL_lines s) hs x hx

theorem noNL_mem_count (s : String) (jc : GoMap Int) (x : String × Int) (hx : x ∈ jc)
    (hc : MonConfigExports.count (Split s '\n') [] = some jc) : NoNL x.1 :=
  MonConfigExports_count_noNL _ [] jc (noNL_lines s) (fun e he => absurd he (List.not_mem_nil _))
    hc x hx

theorem isPrefixOf_snoc (p a : List Char) (c : Char) (hc : c ∉ p)
    (h : p.isPrefixOf a = false) : p.isPrefixOf (a ++ [c]) = false := by
  induction p generalizing a with
  | nil => simp at h
  | cons q p ih =>
    have hq : (q == c) = false := by
      simp only [beq_eq_false_iff_ne, ne_eq]
      intro e
      exact hc (e ▸ List.mem_cons_self _ _)
    cases a with
    | nil => simp [List.isPrefixOf, hq]
    | cons b a =>
      simp only [List.cons_append, List.isPrefixOf, Bool.and_eq_false_iff] at h ⊢
      rcases h with h | h
      · exact Or.inl h
      · exact Or.inr (ih a (fun hm => hc (List.mem_cons_of_mem _ hm)) h)

theorem plain_raw (output x : String) (hplain : Plain output) (hx : x ∈ Split output '\n') :
    beginsWith "\tnok\t" (x ++ "\n") = false := by
  have h := (hplain x hx).1
  unfold beginsWith at h ⊢
  rw [String.data_append]
  exact isPrefixOf_snoc _ _ '\n' (by decide) h

theorem plain_tab (output x : String) (hplain : Plain output) (hx : x ∈ Split output '\n') :
    beginsWith "\tnok\t" ("\t" ++ x ++ "\n") = false := by
  have h := (hplain x hx).2
  unfold beginsWith at h ⊢
  have e : ("\t" ++ x ++ "\n").data = '\t' :: (x.data ++ ['\n']) := by
    simp [String.data_append]
  rw [e]
  have e2 : ("\tnok\t" : String).data = '\t' :: ("nok\t" : String).data := rfl
  rw [e2]
  simp only [List.isPrefixOf, beq_self_eq_true, Bool.true_and]
  exact isPrefixOf_snoc _ _ '\n' (by decide) h

theorem isPrefixOf_of_mismatch (p a b : List Char)
    (h : (p.zip a).any (fun x => x.1 != x.2) = true) : p.isPrefixOf (a ++ b) = false := by
  induction p generalizing a with
  | nil => simp at h
  | cons c p ih =>
    cases a with
    | nil => simp at h
    | cons d a =>
      simp only [List.zip_cons_cons, List.any_cons, Bool.or_eq_true] at h
      simp only [List.cons_append, List.isPrefixOf, Bool.and_eq_false_iff]
      rcases h with h | h
      · left
        simpa using h
      · exact Or.inr (ih a h)

theorem beginsWith_of_mismatch (p a b : String)
    (h : (p.data.zip a.data).any (fun x => x.1 != x.2) = true) :
    beginsWith p (a ++ b) = false := by
  unfold beginsWith
  rw [String.data_append]
  exact isPrefixOf_of_mismatch _ _ _ h

theorem mismatch_append (p a b : String)
    (h : (p.data.zip a.data).any (fun x => x.1 != x.2) = true) :
    (p.data.zip (a ++ b).data).any (fun x => x.1 != x.2) = true := by
  rw [String.data_append]
  generalize p.data = q at h ⊢
  generalize a.data = l at h ⊢
  induction q generalizing l with
  | nil => simp at h
  | cons c q ih =>
    cases l with
    | nil => simp at h
    | cons d l =>
      simp only [List.zip_cons_cons, List.any_cons, Bool.or_eq_true, List.cons_append] at h ⊢
      exact h.imp id (ih l)

set_option linter.unusedTactic false
set_option linter.unreachableTactic false
set_option linter.unusedVariables false

theorem CheckSnapshots_body_clean (name : String) (x : String) (hx : NoNL x) (s : CheckState) :
    JudgedF name s (CheckSnapshots.body name x s) := by
  simp only [CheckSnapshots.body]
  repeat' (first | split | simp only [])
  all_goals
    with_reducible repeat' (first
      | exact JudgedF.panic _
      | exact JudgedF.fatal _
      | apply JudgedF.next
      | apply JudgedF.ret
      | exact judged_refl _ _
      | exact judged_setVerdict _ _ _
      | exact judged_cmdFailedLn _ _ _
      | exact judged_CmdFailed _ _ _
      | refine judged_put _ _ _ _ ?_ ?_
      | refine judged_CmdFailOk _ _ _ _ ?_ ?_
      | ((first | apply cleanText_echo | refine cleanText_ending _ _ ?_ ?_ ?_ ?_)
         (repeat' (first
          | apply beginsWith_of_mismatch
          | apply mismatch_append
          | assumption
          | apply noNL_append
          | exact noNL_fmtInt _
          | (apply noNL_of_fields; assumption)
          | (apply noNL_piece; assumption; assumption)
          | (apply noNL_lastPiece; assumption; assumption)
          | apply noNL_trimPrefix
          | (apply noNL_restOfFields; assumption)
          | exact noNL_monthAbbrev _
          | apply noNL_dateOf
          | (refine noNL_replaceAll _ _ _ ?_ ?_)
          | (apply noNL_mem_lines; assumption)
          | (apply noNL_mem_sliceFrom; assumption; assumption)
          | (apply noNL_mem_sliceList; assumption; assumption)
          | (apply noNL_mem_indexed; assumption)
          | (apply noNL_mem_indexed_sliceList; assumption; assumption)
          | (apply noNL_mem_count; assumption; assumption)
          | exact noNL_lines _
          | decide
          ))
         done)
      | (refine cleanText_closed _ ?_ ?_ <;> decide)
      | apply beginsWith_of_mismatch
      | apply mismatch_append
      | assumption
      | apply noNL_append
      | exact noNL_fmtInt _
      | (apply noNL_of_fields; assumption)
      | (apply noNL_piece; assumption; assumption)
      | (apply noNL_lastPiece; assumption; assumption)
      | apply noNL_trimPrefix
      | (apply noNL_restOfFields; assumption)
      | exact noNL_monthAbbrev _
      | apply noNL_dateOf
      | (refine noNL_replaceAll _ _ _ ?_ ?_)
      | (apply noNL_mem_lines; assumption)
      | (apply noNL_mem_sliceFrom; assumption; assumption)
      | (apply noNL_mem_sliceList; assumption; assumption)
      | (apply noNL_mem_indexed; assumption)
      | (apply noNL_mem_indexed_sliceList; assumption; assumption)
      | (apply noNL_mem_count; assumption; assumption)
      | exact noNL_lines _
      | decide
      | split
      | dsimp only
      | simp [beginsWith, String.data_append, List.isPrefixOf])

theorem CheckSyDb_body_clean (name : String) (x : String) (hx : NoNL x) (s : CheckState) :
    JudgedF name s (CheckSyDb.body name x s) := by
  simp only [CheckSyDb.body]
  repeat' (first | split | simp only [])
  all_goals
    with_reducible repeat' (first
      | exact JudgedF.panic _
      | exact JudgedF.fatal _
      | apply JudgedF.next
      | apply JudgedF.ret
      | exact judged_refl _ _
      | exact judged_setVerdict _ _ _
      | exact judged_cmdFailedLn _ _ _
      | exact judged_CmdFailed _ _ _
      | refine judged_put _ _ _ _ ?_ ?_
      | refine judged_CmdFailOk _ _ _ _ ?_ ?_
      | ((first | apply cleanText_echo | refine cleanText_ending _ _ ?_ ?_ ?_ ?_)
         (repeat' (first
          | apply beginsWith_of_mismatch
          | apply mismatch_append
          | assumption
          | apply noNL_append
          | exact noNL_fmtInt _
          | (apply noNL_of_fields; assumption)
          | (apply noNL_piece; assumption; assumption)
          | (apply noNL_lastPiece; assumption; assumption)
          | apply noNL_trimPrefix
          | (apply noNL_restOfFields; assumption)
          | exact noNL_monthAbbrev _
          | apply noNL_dateOf
          | (refine noNL_replaceAll _ _ _ ?_ ?_)
          | (apply noNL_mem_lines; assumption)
          | (apply noNL_mem_sliceFrom; assumption; assumption)
          | (apply noNL_mem_sliceList; assumption; assumption)
          | (apply noNL_mem_indexed; assumption)
          | (apply noNL_mem_indexed_sliceList; assumption; assumption)
          | (apply noNL_mem_count; assumption; assumption)
          | exact noNL_lines _
          | decide
          ))
         done)
      | (refine cleanText_closed _ ?_ ?_ <;> decide)
      | apply beginsWith_of_mismatch
      | apply mismatch_append
      | assumption
      | apply noNL_append
      | exact noNL_fmtInt _
      | (apply noNL_of_fields; assumption)
      | (apply noNL_piece; assumption; assumption)
      | (apply noNL_lastPiece; assumption; assumption)
      | apply noNL_trimPrefix
      | (apply noNL_restOfFields; assumption)
      | exact noNL_monthAbbrev _
      | apply noNL_dateOf
      | (refine noNL_replaceAll _ _ _ ?_ ?_)
      | (apply noNL_mem_lines; assumption)
      | (apply noNL_mem_sliceFrom; assumption; assumption)
      | (apply noNL_mem_sliceList; assumption; assumption)
      | (apply noNL_mem_indexed; assumption)
      | (apply noNL_mem_indexed_sliceList; assumption; assumption)
      | (apply noNL_mem_count; assumption; assumption)
      | exact noNL_lines _
      | decide
      | split
      | dsimp only
      | simp [beginsWith, String.data_append, List.isPrefixOf])

theorem CheckSyLogSize_body_clean (name : String) (x : String) (hx : NoNL x) (s : CheckState) :
    JudgedF name s (CheckSyLogSize.body name x s) := by
  simp only [CheckSyLogSize.body]
  repeat' (first | split | simp only [])
  all_goals
    with_reducible repeat' (first
      | exact JudgedF.panic _
      | exact JudgedF.fatal _
      | apply JudgedF.next
      | apply JudgedF.ret
      | exact judged_refl _ _
      | exact judged_setVerdict _ _ _
      | exact judged_cmdFailedLn _ _ _
      | exact judged_CmdFailed _ _ _
      | refine judged_put _ _ _ _ ?_ ?_
      | refine judged_CmdFailOk _ _ _ _ ?_ ?_
      | ((first | apply cleanText_echo | refine cleanText_ending _ _ ?_ ?_ ?_ ?_)
         (repeat' (first
          | apply beginsWith_of_mismatch
          | apply mismatch_append
          | assumption
          | apply noNL_append
          | exact noNL_fmtInt _
          | (apply noNL_of_fields; assumption)
          | (apply noNL_piece; assumption; assumption)
          | (apply noNL_lastPiece; assumption; assumption)
          | apply noNL_trimPrefix
          | (apply noNL_restOfFields; assumption)
          | exact noNL_monthAbbrev _
          | apply noNL_dateOf
          | (refine noNL_replaceAll _ _ _ ?_ ?_)
          | (apply noNL_mem_lines; assumption)
          | (apply noNL_mem_sliceFrom; assumption; assumption)
          | (apply noNL_mem_sliceList; assumption; assumption)
          | (apply noNL_mem_indexed; assumption)
          | (apply noNL_mem_indexed_sliceList; assumption; assumption)
          | (apply noNL_mem_count; assumption; assumption)
          | exact noNL_lines _
          | decide
          ))
         done)
      | (refine cleanText_closed _ ?_ ?_ <;> decide)
      | apply beginsWith_of_mismatch
      | apply mismatch_append
      | assumption
      | apply noNL_append
      | exact noNL_fmtInt _
      | (apply noNL_of_fields; assumption)
      | (apply noNL_piece; assumption; assumption)
      | (apply noNL_lastPiece; assumption; assumption)
      | apply noNL_trimPrefix
      | (apply noNL_restOfFields; assumption)
      | exact noNL_monthAbbrev _
      | apply noNL_dateOf
      | (refine noNL_replaceAll _ _ _ ?_ ?_)
      | (apply noNL_mem_lines; assumption)
      | (apply noNL_mem_sliceFrom; assumption; assumption)
      | (apply noNL_mem_sliceList; assumption; assumption)
      | (apply noNL_mem_indexed; assumption)
      | (apply noNL_mem_indexed_sliceList; assumption; assumption)
      | (apply noNL_mem_count; assumption; assumption)
      | exact noNL_lines _
      | decide
      | split
      | dsimp only
      | simp [beginsWith, String.data_append, List.isPrefixOf])

theorem CheckVeritas_body_clean (name : String) (x : String) (hx : NoNL x) (s : CheckState) :
    JudgedF name s (CheckVeritas.body name x s) := by
  simp only [CheckVeritas.body]
  repeat' (first | split | simp only [])
  all_goals
    with_reducible repeat' (first
      | exact JudgedF.panic _
      | exact JudgedF.fatal _
      | apply JudgedF.next
      | apply JudgedF.ret
      | exact judged_refl _ _
      | exact judged_setVerdict _ _ _
      | exact judged_cmdFailedLn _ _ _
      | exact judged_CmdFailed _ _ _
      | refine judged_put _ _ _ _ ?_ ?_
      | refine judged_CmdFailOk _ _ _ _ ?_ ?_
      | ((first | apply cleanText_echo | refine cleanText_ending _ _ ?_ ?_ ?_ ?_)
         (repeat' (first
          | apply beginsWith_of_mismatch
          | apply mismatch_append
          | assumption
          | apply noNL_append
          | exact noNL_fmtInt _
          | (apply noNL_of_fields; assumption)
          | (apply noNL_piece; assumption; assumption)
          | (apply noNL_lastPiece; assumption; assumption)
          | apply noNL_trimPrefix
          | (apply noNL_restOfFields; assumption)
          | exact noNL_monthAbbrev _
          | apply noNL_dateOf
          | (refine noNL_replaceAll _ _ _ ?_ ?_)
          | (apply noNL_mem_lines; assumption)
          | (apply noNL_mem_sliceFrom; assumption; assumption)
          | (apply noNL_mem_sliceList; assumption; assumption)
          | (apply noNL_mem_indexed; assumption)
          | (apply noNL_mem_indexed_sliceList; assumption; assumption)
          | (apply noNL_mem_count; assumption; assumption)
          | exact noNL_lines _
          | decide
          ))
         done)
      | (refine cleanText_closed _ ?_ ?_ <;> decide)
      | apply beginsWith_of_mismatch
      | apply mismatch_append
      | assumption
      | apply noNL_append
      | exact noNL_fmtInt _
      | (apply noNL_of_fields; assumption)
      | (apply noNL_piece; assumption; assumption)
      | (apply noNL_lastPiece; assumption; assumption)
      | apply noNL_trimPrefix
      | (apply noNL_restOfFields; assumption)
      | exact noNL_monthAbbrev _
      | apply noNL_dateOf
      | (refine noNL_replaceAll _ _ _ ?_ ?_)
      | (apply noNL_mem_lines; assumption)
      | (apply noNL_mem_sliceFrom; assumption; assumption)
      | (apply noNL_mem_sliceList; assumption; assumption)
      | (apply noNL_mem_indexed; assumption)
      | (apply noNL_mem_indexed_sliceList; assumption; assumption)
      | (apply noNL_mem_count; assumption; assumption)
      | exact noNL_lines _
      | decide
      | split
      | dsimp only
      | simp [beginsWith, String.data_append, List.isPrefixOf])

theorem CheckSyDump_body_clean (name : String) (x : String) (hx : NoNL x) (s : CheckState) :
    JudgedF name s (CheckSyDump.body name x s) := by
  simp only [CheckSyDump.body]
  repeat' (first | split | simp only [])
  all_goals
    with_reducible repeat' (first
      | exact JudgedF.panic _
      | exact JudgedF.fatal _
      | apply JudgedF.next
      | apply JudgedF.ret
      | exact judged_refl _ _
      | exact judged_setVerdict _ _ _
      | exact judged_cmdFailedLn _ _ _
      | exact judged_CmdFailed _ _ _
      | refine judged_put _ _ _ _ ?_ ?_
      | refine judged_CmdFailOk _ _ _ _ ?_ ?_
      | ((first | apply cleanText_echo | refine cleanText_ending _ _ ?_ ?_ ?_ ?_)
         (repeat' (first
          | apply beginsWith_of_mismatch
          | apply mismatch_append
          | assumption
          | apply noNL_append
          | exact noNL_fmtInt _
          | (apply noNL_of_fields; assumption)
          | (apply noNL_piece; assumption; assumption)
          | (apply noNL_lastPiece; assumption; assumption)
          | apply noNL_trimPrefix
          | (apply noNL_restOfFields; assumption)
          | exact noNL_monthAbbrev _
          | apply noNL_dateOf
          | (refine noNL_replaceAll _ _ _ ?_ ?_)
          | (apply noNL_mem_lines; assumption)
          | (apply noNL_mem_sliceFrom; assumption; assumption)
          | (apply noNL_mem_sliceList; assumption; assumption)
          | (apply noNL_mem_indexed; assumption)
          | (apply noNL_mem_indexed_sliceList; assumption; assumption)
          | (apply noNL_mem_count; assumption; assumption)
          | exact noNL_lines _
          | decide
          ))
         done)
      | (refine cleanText_closed _ ?_ ?_ <;> decide)
      | apply beginsWith_of_mismatch
      | apply mismatch_append
      | assumption
      | apply noNL_append
      | exact noNL_fmtInt _
      | (apply noNL_of_fields; assumption)
      | (apply noNL_piece; assumption; assumption)
      | (apply noNL_lastPiece; assumption; assumption)
      | apply noNL_trimPrefix
      | (apply noNL_restOfFields; assumption)
      | exact noNL_monthAbbrev _
      | apply noNL_dateOf
      | (refine noNL_replaceAll _ _ _ ?_ ?_)
      | (apply noNL_mem_lines; assumption)
      | (apply noNL_mem_sliceFrom; assumption; assumption)
      | (apply noNL_mem_sliceList; assumption; assumption)
      | (apply noNL_mem_indexed; assumption)
      | (apply noNL_mem_indexed_sliceList; assumption; assumption)
      | (apply noNL_mem_count; assumption; assumption)
      | exact noNL_lines _
      | decide
      | split
      | dsimp only
      | simp [beginsWith, String.data_append, List.isPrefixOf])

theorem CheckDBA_body_clean (name : String) (x : String) (hx : NoNL x) (s : CheckState) :
    JudgedF name s (CheckDBA.body name x s) := by
  simp only [CheckDBA.body]
  repeat' (first | split | simp only [])
  all_goals
    with_reducible repeat' (first
      | exact JudgedF.panic _
      | exact JudgedF.fatal _
      | apply JudgedF.next
      | apply JudgedF.ret
      | exact judged_refl _ _
      | exact judged_setVerdict _ _ _
      | exact judged_cmdFailedLn _ _ _
      | exact judged_CmdFailed _ _ _
      | refine judged_put _ _ _ _ ?_ ?_
      | refine judged_CmdFailOk _ _ _ _ ?_ ?_
      | ((first | apply cleanText_echo | refine cleanText_ending _ _ ?_ ?_ ?_ ?_)
         (repeat' (first
          | apply beginsWith_of_mismatch
          | apply mismatch_append
          | assumption
          | apply noNL_append
          | exact noNL_fmtInt _
          | (apply noNL_of_fields; assumption)
          | (apply noNL_piece; assumption; assumption)
          | (apply noNL_lastPiece; assumption; assumption)
          | apply noNL_trimPrefix
          | (apply noNL_restOfFields; assumption)
          | exact noNL_monthAbbrev _
          | apply noNL_dateOf
          | (refine noNL_replaceAll _ _ _ ?_ ?_)
          | (apply noNL_mem_lines; assumption)
          | (apply noNL_mem_sliceFrom; assumption; assumption)
          | (apply noNL_mem_sliceList; assumption; assumption)
          | (apply noNL_mem_indexed; assumption)
          | (apply noNL_mem_indexed_sliceList; assumption; assumption)
          | (apply noNL_mem_count; assumption; assumption)
          | exact noNL_lines _
          | decide
          ))
         done)
      | (refine cleanText_closed _ ?_ ?_ <;> decide)
      | apply beginsWith_of_mismatch
      | apply mismatch_append
      | assumption
      | apply noNL_append
      | exact noNL_fmtInt _
      | (apply noNL_of_fields; assumption)
      | (apply noNL_piece; assumption; assumption)
      | (apply noNL_lastPiece; assumption; assumption)
      | apply noNL_trimPrefix
      | (apply noNL_restOfFields; assumption)
      | exact noNL_monthAbbrev _
      | apply noNL_dateOf
      | (refine noNL_replaceAll _ _ _ ?_ ?_)
      | (apply noNL_mem_lines; assumption)
      | (apply noNL_mem_sliceFrom; assumption; assumption)
      | (apply noNL_mem_sliceList; assumption; assumption)
      | (apply noNL_mem_indexed; assumption)
      | (apply noNL_mem_indexed_sliceList; assumption; assumption)
      | (apply noNL_mem_count; assumption; assumption)
      | exact noNL_lines _
      | decide
      | split
      | dsimp only
      | simp [beginsWith, String.data_append, List.isPrefixOf])

theorem CheckVrstDbSU_body_clean (name : String) (x : String) (hx : NoNL x) (s : CheckState) :
    JudgedF name s (CheckVrstDbSU.body name x s) := by
  simp only [CheckVrstDbSU.body]
  repeat' (first | split | simp only [])
  all_goals
    with_reducible repeat' (first
      | exact JudgedF.panic _
      | exact JudgedF.fatal _
      | apply JudgedF.next
      | apply JudgedF.ret
      | exact judged_refl _ _
      | exact judged_setVerdict _ _ _
      | exact judged_cmdFailedLn _ _ _
      | exact judged_CmdFailed _ _ _
      | refine judged_put _ _ _ _ ?_ ?_
      | refine judged_CmdFailOk _ _ _ _ ?_ ?_
      | ((first | apply cleanText_echo | refine cleanText_ending _ _ ?_ ?_ ?_ ?_)
         (repeat' (first
          | apply beginsWith_of_mismatch
          | apply mismatch_append
          | assumption
          | apply noNL_append
          | exact noNL_fmtInt _
          | (apply noNL_of_fields; assumption)
          | (apply noNL_piece; assumption; assumption)
          | (apply noNL_lastPiece; assumption; assumption)
          | apply noNL_trimPrefix
          | (apply noNL_restOfFields; assumption)
          | exact noNL_monthAbbrev _
          | apply noNL_dateOf
          | (refine noNL_replaceAll _ _ _ ?_ ?_)
          | (apply noNL_mem_lines; assumption)
          | (apply noNL_mem_sliceFrom; assumption; assumption)
          | (apply noNL_mem_sliceList; assumption; assumption)
          | (apply noNL_mem_indexed; assumption)
          | (apply noNL_mem_indexed_sliceList; assumption; assumption)
          | (apply noNL_mem_count; assumption; assumption)
          | exact noNL_lines _
          | decide
          ))
         done)
      | (refine cleanText_closed _ ?_ ?_ <;> decide)
      | apply beginsWith_of_mismatch
      | apply mismatch_append
      | assumption
      | apply noNL_append
      | exact noNL_fmtInt _
      | (apply noNL_of_fields; assumption)
      | (apply noNL_piece; assumption; assumption)
      | (apply noNL_lastPiece; assumption; assumption)
      | apply noNL_trimPrefix
      | (apply noNL_restOfFields; assumption)
      | exact noNL_monthAbbrev _
      | apply noNL_dateOf
      | (refine noNL_replaceAll _ _ _ ?_ ?_)
      | (apply noNL_mem_lines; assumption)
      | (apply noNL_mem_sliceFrom; assumption; assumption)
      | (apply noNL_mem_sliceList; assumption; assumption)
      | (apply noNL_mem_indexed; assumption)
      | (apply noNL_mem_indexed_sliceList; assumption; assumption)
      | (apply noNL_mem_count; assumption; assumption)
      | exact noNL_lines _
      | decide
      | split
      | dsimp only
      | simp [beginsWith, String.data_append, List.isPrefixOf])

theorem CheckBsmAdjusts_body_clean (name : String) (x : String) (hx : NoNL x) (s : CheckState) :
    JudgedF name s (CheckBsmAdjusts.body name x s) := by
  simp only [CheckBsmAdjusts.body]
  repeat' (first | split | simp only [])
  all_goals
    with_reducible repeat' (first
      | exact JudgedF.panic _
      | exact JudgedF.fatal _
      | apply JudgedF.next
      | apply JudgedF.ret
      | exact judged_refl _ _
      | exact judged_setVerdict _ _ _
      | exact judged_cmdFailedLn _ _ _
      | exact judged_CmdFailed _ _ _
      | refine judged_put _ _ _ _ ?_ ?_
      | refine judged_CmdFailOk _ _ _ _ ?_ ?_
      | ((first | apply cleanText_echo | refine cleanText_ending _ _ ?_ ?_ ?_ ?_)
         (repeat' (first
          | apply beginsWith_of_mismatch
          | apply mismatch_append
          | assumption
          | apply noNL_append
          | exact noNL_fmtInt _
          | (apply noNL_of_fields; assumption)
          | (apply noNL_piece; assumption; assumption)
          | (apply noNL_lastPiece; assumption; assumption)
          | apply noNL_trimPrefix
          | (apply noNL_restOfFields; assumption)
          | exact noNL_monthAbbrev _
          | apply noNL_dateOf
          | (refine noNL_replaceAll _ _ _ ?_ ?_)
          | (apply noNL_mem_lines; assumption)
          | (apply noNL_mem_sliceFrom; assumption; assumption)
          | (apply noNL_mem_sliceList; assumption; assumption)
          | (apply noNL_mem_indexed; assumption)
          | (apply noNL_mem_indexed_sliceList; assumption; assumption)
          | (apply noNL_mem_count; assumption; assumption)
          | exact noNL_lines _
          | decide
          ))
         done)
      | (refine cleanText_closed _ ?_ ?_ <;> decide)
      | apply beginsWith_of_mismatch
      | apply mismatch_append
      | assumption
      | apply noNL_append
      | exact noNL_fmtInt _
      | (apply noNL_of_fields; assumption)
      | (apply noNL_piece; assumption; assumption)
      | (apply noNL_lastPiece; assumption; assumption)
      | apply noNL_trimPrefix
      | (apply noNL_restOfFields; assumption)
      | exact noNL_monthAbbrev _
      | apply noNL_dateOf
      | (refine noNL_replaceAll _ _ _ ?_ ?_)
      | (apply noNL_mem_lines; assumption)
      | (apply noNL_mem_sliceFrom; assumption; assumption)
      | (apply noNL_mem_sliceList; assumption; assumption)
      | (apply noNL_mem_indexed; assumption)
      | (apply noNL_mem_indexed_sliceList; assumption; assumption)
      | (apply noNL_mem_count; assumption; assumption)
      | exact noNL_lines _
      | decide
      | split
      | dsimp only
      | simp [beginsWith, String.data_append, List.isPrefixOf])

theorem CheckCnaAdjusts_body_clean (name : String) (x : String) (hx : NoNL x) (s : CheckState) :
    JudgedF name s (CheckCnaAdjusts.body name x s) := by
  simp only [CheckCnaAdjusts.body]
  repeat' (first | split | simp only [])
  all_goals
    with_reducible repeat' (first
      | exact JudgedF.panic _
      | exact JudgedF.fatal _
      | apply JudgedF.next
      | apply JudgedF.ret
      | exact judged_refl _ _
      | exact judged_setVerdict _ _ _
      | exact judged_cmdFailedLn _ _ _
      | exact judged_CmdFailed _ _ _
      | refine judged_put _ _ _ _ ?_ ?_
      | refine judged_CmdFailOk _ _ _ _ ?_ ?_
      | ((first | apply cleanText_echo | refine cleanText_ending _ _ ?_ ?_ ?_ ?_)
         (repeat' (first
          | apply beginsWith_of_mismatch
          | apply mismatch_append
          | assumption
          | apply noNL_append
          | exact noNL_fmtInt _
          | (apply noNL_of_fields; assumption)
          | (apply noNL_piece; assumption; assumption)
          | (apply noNL_lastPiece; assumption; assumption)
          | apply noNL_trimPrefix
          | (apply noNL_restOfFields; assumption)
          | exact noNL_monthAbbrev _
          | apply noNL_dateOf
          | (refine noNL_replaceAll _ _ _ ?_ ?_)
          | (apply noNL_mem_lines; assumption)
          | (apply noNL_mem_sliceFrom; assumption; assumption)
          | (apply noNL_mem_sliceList; assumption; assumption)
          | (apply noNL_mem_indexed; assumption)
          | (apply noNL_mem_indexed_sliceList; assumption; assumption)
          | (apply noNL_mem_count; assumption; assumption)
          | exact noNL_lines _
          | decide
          ))
         done)
      | (refine cleanText_closed _ ?_ ?_ <;> decide)
      | apply beginsWith_of_mismatch
      | apply mismatch_append
      | assumption
      | apply noNL_append
      | exact noNL_fmtInt _
      | (apply noNL_of_fields; assumption)
      | (apply noNL_piece; assumption; assumption)
      | (apply noNL_lastPiece; assumption; assumption)
      | apply noNL_trimPrefix
      | (apply noNL_restOfFields; assumption)
      | exact noNL_monthAbbrev _
      | apply noNL_dateOf
      | (refine noNL_replaceAll _ _ _ ?_ ?_)
      | (apply noNL_mem_lines; assumption)
      | (apply noNL_mem_sliceFrom; assumption; assumption)
      | (apply noNL_mem_sliceList; assumption; assumption)
      | (apply noNL_mem_indexed; assumption)
      | (apply noNL_mem_indexed_sliceList; assumption; assumption)
      | (apply noNL_mem_count; assumption; assumption)
      | exact noNL_lines _
      | decide
      | split
      | dsimp only
      | simp [beginsWith, String.data_append, List.isPrefixOf])

theorem CheckZfsPoolStatus_body_clean (name : String) (x : String) (hx : NoNL x) (s : CheckState) :
    JudgedF name s (CheckZfsPoolStatus.body name x s) := by
  simp only [CheckZfsPoolStatus.body]
  repeat' (first | split | simp only [])
  all_goals
    with_reducible repeat' (first
      | exact JudgedF.panic _
      | exact JudgedF.fatal _
      | apply JudgedF.next
      | apply JudgedF.ret
      | exact judged_refl _ _
      | exact judged_setVerdict _ _ _
      | exact judged_cmdFailedLn _ _ _
      | exact judged_CmdFailed _ _ _
      | refine judged_put _ _ _ _ ?_ ?_
      | refine judged_CmdFailOk _ _ _ _ ?_ ?_
      | ((first | apply cleanText_echo | refine cleanText_ending _ _ ?_ ?_ ?_ ?_)
         (repeat' (first
          | apply beginsWith_of_mismatch
          | apply mismatch_append
          | assumption
          | apply noNL_append
          | exact noNL_fmtInt _
          | (apply noNL_of_fields; assumption)
          | (apply noNL_piece; assumption; assumption)
          | (apply noNL_lastPiece; assumption; assumption)
          | apply noNL_trimPrefix
          | (apply noNL_restOfFields; assumption)
          | exact noNL_monthAbbrev _
          | apply noNL_dateOf
          | (refine noNL_replaceAll _ _ _ ?_ ?_)
          | (apply noNL_mem_lines; assumption)
          | (apply noNL_mem_sliceFrom; assumption; assumption)
          | (apply noNL_mem_sliceList; assumption; assumption)
          | (apply noNL_mem_indexed; assumption)
          | (apply noNL_mem_indexed_sliceList; assumption; assumption)
          | (apply noNL_mem_count; assumption; assumption)
          | exact noNL_lines _
          | decide
          ))
         done)
      | (refine cleanText_closed _ ?_ ?_ <;> decide)
      | apply beginsWith_of_mismatch
      | apply mismatch_append
      | assumption
      | apply noNL_append
      | exact noNL_fmtInt _
      | (apply noNL_of_fields; assumption)
      | (apply noNL_piece; assumption; assumption)
      | (apply noNL_lastPiece; assumption; assumption)
      | apply noNL_trimPrefix
      | (apply noNL_restOfFields; assumption)
      | exact noNL_monthAbbrev _
      | apply noNL_dateOf
      | (refine noNL_replaceAll _ _ _ ?_ ?_)
      | (apply noNL_mem_lines; assumption)
      | (apply noNL_mem_sliceFrom; assumption; assumption)
      | (apply noNL_mem_sliceList; assumption; assumption)
      | (apply noNL_mem_indexed; assumption)
      | (apply noNL_mem_indexed_sliceList; assumption; assumption)
      | (apply noNL_mem_count; assumption; assumption)
      | exact noNL_lines _
      | decide
      | split
      | dsimp only
      | simp [beginsWith, String.data_append, List.isPrefixOf])

theorem CheckZfsPoolSU_body_clean (name host : String) (x : String) (hx : NoNL x) (s : CheckState) :
    JudgedF name s (CheckZfsPoolSU.body name host x s) := by
  simp only [CheckZfsPoolSU.body]
  repeat' (first | split | simp only [])
  all_goals
    with_reducible repeat' (first
      | exact JudgedF.panic _
      | exact JudgedF.fatal _
      | apply JudgedF.next
      | apply JudgedF.ret
      | exact judged_refl _ _
      | exact judged_setVerdict _ _ _
      | exact judged_cmdFailedLn _ _ _
      | exact judged_CmdFailed _ _ _
      | refine judged_put _ _ _ _ ?_ ?_
      | refine judged_CmdFailOk _ _ _ _ ?_ ?_
      | ((first | apply cleanText_echo | refine cleanText_ending _ _ ?_ ?_ ?_ ?_)
         (repeat' (first
          | apply beginsWith_of_mismatch
          | apply mismatch_append
          | assumption
          | apply noNL_append
          | exact noNL_fmtInt _
          | (apply noNL_of_fields; assumption)
          | (apply noNL_piece; assumption; assumption)
          | (apply noNL_lastPiece; assumption; assumption)
          | apply noNL_trimPrefix
          | (apply noNL_restOfFields; assumption)
          | exact noNL_monthAbbrev _
          | apply noNL_dateOf
          | (refine noNL_replaceAll _ _ _ ?_ ?_)
          | (apply noNL_mem_lines; assumption)
          | (apply noNL_mem_sliceFrom; assumption; assumption)
          | (apply noNL_mem_sliceList; assumption; assumption)
          | (apply noNL_mem_indexed; assumption)
          | (apply noNL_mem_indexed_sliceList; assumption; assumption)
          | (apply noNL_mem_count; assumption; assumption)
          | exact noNL_lines _
          | decide
          ))
         done)
      | (refine cleanText_closed _ ?_ ?_ <;> decide)
      | apply beginsWith_of_mismatch
      | apply mismatch_append
      | assumption
      | apply noNL_append
      | exact noNL_fmtInt _
      | (apply noNL_of_fields; assumption)
      | (apply noNL_piece; assumption; assumption)
      | (apply noNL_lastPiece; assumption; assumption)
      | apply noNL_trimPrefix
      | (apply noNL_restOfFields; assumption)
      | exact noNL_monthAbbrev _
      | apply noNL_dateOf
      | (refine noNL_replaceAll _ _ _ ?_ ?_)
      | (apply noNL_mem_lines; assumption)
      | (apply noNL_mem_sliceFrom; assumption; assumption)
      | (apply noNL_mem_sliceList; assumption; assumption)
      | (apply noNL_mem_indexed; assumption)
      | (apply noNL_mem_indexed_sliceList; assumption; assumption)
      | (apply noNL_mem_count; assumption; assumption)
      | exact noNL_lines _
      | decide
      | split
      | dsimp only
      | simp [beginsWith, String.data_append, List.isPrefixOf])

theorem MonConfigExports_body_clean (name : String) (x : String × Int) (hx : NoNL x.1) (s : CheckState) :
    JudgedF name s (MonConfigExports.body name x s) := by
  simp only [MonConfigExports.body]
  repeat' (first | split | simp only [])
  all_goals
    with_reducible repeat' (first
      | exact JudgedF.panic _
      | exact JudgedF.fatal _
      | apply JudgedF.next
      | apply JudgedF.ret
      | exact judged_refl _ _
      | exact judged_setVerdict _ _ _
      | exact judged_cmdFailedLn _ _ _
      | exact judged_CmdFailed _ _ _
      | refine judged_put _ _ _ _ ?_ ?_
      | refine judged_CmdFailOk _ _ _ _ ?_ ?_
      | ((first | apply cleanText_echo | refine cleanText_ending _ _ ?_ ?_ ?_ ?_)
         (repeat' (first
          | apply beginsWith_of_mismatch
          | apply mismatch_append
          | assumption
          | apply noNL_append
          | exact noNL_fmtInt _
          | (apply noNL_of_fields; assumption)
          | (apply noNL_piece; assumption; assumption)
          | (apply noNL_lastPiece; assumption; assumption)
          | apply noNL_trimPrefix
          | (apply noNL_restOfFields; assumption)
          | exact noNL_monthAbbrev _
          | apply noNL_dateOf
          | (refine noNL_replaceAll _ _ _ ?_ ?_)
          | (apply noNL_mem_lines; assumption)
          | (apply noNL_mem_sliceFrom; assumption; assumption)
          | (apply noNL_mem_sliceList; assumption; assumption)
          | (apply noNL_mem_indexed; assumption)
          | (apply noNL_mem_indexed_sliceList; assumption; assumption)
          | (apply noNL_mem_count; assumption; assumption)
          | exact noNL_lines _
          | decide
          ))
         done)
      | (refine cleanText_closed _ ?_ ?_ <;> decide)
      | apply beginsWith_of_mismatch
      | apply mismatch_append
      | assumption
      | apply noNL_append
      | exact noNL_fmtInt _
      | (apply noNL_of_fields; assumption)
      | (apply noNL_piece; assumption; assumption)
      | (apply noNL_lastPiece; assumption; assumption)
      | apply noNL_trimPrefix
      | (apply noNL_restOfFields; assumption)
      | exact noNL_monthAbbrev _
      | apply noNL_dateOf
      | (refine noNL_replaceAll _ _ _ ?_ ?_)
      | (apply noNL_mem_lines; assumption)
      | (apply noNL_mem_sliceFrom; assumption; assumption)
      | (apply noNL_mem_sliceList; assumption; assumption)
      | (apply noNL_mem_indexed; assumption)
      | (apply noNL_mem_indexed_sliceList; assumption; assumption)
      | (apply noNL_mem_count; assumption; assumption)
      | exact noNL_lines _
      | decide
      | split
      | dsimp only
      | simp [beginsWith, String.data_append, List.isPrefixOf])

theorem CheckHomeSU_body_clean (fl : Float64) (hfl : ∀ v, NoNL (fl.fmt v)) (name : String) (threshold : Int) (x : String) (hx : NoNL x) (s : CheckState) :
    JudgedF name s (CheckHomeSU.body fl name threshold x s) := by
  simp only [CheckHomeSU.body]
  repeat' (first | split | simp only [])
  all_goals
    with_reducible repeat' (first
      | exact JudgedF.panic _
      | exact JudgedF.fatal _
      | apply JudgedF.next
      | apply JudgedF.ret
      | exact judged_refl _ _
      | exact judged_setVerdict _ _ _
      | exact judged_cmdFailedLn _ _ _
      | exact judged_CmdFailed _ _ _
      | exact hfl _
      | refine judged_put _ _ _ _ ?_ ?_
      | refine judged_CmdFailOk _ _ _ _ ?_ ?_
      | ((first | apply cleanText_echo | refine cleanText_ending _ _ ?_ ?_ ?_ ?_)
         (repeat' (first
          | exact hfl _
          | apply beginsWith_of_mismatch
          | apply mismatch_append
          | assumption
          | apply noNL_append
          | exact noNL_fmtInt _
          | (apply noNL_of_fields; assumption)
          | (apply noNL_piece; assumption; assumption)
          | (apply noNL_lastPiece; assumption; assumption)
          | apply noNL_trimPrefix
          | (apply noNL_restOfFields; assumption)
          | exact noNL_monthAbbrev _
          | apply noNL_dateOf
          | (refine noNL_replaceAll _ _ _ ?_ ?_)
          | (apply noNL_mem_lines; assumption)
          | (apply noNL_mem_sliceFrom; assumption; assumption)
          | (apply noNL_mem_sliceList; assumption; assumption)
          | (apply noNL_mem_indexed; assumption)
          | (apply noNL_mem_indexed_sliceList; assumption; assumption)
          | (apply noNL_mem_count; assumption; assumption)
          | exact noNL_lines _
          | decide
          ))
         done)
      | (refine cleanText_closed _ ?_ ?_ <;> decide)
      | apply beginsWith_of_mismatch
      | apply mismatch_append
      | assumption
      | apply noNL_append
      | exact noNL_fmtInt _
      | (apply noNL_of_fields; assumption)
      | (apply noNL_piece; assumption; assumption)
      | (apply noNL_lastPiece; assumption; assumption)
      | apply noNL_trimPrefix
      | (apply noNL_restOfFields; assumption)
      | exact noNL_monthAbbrev _
      | apply noNL_dateOf
      | (refine noNL_replaceAll _ _ _ ?_ ?_)
      | (apply noNL_mem_lines; assumption)
      | (apply noNL_mem_sliceFrom; assumption; assumption)
      | (apply noNL_mem_sliceList; assumption; assumption)
      | (apply noNL_mem_indexed; assumption)
      | (apply noNL_mem_indexed_sliceList; assumption; assumption)
      | (apply noNL_mem_count; assumption; assumption)
      | exact noNL_lines _
      | decide
      | split
      | dsimp only
      | simp [beginsWith, String.data_append, List.isPrefixOf])

theorem CheckVrstDb_body_clean (name : String) (printout : List String) (hp : ∀ p ∈ printout, NoNL p) (x : Nat × String) (hx : NoNL x.2) (s : CheckState) :
    JudgedF name s (CheckVrstDb.body name printout x s) := by
  simp only [CheckVrstDb.body]
  repeat' (first | split | simp only [])
  all_goals
    with_reducible repeat' (first
      | exact JudgedF.panic _
      | exact JudgedF.fatal _
      | apply JudgedF.next
      | apply JudgedF.ret
      | exact judged_refl _ _
      | exact judged_setVerdict _ _ _
      | exact judged_cmdFailedLn _ _ _
      | exact judged_CmdFailed _ _ _
      | refine judged_put _ _ _ _ ?_ ?_
      | refine judged_CmdFailOk _ _ _ _ ?_ ?_
      | ((first | apply cleanText_echo | refine cleanText_ending _ _ ?_ ?_ ?_ ?_)
         (repeat' (first
          | apply beginsWith_of_mismatch
          | apply mismatch_append
          | assumption
          | apply noNL_append
          | exact noNL_fmtInt _
          | (apply noNL_of_fields; assumption)
          | (apply noNL_piece; assumption; assumption)
          | (apply noNL_lastPiece; assumption; assumption)
          | apply noNL_trimPrefix
          | (apply noNL_restOfFields; assumption)
          | exact noNL_monthAbbrev _
          | apply noNL_dateOf
          | (refine noNL_replaceAll _ _ _ ?_ ?_)
          | (apply noNL_mem_lines; assumption)
          | (apply noNL_mem_sliceFrom; assumption; assumption)
          | (apply noNL_mem_sliceList; assumption; assumption)
          | (apply noNL_mem_indexed; assumption)
          | (apply noNL_mem_indexed_sliceList; assumption; assumption)
          | (apply noNL_mem_count; assumption; assumption)
          | exact noNL_lines _
          | decide
          ))
         done)
      | (refine cleanText_closed _ ?_ ?_ <;> decide)
      | apply beginsWith_of_mismatch
      | apply mismatch_append
      | assumption
      | apply noNL_append
      | exact noNL_fmtInt _
      | (apply noNL_of_fields; assumption)
      | (apply noNL_piece; assumption; assumption)
      | (apply noNL_lastPiece; assumption; assumption)
      | apply noNL_trimPrefix
      | (apply noNL_restOfFields; assumption)
      | exact noNL_monthAbbrev _
      | apply noNL_dateOf
      | (refine noNL_replaceAll _ _ _ ?_ ?_)
      | (apply noNL_mem_lines; assumption)
      | (apply noNL_mem_sliceFrom; assumption; assumption)
      | (apply noNL_mem_sliceList; assumption; assumption)
      | (apply noNL_mem_indexed; assumption)
      | (apply noNL_mem_indexed_sliceList; assumption; assumption)
      | (apply noNL_mem_count; assumption; assumption)
      | exact noNL_lines _
      | decide
      | split
      | dsimp only
      | simp [beginsWith, String.data_append, List.isPrefixOf])

theorem CheckZfsPoolErrors_body_clean (name : String) (printout : List String) (hp : ∀ p ∈ printout, NoNL p) (x : Nat × String) (hx : NoNL x.2) (s : CheckState) :
    JudgedF name s (CheckZfsPoolErrors.body name printout x s) := by
  simp only [CheckZfsPoolErrors.body]
  repeat' (first | split | simp only [])
  all_goals
    with_reducible repeat' (first
      | exact JudgedF.panic _
      | exact JudgedF.fatal _
      | apply JudgedF.next
      | apply JudgedF.ret
      | exact judged_refl _ _
      | exact judged_setVerdict _ _ _
      | exact judged_cmdFailedLn _ _ _
      | exact judged_CmdFailed _ _ _
      | refine judged_put _ _ _ _ ?_ ?_
      | refine judged_CmdFailOk _ _ _ _ ?_ ?_
      | ((first | apply cleanText_echo | refine cleanText_ending _ _ ?_ ?_ ?_ ?_)
         (repeat' (first
          | apply beginsWith_of_mismatch
          | apply mismatch_append
          | assumption
          | apply noNL_append
          | exact noNL_fmtInt _
          | (apply noNL_of_fields; assumption)
          | (apply noNL_piece; assumption; assumption)
          | (apply noNL_lastPiece; assumption; assumption)
          | apply noNL_trimPrefix
          | (apply noNL_restOfFields; assumption)
          | exact noNL_monthAbbrev _
          | apply noNL_dateOf
          | (refine noNL_replaceAll _ _ _ ?_ ?_)
          | (apply noNL_mem_lines; assumption)
          | (apply noNL_mem_sliceFrom; assumption; assumption)
          | (apply noNL_mem_sliceList; assumption; assumption)
          | (apply noNL_mem_indexed; assumption)
          | (apply noNL_mem_indexed_sliceList; assumption; assumption)
          | (apply noNL_mem_count; assumption; assumption)
          | exact noNL_lines _
          | decide
          ))
         done)
      | (refine cleanText_closed _ ?_ ?_ <;> decide)
      | apply beginsWith_of_mismatch
      | apply mismatch_append
      | assumption
      | apply noNL_append
      | exact noNL_fmtInt _
      | (apply noNL_of_fields; assumption)
      | (apply noNL_piece; assumption; assumption)
      | (apply noNL_lastPiece; assumption; assumption)
      | apply noNL_trimPrefix
      | (apply noNL_restOfFields; assumption)
      | exact noNL_monthAbbrev _
      | apply noNL_dateOf
      | (refine noNL_replaceAll _ _ _ ?_ ?_)
      | (apply noNL_mem_lines; assumption)
      | (apply noNL_mem_sliceFrom; assumption; assumption)
      | (apply noNL_mem_sliceList; assumption; assumption)
      | (apply noNL_mem_indexed; assumption)
      | (apply noNL_mem_indexed_sliceList; assumption; assumption)
      | (apply noNL_mem_count; assumption; assumption)
      | exact noNL_lines _
      | decide
      | split
      | dsimp only
      | simp [beginsWith, String.data_append, List.isPrefixOf])

theorem CheckNodesFilesUpdate_body_clean (name d : String) (hd : NoNL d) (printout : List String) (hp : ∀ p ∈ printout, NoNL p) (x : String) (hx : NoNL x) (s : CheckState) :
    JudgedF name s (CheckNodesFilesUpdate.body name d printout x s) := by
  simp only [CheckNodesFilesUpdate.body]
  repeat' (first | split | simp only [])
  all_goals
    with_reducible repeat' (first
      | exact JudgedF.panic _
      | exact JudgedF.fatal _
      | apply JudgedF.next
      | apply JudgedF.ret
      | exact judged_refl _ _
      | exact judged_setVerdict _ _ _
      | exact judged_cmdFailedLn _ _ _
      | exact judged_CmdFailed _ _ _
      | refine judged_put _ _ _ _ ?_ ?_
      | refine judged_CmdFailOk _ _ _ _ ?_ ?_
      | ((first | apply cleanText_echo | refine cleanText_ending _ _ ?_ ?_ ?_ ?_)
         (repeat' (first
          | apply beginsWith_of_mismatch
          | apply mismatch_append
          | assumption
          | apply noNL_append
          | exact noNL_fmtInt _
          | (apply noNL_of_fields; assumption)
          | (apply noNL_piece; assumption; assumption)
          | (apply noNL_lastPiece; assumption; assumption)
          | apply noNL_trimPrefix
          | (apply noNL_restOfFields; assumption)
          | exact noNL_monthAbbrev _
          | apply noNL_dateOf
          | (refine noNL_replaceAll _ _ _ ?_ ?_)
          | (apply noNL_mem_lines; assumption)
          | (apply noNL_mem_sliceFrom; assumption; assumption)
          | (apply noNL_mem_sliceList; assumption; assumption)
          | (apply noNL_mem_indexed; assumption)
          | (apply noNL_mem_indexed_sliceList; assumption; assumption)
          | (apply noNL_mem_count; assumption; assumption)
          | exact noNL_lines _
          | decide
          ))
         done)
      | (refine cleanText_closed _ ?_ ?_ <;> decide)
      | apply beginsWith_of_mismatch
      | apply mismatch_append
      | assumption
      | apply noNL_append
      | exact noNL_fmtInt _
      | (apply noNL_of_fields; assumption)
      | (apply noNL_piece; assumption; assumption)
      | (apply noNL_lastPiece; assumption; assumption)
      | apply noNL_trimPrefix
      | (apply noNL_restOfFields; assumption)
      | exact noNL_monthAbbrev _
      | apply noNL_dateOf
      | (refine noNL_replaceAll _ _ _ ?_ ?_)
      | (apply noNL_mem_lines; assumption)
      | (apply noNL_mem_sliceFrom; assumption; assumption)
      | (apply noNL_mem_sliceList; assumption; assumption)
      | (apply noNL_mem_indexed; assumption)
      | (apply noNL_mem_indexed_sliceList; assumption; assumption)
      | (apply noNL_mem_count; assumption; assumption)
      | exact noNL_lines _
      | decide
      | split
      | dsimp only
      | simp [beginsWith, String.data_append, List.isPrefixOf])

theorem MonErrLog_body_clean (x : String) (hx : NoNL x) (s : CheckState) :
    JudgedF "MonErrLog" s (MonErrLog.body  x s) := by
  simp only [MonErrLog.body]
  repeat' (first | split | simp only [])
  all_goals
    with_reducible repeat' (first
      | exact JudgedF.panic _
      | exact JudgedF.fatal _
      | apply JudgedF.next
      | apply JudgedF.ret
      | exact judged_refl _ _
      | exact judged_setVerdict _ _ _
      | exact judged_cmdFailedLn _ _ _
      | exact judged_CmdFailed _ _ _
      | refine judged_put _ _ _ _ ?_ ?_
      | refine judged_CmdFailOk _ _ _ _ ?_ ?_
      | ((first | apply cleanText_echo | refine cleanText_ending _ _ ?_ ?_ ?_ ?_)
         (repeat' (first
          | apply beginsWith_of_mismatch
          | apply mismatch_append
          | assumption
          | apply noNL_append
          | exact noNL_fmtInt _
          | (apply noNL_of_fields; assumption)
          | (apply noNL_piece; assumption; assumption)
          | (apply noNL_lastPiece; assumption; assumption)
          | apply noNL_trimPrefix
          | (apply noNL_restOfFields; assumption)
          | exact noNL_monthAbbrev _
          | apply noNL_dateOf
          | (refine noNL_replaceAll _ _ _ ?_ ?_)
          | (apply noNL_mem_lines; assumption)
          | (apply noNL_mem_sliceFrom; assumption; assumption)
          | (apply noNL_mem_sliceList; assumption; assumption)
          | (apply noNL_mem_indexed; assumption)
          | (apply noNL_mem_indexed_sliceList; assumption; assumption)
          | (apply noNL_mem_count; assumption; assumption)
          | exact noNL_lines _
          | decide
          ))
         done)
      | (refine cleanText_closed _ ?_ ?_ <;> decide)
      | apply beginsWith_of_mismatch
      | apply mismatch_append
      | assumption
      | apply noNL_append
      | exact noNL_fmtInt _
      | (apply noNL_of_fields; assumption)
      | (apply noNL_piece; assumption; assumption)
      | (apply noNL_lastPiece; assumption; assumption)
      | apply noNL_trimPrefix
      | (apply noNL_restOfFields; assumption)
      | exact noNL_monthAbbrev _
      | apply noNL_dateOf
      | (refine noNL_replaceAll _ _ _ ?_ ?_)
      | (apply noNL_mem_lines; assumption)
      | (apply noNL_mem_sliceFrom; assumption; assumption)
      | (apply noNL_mem_sliceList; assumption; assumption)
      | (apply noNL_mem_indexed; assumption)
      | (apply noNL_mem_indexed_sliceList; assumption; assumption)
      | (apply noNL_mem_count; assumption; assumption)
      | exact noNL_lines _
      | decide
      | split
      | dsimp only
      | simp [beginsWith, String.data_append, List.isPrefixOf])

theorem MonNetLog_body_clean (x : String) (hx : NoNL x) (s : CheckState) :
    JudgedF "MonNetLog" s (MonNetLog.body  x s) := by
  simp only [MonNetLog.body]
  repeat' (first | split | simp only [])
  all_goals
    with_reducible repeat' (first
      | exact JudgedF.panic _
      | exact JudgedF.fatal _
      | apply JudgedF.next
      | apply JudgedF.ret
      | exact judged_refl _ _
      | exact judged_setVerdict _ _ _
      | exact judged_cmdFailedLn _ _ _
      | exact judged_CmdFailed _ _ _
      | refine judged_put _ _ _ _ ?_ ?_
      | refine judged_CmdFailOk _ _ _ _ ?_ ?_
      | ((first | apply cleanText_echo | refine cleanText_ending _ _ ?_ ?_ ?_ ?_)
         (repeat' (first
          | apply beginsWith_of_mismatch
          | apply mismatch_append
          | assumption
          | apply noNL_append
          | exact noNL_fmtInt _
          | (apply noNL_of_fields; assumption)
          | (apply noNL_piece; assumption; assumption)
          | (apply noNL_lastPiece; assumption; assumption)
          | apply noNL_trimPrefix
          | (apply noNL_restOfFields; assumption)
          | exact noNL_monthAbbrev _
          | apply noNL_dateOf
          | (refine noNL_replaceAll _ _ _ ?_ ?_)
          | (apply noNL_mem_lines; assumption)
          | (apply noNL_mem_sliceFrom; assumption; assumption)
          | (apply noNL_mem_sliceList; assumption; assumption)
          | (apply noNL_mem_indexed; assumption)
          | (apply noNL_mem_indexed_sliceList; assumption; assumption)
          | (apply noNL_mem_count; assumption; assumption)
          | exact noNL_lines _
          | decide
          ))
         done)
      | (refine cleanText_closed _ ?_ ?_ <;> decide)
      | apply beginsWith_of_mismatch
      | apply mismatch_append
      | assumption
      | apply noNL_append
      | exact noNL_fmtInt _
      | (apply noNL_of_fields; assumption)
      | (apply noNL_piece; assumption; assumption)
      | (apply noNL_lastPiece; assumption; assumption)
      | apply noNL_trimPrefix
      | (apply noNL_restOfFields; assumption)
      | exact noNL_monthAbbrev _
      | apply noNL_dateOf
      | (refine noNL_replaceAll _ _ _ ?_ ?_)
      | (apply noNL_mem_lines; assumption)
      | (apply noNL_mem_sliceFrom; assumption; assumption)
      | (apply noNL_mem_sliceList; assumption; assumption)
      | (apply noNL_mem_indexed; assumption)
      | (apply noNL_mem_indexed_sliceList; assumption; assumption)
      | (apply noNL_mem_count; assumption; assumption)
      | exact noNL_lines _
      | decide
      | split
      | dsimp only
      | simp [beginsWith, String.data_append, List.isPrefixOf])

theorem CheckCoreFiles_body_clean (x : String) (hx : NoNL x) (s : CheckState) :
    JudgedF "CheckCoreFiles" s (CheckCoreFiles.body  x s) := by
  simp only [CheckCoreFiles.body]
  repeat' (first | split | simp only [])
  all_goals
    with_reducible repeat' (first
      | exact JudgedF.panic _
      | exact JudgedF.fatal _
      | apply JudgedF.next
      | apply JudgedF.ret
      | exact judged_refl _ _
      | exact judged_setVerdict _ _ _
      | exact judged_cmdFailedLn _ _ _
      | exact judged_CmdFailed _ _ _
      | refine judged_put _ _ _ _ ?_ ?_
      | refine judged_CmdFailOk _ _ _ _ ?_ ?_
      | ((first | apply cleanText_echo | refine cleanText_ending _ _ ?_ ?_ ?_ ?_)
         (repeat' (first
          | apply beginsWith_of_mismatch
          | apply mismatch_append
          | assumption
          | apply noNL_append
          | exact noNL_fmtInt _
          | (apply noNL_of_fields; assumption)
          | (apply noNL_piece; assumption; assumption)
          | (apply noNL_lastPiece; assumption; assumption)
          | apply noNL_trimPrefix
          | (apply noNL_restOfFields; assumption)
          | exact noNL_monthAbbrev _
          | apply noNL_dateOf
          | (refine noNL_replaceAll _ _ _ ?_ ?_)
          | (apply noNL_mem_lines; assumption)
          | (apply noNL_mem_sliceFrom; assumption; assumption)
          | (apply noNL_mem_sliceList; assumption; assumption)
          | (apply noNL_mem_indexed; assumption)
          | (apply noNL_mem_indexed_sliceList; assumption; assumption)
          | (apply noNL_mem_count; assumption; assumption)
          | exact noNL_lines _
          | decide
          ))
         done)
      | (refine cleanText_closed _ ?_ ?_ <;> decide)
      | apply beginsWith_of_mismatch
      | apply mismatch_append
      | assumption
      | apply noNL_append
      | exact noNL_fmtInt _
      | (apply noNL_of_fields; assumption)
      | (apply noNL_piece; assumption; assumption)
      | (apply noNL_lastPiece; assumption; assumption)
      | apply noNL_trimPrefix
      | (apply noNL_restOfFields; assumption)
      | exact noNL_monthAbbrev _
      | apply noNL_dateOf
      | (refine noNL_replaceAll _ _ _ ?_ ?_)
      | (apply noNL_mem_lines; assumption)
      | (apply noNL_mem_sliceFrom; assumption; assumption)
      | (apply noNL_mem_sliceList; assumption; assumption)
      | (apply noNL_mem_indexed; assumption)
      | (apply noNL_mem_indexed_sliceList; assumption; assumption)
      | (apply noNL_mem_count; assumption; assumption)
      | exact noNL_lines _
      | decide
      | split
      | dsimp only
      | simp [beginsWith, String.data_append, List.isPrefixOf])

theorem CheckOutOfMem_body_clean (x : String) (hx : NoNL x) (s : CheckState) :
    JudgedF "CheckOutOfMem" s (CheckOutOfMem.body  x s) := by
  simp only [CheckOutOfMem.body]
  repeat' (first | split | simp only [])
  all_goals
    with_reducible repeat' (first
      | exact JudgedF.panic _
      | exact JudgedF.fatal _
      | apply JudgedF.next
      | apply JudgedF.ret
      | exact judged_refl _ _
      | exact judged_setVerdict _ _ _
      | exact judged_cmdFailedLn _ _ _
      | exact judged_CmdFailed _ _ _
      | refine judged_put _ _ _ _ ?_ ?_
      | refine judged_CmdFailOk _ _ _ _ ?_ ?_
      | ((first | apply cleanText_echo | refine cleanText_ending _ _ ?_ ?_ ?_ ?_)
         (repeat' (first
          | apply beginsWith_of_mismatch
          | apply mismatch_append
          | assumption
          | apply noNL_append
          | exact noNL_fmtInt _
          | (apply noNL_of_fields; assumption)
          | (apply noNL_piece; assumption; assumption)
          | (apply noNL_lastPiece; assumption; assumption)
          | apply noNL_trimPrefix
          | (apply noNL_restOfFields; assumption)
          | exact noNL_monthAbbrev _
          | apply noNL_dateOf
          | (refine noNL_replaceAll _ _ _ ?_ ?_)
          | (apply noNL_mem_lines; assumption)
          | (apply noNL_mem_sliceFrom; assumption; assumption)
          | (apply noNL_mem_sliceList; assumption; assumption)
          | (apply noNL_mem_indexed; assumption)
          | (apply noNL_mem_indexed_sliceList; assumption; assumption)
          | (apply noNL_mem_count; assumption; assumption)
          | exact noNL_lines _
          | decide
          ))
         done)
      | (refine cleanText_closed _ ?_ ?_ <;> decide)
      | apply beginsWith_of_mismatch
      | apply mismatch_append
      | assumption
      | apply noNL_append
      | exact noNL_fmtInt _
      | (apply noNL_of_fields; assumption)
      | (apply noNL_piece; assumption; assumption)
      | (apply noNL_lastPiece; assumption; assumption)
      | apply noNL_trimPrefix
      | (apply noNL_restOfFields; assumption)
      | exact noNL_monthAbbrev _
      | apply noNL_dateOf
      | (refine noNL_replaceAll _ _ _ ?_ ?_)
      | (apply noNL_mem_lines; assumption)
      | (apply noNL_mem_sliceFrom; assumption; assumption)
      | (apply noNL_mem_sliceList; assumption; assumption)
      | (apply noNL_mem_indexed; assumption)
      | (apply noNL_mem_indexed_sliceList; assumption; assumption)
      | (apply noNL_mem_count; assumption; assumption)
      | exact noNL_lines _
      | decide
      | split
      | dsimp only
      | simp [beginsWith, String.data_append, List.isPrefixOf])

theorem CheckSecurity_body_clean (x : String) (hx : NoNL x) (s : CheckState) :
    JudgedF "CheckSecurity" s (CheckSecurity.body  x s) := by
  simp only [CheckSecurity.body]
  repeat' (first | split | simp only [])
  all_goals
    with_reducible repeat' (first
      | exact JudgedF.panic _
      | exact JudgedF.fatal _
      | apply JudgedF.next
      | apply JudgedF.ret
      | exact judged_refl _ _
      | exact judged_setVerdict _ _ _
      | exact judged_cmdFailedLn _ _ _
      | exact judged_CmdFailed _ _ _
      | refine judged_put _ _ _ _ ?_ ?_
      | refine judged_CmdFailOk _ _ _ _ ?_ ?_
      | ((first | apply cleanText_echo | refine cleanText_ending _ _ ?_ ?_ ?_ ?_)
         (repeat' (first
          | apply beginsWith_of_mismatch
          | apply mismatch_append
          | assumption
          | apply noNL_append
          | exact noNL_fmtInt _
          | (apply noNL_of_fields; assumption)
          | (apply noNL_piece; assumption; assumption)
          | (apply noNL_lastPiece; assumption; assumption)
          | apply noNL_trimPrefix
          | (apply noNL_restOfFields; assumption)
          | exact noNL_monthAbbrev _
          | apply noNL_dateOf
          | (refine noNL_replaceAll _ _ _ ?_ ?_)
          | (apply noNL_mem_lines; assumption)
          | (apply noNL_mem_sliceFrom; assumption; assumption)
          | (apply noNL_mem_sliceList; assumption; assumption)
          | (apply noNL_mem_indexed; assumption)
          | (apply noNL_mem_indexed_sliceList; assumption; assumption)
          | (apply noNL_mem_count; assumption; assumption)
          | exact noNL_lines _
          | decide
          ))
         done)
      | (refine cleanText_closed _ ?_ ?_ <;> decide)
      | apply beginsWith_of_mismatch
      | apply mismatch_append
      | assumption
      | apply noNL_append
      | exact noNL_fmtInt _
      | (apply noNL_of_fields; assumption)
      | (apply noNL_piece; assumption; assumption)
      | (apply noNL_lastPiece; assumption; assumption)
      | apply noNL_trimPrefix
      | (apply noNL_restOfFields; assumption)
      | exact noNL_monthAbbrev _
      | apply noNL_dateOf
      | (refine noNL_replaceAll _ _ _ ?_ ?_)
      | (apply noNL_mem_lines; assumption)
      | (apply noNL_mem_sliceFrom; assumption; assumption)
      | (apply noNL_mem_sliceList; assumption; assumption)
      | (apply noNL_mem_indexed; assumption)
      | (apply noNL_mem_indexed_sliceList; assumption; assumption)
      | (apply noNL_mem_count; assumption; assumption)
      | exact noNL_lines _
      | decide
      | split
      | dsimp only
      | simp [beginsWith, String.data_append, List.isPrefixOf])

theorem CheckMCs_body_no_ret (x : String) (s s1 : CheckState) : CheckMCs.body x s ≠ Flow.ret s1 := by
  simp only [CheckMCs.body]
  repeat' (first | split | simp only [])
  all_goals (intro e; cases e)

theorem CheckDisks_body_no_ret (x : String) (s s1 : CheckState) : CheckDisks.body x s ≠ Flow.ret s1 := by
  simp only [CheckDisks.body]
  repeat' (first | split | simp only [])
  all_goals (intro e; cases e)

theorem MonErrLog_body_no_ret (x : String) (s s1 : CheckState) : MonErrLog.body x s ≠ Flow.ret s1 := by
  simp only [MonErrLog.body]
  repeat' (first | split | simp only [])
  all_goals (intro e; cases e)

theorem MonNetLog_body_no_ret (x : String) (s s1 : CheckState) : MonNetLog.body x s ≠ Flow.ret s1 := by
  simp only [MonNetLog.body]
  repeat' (first | split | simp only [])
  all_goals (intro e; cases e)

theorem CheckCoreFiles_body_no_ret (x : String) (s s1 : CheckState) : CheckCoreFiles.body x s ≠ Flow.ret s1 := by
  simp only [CheckCoreFiles.body]
  repeat' (first | split | simp only [])
  all_goals (intro e; cases e)

theorem CheckOutOfMem_body_no_ret (x : String) (s s1 : CheckState) : CheckOutOfMem.body x s ≠ Flow.ret s1 := by
  simp only [CheckOutOfMem.body]
  repeat' (first | split | simp only [])
  all_goals (intro e; cases e)

theorem CheckSecurity_body_no_ret (x : String) (s s1 : CheckState) : CheckSecurity.body x s ≠ Flow.ret s1 := by
  simp only [CheckSecurity.body]
  repeat' (first | split | simp only [])
  all_goals (intro e; cases e)

theorem CheckSnapshots_clean (now : Now) (st : CheckState) (r : CmdResult) (hnow : NoNL now.rfc3339) :
    JudgedF "CheckSnapshots" (setVerdict "CheckSnapshots" true st) (CheckSnapshots now st r) := by
  simp only [CheckSnapshots, runCmd_eq, exec_eq]
  repeat' (first | split | simp only [])
  all_goals
    with_reducible repeat' (first
      | exact JudgedF.panic _
      | exact JudgedF.fatal _
      | apply JudgedF.next
      | apply JudgedF.ret
      | exact judged_refl _ _
      | exact judged_setVerdict _ _ _
      | exact judged_cmdFailedLn _ _ _
      | exact judged_CmdFailed _ _ _
      | exact judged_twice _ _
      | exact hnow
      | (refine forRange_judgedF_from _ _ _ _ _ ?_ (fun x hx s => CheckSnapshots_body_clean _ x ?_ s))
      | refine andThen_judgedF_from _ _ _ _ ?_ (fun s1 => ?_)
      | (refine forRange_judgedF_from _ _ _ _ _ ?_ (fun x hx s => ?_))
      | refine judged_put _ _ _ _ ?_ ?_
      | refine judged_CmdFailOk _ _ _ _ ?_ ?_
      | ((first | apply cleanText_echo | refine cleanText_ending _ _ ?_ ?_ ?_ ?_)
         (repeat' (first
          | exact judged_twice _ _
          | exact hnow
          | (refine forRange_judgedF_from _ _ _ _ _ ?_ (fun x hx s => CheckSnapshots_body_clean _ x ?_ s))
          | refine andThen_judgedF_from _ _ _ _ ?_ (fun s1 => ?_)
          | (refine forRange_judgedF_from _ _ _ _ _ ?_ (fun x hx s => ?_))
          | apply beginsWith_of_mismatch
          | apply mismatch_append
          | assumption
          | apply noNL_append
          | exact noNL_fmtInt _
          | (apply noNL_of_fields; assumption)
          | (apply noNL_piece; assumption; assumption)
          | (apply noNL_lastPiece; assumption; assumption)
          | apply noNL_trimPrefix
          | (apply noNL_restOfFields; assumption)
          | exact noNL_monthAbbrev _
          | apply noNL_dateOf
          | (refine noNL_replaceAll _ _ _ ?_ ?_)
          | (apply noNL_mem_lines; assumption)
          | (apply noNL_mem_sliceFrom; assumption; assumption)
          | (apply noNL_mem_sliceList; assumption; assumption)
          | (apply noNL_mem_indexed; assumption)
          | (apply noNL_mem_indexed_sliceList; assumption; assumption)
          | (apply noNL_mem_count; assumption; assumption)
          | exact noNL_lines _
          | decide
          ))
         done)
      | (refine cleanText_closed _ ?_ ?_ <;> decide)
      | apply beginsWith_of_mismatch
      | apply mismatch_append
      | assumption
      | apply noNL_append
      | exact noNL_fmtInt _
      | (apply noNL_of_fields; assumption)
      | (apply noNL_piece; assumption; assumption)
      | (apply noNL_lastPiece; assumption; assumption)
      | apply noNL_trimPrefix
      | (apply noNL_restOfFields; assumption)
      | exact noNL_monthAbbrev _
      | apply noNL_dateOf
      | (refine noNL_replaceAll _ _ _ ?_ ?_)
      | (apply noNL_mem_lines; assumption)
      | (apply noNL_mem_sliceFrom; assumption; assumption)
      | (apply noNL_mem_sliceList; assumption; assumption)
      | (apply noNL_mem_indexed; assumption)
      | (apply noNL_mem_indexed_sliceList; assumption; assumption)
      | (apply noNL_mem_count; assumption; assumption)
      | exact noNL_lines _
      | decide
      | split
      | dsimp only
      | simp [beginsWith, String.data_append, List.isPrefixOf])

theorem CheckSyDb_clean (st : CheckState) (r : CmdResult) :
    JudgedF "CheckSyDb" (setVerdict "CheckSyDb" true st) (CheckSyDb st r) := by
  simp only [CheckSyDb, runCmd_eq, exec_eq]
  repeat' (first | split | simp only [])
  all_goals
    with_reducible repeat' (first
      | exact JudgedF.panic _
      | exact JudgedF.fatal _
      | apply JudgedF.next
      | apply JudgedF.ret
      | exact judged_refl _ _
      | exact judged_setVerdict _ _ _
      | exact judged_cmdFailedLn _ _ _
      | exact judged_CmdFailed _ _ _
      | exact judged_twice _ _
      | (refine forRange_judgedF_from _ _ _ _ _ ?_ (fun x hx s => CheckSyDb_body_clean _ x ?_ s))
      | refine andThen_judgedF_from _ _ _ _ ?_ (fun s1 => ?_)
      | (refine forRange_judgedF_from _ _ _ _ _ ?_ (fun x hx s => ?_))
      | refine judged_put _ _ _ _ ?_ ?_
      | refine judged_CmdFailOk _ _ _ _ ?_ ?_
      | ((first | apply cleanText_echo | refine cleanText_ending _ _ ?_ ?_ ?_ ?_)
         (repeat' (first
          | exact judged_twice _ _
          | (refine forRange_judgedF_from _ _ _ _ _ ?_ (fun x hx s => CheckSyDb_body_clean _ x ?_ s))
          | refine andThen_judgedF_from _ _ _ _ ?_ (fun s1 => ?_)
          | (refine forRange_judgedF_from _ _ _ _ _ ?_ (fun x hx s => ?_))
          | apply beginsWith_of_mismatch
          | apply mismatch_append
          | assumption
          | apply noNL_append
          | exact noNL_fmtInt _
          | (apply noNL_of_fields; assumption)
          | (apply noNL_piece; assumption; assumption)
          | (apply noNL_lastPiece; assumption; assumption)
          | apply noNL_trimPrefix
          | (apply noNL_restOfFields; assumption)
          | exact noNL_monthAbbrev _
          | apply noNL_dateOf
          | (refine noNL_replaceAll _ _ _ ?_ ?_)
          | (apply noNL_mem_lines; assumption)
          | (apply noNL_mem_sliceFrom; assumption; assumption)
          | (apply noNL_mem_sliceList; assumption; assumption)
          | (apply noNL_mem_indexed; assumption)
          | (apply noNL_mem_indexed_sliceList; assumption; assumption)
          | (apply noNL_mem_count; assumption; assumption)
          | exact noNL_lines _
          | decide
          ))
         done)
      | (refine cleanText_closed _ ?_ ?_ <;> decide)
      | apply beginsWith_of_mismatch
      | apply mismatch_append
      | assumption
      | apply noNL_append
      | exact noNL_fmtInt _
      | (apply noNL_of_fields; assumption)
      | (apply noNL_piece; assumption; assumption)
      | (apply noNL_lastPiece; assumption; assumption)
      | apply noNL_trimPrefix
      | (apply noNL_restOfFields; assumption)
      | exact noNL_monthAbbrev _
      | apply noNL_dateOf
      | (refine noNL_replaceAll _ _ _ ?_ ?_)
      | (apply noNL_mem_lines; assumption)
      | (apply noNL_mem_sliceFrom; assumption; assumption)
      | (apply noNL_mem_sliceList; assumption; assumption)
      | (apply noNL_mem_indexed; assumption)
      | (apply noNL_mem_indexed_sliceList; assumption; assumption)
      | (apply noNL_mem_count; assumption; assumption)
      | exact noNL_lines _
      | decide
      | split
      | dsimp only
      | simp [beginsWith, String.data_append, List.isPrefixOf])

theorem CheckSyLogSize_clean (st : CheckState) (r : CmdResult) :
    JudgedF "CheckSyLogSize" (setVerdict "CheckSyLogSize" true st) (CheckSyLogSize st r) := by
  simp only [CheckSyLogSize, runCmd_eq, exec_eq]
  repeat' (first | split | simp only [])
  all_goals
    with_reducible repeat' (first
      | exact JudgedF.panic _
      | exact JudgedF.fatal _
      | apply JudgedF.next
      | apply JudgedF.ret
      | exact judged_refl _ _
      | exact judged_setVerdict _ _ _
      | exact judged_cmdFailedLn _ _ _
      | exact judged_CmdFailed _ _ _
      | exact judged_twice _ _
      | (refine forRange_judgedF_from _ _ _ _ _ ?_ (fun x hx s => CheckSyLogSize_body_clean _ x ?_ s))
      | refine andThen_judgedF_from _ _ _ _ ?_ (fun s1 => ?_)
      | (refine forRange_judgedF_from _ _ _ _ _ ?_ (fun x hx s => ?_))
      | refine judged_put _ _ _ _ ?_ ?_
      | refine judged_CmdFailOk _ _ _ _ ?_ ?_
      | ((first | apply cleanText_echo | refine cleanText_ending _ _ ?_ ?_ ?_ ?_)
         (repeat' (first
          | exact judged_twice _ _
          | (refine forRange_judgedF_from _ _ _ _ _ ?_ (fun x hx s => CheckSyLogSize_body_clean _ x ?_ s))
          | refine andThen_judgedF_from _ _ _ _ ?_ (fun s1 => ?_)
          | (refine forRange_judgedF_from _ _ _ _ _ ?_ (fun x hx s => ?_))
          | apply beginsWith_of_mismatch
          | apply mismatch_append
          | assumption
          | apply noNL_append
          | exact noNL_fmtInt _
          | (apply noNL_of_fields; assumption)
          | (apply noNL_piece; assumption; assumption)
          | (apply noNL_lastPiece; assumption; assumption)
          | apply noNL_trimPrefix
          | (apply noNL_restOfFields; assumption)
          | exact noNL_monthAbbrev _
          | apply noNL_dateOf
          | (refine noNL_replaceAll _ _ _ ?_ ?_)
          | (apply noNL_mem_lines; assumption)
          | (apply noNL_mem_sliceFrom; assumption; assumption)
          | (apply noNL_mem_sliceList; assumption; assumption)
          | (apply noNL_mem_indexed; assumption)
          | (apply noNL_mem_indexed_sliceList; assumption; assumption)
          | (apply noNL_mem_count; assumption; assumption)
          | exact noNL_lines _
          | decide
          ))
         done)
      | (refine cleanText_closed _ ?_ ?_ <;> decide)
      | apply beginsWith_of_mismatch
      | apply mismatch_append
      | assumption
      | apply noNL_append
      | exact noNL_fmtInt _
      | (apply noNL_of_fields; assumption)
      | (apply noNL_piece; assumption; assumption)
      | (apply noNL_lastPiece; assumption; assumption)
      | apply noNL_trimPrefix
      | (apply noNL_restOfFields; assumption)
      | exact noNL_monthAbbrev _
      | apply noNL_dateOf
      | (refine noNL_replaceAll _ _ _ ?_ ?_)
      | (apply noNL_mem_lines; assumption)
      | (apply noNL_mem_sliceFrom; assumption; assumption)
      | (apply noNL_mem_sliceList; assumption; assumption)
      | (apply noNL_mem_indexed; assumption)
      | (apply noNL_mem_indexed_sliceList; assumption; assumption)
      | (apply noNL_mem_count; assumption; assumption)
      | exact noNL_lines _
      | decide
      | split
      | dsimp only
      | simp [beginsWith, String.data_append, List.isPrefixOf])

theorem MonConfigExports_clean (now : Now) (st : CheckState) (r : CmdResult) (hnow : NoNL now.rfc3339) :
    JudgedF "MonConfigExports" (setVerdict "MonConfigExports" true st) (MonConfigExports now st r) := by
  simp only [MonConfigExports, runCmd_eq, exec_eq]
  repeat' (first | split | simp only [])
  all_goals
    with_reducible repeat' (first
      | exact JudgedF.panic _
      | exact JudgedF.fatal _
      | apply JudgedF.next
      | apply JudgedF.ret
      | exact judged_refl _ _
      | exact judged_setVerdict _ _ _
      | exact judged_cmdFailedLn _ _ _
      | exact judged_CmdFailed _ _ _
      | exact judged_twice _ _
      | exact hnow
      | (refine forRange_judgedF_from _ _ _ _ _ ?_ (fun x hx s => MonConfigExports_body_clean _ x ?_ s))
      | refine andThen_judgedF_from _ _ _ _ ?_ (fun s1 => ?_)
      | (refine forRange_judgedF_from _ _ _ _ _ ?_ (fun x hx s => ?_))
      | refine judged_put _ _ _ _ ?_ ?_
      | refine judged_CmdFailOk _ _ _ _ ?_ ?_
      | ((first | apply cleanText_echo | refine cleanText_ending _ _ ?_ ?_ ?_ ?_)
         (repeat' (first
          | exact judged_twice _ _
          | exact hnow
          | (refine forRange_judgedF_from _ _ _ _ _ ?_ (fun x hx s => MonConfigExports_body_clean _ x ?_ s))
          | refine andThen_judgedF_from _ _ _ _ ?_ (fun s1 => ?_)
          | (refine forRange_judgedF_from _ _ _ _ _ ?_ (fun x hx s => ?_))
          | apply beginsWith_of_mismatch
          | apply mismatch_append
          | assumption
          | apply noNL_append
          | exact noNL_fmtInt _
          | (apply noNL_of_fields; assumption)
          | (apply noNL_piece; assumption; assumption)
          | (apply noNL_lastPiece; assumption; assumption)
          | apply noNL_trimPrefix
          | (apply noNL_restOfFields; assumption)
          | exact noNL_monthAbbrev _
          | apply noNL_dateOf
          | (refine noNL_replaceAll _ _ _ ?_ ?_)
          | (apply noNL_mem_lines; assumption)
          | (apply noNL_mem_sliceFrom; assumption; assumption)
          | (apply noNL_mem_sliceList; assumption; assumption)
          | (apply noNL_mem_indexed; assumption)
          | (apply noNL_mem_indexed_sliceList; assumption; assumption)
          | (apply noNL_mem_count; assumption; assumption)
          | exact noNL_lines _
          | decide
          ))
         done)
      | (refine cleanText_closed _ ?_ ?_ <;> decide)
      | apply beginsWith_of_mismatch
      | apply mismatch_append
      | assumption
      | apply noNL_append
      | exact noNL_fmtInt _
      | (apply noNL_of_fields; assumption)
      | (apply noNL_piece; assumption; assumption)
      | (apply noNL_lastPiece; assumption; assumption)
      | apply noNL_trimPrefix
      | (apply noNL_restOfFields; assumption)
      | exact noNL_monthAbbrev _
      | apply noNL_dateOf
      | (refine noNL_replaceAll _ _ _ ?_ ?_)
      | (apply noNL_mem_lines; assumption)
      | (apply noNL_mem_sliceFrom; assumption; assumption)
      | (apply noNL_mem_sliceList; assumption; assumption)
      | (apply noNL_mem_indexed; assumption)
      | (apply noNL_mem_indexed_sliceList; assumption; assumption)
      | (apply noNL_mem_count; assumption; assumption)
      | exact noNL_lines _
      | decide
      | split
      | dsimp only
      | simp [beginsWith, String.data_append, List.isPrefixOf])

theorem CheckOutOfMem_clean (st : CheckState) (r : CmdResult) :
    JudgedF "CheckOutOfMem" (setVerdict "CheckOutOfMem" true st) (CheckOutOfMem st r) := by
  simp only [CheckOutOfMem, runCmd_eq, exec_eq]
  repeat' (first | split | simp only [])
  all_goals
    with_reducible repeat' (first
      | exact JudgedF.panic _
      | exact JudgedF.fatal _
      | apply JudgedF.next
      | apply JudgedF.ret
      | exact judged_refl _ _
      | exact judged_setVerdict _ _ _
      | exact judged_cmdFailedLn _ _ _
      | exact judged_CmdFailed _ _ _
      | exact judged_twice _ _
      | exact judgedF_found _ _ _ (fun s1 => forRange_no_ret _ CheckOutOfMem_body_no_ret _ _ s1)
      | (refine forRange_judgedF_from _ _ _ _ _ ?_ (fun x hx s => CheckOutOfMem_body_clean x ?_ s))
      | refine andThen_judgedF_from _ _ _ _ ?_ (fun s1 => ?_)
      | (refine forRange_judgedF_from _ _ _ _ _ ?_ (fun x hx s => ?_))
      | refine judged_put _ _ _ _ ?_ ?_
      | refine judged_CmdFailOk _ _ _ _ ?_ ?_
      | ((first | apply cleanText_echo | refine cleanText_ending _ _ ?_ ?_ ?_ ?_)
         (repeat' (first
          | exact judged_twice _ _
          | exact judgedF_found _ _ _ (fun s1 => forRange_no_ret _ CheckOutOfMem_body_no_ret _ _ s1)
          | (refine forRange_judgedF_from _ _ _ _ _ ?_ (fun x hx s => CheckOutOfMem_body_clean x ?_ s))
          | refine andThen_judgedF_from _ _ _ _ ?_ (fun s1 => ?_)
          | (refine forRange_judgedF_from _ _ _ _ _ ?_ (fun x hx s => ?_))
          | apply beginsWith_of_mismatch
          | apply mismatch_append
          | assumption
          | apply noNL_append
          | exact noNL_fmtInt _
          | (apply noNL_of_fields; assumption)
          | (apply noNL_piece; assumption; assumption)
          | (apply noNL_lastPiece; assumption; assumption)
          | apply noNL_trimPrefix
          | (apply noNL_restOfFields; assumption)
          | exact noNL_monthAbbrev _
          | apply noNL_dateOf
          | (refine noNL_replaceAll _ _ _ ?_ ?_)
          | (apply noNL_mem_lines; assumption)
          | (apply noNL_mem_sliceFrom; assumption; assumption)
          | (apply noNL_mem_sliceList; assumption; assumption)
          | (apply noNL_mem_indexed; assumption)
          | (apply noNL_mem_indexed_sliceList; assumption; assumption)
          | (apply noNL_mem_count; assumption; assumption)
          | exact noNL_lines _
          | decide
          ))
         done)
      | (refine cleanText_closed _ ?_ ?_ <;> decide)
      | apply beginsWith_of_mismatch
      | apply mismatch_append
      | assumption
      | apply noNL_append
      | exact noNL_fmtInt _
      | (apply noNL_of_fields; assumption)
      | (apply noNL_piece; assumption; assumption)
      | (apply noNL_lastPiece; assumption; assumption)
      | apply noNL_trimPrefix
      | (apply noNL_restOfFields; assumption)
      | exact noNL_monthAbbrev _
      | apply noNL_dateOf
      | (refine noNL_replaceAll _ _ _ ?_ ?_)
      | (apply noNL_mem_lines; assumption)
      | (apply noNL_mem_sliceFrom; assumption; assumption)
      | (apply noNL_mem_sliceList; assumption; assumption)
      | (apply noNL_mem_indexed; assumption)
      | (apply noNL_mem_indexed_sliceList; assumption; assumption)
      | (apply noNL_mem_count; assumption; assumption)
      | exact noNL_lines _
      | decide
      | split
      | dsimp only
      | simp [beginsWith, String.data_append, List.isPrefixOf])

theorem CheckHomeSU_clean (fl : Float64) (st : CheckState) (r : CmdResult) (hfl : ∀ v, NoNL (fl.fmt v)) :
    JudgedF "CheckHomeSU" (setVerdict "CheckHomeSU" true st) (CheckHomeSU fl st r) := by
  simp only [CheckHomeSU, runCmd_eq, exec_eq]
  repeat' (first | split | simp only [])
  all_goals
    with_reducible repeat' (first
      | exact JudgedF.panic _
      | exact JudgedF.fatal _
      | apply JudgedF.next
      | apply JudgedF.ret
      | exact judged_refl _ _
      | exact judged_setVerdict _ _ _
      | exact judged_cmdFailedLn _ _ _
      | exact judged_CmdFailed _ _ _
      | exact judged_twice _ _
      | (refine forRange_judgedF_from _ _ _ _ _ ?_ (fun x hx s => CheckHomeSU_body_clean fl hfl _ _ x ?_ s))
      | refine andThen_judgedF_from _ _ _ _ ?_ (fun s1 => ?_)
      | (refine forRange_judgedF_from _ _ _ _ _ ?_ (fun x hx s => ?_))
      | refine judged_put _ _ _ _ ?_ ?_
      | refine judged_CmdFailOk _ _ _ _ ?_ ?_
      | ((first | apply cleanText_echo | refine cleanText_ending _ _ ?_ ?_ ?_ ?_)
         (repeat' (first
          | exact judged_twice _ _
          | (refine forRange_judgedF_from _ _ _ _ _ ?_ (fun x hx s => CheckHomeSU_body_clean fl hfl _ _ x ?_ s))
          | refine andThen_judgedF_from _ _ _ _ ?_ (fun s1 => ?_)
          | (refine forRange_judgedF_from _ _ _ _ _ ?_ (fun x hx s => ?_))
          | apply beginsWith_of_mismatch
          | apply mismatch_append
          | assumption
          | apply noNL_append
          | exact noNL_fmtInt _
          | (apply noNL_of_fields; assumption)
          | (apply noNL_piece; assumption; assumption)
          | (apply noNL_lastPiece; assumption; assumption)
          | apply noNL_trimPrefix
          | (apply noNL_restOfFields; assumption)
          | exact noNL_monthAbbrev _
          | apply noNL_dateOf
          | (refine noNL_replaceAll _ _ _ ?_ ?_)
          | (apply noNL_mem_lines; assumption)
          | (apply noNL_mem_sliceFrom; assumption; assumption)
          | (apply noNL_mem_sliceList; assumption; assumption)
          | (apply noNL_mem_indexed; assumption)
          | (apply noNL_mem_indexed_sliceList; assumption; assumption)
          | (apply noNL_mem_count; assumption; assumption)
          | exact noNL_lines _
          | decide
          ))
         done)
      | (refine cleanText_closed _ ?_ ?_ <;> decide)
      | apply beginsWith_of_mismatch
      | apply mismatch_append
      | assumption
      | apply noNL_append
      | exact noNL_fmtInt _
      | (apply noNL_of_fields; assumption)
      | (apply noNL_piece; assumption; assumption)
      | (apply noNL_lastPiece; assumption; assumption)
      | apply noNL_trimPrefix
      | (apply noNL_restOfFields; assumption)
      | exact noNL_monthAbbrev _
      | apply noNL_dateOf
      | (refine noNL_replaceAll _ _ _ ?_ ?_)
      | (apply noNL_mem_lines; assumption)
      | (apply noNL_mem_sliceFrom; assumption; assumption)
      | (apply noNL_mem_sliceList; assumption; assumption)
      | (apply noNL_mem_indexed; assumption)
      | (apply noNL_mem_indexed_sliceList; assumption; assumption)
      | (apply noNL_mem_count; assumption; assumption)
      | exact noNL_lines _
      | decide
      | split
      | dsimp only
      | simp [beginsWith, String.data_append, List.isPrefixOf])

theorem CheckVrstDbSU_clean (st : CheckState) (r : CmdResult) :
    JudgedF "CheckVrstDbSU" (setVerdict "CheckVrstDbSU" true st) (CheckVrstDbSU st r) := by
  simp only [CheckVrstDbSU, runCmd_eq, exec_eq]
  repeat' (first | split | simp only [])
  all_goals
    with_reducible repeat' (first
      | exact JudgedF.panic _
      | exact JudgedF.fatal _
      | apply JudgedF.next
      | apply JudgedF.ret
      | exact judged_refl _ _
      | exact judged_setVerdict _ _ _
      | exact judged_cmdFailedLn _ _ _
      | exact judged_CmdFailed _ _ _
      | exact judged_twice _ _
      | (refine forRange_judgedF_from _ _ _ _ _ ?_ (fun x hx s => CheckVrstDbSU_body_clean _ x ?_ s))
      | refine andThen_judgedF_from _ _ _ _ ?_ (fun s1 => ?_)
      | (refine forRange_judgedF_from _ _ _ _ _ ?_ (fun x hx s => ?_))
      | refine judged_put _ _ _ _ ?_ ?_
      | refine judged_CmdFailOk _ _ _ _ ?_ ?_
      | ((first | apply cleanText_echo | refine cleanText_ending _ _ ?_ ?_ ?_ ?_)
         (repeat' (first
          | exact judged_twice _ _
          | (refine forRange_judgedF_from _ _ _ _ _ ?_ (fun x hx s => CheckVrstDbSU_body_clean _ x ?_ s))
          | refine andThen_judgedF_from _ _ _ _ ?_ (fun s1 => ?_)
          | (refine forRange_judgedF_from _ _ _ _ _ ?_ (fun x hx s => ?_))
          | apply beginsWith_of_mismatch
          | apply mismatch_append
          | assumption
          | apply noNL_append
          | exact noNL_fmtInt _
          | (apply noNL_of_fields; assumption)
          | (apply noNL_piece; assumption; assumption)
          | (apply noNL_lastPiece; assumption; assumption)
          | apply noNL_trimPrefix
          | (apply noNL_restOfFields; assumption)
          | exact noNL_monthAbbrev _
          | apply noNL_dateOf
          | (refine noNL_replaceAll _ _ _ ?_ ?_)
          | (apply noNL_mem_lines; assumption)
          | (apply noNL_mem_sliceFrom; assumption; assumption)
          | (apply noNL_mem_sliceList; assumption; assumption)
          | (apply noNL_mem_indexed; assumption)
          | (apply noNL_mem_indexed_sliceList; assumption; assumption)
          | (apply noNL_mem_count; assumption; assumption)
          | exact noNL_lines _
          | decide
          ))
         done)
      | (refine cleanText_closed _ ?_ ?_ <;> decide)
      | apply beginsWith_of_mismatch
      | apply mismatch_append
      | assumption
      | apply noNL_append
      | exact noNL_fmtInt _
      | (apply noNL_of_fields; assumption)
      | (apply noNL_piece; assumption; assumption)
      | (apply noNL_lastPiece; assumption; assumption)
      | apply noNL_trimPrefix
      | (apply noNL_restOfFields; assumption)
      | exact noNL_monthAbbrev _
      | apply noNL_dateOf
      | (refine noNL_replaceAll _ _ _ ?_ ?_)
      | (apply noNL_mem_lines; assumption)
      | (apply noNL_mem_sliceFrom; assumption; assumption)
      | (apply noNL_mem_sliceList; assumption; assumption)
      | (apply noNL_mem_indexed; assumption)
      | (apply noNL_mem_indexed_sliceList; assumption; assumption)
      | (apply noNL_mem_count; assumption; assumption)
      | exact noNL_lines _
      | decide
      | split
      | dsimp only
      | simp [beginsWith, String.data_append, List.isPrefixOf])

theorem CheckHwResources_clean (st : CheckState) (r : CmdResult) (hplain : Plain r.output) :
    JudgedF "CheckHwResources" (setVerdict "CheckHwResources" true st) (CheckHwResources st r) := by
  simp only [CheckHwResources, passThrough, runCmd_eq, exec_eq]
  repeat' (first | split | simp only [])
  all_goals
    with_reducible repeat' (first
      | exact JudgedF.panic _
      | exact JudgedF.fatal _
      | apply JudgedF.next
      | apply JudgedF.ret
      | exact judged_refl _ _
      | exact judged_setVerdict _ _ _
      | exact judged_cmdFailedLn _ _ _
      | exact judged_CmdFailed _ _ _
      | exact judged_twice _ _
      | refine andThen_judgedF_from _ _ _ _ ?_ (fun s1 => ?_)
      | (refine forRange_judgedF_from _ _ _ _ _ ?_ (fun x hx s => ?_))
      | exact plain_tab _ _ hplain (by assumption)
      | exact plain_raw _ _ hplain (by assumption)
      | refine judged_put _ _ _ _ ?_ ?_
      | refine judged_CmdFailOk _ _ _ _ ?_ ?_
      | ((first | apply cleanText_echo | refine cleanText_ending _ _ ?_ ?_ ?_ ?_)
         (repeat' (first
          | exact judged_twice _ _
          | refine andThen_judgedF_from _ _ _ _ ?_ (fun s1 => ?_)
          | (refine forRange_judgedF_from _ _ _ _ _ ?_ (fun x hx s => ?_))
          | exact plain_tab _ _ hplain (by assumption)
          | exact plain_raw _ _ hplain (by assumption)
          | apply beginsWith_of_mismatch
          | apply mismatch_append
          | assumption
          | apply noNL_append
          | exact noNL_fmtInt _
          | (apply noNL_of_fields; assumption)
          | (apply noNL_piece; assumption; assumption)
          | (apply noNL_lastPiece; assumption; assumption)
          | apply noNL_trimPrefix
          | (apply noNL_restOfFields; assumption)
          | exact noNL_monthAbbrev _
          | apply noNL_dateOf
          | (refine noNL_replaceAll _ _ _ ?_ ?_)
          | (apply noNL_mem_lines; assumption)
          | (apply noNL_mem_sliceFrom; assumption; assumption)
          | (apply noNL_mem_sliceList; assumption; assumption)
          | (apply noNL_mem_indexed; assumption)
          | (apply noNL_mem_indexed_sliceList; assumption; assumption)
          | (apply noNL_mem_count; assumption; assumption)
          | exact noNL_lines _
          | decide
          ))
         done)
      | (refine cleanText_closed _ ?_ ?_ <;> decide)
      | apply beginsWith_of_mismatch
      | apply mismatch_append
      | assumption
      | apply noNL_append
      | exact noNL_fmtInt _
      | (apply noNL_of_fields; assumption)
      | (apply noNL_piece; assumption; assumption)
      | (apply noNL_lastPiece; assumption; assumption)
      | apply noNL_trimPrefix
      | (apply noNL_restOfFields; assumption)
      | exact noNL_monthAbbrev _
      | apply noNL_dateOf
      | (refine noNL_replaceAll _ _ _ ?_ ?_)
      | (apply noNL_mem_lines; assumption)
      | (apply noNL_mem_sliceFrom; assumption; assumption)
      | (apply noNL_mem_sliceList; assumption; assumption)
      | (apply noNL_mem_indexed; assumption)
      | (apply noNL_mem_indexed_sliceList; assumption; assumption)
      | (apply noNL_mem_count; assumption; assumption)
      | exact noNL_lines _
      | decide
      | split
      | dsimp only
      | simp [beginsWith, String.data_append, List.isPrefixOf])

theorem CheckNodeFs_clean (st : CheckState) (r : CmdResult) (hplain : Plain r.output) :
    JudgedF "CheckNodeFs" (setVerdict "CheckNodeFs" true st) (CheckNodeFs st r) := by
  simp only [CheckNodeFs, passThrough, runCmd_eq, exec_eq]
  repeat' (first | split | simp only [])
  all_goals
    with_reducible repeat' (first
      | exact JudgedF.panic _
      | exact JudgedF.fatal _
      | apply JudgedF.next
      | apply JudgedF.ret
      | exact judged_refl _ _
      | exact judged_setVerdict _ _ _
      | exact judged_cmdFailedLn _ _ _
      | exact judged_CmdFailed _ _ _
      | exact judged_twice _ _
      | refine andThen_judgedF_from _ _ _ _ ?_ (fun s1 => ?_)
      | (refine forRange_judgedF_from _ _ _ _ _ ?_ (fun x hx s => ?_))
      | exact plain_tab _ _ hplain (by assumption)
      | exact plain_raw _ _ hplain (by assumption)
      | refine judged_put _ _ _ _ ?_ ?_
      | refine judged_CmdFailOk _ _ _ _ ?_ ?_
      | ((first | apply cleanText_echo | refine cleanText_ending _ _ ?_ ?_ ?_ ?_)
         (repeat' (first
          | exact judged_twice _ _
          | refine andThen_judgedF_from _ _ _ _ ?_ (fun s1 => ?_)
          | (refine forRange_judgedF_from _ _ _ _ _ ?_ (fun x hx s => ?_))
          | exact plain_tab _ _ hplain (by assumption)
          | exact plain_raw _ _ hplain (by assumption)
          | apply beginsWith_of_mismatch
          | apply mismatch_append
          | assumption
          | apply noNL_append
          | exact noNL_fmtInt _
          | (apply noNL_of_fields; assumption)
          | (apply noNL_piece; assumption; assumption)
          | (apply noNL_lastPiece; assumption; assumption)
          | apply noNL_trimPrefix
          | (apply noNL_restOfFields; assumption)
          | exact noNL_monthAbbrev _
          | apply noNL_dateOf
          | (refine noNL_replaceAll _ _ _ ?_ ?_)
          | (apply noNL_mem_lines; assumption)
          | (apply noNL_mem_sliceFrom; assumption; assumption)
          | (apply noNL_mem_sliceList; assumption; assumption)
          | (apply noNL_mem_indexed; assumption)
          | (apply noNL_mem_indexed_sliceList; assumption; assumption)
          | (apply noNL_mem_count; assumption; assumption)
          | exact noNL_lines _
          | decide
          ))
         done)
      | (refine cleanText_closed _ ?_ ?_ <;> decide)
      | apply beginsWith_of_mismatch
      | apply mismatch_append
      | assumption
      | apply noNL_append
      | exact noNL_fmtInt _
      | (apply noNL_of_fields; assumption)
      | (apply noNL_piece; assumption; assumption)
      | (apply noNL_lastPiece; assumption; assumption)
      | apply noNL_trimPrefix
      | (apply noNL_restOfFields; assumption)
      | exact noNL_monthAbbrev _
      | apply noNL_dateOf
      | (refine noNL_replaceAll _ _ _ ?_ ?_)
      | (apply noNL_mem_lines; assumption)
      | (apply noNL_mem_sliceFrom; assumption; assumption)
      | (apply noNL_mem_sliceList; assumption; assumption)
      | (apply noNL_mem_indexed; assumption)
      | (apply noNL_mem_indexed_sliceList; assumption; assumption)
      | (apply noNL_mem_count; assumption; assumption)
      | exact noNL_lines _
      | decide
      | split
      | dsimp only
      | simp [beginsWith, String.data_append, List.isPrefixOf])

theorem CheckVcsServiceGroup_clean (st : CheckState) (r : CmdResult) (hplain : Plain r.output) :
    JudgedF "CheckVcsServiceGroup" (setVerdict "CheckVcsServiceGroup" true st) (CheckVcsServiceGroup st r) := by
  simp only [CheckVcsServiceGroup, passThrough, runCmd_eq, exec_eq]
  repeat' (first | split | simp only [])
  all_goals
    with_reducible repeat' (first
      | exact JudgedF.panic _
      | exact JudgedF.fatal _
      | apply JudgedF.next
      | apply JudgedF.ret
      | exact judged_refl _ _
      | exact judged_setVerdict _ _ _
      | exact judged_cmdFailedLn _ _ _
      | exact judged_CmdFailed _ _ _
      | exact judged_twice _ _
      | refine andThen_judgedF_from _ _ _ _ ?_ (fun s1 => ?_)
      | (refine forRange_judgedF_from _ _ _ _ _ ?_ (fun x hx s => ?_))
      | exact plain_tab _ _ hplain (by assumption)
      | exact plain_raw _ _ hplain (by assumption)
      | refine judged_put _ _ _ _ ?_ ?_
      | refine judged_CmdFailOk _ _ _ _ ?_ ?_
      | ((first | apply cleanText_echo | refine cleanText_ending _ _ ?_ ?_ ?_ ?_)
         (repeat' (first
          | exact judged_twice _ _
          | refine andThen_judgedF_from _ _ _ _ ?_ (fun s1 => ?_)
          | (refine forRange_judgedF_from _ _ _ _ _ ?_ (fun x hx s => ?_))
          | exact plain_tab _ _ hplain (by assumption)
          | exact plain_raw _ _ hplain (by assumption)
          | apply beginsWith_of_mismatch
          | apply mismatch_append
          | assumption
          | apply noNL_append
          | exact noNL_fmtInt _
          | (apply noNL_of_fields; assumption)
          | (apply noNL_piece; assumption; assumption)
          | (apply noNL_lastPiece; assumption; assumption)
          | apply noNL_trimPrefix
          | (apply noNL_restOfFields; assumption)
          | exact noNL_monthAbbrev _
          | apply noNL_dateOf
          | (refine noNL_replaceAll _ _ _ ?_ ?_)
          | (apply noNL_mem_lines; assumption)
          | (apply noNL_mem_sliceFrom; assumption; assumption)
          | (apply noNL_mem_sliceList; assumption; assumption)
          | (apply noNL_mem_indexed; assumption)
          | (apply noNL_mem_indexed_sliceList; assumption; assumption)
          | (apply noNL_mem_count; assumption; assumption)
          | exact noNL_lines _
          | decide
          ))
         done)
      | (refine cleanText_closed _ ?_ ?_ <;> decide)
      | apply beginsWith_of_mismatch
      | apply mismatch_append
      | assumption
      | apply noNL_append
      | exact noNL_fmtInt _
      | (apply noNL_of_fields; assumption)
      | (apply noNL_piece; assumption; assumption)
      | (apply noNL_lastPiece; assumption; assumption)
      | apply noNL_trimPrefix
      | (apply noNL_restOfFields; assumption)
      | exact noNL_monthAbbrev _
      | apply noNL_dateOf
      | (refine noNL_replaceAll _ _ _ ?_ ?_)
      | (apply noNL_mem_lines; assumption)
      | (apply noNL_mem_sliceFrom; assumption; assumption)
      | (apply noNL_mem_sliceList; assumption; assumption)
      | (apply noNL_mem_indexed; assumption)
      | (apply noNL_mem_indexed_sliceList; assumption; assumption)
      | (apply noNL_mem_count; assumption; assumption)
      | exact noNL_lines _
      | decide
      | split
      | dsimp only
      | simp [beginsWith, String.data_append, List.isPrefixOf])

theorem CheckSanAlert_clean (st : CheckState) (r : CmdResult) (hplain : Plain r.output) :
    JudgedF "CheckSanAlert" (setVerdict "CheckSanAlert" true st) (CheckSanAlert st r) := by
  simp only [CheckSanAlert, passThrough, runCmd_eq, exec_eq]
  repeat' (first | split | simp only [])
  all_goals
    with_reducible repeat' (first
      | exact JudgedF.panic _
      | exact JudgedF.fatal _
      | apply JudgedF.next
      | apply JudgedF.ret
      | exact judged_refl _ _
      | exact judged_setVerdict _ _ _
      | exact judged_cmdFailedLn _ _ _
      | exact judged_CmdFailed _ _ _
      | exact judged_twice _ _
      | refine andThen_judgedF_from _ _ _ _ ?_ (fun s1 => ?_)
      | (refine forRange_judgedF_from _ _ _ _ _ ?_ (fun x hx s => ?_))
      | exact plain_tab _ _ hplain (by assumption)
      | exact plain_raw _ _ hplain (by assumption)
      | refine judged_put _ _ _ _ ?_ ?_
      | refine judged_CmdFailOk _ _ _ _ ?_ ?_
      | ((first | apply cleanText_echo | refine cleanText_ending _ _ ?_ ?_ ?_ ?_)
         (repeat' (first
          | exact judged_twice _ _
          | refine andThen_judgedF_from _ _ _ _ ?_ (fun s1 => ?_)
          | (refine forRange_judgedF_from _ _ _ _ _ ?_ (fun x hx s => ?_))
          | exact plain_tab _ _ hplain (by assumption)
          | exact plain_raw _ _ hplain (by assumption)
          | apply beginsWith_of_mismatch
          | apply mismatch_append
          | assumption
          | apply noNL_append
          | exact noNL_fmtInt _
          | (apply noNL_of_fields; assumption)
          | (apply noNL_piece; assumption; assumption)
          | (apply noNL_lastPiece; assumption; assumption)
          | apply noNL_trimPrefix
          | (apply noNL_restOfFields; assumption)
          | exact noNL_monthAbbrev _
          | apply noNL_dateOf
          | (refine noNL_replaceAll _ _ _ ?_ ?_)
          | (apply noNL_mem_lines; assumption)
          | (apply noNL_mem_sliceFrom; assumption; assumption)
          | (apply noNL_mem_sliceList; assumption; assumption)
          | (apply noNL_mem_indexed; assumption)
          | (apply noNL_mem_indexed_sliceList; assumption; assumption)
          | (apply noNL_mem_count; assumption; assumption)
          | exact noNL_lines _
          | decide
          ))
         done)
      | (refine cleanText_closed _ ?_ ?_ <;> decide)
      | apply beginsWith_of_mismatch
      | apply mismatch_append
      | assumption
      | apply noNL_append
      | exact noNL_fmtInt _
      | (apply noNL_of_fields; assumption)
      | (apply noNL_piece; assumption; assumption)
      | (apply noNL_lastPiece; assumption; assumption)
      | apply noNL_trimPrefix
      | (apply noNL_restOfFields; assumption)
      | exact noNL_monthAbbrev _
      | apply noNL_dateOf
      | (refine noNL_replaceAll _ _ _ ?_ ?_)
      | (apply noNL_mem_lines; assumption)
      | (apply noNL_mem_sliceFrom; assumption; assumption)
      | (apply noNL_mem_sliceList; assumption; assumption)
      | (apply noNL_mem_indexed; assumption)
      | (apply noNL_mem_indexed_sliceList; assumption; assumption)
      | (apply noNL_mem_count; assumption; assumption)
      | exact noNL_lines _
      | decide
      | split
      | dsimp only
      | simp [beginsWith, String.data_append, List.isPrefixOf])

theorem CheckZfsPoolErrors_clean (st : CheckState) (r : CmdResult) :
    JudgedF "CheckZfsPoolErrors" (setVerdict "CheckZfsPoolErrors" true st) (CheckZfsPoolErrors st r) := by
  simp only [CheckZfsPoolErrors, runCmd_eq, exec_eq]
  repeat' (first | split | simp only [])
  all_goals
    with_reducible repeat' (first
      | exact JudgedF.panic _
      | exact JudgedF.fatal _
      | apply JudgedF.next
      | apply JudgedF.ret
      | exact judged_refl _ _
      | exact judged_setVerdict _ _ _
      | exact judged_cmdFailedLn _ _ _
      | exact judged_CmdFailed _ _ _
      | exact judged_twice _ _
      | (refine forRange_judgedF_from _ _ _ _ _ ?_ (fun x hx s => CheckZfsPoolErrors_body_clean _ _ (noNL_lines _) x ?_ s))
      | refine andThen_judgedF_from _ _ _ _ ?_ (fun s1 => ?_)
      | (refine forRange_judgedF_from _ _ _ _ _ ?_ (fun x hx s => ?_))
      | refine judged_put _ _ _ _ ?_ ?_
      | refine judged_CmdFailOk _ _ _ _ ?_ ?_
      | ((first | apply cleanText_echo | refine cleanText_ending _ _ ?_ ?_ ?_ ?_)
         (repeat' (first
          | exact judged_twice _ _
          | (refine forRange_judgedF_from _ _ _ _ _ ?_ (fun x hx s => CheckZfsPoolErrors_body_clean _ _ (noNL_lines _) x ?_ s))
          | refine andThen_judgedF_from _ _ _ _ ?_ (fun s1 => ?_)
          | (refine forRange_judgedF_from _ _ _ _ _ ?_ (fun x hx s => ?_))
          | apply beginsWith_of_mismatch
          | apply mismatch_append
          | assumption
          | apply noNL_append
          | exact noNL_fmtInt _
          | (apply noNL_of_fields; assumption)
          | (apply noNL_piece; assumption; assumption)
          | (apply noNL_lastPiece; assumption; assumption)
          | apply noNL_trimPrefix
          | (apply noNL_restOfFields; assumption)
          | exact noNL_monthAbbrev _
          | apply noNL_dateOf
          | (refine noNL_replaceAll _ _ _ ?_ ?_)
          | (apply noNL_mem_lines; assumption)
          | (apply noNL_mem_sliceFrom; assumption; assumption)
          | (apply noNL_mem_sliceList; assumption; assumption)
          | (apply noNL_mem_indexed; assumption)
          | (apply noNL_mem_indexed_sliceList; assumption; assumption)
          | (apply noNL_mem_count; assumption; assumption)
          | exact noNL_lines _
          | decide
          ))
         done)
      | (refine cleanText_closed _ ?_ ?_ <;> decide)
      | apply beginsWith_of_mismatch
      | apply mismatch_append
      | assumption
      | apply noNL_append
      | exact noNL_fmtInt _
      | (apply noNL_of_fields; assumption)
      | (apply noNL_piece; assumption; assumption)
      | (apply noNL_lastPiece; assumption; assumption)
      | apply noNL_trimPrefix
      | (apply noNL_restOfFields; assumption)
      | exact noNL_monthAbbrev _
      | apply noNL_dateOf
      | (refine noNL_replaceAll _ _ _ ?_ ?_)
      | (apply noNL_mem_lines; assumption)
      | (apply noNL_mem_sliceFrom; assumption; assumption)
      | (apply noNL_mem_sliceList; assumption; assumption)
      | (apply noNL_mem_indexed; assumption)
      | (apply noNL_mem_indexed_sliceList; assumption; assumption)
      | (apply noNL_mem_count; assumption; assumption)
      | exact noNL_lines _
      | decide
      | split
      | dsimp only
      | simp [beginsWith, String.data_append, List.isPrefixOf])

theorem CheckNodesFilesUpdate_clean (now : Now) (st : CheckState) (r : CmdResult) (hnow : NoNL now.rfc3339) :
    JudgedF "CheckNodesFilesUpdate" (setVerdict "CheckNodesFilesUpdate" true st) (CheckNodesFilesUpdate now st r) := by
  simp only [CheckNodesFilesUpdate, runCmd_eq, exec_eq]
  repeat' (first | split | simp only [])
  all_goals
    with_reducible repeat' (first
      | exact JudgedF.panic _
      | exact JudgedF.fatal _
      | apply JudgedF.next
      | apply JudgedF.ret
      | exact judged_refl _ _
      | exact judged_setVerdict _ _ _
      | exact judged_cmdFailedLn _ _ _
      | exact judged_CmdFailed _ _ _
      | exact judged_twice _ _
      | exact hnow
      | (refine forRange_judgedF_from _ _ _ _ _ ?_ (fun x hx s => CheckNodesFilesUpdate_body_clean _ _ (noNL_dateOf _ hnow) _ (noNL_lines _) x ?_ s))
      | refine andThen_judgedF_from _ _ _ _ ?_ (fun s1 => ?_)
      | (refine forRange_judgedF_from _ _ _ _ _ ?_ (fun x hx s => ?_))
      | (simp only [List.mem_cons, List.mem_singleton, List.not_mem_nil, or_false] at hx; rcases hx with rfl | rfl <;> decide)
      | refine judged_put _ _ _ _ ?_ ?_
      | refine judged_CmdFailOk _ _ _ _ ?_ ?_
      | ((first | apply cleanText_echo | refine cleanText_ending _ _ ?_ ?_ ?_ ?_)
         (repeat' (first
          | exact judged_twice _ _
          | exact hnow
          | (refine forRange_judgedF_from _ _ _ _ _ ?_ (fun x hx s => CheckNodesFilesUpdate_body_clean _ _ (noNL_dateOf _ hnow) _ (noNL_lines _) x ?_ s))
          | refine andThen_judgedF_from _ _ _ _ ?_ (fun s1 => ?_)
          | (refine forRange_judgedF_from _ _ _ _ _ ?_ (fun x hx s => ?_))
          | (simp only [List.mem_cons, List.mem_singleton, List.not_mem_nil, or_false] at hx; rcases hx with rfl | rfl <;> decide)
          | apply beginsWith_of_mismatch
          | apply mismatch_append
          | assumption
          | apply noNL_append
          | exact noNL_fmtInt _
          | (apply noNL_of_fields; assumption)
          | (apply noNL_piece; assumption; assumption)
          | (apply noNL_lastPiece; assumption; assumption)
          | apply noNL_trimPrefix
          | (apply noNL_restOfFields; assumption)
          | exact noNL_monthAbbrev _
          | apply noNL_dateOf
          | (refine noNL_replaceAll _ _ _ ?_ ?_)
          | (apply noNL_mem_lines; assumption)
          | (apply noNL_mem_sliceFrom; assumption; assumption)
          | (apply noNL_mem_sliceList; assumption; assumption)
          | (apply noNL_mem_indexed; assumption)
          | (apply noNL_mem_indexed_sliceList; assumption; assumption)
          | (apply noNL_mem_count; assumption; assumption)
          | exact noNL_lines _
          | decide
          ))
         done)
      | (refine cleanText_closed _ ?_ ?_ <;> decide)
      | apply beginsWith_of_mismatch
      | apply mismatch_append
      | assumption
      | apply noNL_append
      | exact noNL_fmtInt _
      | (apply noNL_of_fields; assumption)
      | (apply noNL_piece; assumption; assumption)
      | (apply noNL_lastPiece; assumption; assumption)
      | apply noNL_trimPrefix
      | (apply noNL_restOfFields; assumption)
      | exact noNL_monthAbbrev _
      | apply noNL_dateOf
      | (refine noNL_replaceAll _ _ _ ?_ ?_)
      | (apply noNL_mem_lines; assumption)
      | (apply noNL_mem_sliceFrom; assumption; assumption)
      | (apply noNL_mem_sliceList; assumption; assumption)
      | (apply noNL_mem_indexed; assumption)
      | (apply noNL_mem_indexed_sliceList; assumption; assumption)
      | (apply noNL_mem_count; assumption; assumption)
      | exact noNL_lines _
      | decide
      | split
      | dsimp only
      | simp [beginsWith, String.data_append, List.isPrefixOf])

theorem EnmNativeHC_clean (st : CheckState) (r : CmdResult) (hplain : Plain r.output) :
    JudgedF "EnmNativeHC" (setVerdict "EnmNativeHC" true st) (EnmNativeHC st r) := by
  simp only [EnmNativeHC, runCmd_eq, exec_eq]
  repeat' (first | split | simp only [])
  all_goals
    with_reducible repeat' (first
      | exact JudgedF.panic _
      | exact JudgedF.fatal _
      | apply JudgedF.next
      | apply JudgedF.ret
      | exact judged_refl _ _
      | exact judged_setVerdict _ _ _
      | exact judged_cmdFailedLn _ _ _
      | exact judged_CmdFailed _ _ _
      | exact judged_twice _ _
      | refine andThen_judgedF_from _ _ _ _ ?_ (fun s1 => ?_)
      | (refine forRange_judgedF_from _ _ _ _ _ ?_ (fun x hx s => ?_))
      | exact plain_tab _ _ hplain (by assumption)
      | exact plain_raw _ _ hplain (by assumption)
      | refine judged_put _ _ _ _ ?_ ?_
      | refine judged_CmdFailOk _ _ _ _ ?_ ?_
      | ((first | apply cleanText_echo | refine cleanText_ending _ _ ?_ ?_ ?_ ?_)
         (repeat' (first
          | exact judged_twice _ _
          | refine andThen_judgedF_from _ _ _ _ ?_ (fun s1 => ?_)
          | (refine forRange_judgedF_from _ _ _ _ _ ?_ (fun x hx s => ?_))
          | exact plain_tab _ _ hplain (by assumption)
          | exact plain_raw _ _ hplain (by assumption)
          | apply beginsWith_of_mismatch
          | apply mismatch_append
          | assumption
          | apply noNL_append
          | exact noNL_fmtInt _
          | (apply noNL_of_fields; assumption)
          | (apply noNL_piece; assumption; assumption)
          | (apply noNL_lastPiece; assumption; assumption)
          | apply noNL_trimPrefix
          | (apply noNL_restOfFields; assumption)
          | exact noNL_monthAbbrev _
          | apply noNL_dateOf
          | (refine noNL_replaceAll _ _ _ ?_ ?_)
          | (apply noNL_mem_lines; assumption)
          | (apply noNL_mem_sliceFrom; assumption; assumption)
          | (apply noNL_mem_sliceList; assumption; assumption)
          | (apply noNL_mem_indexed; assumption)
          | (apply noNL_mem_indexed_sliceList; assumption; assumption)
          | (apply noNL_mem_count; assumption; assumption)
          | exact noNL_lines _
          | decide
          ))
         done)
      | (refine cleanText_closed _ ?_ ?_ <;> decide)
      | apply beginsWith_of_mismatch
      | apply mismatch_append
      | assumption
      | apply noNL_append
      | exact noNL_fmtInt _
      | (apply noNL_of_fields; assumption)
      | (apply noNL_piece; assumption; assumption)
      | (apply noNL_lastPiece; assumption; assumption)
      | apply noNL_trimPrefix
      | (apply noNL_restOfFields; assumption)
      | exact noNL_monthAbbrev _
      | apply noNL_dateOf
      | (refine noNL_replaceAll _ _ _ ?_ ?_)
      | (apply noNL_mem_lines; assumption)
      | (apply noNL_mem_sliceFrom; assumption; assumption)
      | (apply noNL_mem_sliceList; assumption; assumption)
      | (apply noNL_mem_indexed; assumption)
      | (apply noNL_mem_indexed_sliceList; assumption; assumption)
      | (apply noNL_mem_count; assumption; assumption)
      | exact noNL_lines _
      | decide
      | split
      | dsimp only
      | simp [beginsWith, String.data_append, List.isPrefixOf])

theorem CheckVrstDataMon_clean (st : CheckState) (r : CmdResult) :
    JudgedF "CheckVrstDataMon" (setVerdict "CheckVrstDataMon" true st) (CheckVrstDataMon st r) := by
  simp only [CheckVrstDataMon, runCmd_eq, exec_eq]
  repeat' (first | split | simp only [])
  all_goals
    with_reducible repeat' (first
      | exact JudgedF.panic _
      | exact JudgedF.fatal _
      | apply JudgedF.next
      | apply JudgedF.ret
      | exact judged_refl _ _
      | exact judged_setVerdict _ _ _
      | exact judged_cmdFailedLn _ _ _
      | exact judged_CmdFailed _ _ _
      | exact judged_twice _ _
      | refine andThen_judgedF_from _ _ _ _ ?_ (fun s1 => ?_)
      | (refine forRange_judgedF_from _ _ _ _ _ ?_ (fun x hx s => ?_))
      | refine judged_put _ _ _ _ ?_ ?_
      | refine judged_CmdFailOk _ _ _ _ ?_ ?_
      | ((first | apply cleanText_echo | refine cleanText_ending _ _ ?_ ?_ ?_ ?_)
         (repeat' (first
          | exact judged_twice _ _
          | refine andThen_judgedF_from _ _ _ _ ?_ (fun s1 => ?_)
          | (refine forRange_judgedF_from _ _ _ _ _ ?_ (fun x hx s => ?_))
          | apply beginsWith_of_mismatch
          | apply mismatch_append
          | assumption
          | apply noNL_append
          | exact noNL_fmtInt _
          | (apply noNL_of_fields; assumption)
          | (apply noNL_piece; assumption; assumption)
          | (apply noNL_lastPiece; assumption; assumption)
          | apply noNL_trimPrefix
          | (apply noNL_restOfFields; assumption)
          | exact noNL_monthAbbrev _
          | apply noNL_dateOf
          | (refine noNL_replaceAll _ _ _ ?_ ?_)
          | (apply noNL_mem_lines; assumption)
          | (apply noNL_mem_sliceFrom; assumption; assumption)
          | (apply noNL_mem_sliceList; assumption; assumption)
          | (apply noNL_mem_indexed; assumption)
          | (apply noNL_mem_indexed_sliceList; assumption; assumption)
          | (apply noNL_mem_count; assumption; assumption)
          | exact noNL_lines _
          | decide
          ))
         done)
      | (refine cleanText_closed _ ?_ ?_ <;> decide)
      | apply beginsWith_of_mismatch
      | apply mismatch_append
      | assumption
      | apply noNL_append
      | exact noNL_fmtInt _
      | (apply noNL_of_fields; assumption)
      | (apply noNL_piece; assumption; assumption)
      | (apply noNL_lastPiece; assumption; assumption)
      | apply noNL_trimPrefix
      | (apply noNL_restOfFields; assumption)
      | exact noNL_monthAbbrev _
      | apply noNL_dateOf
      | (refine noNL_replaceAll _ _ _ ?_ ?_)
      | (apply noNL_mem_lines; assumption)
      | (apply noNL_mem_sliceFrom; assumption; assumption)
      | (apply noNL_mem_sliceList; assumption; assumption)
      | (apply noNL_mem_indexed; assumption)
      | (apply noNL_mem_indexed_sliceList; assumption; assumption)
      | (apply noNL_mem_count; assumption; assumption)
      | exact noNL_lines _
      | decide
      | split
      | dsimp only
      | simp [beginsWith, String.data_append, List.isPrefixOf])

theorem CheckNrOfBackupPolicies_clean (host : String) (st : CheckState) (r : CmdResult) :
    JudgedF "CheckNrOfBackupPolicies" (setVerdict "CheckNrOfBackupPolicies" true st) (CheckNrOfBackupPolicies host st r) := by
  simp only [CheckNrOfBackupPolicies, runCmd_eq, exec_eq]
  repeat' (first | split | simp only [])
  all_goals
    with_reducible repeat' (first
      | exact JudgedF.panic _
      | exact JudgedF.fatal _
      | apply JudgedF.next
      | apply JudgedF.ret
      | exact judged_refl _ _
      | exact judged_setVerdict _ _ _
      | exact judged_cmdFailedLn _ _ _
      | exact judged_CmdFailed _ _ _
      | exact judged_twice _ _
      | refine andThen_judgedF_from _ _ _ _ ?_ (fun s1 => ?_)
      | (refine forRange_judgedF_from _ _ _ _ _ ?_ (fun x hx s => ?_))
      | refine judged_put _ _ _ _ ?_ ?_
      | refine judged_CmdFailOk _ _ _ _ ?_ ?_
      | ((first | apply cleanText_echo | refine cleanText_ending _ _ ?_ ?_ ?_ ?_)
         (repeat' (first
          | exact judged_twice _ _
          | refine andThen_judgedF_from _ _ _ _ ?_ (fun s1 => ?_)
          | (refine forRange_judgedF_from _ _ _ _ _ ?_ (fun x hx s => ?_))
          | apply beginsWith_of_mismatch
          | apply mismatch_append
          | assumption
          | apply noNL_append
          | exact noNL_fmtInt _
          | (apply noNL_of_fields; assumption)
          | (apply noNL_piece; assumption; assumption)
          | (apply noNL_lastPiece; assumption; assumption)
          | apply noNL_trimPrefix
          | (apply noNL_restOfFields; assumption)
          | exact noNL_monthAbbrev _
          | apply noNL_dateOf
          | (refine noNL_replaceAll _ _ _ ?_ ?_)
          | (apply noNL_mem_lines; assumption)
          | (apply noNL_mem_sliceFrom; assumption; assumption)
          | (apply noNL_mem_sliceList; assumption; assumption)
          | (apply noNL_mem_indexed; assumption)
          | (apply noNL_mem_indexed_sliceList; assumption; assumption)
          | (apply noNL_mem_count; assumption; assumption)
          | exact noNL_lines _
          | decide
          ))
         done)
      | (refine cleanText_closed _ ?_ ?_ <;> decide)
      | apply beginsWith_of_mismatch
      | apply mismatch_append
      | assumption
      | apply noNL_append
      | exact noNL_fmtInt _
      | (apply noNL_of_fields; assumption)
      | (apply noNL_piece; assumption; assumption)
      | (apply noNL_lastPiece; assumption; assumption)
      | apply noNL_trimPrefix
      | (apply noNL_restOfFields; assumption)
      | exact noNL_monthAbbrev _
      | apply noNL_dateOf
      | (refine noNL_replaceAll _ _ _ ?_ ?_)
      | (apply noNL_mem_lines; assumption)
      | (apply noNL_mem_sliceFrom; assumption; assumption)
      | (apply noNL_mem_sliceList; assumption; assumption)
      | (apply noNL_mem_indexed; assumption)
      | (apply noNL_mem_indexed_sliceList; assumption; assumption)
      | (apply noNL_mem_count; assumption; assumption)
      | exact noNL_lines _
      | decide
      | split
      | dsimp only
      | simp [beginsWith, String.data_append, List.isPrefixOf])

theorem MonNetLog_clean (now : Now) (st : CheckState) (r : CmdResult) (hnow : NoNL now.rfc3339) :
    JudgedF "MonNetLog" (setVerdict "MonNetLog" true st) (MonNetLog now st r) := by
  simp only [MonNetLog, runCmd_eq, exec_eq]
  repeat' (first | split | simp only [])
  all_goals
    with_reducible repeat' (first
      | exact JudgedF.panic _
      | exact JudgedF.fatal _
      | apply JudgedF.next
      | apply JudgedF.ret
      | exact judged_refl _ _
      | exact judged_setVerdict _ _ _
      | exact judged_cmdFailedLn _ _ _
      | exact judged_CmdFailed _ _ _
      | exact judged_twice _ _
      | exact hnow
      | exact judgedF_found _ _ _ (fun s1 => forRange_no_ret _ MonNetLog_body_no_ret _ _ s1)
      | (refine forRange_judgedF_from _ _ _ _ _ ?_ (fun x hx s => MonNetLog_body_clean x ?_ s))
      | refine andThen_judgedF_from _ _ _ _ ?_ (fun s1 => ?_)
      | (refine forRange_judgedF_from _ _ _ _ _ ?_ (fun x hx s => ?_))
      | refine judged_put _ _ _ _ ?_ ?_
      | refine judged_CmdFailOk _ _ _ _ ?_ ?_
      | ((first | apply cleanText_echo | refine cleanText_ending _ _ ?_ ?_ ?_ ?_)
         (repeat' (first
          | exact judged_twice _ _
          | exact hnow
          | exact judgedF_found _ _ _ (fun s1 => forRange_no_ret _ MonNetLog_body_no_ret _ _ s1)
          | (refine forRange_judgedF_from _ _ _ _ _ ?_ (fun x hx s => MonNetLog_body_clean x ?_ s))
          | refine andThen_judgedF_from _ _ _ _ ?_ (fun s1 => ?_)
          | (refine forRange_judgedF_from _ _ _ _ _ ?_ (fun x hx s => ?_))
          | apply beginsWith_of_mismatch
          | apply mismatch_append
          | assumption
          | apply noNL_append
          | exact noNL_fmtInt _
          | (apply noNL_of_fields; assumption)
          | (apply noNL_piece; assumption; assumption)
          | (apply noNL_lastPiece; assumption; assumption)
          | apply noNL_trimPrefix
          | (apply noNL_restOfFields; assumption)
          | exact noNL_monthAbbrev _
          | apply noNL_dateOf
          | (refine noNL_replaceAll _ _ _ ?_ ?_)
          | (apply noNL_mem_lines; assumption)
          | (apply noNL_mem_sliceFrom; assumption; assumption)
          | (apply noNL_mem_sliceList; assumption; assumption)
          | (apply noNL_mem_indexed; assumption)
          | (apply noNL_mem_indexed_sliceList; assumption; assumption)
          | (apply noNL_mem_count; assumption; assumption)
          | exact noNL_lines _
          | decide
          ))
         done)
      | (refine cleanText_closed _ ?_ ?_ <;> decide)
      | apply beginsWith_of_mismatch
      | apply mismatch_append
      | assumption
      | apply noNL_append
      | exact noNL_fmtInt _
      | (apply noNL_of_fields; assumption)
      | (apply noNL_piece; assumption; assumption)
      | (apply noNL_lastPiece; assumption; assumption)
      | apply noNL_trimPrefix
      | (apply noNL_restOfFields; assumption)
      | exact noNL_monthAbbrev _
      | apply noNL_dateOf
      | (refine noNL_replaceAll _ _ _ ?_ ?_)
      | (apply noNL_mem_lines; assumption)
      | (apply noNL_mem_sliceFrom; assumption; assumption)
      | (apply noNL_mem_sliceList; assumption; assumption)
      | (apply noNL_mem_indexed; assumption)
      | (apply noNL_mem_indexed_sliceList; assumption; assumption)
      | (apply noNL_mem_count; assumption; assumption)
      | exact noNL_lines _
      | decide
      | split
      | dsimp only
      | simp [beginsWith, String.data_append, List.isPrefixOf])

theorem CheckSecurity_clean (st : CheckState) (r : CmdResult) :
    JudgedF "CheckSecurity" (setVerdict "CheckSecurity" true st) (CheckSecurity st r) := by
  simp only [CheckSecurity, runCmd_eq, exec_eq]
  repeat' (first | split | simp only [])
  all_goals
    with_reducible repeat' (first
      | exact JudgedF.panic _
      | exact JudgedF.fatal _
      | apply JudgedF.next
      | apply JudgedF.ret
      | exact judged_refl _ _
      | exact judged_setVerdict _ _ _
      | exact judged_cmdFailedLn _ _ _
      | exact judged_CmdFailed _ _ _
      | exact judged_twice _ _
      | exact judgedF_found _ _ _ (fun s1 => forRange_no_ret _ CheckSecurity_body_no_ret _ _ s1)
      | (refine forRange_judgedF_from _ _ _ _ _ ?_ (fun x hx s => CheckSecurity_body_clean x ?_ s))
      | refine andThen_judgedF_from _ _ _ _ ?_ (fun s1 => ?_)
      | (refine forRange_judgedF_from _ _ _ _ _ ?_ (fun x hx s => ?_))
      | refine judged_put _ _ _ _ ?_ ?_
      | refine judged_CmdFailOk _ _ _ _ ?_ ?_
      | ((first | apply cleanText_echo | refine cleanText_ending _ _ ?_ ?_ ?_ ?_)
         (repeat' (first
          | exact judged_twice _ _
          | exact judgedF_found _ _ _ (fun s1 => forRange_no_ret _ CheckSecurity_body_no_ret _ _ s1)
          | (refine forRange_judgedF_from _ _ _ _ _ ?_ (fun x hx s => CheckSecurity_body_clean x ?_ s))
          | refine andThen_judgedF_from _ _ _ _ ?_ (fun s1 => ?_)
          | (refine forRange_judgedF_from _ _ _ _ _ ?_ (fun x hx s => ?_))
          | apply beginsWith_of_mismatch
          | apply mismatch_append
          | assumption
          | apply noNL_append
          | exact noNL_fmtInt _
          | (apply noNL_of_fields; assumption)
          | (apply noNL_piece; assumption; assumption)
          | (apply noNL_lastPiece; assumption; assumption)
          | apply noNL_trimPrefix
          | (apply noNL_restOfFields; assumption)
          | exact noNL_monthAbbrev _
          | apply noNL_dateOf
          | (refine noNL_replaceAll _ _ _ ?_ ?_)
          | (apply noNL_mem_lines; assumption)
          | (apply noNL_mem_sliceFrom; assumption; assumption)
          | (apply noNL_mem_sliceList; assumption; assumption)
          | (apply noNL_mem_indexed; assumption)
          | (apply noNL_mem_indexed_sliceList; assumption; assumption)
          | (apply noNL_mem_count; assumption; assumption)
          | exact noNL_lines _
          | decide
          ))
         done)
      | (refine cleanText_closed _ ?_ ?_ <;> decide)
      | apply beginsWith_of_mismatch
      | apply mismatch_append
      | assumption
      | apply noNL_append
      | exact noNL_fmtInt _
      | (apply noNL_of_fields; assumption)
      | (apply noNL_piece; assumption; assumption)
      | (apply noNL_lastPiece; assumption; assumption)
      | apply noNL_trimPrefix
      | (apply noNL_restOfFields; assumption)
      | exact noNL_monthAbbrev _
      | apply noNL_dateOf
      | (refine noNL_replaceAll _ _ _ ?_ ?_)
      | (apply noNL_mem_lines; assumption)
      | (apply noNL_mem_sliceFrom; assumption; assumption)
      | (apply noNL_mem_sliceList; assumption; assumption)
      | (apply noNL_mem_indexed; assumption)
      | (apply noNL_mem_indexed_sliceList; assumption; assumption)
      | (apply noNL_mem_count; assumption; assumption)
      | exact noNL_lines _
      | decide
      | split
      | dsimp only
      | simp [beginsWith, String.data_append, List.isPrefixOf])

theorem CheckMoshellLogSU_clean (fl : Float64) (st : CheckState) (r : CmdResult) (hfl : ∀ v, NoNL (fl.fmt v)) :
    JudgedF "CheckMoshellLogSU" (setVerdict "CheckMoshellLogSU" true st) (CheckMoshellLogSU fl st r) := by
  simp only [CheckMoshellLogSU, runCmd_eq, exec_eq]
  repeat' (first | split | simp only [])
  all_goals
    with_reducible repeat' (first
      | exact JudgedF.panic _
      | exact JudgedF.fatal _
      | apply JudgedF.next
      | apply JudgedF.ret
      | exact judged_refl _ _
      | exact judged_setVerdict _ _ _
      | exact judged_cmdFailedLn _ _ _
      | exact judged_CmdFailed _ _ _
      | exact judged_twice _ _
      | (refine forRange_judgedF_from _ _ _ _ _ ?_ (fun x hx s => CheckHomeSU_body_clean fl hfl _ _ x ?_ s))
      | refine andThen_judgedF_from _ _ _ _ ?_ (fun s1 => ?_)
      | (refine forRange_judgedF_from _ _ _ _ _ ?_ (fun x hx s => ?_))
      | refine judged_put _ _ _ _ ?_ ?_
      | refine judged_CmdFailOk _ _ _ _ ?_ ?_
      | ((first | apply cleanText_echo | refine cleanText_ending _ _ ?_ ?_ ?_ ?_)
         (repeat' (first
          | exact judged_twice _ _
          | (refine forRange_judgedF_from _ _ _ _ _ ?_ (fun x hx s => CheckHomeSU_body_clean fl hfl _ _ x ?_ s))
          | refine andThen_judgedF_from _ _ _ _ ?_ (fun s1 => ?_)
          | (refine forRange_judgedF_from _ _ _ _ _ ?_ (fun x hx s => ?_))
          | apply beginsWith_of_mismatch
          | apply mismatch_append
          | assumption
          | apply noNL_append
          | exact noNL_fmtInt _
          | (apply noNL_of_fields; assumption)
          | (apply noNL_piece; assumption; assumption)
          | (apply noNL_lastPiece; assumption; assumption)
          | apply noNL_trimPrefix
          | (apply noNL_restOfFields; assumption)
          | exact noNL_monthAbbrev _
          | apply noNL_dateOf
          | (refine noNL_replaceAll _ _ _ ?_ ?_)
          | (apply noNL_mem_lines; assumption)
          | (apply noNL_mem_sliceFrom; assumption; assumption)
          | (apply noNL_mem_sliceList; assumption; assumption)
          | (apply noNL_mem_indexed; assumption)
          | (apply noNL_mem_indexed_sliceList; assumption; assumption)
          | (apply noNL_mem_count; assumption; assumption)
          | exact noNL_lines _
          | decide
          ))
         done)
      | (refine cleanText_closed _ ?_ ?_ <;> decide)
      | apply beginsWith_of_mismatch
      | apply mismatch_append
      | assumption
      | apply noNL_append
      | exact noNL_fmtInt _
      | (apply noNL_of_fields; assumption)
      | (apply noNL_piece; assumption; assumption)
      | (apply noNL_lastPiece; assumption; assumption)
      | apply noNL_trimPrefix
      | (apply noNL_restOfFields; assumption)
      | exact noNL_monthAbbrev _
      | apply noNL_dateOf
      | (refine noNL_replaceAll _ _ _ ?_ ?_)
      | (apply noNL_mem_lines; assumption)
      | (apply noNL_mem_sliceFrom; assumption; assumption)
      | (apply noNL_mem_sliceList; assumption; assumption)
      | (apply noNL_mem_indexed; assumption)
      | (apply noNL_mem_indexed_sliceList; assumption; assumption)
      | (apply noNL_mem_count; assumption; assumption)
      | exact noNL_lines _
      | decide
      | split
      | dsimp only
      | simp [beginsWith, String.data_append, List.isPrefixOf])

theorem MonVrstDb_clean (st : CheckState) (r : CmdResult) :
    JudgedF "MonVrstDb" (setVerdict "MonVrstDb" true st) (MonVrstDb st r) := by
  simp only [MonVrstDb, runCmd_eq, exec_eq]
  repeat' (first | split | simp only [])
  all_goals
    with_reducible repeat' (first
      | exact JudgedF.panic _
      | exact JudgedF.fatal _
      | apply JudgedF.next
      | apply JudgedF.ret
      | exact judged_refl _ _
      | exact judged_setVerdict _ _ _
      | exact judged_cmdFailedLn _ _ _
      | exact judged_CmdFailed _ _ _
      | exact judged_twice _ _
      | refine andThen_judgedF_from _ _ _ _ ?_ (fun s1 => ?_)
      | (refine forRange_judgedF_from _ _ _ _ _ ?_ (fun x hx s => ?_))
      | refine judged_put _ _ _ _ ?_ ?_
      | refine judged_CmdFailOk _ _ _ _ ?_ ?_
      | ((first | apply cleanText_echo | refine cleanText_ending _ _ ?_ ?_ ?_ ?_)
         (repeat' (first
          | exact judged_twice _ _
          | refine andThen_judgedF_from _ _ _ _ ?_ (fun s1 => ?_)
          | (refine forRange_judgedF_from _ _ _ _ _ ?_ (fun x hx s => ?_))
          | apply beginsWith_of_mismatch
          | apply mismatch_append
          | assumption
          | apply noNL_append
          | exact noNL_fmtInt _
          | (apply noNL_of_fields; assumption)
          | (apply noNL_piece; assumption; assumption)
          | (apply noNL_lastPiece; assumption; assumption)
          | apply noNL_trimPrefix
          | (apply noNL_restOfFields; assumption)
          | exact noNL_monthAbbrev _
          | apply noNL_dateOf
          | (refine noNL_replaceAll _ _ _ ?_ ?_)
          | (apply noNL_mem_lines; assumption)
          | (apply noNL_mem_sliceFrom; assumption; assumption)
          | (apply noNL_mem_sliceList; assumption; assumption)
          | (apply noNL_mem_indexed; assumption)
          | (apply noNL_mem_indexed_sliceList; assumption; assumption)
          | (apply noNL_mem_count; assumption; assumption)
          | exact noNL_lines _
          | decide
          ))
         done)
      | (refine cleanText_closed _ ?_ ?_ <;> decide)
      | apply beginsWith_of_mismatch
      | apply mismatch_append
      | assumption
      | apply noNL_append
      | exact noNL_fmtInt _
      | (apply noNL_of_fields; assumption)
      | (apply noNL_piece; assumption; assumption)
      | (apply noNL_lastPiece; assumption; assumption)
      | apply noNL_trimPrefix
      | (apply noNL_restOfFields; assumption)
      | exact noNL_monthAbbrev _
      | apply noNL_dateOf
      | (refine noNL_replaceAll _ _ _ ?_ ?_)
      | (apply noNL_mem_lines; assumption)
      | (apply noNL_mem_sliceFrom; assumption; assumption)
      | (apply noNL_mem_sliceList; assumption; assumption)
      | (apply noNL_mem_indexed; assumption)
      | (apply noNL_mem_indexed_sliceList; assumption; assumption)
      | (apply noNL_mem_count; assumption; assumption)
      | exact noNL_lines _
      | decide
      | split
      | dsimp only
      | simp [beginsWith, String.data_append, List.isPrefixOf])

theorem CheckNas_clean (st : CheckState) (r : CmdResult) (hplain : Plain r.output) :
    JudgedF "CheckNas" (setVerdict "CheckNas" true st) (CheckNas st r) := by
  simp only [CheckNas, passThrough, runCmd_eq, exec_eq]
  repeat' (first | split | simp only [])
  all_goals
    with_reducible repeat' (first
      | exact JudgedF.panic _
      | exact JudgedF.fatal _
      | apply JudgedF.next
      | apply JudgedF.ret
      | exact judged_refl _ _
      | exact judged_setVerdict _ _ _
      | exact judged_cmdFailedLn _ _ _
      | exact judged_CmdFailed _ _ _
      | exact judged_twice _ _
      | refine andThen_judgedF_from _ _ _ _ ?_ (fun s1 => ?_)
      | (refine forRange_judgedF_from _ _ _ _ _ ?_ (fun x hx s => ?_))
      | exact plain_tab _ _ hplain (by assumption)
      | exact plain_raw _ _ hplain (by assumption)
      | refine judged_put _ _ _ _ ?_ ?_
      | refine judged_CmdFailOk _ _ _ _ ?_ ?_
      | ((first | apply cleanText_echo | refine cleanText_ending _ _ ?_ ?_ ?_ ?_)
         (repeat' (first
          | exact judged_twice _ _
          | refine andThen_judgedF_from _ _ _ _ ?_ (fun s1 => ?_)
          | (refine forRange_judgedF_from _ _ _ _ _ ?_ (fun x hx s => ?_))
          | exact plain_tab _ _ hplain (by assumption)
          | exact plain_raw _ _ hplain (by assumption)
          | apply beginsWith_of_mismatch
          | apply mismatch_append
          | assumption
          | apply noNL_append
          | exact noNL_fmtInt _
          | (apply noNL_of_fields; assumption)
          | (apply noNL_piece; assumption; assumption)
          | (apply noNL_lastPiece; assumption; assumption)
          | apply noNL_trimPrefix
          | (apply noNL_restOfFields; assumption)
          | exact noNL_monthAbbrev _
          | apply noNL_dateOf
          | (refine noNL_replaceAll _ _ _ ?_ ?_)
          | (apply noNL_mem_lines; assumption)
          | (apply noNL_mem_sliceFrom; assumption; assumption)
          | (apply noNL_mem_sliceList; assumption; assumption)
          | (apply noNL_mem_indexed; assumption)
          | (apply noNL_mem_indexed_sliceList; assumption; assumption)
          | (apply noNL_mem_count; assumption; assumption)
          | exact noNL_lines _
          | decide
          ))
         done)
      | (refine cleanText_closed _ ?_ ?_ <;> decide)
      | apply beginsWith_of_mismatch
      | apply mismatch_append
      | assumption
      | apply noNL_append
      | exact noNL_fmtInt _
      | (apply noNL_of_fields; assumption)
      | (apply noNL_piece; assumption; assumption)
      | (apply noNL_lastPiece; assumption; assumption)
      | apply noNL_trimPrefix
      | (apply noNL_restOfFields; assumption)
      | exact noNL_monthAbbrev _
      | apply noNL_dateOf
      | (refine noNL_replaceAll _ _ _ ?_ ?_)
      | (apply noNL_mem_lines; assumption)
      | (apply noNL_mem_sliceFrom; assumption; assumption)
      | (apply noNL_mem_sliceList; assumption; assumption)
      | (apply noNL_mem_indexed; assumption)
      | (apply noNL_mem_indexed_sliceList; assumption; assumption)
      | (apply noNL_mem_count; assumption; assumption)
      | exact noNL_lines _
      | decide
      | split
      | dsimp only
      | simp [beginsWith, String.data_append, List.isPrefixOf])

theorem CheckSystemService_clean (st : CheckState) (r : CmdResult) (hplain : Plain r.output) :
    JudgedF "CheckSystemService" (setVerdict "CheckSystemService" true st) (CheckSystemService st r) := by
  simp only [CheckSystemService, passThrough, runCmd_eq, exec_eq]
  repeat' (first | split | simp only [])
  all_goals
    with_reducible repeat' (first
      | exact JudgedF.panic _
      | exact JudgedF.fatal _
      | apply JudgedF.next
      | apply JudgedF.ret
      | exact judged_refl _ _
      | exact judged_setVerdict _ _ _
      | exact judged_cmdFailedLn _ _ _
      | exact judged_CmdFailed _ _ _
      | exact judged_twice _ _
      | refine andThen_judgedF_from _ _ _ _ ?_ (fun s1 => ?_)
      | (refine forRange_judgedF_from _ _ _ _ _ ?_ (fun x hx s => ?_))
      | exact plain_tab _ _ hplain (by assumption)
      | exact plain_raw _ _ hplain (by assumption)
      | refine judged_put _ _ _ _ ?_ ?_
      | refine judged_CmdFailOk _ _ _ _ ?_ ?_
      | ((first | apply cleanText_echo | refine cleanText_ending _ _ ?_ ?_ ?_ ?_)
         (repeat' (first
          | exact judged_twice _ _
          | refine andThen_judgedF_from _ _ _ _ ?_ (fun s1 => ?_)
          | (refine forRange_judgedF_from _ _ _ _ _ ?_ (fun x hx s => ?_))
          | exact plain_tab _ _ hplain (by assumption)
          | exact plain_raw _ _ hplain (by assumption)
          | apply beginsWith_of_mismatch
          | apply mismatch_append
          | assumption
          | apply noNL_append
          | exact noNL_fmtInt _
          | (apply noNL_of_fields; assumption)
          | (apply noNL_piece; assumption; assumption)
          | (apply noNL_lastPiece; assumption; assumption)
          | apply noNL_trimPrefix
          | (apply noNL_restOfFields; assumption)
          | exact noNL_monthAbbrev _
          | apply noNL_dateOf
          | (refine noNL_replaceAll _ _ _ ?_ ?_)
          | (apply noNL_mem_lines; assumption)
          | (apply noNL_mem_sliceFrom; assumption; assumption)
          | (apply noNL_mem_sliceList; assumption; assumption)
          | (apply noNL_mem_indexed; assumption)
          | (apply noNL_mem_indexed_sliceList; assumption; assumption)
          | (apply noNL_mem_count; assumption; assumption)
          | exact noNL_lines _
          | decide
          ))
         done)
      | (refine cleanText_closed _ ?_ ?_ <;> decide)
      | apply beginsWith_of_mismatch
      | apply mismatch_append
      | assumption
      | apply noNL_append
      | exact noNL_fmtInt _
      | (apply noNL_of_fields; assumption)
      | (apply noNL_piece; assumption; assumption)
      | (apply noNL_lastPiece; assumption; assumption)
      | apply noNL_trimPrefix
      | (apply noNL_restOfFields; assumption)
      | exact noNL_monthAbbrev _
      | apply noNL_dateOf
      | (refine noNL_replaceAll _ _ _ ?_ ?_)
      | (apply noNL_mem_lines; assumption)
      | (apply noNL_mem_sliceFrom; assumption; assumption)
      | (apply noNL_mem_sliceList; assumption; assumption)
      | (apply noNL_mem_indexed; assumption)
      | (apply noNL_mem_indexed_sliceList; assumption; assumption)
      | (apply noNL_mem_count; assumption; assumption)
      | exact noNL_lines _
      | decide
      | split
      | dsimp only
      | simp [beginsWith, String.data_append, List.isPrefixOf])

theorem CheckConsul_clean (st : CheckState) (r : CmdResult) (hplain : Plain r.output) :
    JudgedF "CheckConsul" (setVerdict "CheckConsul" true st) (CheckConsul st r) := by
  simp only [CheckConsul, passThrough, runCmd_eq, exec_eq]
  repeat' (first | split | simp only [])
  all_goals
    with_reducible repeat' (first
      | exact JudgedF.panic _
      | exact JudgedF.fatal _
      | apply JudgedF.next
      | apply JudgedF.ret
      | exact judged_refl _ _
      | exact judged_setVerdict _ _ _
      | exact judged_cmdFailedLn _ _ _
      | exact judged_CmdFailed _ _ _
      | exact judged_twice _ _
      | refine andThen_judgedF_from _ _ _ _ ?_ (fun s1 => ?_)
      | (refine forRange_judgedF_from _ _ _ _ _ ?_ (fun x hx s => ?_))
      | exact plain_tab _ _ hplain (by assumption)
      | exact plain_raw _ _ hplain (by assumption)
      | refine judged_put _ _ _ _ ?_ ?_
      | refine judged_CmdFailOk _ _ _ _ ?_ ?_
      | ((first | apply cleanText_echo | refine cleanText_ending _ _ ?_ ?_ ?_ ?_)
         (repeat' (first
          | exact judged_twice _ _
          | refine andThen_judgedF_from _ _ _ _ ?_ (fun s1 => ?_)
          | (refine forRange_judgedF_from _ _ _ _ _ ?_ (fun x hx s => ?_))
          | exact plain_tab _ _ hplain (by assumption)
          | exact plain_raw _ _ hplain (by assumption)
          | apply beginsWith_of_mismatch
          | apply mismatch_append
          | assumption
          | apply noNL_append
          | exact noNL_fmtInt _
          | (apply noNL_of_fields; assumption)
          | (apply noNL_piece; assumption; assumption)
          | (apply noNL_lastPiece; assumption; assumption)
          | apply noNL_trimPrefix
          | (apply noNL_restOfFields; assumption)
          | exact noNL_monthAbbrev _
          | apply noNL_dateOf
          | (refine noNL_replaceAll _ _ _ ?_ ?_)
          | (apply noNL_mem_lines; assumption)
          | (apply noNL_mem_sliceFrom; assumption; assumption)
          | (apply noNL_mem_sliceList; assumption; assumption)
          | (apply noNL_mem_indexed; assumption)
          | (apply noNL_mem_indexed_sliceList; assumption; assumption)
          | (apply noNL_mem_count; assumption; assumption)
          | exact noNL_lines _
          | decide
          ))
         done)
      | (refine cleanText_closed _ ?_ ?_ <;> decide)
      | apply beginsWith_of_mismatch
      | apply mismatch_append
      | assumption
      | apply noNL_append
      | exact noNL_fmtInt _
      | (apply noNL_of_fields; assumption)
      | (apply noNL_piece; assumption; assumption)
      | (apply noNL_lastPiece; assumption; assumption)
      | apply noNL_trimPrefix
      | (apply noNL_restOfFields; assumption)
      | exact noNL_monthAbbrev _
      | apply noNL_dateOf
      | (refine noNL_replaceAll _ _ _ ?_ ?_)
      | (apply noNL_mem_lines; assumption)
      | (apply noNL_mem_sliceFrom; assumption; assumption)
      | (apply noNL_mem_sliceList; assumption; assumption)
      | (apply noNL_mem_indexed; assumption)
      | (apply noNL_mem_indexed_sliceList; assumption; assumption)
      | (apply noNL_mem_count; assumption; assumption)
      | exact noNL_lines _
      | decide
      | split
      | dsimp only
      | simp [beginsWith, String.data_append, List.isPrefixOf])

theorem CheckMdt_clean (st : CheckState) (r : CmdResult) (hplain : Plain r.output) :
    JudgedF "CheckMdt" (setVerdict "CheckMdt" true st) (CheckMdt st r) := by
  simp only [CheckMdt, passThrough, runCmd_eq, exec_eq]
  repeat' (first | split | simp only [])
  all_goals
    with_reducible repeat' (first
      | exact JudgedF.panic _
      | exact JudgedF.fatal _
      | apply JudgedF.next
      | apply JudgedF.ret
      | exact judged_refl _ _
      | exact judged_setVerdict _ _ _
      | exact judged_cmdFailedLn _ _ _
      | exact judged_CmdFailed _ _ _
      | exact judged_twice _ _
      | refine andThen_judgedF_from _ _ _ _ ?_ (fun s1 => ?_)
      | (refine forRange_judgedF_from _ _ _ _ _ ?_ (fun x hx s => ?_))
      | exact plain_tab _ _ hplain (by assumption)
      | exact plain_raw _ _ hplain (by assumption)
      | refine judged_put _ _ _ _ ?_ ?_
      | refine judged_CmdFailOk _ _ _ _ ?_ ?_
      | ((first | apply cleanText_echo | refine cleanText_ending _ _ ?_ ?_ ?_ ?_)
         (repeat' (first
          | exact judged_twice _ _
          | refine andThen_judgedF_from _ _ _ _ ?_ (fun s1 => ?_)
          | (refine forRange_judgedF_from _ _ _ _ _ ?_ (fun x hx s => ?_))
          | exact plain_tab _ _ hplain (by assumption)
          | exact plain_raw _ _ hplain (by assumption)
          | apply beginsWith_of_mismatch
          | apply mismatch_append
          | assumption
          | apply noNL_append
          | exact noNL_fmtInt _
          | (apply noNL_of_fields; assumption)
          | (apply noNL_piece; assumption; assumption)
          | (apply noNL_lastPiece; assumption; assumption)
          | apply noNL_trimPrefix
          | (apply noNL_restOfFields; assumption)
          | exact noNL_monthAbbrev _
          | apply noNL_dateOf
          | (refine noNL_replaceAll _ _ _ ?_ ?_)
          | (apply noNL_mem_lines; assumption)
          | (apply noNL_mem_sliceFrom; assumption; assumption)
          | (apply noNL_mem_sliceList; assumption; assumption)
          | (apply noNL_mem_indexed; assumption)
          | (apply noNL_mem_indexed_sliceList; assumption; assumption)
          | (apply noNL_mem_count; assumption; assumption)
          | exact noNL_lines _
          | decide
          ))
         done)
      | (refine cleanText_closed _ ?_ ?_ <;> decide)
      | apply beginsWith_of_mismatch
      | apply mismatch_append
      | assumption
      | apply noNL_append
      | exact noNL_fmtInt _
      | (apply noNL_of_fields; assumption)
      | (apply noNL_piece; assumption; assumption)
      | (apply noNL_lastPiece; assumption; assumption)
      | apply noNL_trimPrefix
      | (apply noNL_restOfFields; assumption)
      | exact noNL_monthAbbrev _
      | apply noNL_dateOf
      | (refine noNL_replaceAll _ _ _ ?_ ?_)
      | (apply noNL_mem_lines; assumption)
      | (apply noNL_mem_sliceFrom; assumption; assumption)
      | (apply noNL_mem_sliceList; assumption; assumption)
      | (apply noNL_mem_indexed; assumption)
      | (apply noNL_mem_indexed_sliceList; assumption; assumption)
      | (apply noNL_mem_count; assumption; assumption)
      | exact noNL_lines _
      | decide
      | split
      | dsimp only
      | simp [beginsWith, String.data_append, List.isPrefixOf])

theorem CheckHostUptime_clean (st : CheckState) (r : CmdResult) :
    JudgedF "CheckHostUptime" (setVerdict "CheckHostUptime" true st) (CheckHostUptime st r) := by
  simp only [CheckHostUptime, runCmd_eq, exec_eq]
  repeat' (first | split | simp only [])
  all_goals
    with_reducible repeat' (first
      | exact JudgedF.panic _
      | exact JudgedF.fatal _
      | apply JudgedF.next
      | apply JudgedF.ret
      | exact judged_refl _ _
      | exact judged_setVerdict _ _ _
      | exact judged_cmdFailedLn _ _ _
      | exact judged_CmdFailed _ _ _
      | exact judged_twice _ _
      | refine andThen_judgedF_from _ _ _ _ ?_ (fun s1 => ?_)
      | (refine forRange_judgedF_from _ _ _ _ _ ?_ (fun x hx s => ?_))
      | refine judged_put _ _ _ _ ?_ ?_
      | refine judged_CmdFailOk _ _ _ _ ?_ ?_
      | ((first | apply cleanText_echo | refine cleanText_ending _ _ ?_ ?_ ?_ ?_)
         (repeat' (first
          | exact judged_twice _ _
          | refine andThen_judgedF_from _ _ _ _ ?_ (fun s1 => ?_)
          | (refine forRange_judgedF_from _ _ _ _ _ ?_ (fun x hx s => ?_))
          | apply beginsWith_of_mismatch
          | apply mismatch_append
          | assumption
          | apply noNL_append
          | exact noNL_fmtInt _
          | (apply noNL_of_fields; assumption)
          | (apply noNL_piece; assumption; assumption)
          | (apply noNL_lastPiece; assumption; assumption)
          | apply noNL_trimPrefix
          | (apply noNL_restOfFields; assumption)
          | exact noNL_monthAbbrev _
          | apply noNL_dateOf
          | (refine noNL_replaceAll _ _ _ ?_ ?_)
          | (apply noNL_mem_lines; assumption)
          | (apply noNL_mem_sliceFrom; assumption; assumption)
          | (apply noNL_mem_sliceList; assumption; assumption)
          | (apply noNL_mem_indexed; assumption)
          | (apply noNL_mem_indexed_sliceList; assumption; assumption)
          | (apply noNL_mem_count; assumption; assumption)
          | exact noNL_lines _
          | decide
          ))
         done)
      | (refine cleanText_closed _ ?_ ?_ <;> decide)
      | apply beginsWith_of_mismatch
      | apply mismatch_append
      | assumption
      | apply noNL_append
      | exact noNL_fmtInt _
      | (apply noNL_of_fields; assumption)
      | (apply noNL_piece; assumption; assumption)
      | (apply noNL_lastPiece; assumption; assumption)
      | apply noNL_trimPrefix
      | (apply noNL_restOfFields; assumption)
      | exact noNL_monthAbbrev _
      | apply noNL_dateOf
      | (refine noNL_replaceAll _ _ _ ?_ ?_)
      | (apply noNL_mem_lines; assumption)
      | (apply noNL_mem_sliceFrom; assumption; assumption)
      | (apply noNL_mem_sliceList; assumption; assumption)
      | (apply noNL_mem_indexed; assumption)
      | (apply noNL_mem_indexed_sliceList; assumption; assumption)
      | (apply noNL_mem_count; assumption; assumption)
      | exact noNL_lines _
      | decide
      | split
      | dsimp only
      | simp [beginsWith, String.data_append, List.isPrefixOf])

theorem CheckMCs_clean (st : CheckState) (r : CmdResult) :
    JudgedF "CheckMCs" (setVerdict "CheckMCs" true st) (CheckMCs st r) := by
  simp only [CheckMCs, runCmd_eq, exec_eq]
  repeat' (first | split | simp only [])
  all_goals
    with_reducible repeat' (first
      | exact JudgedF.panic _
      | exact JudgedF.fatal _
      | apply JudgedF.next
      | apply JudgedF.ret
      | exact judged_refl _ _
      | exact judged_setVerdict _ _ _
      | exact judged_cmdFailedLn _ _ _
      | exact judged_CmdFailed _ _ _
      | exact judged_twice _ _
      | exact judgedF_found _ _ _ (fun s1 => forRange_no_ret _ CheckMCs_body_no_ret _ _ s1)
      | refine andThen_judgedF_from _ _ _ _ ?_ (fun s1 => ?_)
      | (refine forRange_judgedF_from _ _ _ _ _ ?_ (fun x hx s => ?_))
      | refine judged_put _ _ _ _ ?_ ?_
      | refine judged_CmdFailOk _ _ _ _ ?_ ?_
      | ((first | apply cleanText_echo | refine cleanText_ending _ _ ?_ ?_ ?_ ?_)
         (repeat' (first
          | exact judged_twice _ _
          | exact judgedF_found _ _ _ (fun s1 => forRange_no_ret _ CheckMCs_body_no_ret _ _ s1)
          | refine andThen_judgedF_from _ _ _ _ ?_ (fun s1 => ?_)
          | (refine forRange_judgedF_from _ _ _ _ _ ?_ (fun x hx s => ?_))
          | apply beginsWith_of_mismatch
          | apply mismatch_append
          | assumption
          | apply noNL_append
          | exact noNL_fmtInt _
          | (apply noNL_of_fields; assumption)
          | (apply noNL_piece; assumption; assumption)
          | (apply noNL_lastPiece; assumption; assumption)
          | apply noNL_trimPrefix
          | (apply noNL_restOfFields; assumption)
          | exact noNL_monthAbbrev _
          | apply noNL_dateOf
          | (refine noNL_replaceAll _ _ _ ?_ ?_)
          | (apply noNL_mem_lines; assumption)
          | (apply noNL_mem_sliceFrom; assumption; assumption)
          | (apply noNL_mem_sliceList; assumption; assumption)
          | (apply noNL_mem_indexed; assumption)
          | (apply noNL_mem_indexed_sliceList; assumption; assumption)
          | (apply noNL_mem_count; assumption; assumption)
          | exact noNL_lines _
          | decide
          ))
         done)
      | (refine cleanText_closed _ ?_ ?_ <;> decide)
      | apply beginsWith_of_mismatch
      | apply mismatch_append
      | assumption
      | apply noNL_append
      | exact noNL_fmtInt _
      | (apply noNL_of_fields; assumption)
      | (apply noNL_piece; assumption; assumption)
      | (apply noNL_lastPiece; assumption; assumption)
      | apply noNL_trimPrefix
      | (apply noNL_restOfFields; assumption)
      | exact noNL_monthAbbrev _
      | apply noNL_dateOf
      | (refine noNL_replaceAll _ _ _ ?_ ?_)
      | (apply noNL_mem_lines; assumption)
      | (apply noNL_mem_sliceFrom; assumption; assumption)
      | (apply noNL_mem_sliceList; assumption; assumption)
      | (apply noNL_mem_indexed; assumption)
      | (apply noNL_mem_indexed_sliceList; assumption; assumption)
      | (apply noNL_mem_count; assumption; assumption)
      | exact noNL_lines _
      | decide
      | split
      | dsimp only
      | simp [beginsWith, String.data_append, List.isPrefixOf])

theorem CheckFailProc_clean (st : CheckState) (r : CmdResult) :
    JudgedF "CheckFailProc" (setVerdict "CheckFailProc" true st) (CheckFailProc st r) := by
  simp only [CheckFailProc, runCmd_eq, exec_eq]
  repeat' (first | split | simp only [])
  all_goals
    with_reducible repeat' (first
      | exact JudgedF.panic _
      | exact JudgedF.fatal _
      | apply JudgedF.next
      | apply JudgedF.ret
      | exact judged_refl _ _
      | exact judged_setVerdict _ _ _
      | exact judged_cmdFailedLn _ _ _
      | exact judged_CmdFailed _ _ _
      | exact judged_twice _ _
      | refine andThen_judgedF_from _ _ _ _ ?_ (fun s1 => ?_)
      | (refine forRange_judgedF_from _ _ _ _ _ ?_ (fun x hx s => ?_))
      | refine judged_put _ _ _ _ ?_ ?_
      | refine judged_CmdFailOk _ _ _ _ ?_ ?_
      | ((first | apply cleanText_echo | refine cleanText_ending _ _ ?_ ?_ ?_ ?_)
         (repeat' (first
          | exact judged_twice _ _
          | refine andThen_judgedF_from _ _ _ _ ?_ (fun s1 => ?_)
          | (refine forRange_judgedF_from _ _ _ _ _ ?_ (fun x hx s => ?_))
          | apply beginsWith_of_mismatch
          | apply mismatch_append
          | assumption
          | apply noNL_append
          | exact noNL_fmtInt _
          | (apply noNL_of_fields; assumption)
          | (apply noNL_piece; assumption; assumption)
          | (apply noNL_lastPiece; assumption; assumption)
          | apply noNL_trimPrefix
          | (apply noNL_restOfFields; assumption)
          | exact noNL_monthAbbrev _
          | apply noNL_dateOf
          | (refine noNL_replaceAll _ _ _ ?_ ?_)
          | (apply noNL_mem_lines; assumption)
          | (apply noNL_mem_sliceFrom; assumption; assumption)
          | (apply noNL_mem_sliceList; assumption; assumption)
          | (apply noNL_mem_indexed; assumption)
          | (apply noNL_mem_indexed_sliceList; assumption; assumption)
          | (apply noNL_mem_count; assumption; assumption)
          | exact noNL_lines _
          | decide
          ))
         done)
      | (refine cleanText_closed _ ?_ ?_ <;> decide)
      | apply beginsWith_of_mismatch
      | apply mismatch_append
      | assumption
      | apply noNL_append
      | exact noNL_fmtInt _
      | (apply noNL_of_fields; assumption)
      | (apply noNL_piece; assumption; assumption)
      | (apply noNL_lastPiece; assumption; assumption)
      | apply noNL_trimPrefix
      | (apply noNL_restOfFields; assumption)
      | exact noNL_monthAbbrev _
      | apply noNL_dateOf
      | (refine noNL_replaceAll _ _ _ ?_ ?_)
      | (apply noNL_mem_lines; assumption)
      | (apply noNL_mem_sliceFrom; assumption; assumption)
      | (apply noNL_mem_sliceList; assumption; assumption)
      | (apply noNL_mem_indexed; assumption)
      | (apply noNL_mem_indexed_sliceList; assumption; assumption)
      | (apply noNL_mem_count; assumption; assumption)
      | exact noNL_lines _
      | decide
      | split
      | dsimp only
      | simp [beginsWith, String.data_append, List.isPrefixOf])

theorem CheckSyErrLog_clean (now : Now) (st : CheckState) (r : CmdResult) (hnow : NoNL now.rfc3339) :
    JudgedF "CheckSyErrLog" (setVerdict "CheckSyErrLog" true st) (CheckSyErrLog now st r) := by
  simp only [CheckSyErrLog, runCmd_eq, exec_eq]
  repeat' (first | split | simp only [])
  all_goals
    with_reducible repeat' (first
      | exact JudgedF.panic _
      | exact JudgedF.fatal _
      | apply JudgedF.next
      | apply JudgedF.ret
      | exact judged_refl _ _
      | exact judged_setVerdict _ _ _
      | exact judged_cmdFailedLn _ _ _
      | exact judged_CmdFailed _ _ _
      | exact judged_twice _ _
      | exact hnow
      | refine andThen_judgedF_from _ _ _ _ ?_ (fun s1 => ?_)
      | (refine forRange_judgedF_from _ _ _ _ _ ?_ (fun x hx s => ?_))
      | refine judged_put _ _ _ _ ?_ ?_
      | refine judged_CmdFailOk _ _ _ _ ?_ ?_
      | ((first | apply cleanText_echo | refine cleanText_ending _ _ ?_ ?_ ?_ ?_)
         (repeat' (first
          | exact judged_twice _ _
          | exact hnow
          | refine andThen_judgedF_from _ _ _ _ ?_ (fun s1 => ?_)
          | (refine forRange_judgedF_from _ _ _ _ _ ?_ (fun x hx s => ?_))
          | apply beginsWith_of_mismatch
          | apply mismatch_append
          | assumption
          | apply noNL_append
          | exact noNL_fmtInt _
          | (apply noNL_of_fields; assumption)
          | (apply noNL_piece; assumption; assumption)
          | (apply noNL_lastPiece; assumption; assumption)
          | apply noNL_trimPrefix
          | (apply noNL_restOfFields; assumption)
          | exact noNL_monthAbbrev _
          | apply noNL_dateOf
          | (refine noNL_replaceAll _ _ _ ?_ ?_)
          | (apply noNL_mem_lines; assumption)
          | (apply noNL_mem_sliceFrom; assumption; assumption)
          | (apply noNL_mem_sliceList; assumption; assumption)
          | (apply noNL_mem_indexed; assumption)
          | (apply noNL_mem_indexed_sliceList; assumption; assumption)
          | (apply noNL_mem_count; assumption; assumption)
          | exact noNL_lines _
          | decide
          ))
         done)
      | (refine cleanText_closed _ ?_ ?_ <;> decide)
      | apply beginsWith_of_mismatch
      | apply mismatch_append
      | assumption
      | apply noNL_append
      | exact noNL_fmtInt _
      | (apply noNL_of_fields; assumption)
      | (apply noNL_piece; assumption; assumption)
      | (apply noNL_lastPiece; assumption; assumption)
      | apply noNL_trimPrefix
      | (apply noNL_restOfFields; assumption)
      | exact noNL_monthAbbrev _
      | apply noNL_dateOf
      | (refine noNL_replaceAll _ _ _ ?_ ?_)
      | (apply noNL_mem_lines; assumption)
      | (apply noNL_mem_sliceFrom; assumption; assumption)
      | (apply noNL_mem_sliceList; assumption; assumption)
      | (apply noNL_mem_indexed; assumption)
      | (apply noNL_mem_indexed_sliceList; assumption; assumption)
      | (apply noNL_mem_count; assumption; assumption)
      | exact noNL_lines _
      | decide
      | split
      | dsimp only
      | simp [beginsWith, String.data_append, List.isPrefixOf])

theorem ValDiagProcCache_clean (st : CheckState) (r : CmdResult) :
    JudgedF "ValDiagProcCache" (setVerdict "ValDiagProcCache" true st) (ValDiagProcCache st r) := by
  simp only [ValDiagProcCache, runCmd_eq, exec_eq]
  repeat' (first | split | simp only [])
  all_goals
    with_reducible repeat' (first
      | exact JudgedF.panic _
      | exact JudgedF.fatal _
      | apply JudgedF.next
      | apply JudgedF.ret
      | exact judged_refl _ _
      | exact judged_setVerdict _ _ _
      | exact judged_cmdFailedLn _ _ _
      | exact judged_CmdFailed _ _ _
      | exact judged_twice _ _
      | refine andThen_judgedF_from _ _ _ _ ?_ (fun s1 => ?_)
      | (refine forRange_judgedF_from _ _ _ _ _ ?_ (fun x hx s => ?_))
      | refine judged_put _ _ _ _ ?_ ?_
      | refine judged_CmdFailOk _ _ _ _ ?_ ?_
      | ((first | apply cleanText_echo | refine cleanText_ending _ _ ?_ ?_ ?_ ?_)
         (repeat' (first
          | exact judged_twice _ _
          | refine andThen_judgedF_from _ _ _ _ ?_ (fun s1 => ?_)
          | (refine forRange_judgedF_from _ _ _ _ _ ?_ (fun x hx s => ?_))
          | apply beginsWith_of_mismatch
          | apply mismatch_append
          | assumption
          | apply noNL_append
          | exact noNL_fmtInt _
          | (apply noNL_of_fields; assumption)
          | (apply noNL_piece; assumption; assumption)
          | (apply noNL_lastPiece; assumption; assumption)
          | apply noNL_trimPrefix
          | (apply noNL_restOfFields; assumption)
          | exact noNL_monthAbbrev _
          | apply noNL_dateOf
          | (refine noNL_replaceAll _ _ _ ?_ ?_)
          | (apply noNL_mem_lines; assumption)
          | (apply noNL_mem_sliceFrom; assumption; assumption)
          | (apply noNL_mem_sliceList; assumption; assumption)
          | (apply noNL_mem_indexed; assumption)
          | (apply noNL_mem_indexed_sliceList; assumption; assumption)
          | (apply noNL_mem_count; assumption; assumption)
          | exact noNL_lines _
          | decide
          ))
         done)
      | (refine cleanText_closed _ ?_ ?_ <;> decide)
      | apply beginsWith_of_mismatch
      | apply mismatch_append
      | assumption
      | apply noNL_append
      | exact noNL_fmtInt _
      | (apply noNL_of_fields; assumption)
      | (apply noNL_piece; assumption; assumption)
      | (apply noNL_lastPiece; assumption; assumption)
      | apply noNL_trimPrefix
      | (apply noNL_restOfFields; assumption)
      | exact noNL_monthAbbrev _
      | apply noNL_dateOf
      | (refine noNL_replaceAll _ _ _ ?_ ?_)
      | (apply noNL_mem_lines; assumption)
      | (apply noNL_mem_sliceFrom; assumption; assumption)
      | (apply noNL_mem_sliceList; assumption; assumption)
      | (apply noNL_mem_indexed; assumption)
      | (apply noNL_mem_indexed_sliceList; assumption; assumption)
      | (apply noNL_mem_count; assumption; assumption)
      | exact noNL_lines _
      | decide
      | split
      | dsimp only
      | simp [beginsWith, String.data_append, List.isPrefixOf])

theorem CheckVeritas_clean (st : CheckState) (r : CmdResult) :
    JudgedF "CheckVeritas" (setVerdict "CheckVeritas" true st) (CheckVeritas st r) := by
  simp only [CheckVeritas, runCmd_eq, exec_eq]
  repeat' (first | split | simp only [])
  all_goals
    with_reducible repeat' (first
      | exact JudgedF.panic _
      | exact JudgedF.fatal _
      | apply JudgedF.next
      | apply JudgedF.ret
      | exact judged_refl _ _
      | exact judged_setVerdict _ _ _
      | exact judged_cmdFailedLn _ _ _
      | exact judged_CmdFailed _ _ _
      | exact judged_twice _ _
      | (refine forRange_judgedF_from _ _ _ _ _ ?_ (fun x hx s => CheckVeritas_body_clean _ x ?_ s))
      | refine andThen_judgedF_from _ _ _ _ ?_ (fun s1 => ?_)
      | (refine forRange_judgedF_from _ _ _ _ _ ?_ (fun x hx s => ?_))
      | refine judged_put _ _ _ _ ?_ ?_
      | refine judged_CmdFailOk _ _ _ _ ?_ ?_
      | ((first | apply cleanText_echo | refine cleanText_ending _ _ ?_ ?_ ?_ ?_)
         (repeat' (first
          | exact judged_twice _ _
          | (refine forRange_judgedF_from _ _ _ _ _ ?_ (fun x hx s => CheckVeritas_body_clean _ x ?_ s))
          | refine andThen_judgedF_from _ _ _ _ ?_ (fun s1 => ?_)
          | (refine forRange_judgedF_from _ _ _ _ _ ?_ (fun x hx s => ?_))
          | apply beginsWith_of_mismatch
          | apply mismatch_append
          | assumption
          | apply noNL_append
          | exact noNL_fmtInt _
          | (apply noNL_of_fields; assumption)
          | (apply noNL_piece; assumption; assumption)
          | (apply noNL_lastPiece; assumption; assumption)
          | apply noNL_trimPrefix
          | (apply noNL_restOfFields; assumption)
          | exact noNL_monthAbbrev _
          | apply noNL_dateOf
          | (refine noNL_replaceAll _ _ _ ?_ ?_)
          | (apply noNL_mem_lines; assumption)
          | (apply noNL_mem_sliceFrom; assumption; assumption)
          | (apply noNL_mem_sliceList; assumption; assumption)
          | (apply noNL_mem_indexed; assumption)
          | (apply noNL_mem_indexed_sliceList; assumption; assumption)
          | (apply noNL_mem_count; assumption; assumption)
          | exact noNL_lines _
          | decide
          ))
         done)
      | (refine cleanText_closed _ ?_ ?_ <;> decide)
      | apply beginsWith_of_mismatch
      | apply mismatch_append
      | assumption
      | apply noNL_append
      | exact noNL_fmtInt _
      | (apply noNL_of_fields; assumption)
      | (apply noNL_piece; assumption; assumption)
      | (apply noNL_lastPiece; assumption; assumption)
      | apply noNL_trimPrefix
      | (apply noNL_restOfFields; assumption)
      | exact noNL_monthAbbrev _
      | apply noNL_dateOf
      | (refine noNL_replaceAll _ _ _ ?_ ?_)
      | (apply noNL_mem_lines; assumption)
      | (apply noNL_mem_sliceFrom; assumption; assumption)
      | (apply noNL_mem_sliceList; assumption; assumption)
      | (apply noNL_mem_indexed; assumption)
      | (apply noNL_mem_indexed_sliceList; assumption; assumption)
      | (apply noNL_mem_count; assumption; assumption)
      | exact noNL_lines _
      | decide
      | split
      | dsimp only
      | simp [beginsWith, String.data_append, List.isPrefixOf])

theorem CheckDBA_clean (st : CheckState) (r : CmdResult) :
    JudgedF "CheckDBA" (setVerdict "CheckDBA" true st) (CheckDBA st r) := by
  simp only [CheckDBA, runCmd_eq, exec_eq]
  repeat' (first | split | simp only [])
  all_goals
    with_reducible repeat' (first
      | exact JudgedF.panic _
      | exact JudgedF.fatal _
      | apply JudgedF.next
      | apply JudgedF.ret
      | exact judged_refl _ _
      | exact judged_setVerdict _ _ _
      | exact judged_cmdFailedLn _ _ _
      | exact judged_CmdFailed _ _ _
      | exact judged_twice _ _
      | (refine forRange_judgedF_from _ _ _ _ _ ?_ (fun x hx s => CheckDBA_body_clean _ x ?_ s))
      | refine andThen_judgedF_from _ _ _ _ ?_ (fun s1 => ?_)
      | (refine forRange_judgedF_from _ _ _ _ _ ?_ (fun x hx s => ?_))
      | refine judged_put _ _ _ _ ?_ ?_
      | refine judged_CmdFailOk _ _ _ _ ?_ ?_
      | ((first | apply cleanText_echo | refine cleanText_ending _ _ ?_ ?_ ?_ ?_)
         (repeat' (first
          | exact judged_twice _ _
          | (refine forRange_judgedF_from _ _ _ _ _ ?_ (fun x hx s => CheckDBA_body_clean _ x ?_ s))
          | refine andThen_judgedF_from _ _ _ _ ?_ (fun s1 => ?_)
          | (refine forRange_judgedF_from _ _ _ _ _ ?_ (fun x hx s => ?_))
          | apply beginsWith_of_mismatch
          | apply mismatch_append
          | assumption
          | apply noNL_append
          | exact noNL_fmtInt _
          | (apply noNL_of_fields; assumption)
          | (apply noNL_piece; assumption; assumption)
          | (apply noNL_lastPiece; assumption; assumption)
          | apply noNL_trimPrefix
          | (apply noNL_restOfFields; assumption)
          | exact noNL_monthAbbrev _
          | apply noNL_dateOf
          | (refine noNL_replaceAll _ _ _ ?_ ?_)
          | (apply noNL_mem_lines; assumption)
          | (apply noNL_mem_sliceFrom; assumption; assumption)
          | (apply noNL_mem_sliceList; assumption; assumption)
          | (apply noNL_mem_indexed; assumption)
          | (apply noNL_mem_indexed_sliceList; assumption; assumption)
          | (apply noNL_mem_count; assumption; assumption)
          | exact noNL_lines _
          | decide
          ))
         done)
      | (refine cleanText_closed _ ?_ ?_ <;> decide)
      | apply beginsWith_of_mismatch
      | apply mismatch_append
      | assumption
      | apply noNL_append
      | exact noNL_fmtInt _
      | (apply noNL_of_fields; assumption)
      | (apply noNL_piece; assumption; assumption)
      | (apply noNL_lastPiece; assumption; assumption)
      | apply noNL_trimPrefix
      | (apply noNL_restOfFields; assumption)
      | exact noNL_monthAbbrev _
      | apply noNL_dateOf
      | (refine noNL_replaceAll _ _ _ ?_ ?_)
      | (apply noNL_mem_lines; assumption)
      | (apply noNL_mem_sliceFrom; assumption; assumption)
      | (apply noNL_mem_sliceList; assumption; assumption)
      | (apply noNL_mem_indexed; assumption)
      | (apply noNL_mem_indexed_sliceList; assumption; assumption)
      | (apply noNL_mem_count; assumption; assumption)
      | exact noNL_lines _
      | decide
      | split
      | dsimp only
      | simp [beginsWith, String.data_append, List.isPrefixOf])

theorem CheckBsmAdjusts_clean (now : Now) (st : CheckState) (r : CmdResult) (hnow : NoNL now.rfc3339) :
    JudgedF "CheckBsmAdjusts" (setVerdict "CheckBsmAdjusts" true st) (CheckBsmAdjusts now st r) := by
  simp only [CheckBsmAdjusts, runCmd_eq, exec_eq]
  repeat' (first | split | simp only [])
  all_goals
    with_reducible repeat' (first
      | exact JudgedF.panic _
      | exact JudgedF.fatal _
      | apply JudgedF.next
      | apply JudgedF.ret
      | exact judged_refl _ _
      | exact judged_setVerdict _ _ _
      | exact judged_cmdFailedLn _ _ _
      | exact judged_CmdFailed _ _ _
      | exact judged_twice _ _
      | exact hnow
      | (refine forRange_judgedF_from _ _ _ _ _ ?_ (fun x hx s => CheckBsmAdjusts_body_clean _ x ?_ s))
      | refine andThen_judgedF_from _ _ _ _ ?_ (fun s1 => ?_)
      | (refine forRange_judgedF_from _ _ _ _ _ ?_ (fun x hx s => ?_))
      | refine judged_put _ _ _ _ ?_ ?_
      | refine judged_CmdFailOk _ _ _ _ ?_ ?_
      | ((first | apply cleanText_echo | refine cleanText_ending _ _ ?_ ?_ ?_ ?_)
         (repeat' (first
          | exact judged_twice _ _
          | exact hnow
          | (refine forRange_judgedF_from _ _ _ _ _ ?_ (fun x hx s => CheckBsmAdjusts_body_clean _ x ?_ s))
          | refine andThen_judgedF_from _ _ _ _ ?_ (fun s1 => ?_)
          | (refine forRange_judgedF_from _ _ _ _ _ ?_ (fun x hx s => ?_))
          | apply beginsWith_of_mismatch
          | apply mismatch_append
          | assumption
          | apply noNL_append
          | exact noNL_fmtInt _
          | (apply noNL_of_fields; assumption)
          | (apply noNL_piece; assumption; assumption)
          | (apply noNL_lastPiece; assumption; assumption)
          | apply noNL_trimPrefix
          | (apply noNL_restOfFields; assumption)
          | exact noNL_monthAbbrev _
          | apply noNL_dateOf
          | (refine noNL_replaceAll _ _ _ ?_ ?_)
          | (apply noNL_mem_lines; assumption)
          | (apply noNL_mem_sliceFrom; assumption; assumption)
          | (apply noNL_mem_sliceList; assumption; assumption)
          | (apply noNL_mem_indexed; assumption)
          | (apply noNL_mem_indexed_sliceList; assumption; assumption)
          | (apply noNL_mem_count; assumption; assumption)
          | exact noNL_lines _
          | decide
          ))
         done)
      | (refine cleanText_closed _ ?_ ?_ <;> decide)
      | apply beginsWith_of_mismatch
      | apply mismatch_append
      | assumption
      | apply noNL_append
      | exact noNL_fmtInt _
      | (apply noNL_of_fields; assumption)
      | (apply noNL_piece; assumption; assumption)
      | (apply noNL_lastPiece; assumption; assumption)
      | apply noNL_trimPrefix
      | (apply noNL_restOfFields; assumption)
      | exact noNL_monthAbbrev _
      | apply noNL_dateOf
      | (refine noNL_replaceAll _ _ _ ?_ ?_)
      | (apply noNL_mem_lines; assumption)
      | (apply noNL_mem_sliceFrom; assumption; assumption)
      | (apply noNL_mem_sliceList; assumption; assumption)
      | (apply noNL_mem_indexed; assumption)
      | (apply noNL_mem_indexed_sliceList; assumption; assumption)
      | (apply noNL_mem_count; assumption; assumption)
      | exact noNL_lines _
      | decide
      | split
      | dsimp only
      | simp [beginsWith, String.data_append, List.isPrefixOf])

theorem CheckStoragePool_clean (st : CheckState) (r : CmdResult) (hplain : Plain r.output) :
    JudgedF "CheckStoragePool" (setVerdict "CheckStoragePool" true st) (CheckStoragePool st r) := by
  simp only [CheckStoragePool, passThrough, runCmd_eq, exec_eq]
  repeat' (first | split | simp only [])
  all_goals
    with_reducible repeat' (first
      | exact JudgedF.panic _
      | exact JudgedF.fatal _
      | apply JudgedF.next
      | apply JudgedF.ret
      | exact judged_refl _ _
      | exact judged_setVerdict _ _ _
      | exact judged_cmdFailedLn _ _ _
      | exact judged_CmdFailed _ _ _
      | exact judged_twice _ _
      | refine andThen_judgedF_from _ _ _ _ ?_ (fun s1 => ?_)
      | (refine forRange_judgedF_from _ _ _ _ _ ?_ (fun x hx s => ?_))
      | exact plain_tab _ _ hplain (by assumption)
      | exact plain_raw _ _ hplain (by assumption)
      | refine judged_put _ _ _ _ ?_ ?_
      | refine judged_CmdFailOk _ _ _ _ ?_ ?_
      | ((first | apply cleanText_echo | refine cleanText_ending _ _ ?_ ?_ ?_ ?_)
         (repeat' (first
          | exact judged_twice _ _
          | refine andThen_judgedF_from _ _ _ _ ?_ (fun s1 => ?_)
          | (refine forRange_judgedF_from _ _ _ _ _ ?_ (fun x hx s => ?_))
          | exact plain_tab _ _ hplain (by assumption)
          | exact plain_raw _ _ hplain (by assumption)
          | apply beginsWith_of_mismatch
          | apply mismatch_append
          | assumption
          | apply noNL_append
          | exact noNL_fmtInt _
          | (apply noNL_of_fields; assumption)
          | (apply noNL_piece; assumption; assumption)
          | (apply noNL_lastPiece; assumption; assumption)
          | apply noNL_trimPrefix
          | (apply noNL_restOfFields; assumption)
          | exact noNL_monthAbbrev _
          | apply noNL_dateOf
          | (refine noNL_replaceAll _ _ _ ?_ ?_)
          | (apply noNL_mem_lines; assumption)
          | (apply noNL_mem_sliceFrom; assumption; assumption)
          | (apply noNL_mem_sliceList; assumption; assumption)
          | (apply noNL_mem_indexed; assumption)
          | (apply noNL_mem_indexed_sliceList; assumption; assumption)
          | (apply noNL_mem_count; assumption; assumption)
          | exact noNL_lines _
          | decide
          ))
         done)
      | (refine cleanText_closed _ ?_ ?_ <;> decide)
      | apply beginsWith_of_mismatch
      | apply mismatch_append
      | assumption
      | apply noNL_append
      | exact noNL_fmtInt _
      | (apply noNL_of_fields; assumption)
      | (apply noNL_piece; assumption; assumption)
      | (apply noNL_lastPiece; assumption; assumption)
      | apply noNL_trimPrefix
      | (apply noNL_restOfFields; assumption)
      | exact noNL_monthAbbrev _
      | apply noNL_dateOf
      | (refine noNL_replaceAll _ _ _ ?_ ?_)
      | (apply noNL_mem_lines; assumption)
      | (apply noNL_mem_sliceFrom; assumption; assumption)
      | (apply noNL_mem_sliceList; assumption; assumption)
      | (apply noNL_mem_indexed; assumption)
      | (apply noNL_mem_indexed_sliceList; assumption; assumption)
      | (apply noNL_mem_count; assumption; assumption)
      | exact noNL_lines _
      | decide
      | split
      | dsimp only
      | simp [beginsWith, String.data_append, List.isPrefixOf])

theorem CheckVcsCluster_clean (st : CheckState) (r : CmdResult) (hplain : Plain r.output) :
    JudgedF "CheckVcsCluster" (setVerdict "CheckVcsCluster" true st) (CheckVcsCluster st r) := by
  simp only [CheckVcsCluster, passThrough, runCmd_eq, exec_eq]
  repeat' (first | split | simp only [])
  all_goals
    with_reducible repeat' (first
      | exact JudgedF.panic _
      | exact JudgedF.fatal _
      | apply JudgedF.next
      | apply JudgedF.ret
      | exact judged_refl _ _
      | exact judged_setVerdict _ _ _
      | exact judged_cmdFailedLn _ _ _
      | exact judged_CmdFailed _ _ _
      | exact judged_twice _ _
      | refine andThen_judgedF_from _ _ _ _ ?_ (fun s1 => ?_)
      | (refine forRange_judgedF_from _ _ _ _ _ ?_ (fun x hx s => ?_))
      | exact plain_tab _ _ hplain (by assumption)
      | exact plain_raw _ _ hplain (by assumption)
      | refine judged_put _ _ _ _ ?_ ?_
      | refine judged_CmdFailOk _ _ _ _ ?_ ?_
      | ((first | apply cleanText_echo | refine cleanText_ending _ _ ?_ ?_ ?_ ?_)
         (repeat' (first
          | exact judged_twice _ _
          | refine andThen_judgedF_from _ _ _ _ ?_ (fun s1 => ?_)
          | (refine forRange_judgedF_from _ _ _ _ _ ?_ (fun x hx s => ?_))
          | exact plain_tab _ _ hplain (by assumption)
          | exact plain_raw _ _ hplain (by assumption)
          | apply beginsWith_of_mismatch
          | apply mismatch_append
          | assumption
          | apply noNL_append
          | exact noNL_fmtInt _
          | (apply noNL_of_fields; assumption)
          | (apply noNL_piece; assumption; assumption)
          | (apply noNL_lastPiece; assumption; assumption)
          | apply noNL_trimPrefix
          | (apply noNL_restOfFields; assumption)
          | exact noNL_monthAbbrev _
          | apply noNL_dateOf
          | (refine noNL_replaceAll _ _ _ ?_ ?_)
          | (apply noNL_mem_lines; assumption)
          | (apply noNL_mem_sliceFrom; assumption; assumption)
          | (apply noNL_mem_sliceList; assumption; assumption)
          | (apply noNL_mem_indexed; assumption)
          | (apply noNL_mem_indexed_sliceList; assumption; assumption)
          | (apply noNL_mem_count; assumption; assumption)
          | exact noNL_lines _
          | decide
          ))
         done)
      | (refine cleanText_closed _ ?_ ?_ <;> decide)
      | apply beginsWith_of_mismatch
      | apply mismatch_append
      | assumption
      | apply noNL_append
      | exact noNL_fmtInt _
      | (apply noNL_of_fields; assumption)
      | (apply noNL_piece; assumption; assumption)
      | (apply noNL_lastPiece; assumption; assumption)
      | apply noNL_trimPrefix
      | (apply noNL_restOfFields; assumption)
      | exact noNL_monthAbbrev _
      | apply noNL_dateOf
      | (refine noNL_replaceAll _ _ _ ?_ ?_)
      | (apply noNL_mem_lines; assumption)
      | (apply noNL_mem_sliceFrom; assumption; assumption)
      | (apply noNL_mem_sliceList; assumption; assumption)
      | (apply noNL_mem_indexed; assumption)
      | (apply noNL_mem_indexed_sliceList; assumption; assumption)
      | (apply noNL_mem_count; assumption; assumption)
      | exact noNL_lines _
      | decide
      | split
      | dsimp only
      | simp [beginsWith, String.data_append, List.isPrefixOf])

theorem CheckMultipathActive_clean (st : CheckState) (r : CmdResult) (hplain : Plain r.output) :
    JudgedF "CheckMultipathActive" (setVerdict "CheckMultipathActive" true st) (CheckMultipathActive st r) := by
  simp only [CheckMultipathActive, passThrough, runCmd_eq, exec_eq]
  repeat' (first | split | simp only [])
  all_goals
    with_reducible repeat' (first
      | exact JudgedF.panic _
      | exact JudgedF.fatal _
      | apply JudgedF.next
      | apply JudgedF.ret
      | exact judged_refl _ _
      | exact judged_setVerdict _ _ _
      | exact judged_cmdFailedLn _ _ _
      | exact judged_CmdFailed _ _ _
      | exact judged_twice _ _
      | refine andThen_judgedF_from _ _ _ _ ?_ (fun s1 => ?_)
      | (refine forRange_judgedF_from _ _ _ _ _ ?_ (fun x hx s => ?_))
      | exact plain_tab _ _ hplain (by assumption)
      | exact plain_raw _ _ hplain (by assumption)
      | refine judged_put _ _ _ _ ?_ ?_
      | refine judged_CmdFailOk _ _ _ _ ?_ ?_
      | ((first | apply cleanText_echo | refine cleanText_ending _ _ ?_ ?_ ?_ ?_)
         (repeat' (first
          | exact judged_twice _ _
          | refine andThen_judgedF_from _ _ _ _ ?_ (fun s1 => ?_)
          | (refine forRange_judgedF_from _ _ _ _ _ ?_ (fun x hx s => ?_))
          | exact plain_tab _ _ hplain (by assumption)
          | exact plain_raw _ _ hplain (by assumption)
          | apply beginsWith_of_mismatch
          | apply mismatch_append
          | assumption
          | apply noNL_append
          | exact noNL_fmtInt _
          | (apply noNL_of_fields; assumption)
          | (apply noNL_piece; assumption; assumption)
          | (apply noNL_lastPiece; assumption; assumption)
          | apply noNL_trimPrefix
          | (apply noNL_restOfFields; assumption)
          | exact noNL_monthAbbrev _
          | apply noNL_dateOf
          | (refine noNL_replaceAll _ _ _ ?_ ?_)
          | (apply noNL_mem_lines; assumption)
          | (apply noNL_mem_sliceFrom; assumption; assumption)
          | (apply noNL_mem_sliceList; assumption; assumption)
          | (apply noNL_mem_indexed; assumption)
          | (apply noNL_mem_indexed_sliceList; assumption; assumption)
          | (apply noNL_mem_count; assumption; assumption)
          | exact noNL_lines _
          | decide
          ))
         done)
      | (refine cleanText_closed _ ?_ ?_ <;> decide)
      | apply beginsWith_of_mismatch
      | apply mismatch_append
      | assumption
      | apply noNL_append
      | exact noNL_fmtInt _
      | (apply noNL_of_fields; assumption)
      | (apply noNL_piece; assumption; assumption)
      | (apply noNL_lastPiece; assumption; assumption)
      | apply noNL_trimPrefix
      | (apply noNL_restOfFields; assumption)
      | exact noNL_monthAbbrev _
      | apply noNL_dateOf
      | (refine noNL_replaceAll _ _ _ ?_ ?_)
      | (apply noNL_mem_lines; assumption)
      | (apply noNL_mem_sliceFrom; assumption; assumption)
      | (apply noNL_mem_sliceList; assumption; assumption)
      | (apply noNL_mem_indexed; assumption)
      | (apply noNL_mem_indexed_sliceList; assumption; assumption)
      | (apply noNL_mem_count; assumption; assumption)
      | exact noNL_lines _
      | decide
      | split
      | dsimp only
      | simp [beginsWith, String.data_append, List.isPrefixOf])

theorem CheckZfsPoolStatus_clean (st : CheckState) (r : CmdResult) :
    JudgedF "CheckZfsPoolStatus" (setVerdict "CheckZfsPoolStatus" true st) (CheckZfsPoolStatus st r) := by
  simp only [CheckZfsPoolStatus, runCmd_eq, exec_eq]
  repeat' (first | split | simp only [])
  all_goals
    with_reducible repeat' (first
      | exact JudgedF.panic _
      | exact JudgedF.fatal _
      | apply JudgedF.next
      | apply JudgedF.ret
      | exact judged_refl _ _
      | exact judged_setVerdict _ _ _
      | exact judged_cmdFailedLn _ _ _
      | exact judged_CmdFailed _ _ _
      | exact judged_twice _ _
      | (refine forRange_judgedF_from _ _ _ _ _ ?_ (fun x hx s => CheckZfsPoolStatus_body_clean _ x ?_ s))
      | refine andThen_judgedF_from _ _ _ _ ?_ (fun s1 => ?_)
      | (refine forRange_judgedF_from _ _ _ _ _ ?_ (fun x hx s => ?_))
      | refine judged_put _ _ _ _ ?_ ?_
      | refine judged_CmdFailOk _ _ _ _ ?_ ?_
      | ((first | apply cleanText_echo | refine cleanText_ending _ _ ?_ ?_ ?_ ?_)
         (repeat' (first
          | exact judged_twice _ _
          | (refine forRange_judgedF_from _ _ _ _ _ ?_ (fun x hx s => CheckZfsPoolStatus_body_clean _ x ?_ s))
          | refine andThen_judgedF_from _ _ _ _ ?_ (fun s1 => ?_)
          | (refine forRange_judgedF_from _ _ _ _ _ ?_ (fun x hx s => ?_))
          | apply beginsWith_of_mismatch
          | apply mismatch_append
          | assumption
          | apply noNL_append
          | exact noNL_fmtInt _
          | (apply noNL_of_fields; assumption)
          | (apply noNL_piece; assumption; assumption)
          | (apply noNL_lastPiece; assumption; assumption)
          | apply noNL_trimPrefix
          | (apply noNL_restOfFields; assumption)
          | exact noNL_monthAbbrev _
          | apply noNL_dateOf
          | (refine noNL_replaceAll _ _ _ ?_ ?_)
          | (apply noNL_mem_lines; assumption)
          | (apply noNL_mem_sliceFrom; assumption; assumption)
          | (apply noNL_mem_sliceList; assumption; assumption)
          | (apply noNL_mem_indexed; assumption)
          | (apply noNL_mem_indexed_sliceList; assumption; assumption)
          | (apply noNL_mem_count; assumption; assumption)
          | exact noNL_lines _
          | decide
          ))
         done)
      | (refine cleanText_closed _ ?_ ?_ <;> decide)
      | apply beginsWith_of_mismatch
      | apply mismatch_append
      | assumption
      | apply noNL_append
      | exact noNL_fmtInt _
      | (apply noNL_of_fields; assumption)
      | (apply noNL_piece; assumption; assumption)
      | (apply noNL_lastPiece; assumption; assumption)
      | apply noNL_trimPrefix
      | (apply noNL_restOfFields; assumption)
      | exact noNL_monthAbbrev _
      | apply noNL_dateOf
      | (refine noNL_replaceAll _ _ _ ?_ ?_)
      | (apply noNL_mem_lines; assumption)
      | (apply noNL_mem_sliceFrom; assumption; assumption)
      | (apply noNL_mem_sliceList; assumption; assumption)
      | (apply noNL_mem_indexed; assumption)
      | (apply noNL_mem_indexed_sliceList; assumption; assumption)
      | (apply noNL_mem_count; assumption; assumption)
      | exact noNL_lines _
      | decide
      | split
      | dsimp only
      | simp [beginsWith, String.data_append, List.isPrefixOf])

theorem CheckMountingOk_clean (st : CheckState) (r : CmdResult) :
    JudgedF "CheckMountingOk" (setVerdict "CheckMountingOk" true st) (CheckMountingOk st r) := by
  simp only [CheckMountingOk, runCmd_eq, exec_eq]
  repeat' (first | split | simp only [])
  all_goals
    with_reducible repeat' (first
      | exact JudgedF.panic _
      | exact JudgedF.fatal _
      | apply JudgedF.next
      | apply JudgedF.ret
      | exact judged_refl _ _
      | exact judged_setVerdict _ _ _
      | exact judged_cmdFailedLn _ _ _
      | exact judged_CmdFailed _ _ _
      | exact judged_twice _ _
      | refine andThen_judgedF_from _ _ _ _ ?_ (fun s1 => ?_)
      | (refine forRange_judgedF_from _ _ _ _ _ ?_ (fun x hx s => ?_))
      | refine judged_put _ _ _ _ ?_ ?_
      | refine judged_CmdFailOk _ _ _ _ ?_ ?_
      | ((first | apply cleanText_echo | refine cleanText_ending _ _ ?_ ?_ ?_ ?_)
         (repeat' (first
          | exact judged_twice _ _
          | refine andThen_judgedF_from _ _ _ _ ?_ (fun s1 => ?_)
          | (refine forRange_judgedF_from _ _ _ _ _ ?_ (fun x hx s => ?_))
          | apply beginsWith_of_mismatch
          | apply mismatch_append
          | assumption
          | apply noNL_append
          | exact noNL_fmtInt _
          | (apply noNL_of_fields; assumption)
          | (apply noNL_piece; assumption; assumption)
          | (apply noNL_lastPiece; assumption; assumption)
          | apply noNL_trimPrefix
          | (apply noNL_restOfFields; assumption)
          | exact noNL_monthAbbrev _
          | apply noNL_dateOf
          | (refine noNL_replaceAll _ _ _ ?_ ?_)
          | (apply noNL_mem_lines; assumption)
          | (apply noNL_mem_sliceFrom; assumption; assumption)
          | (apply noNL_mem_sliceList; assumption; assumption)
          | (apply noNL_mem_indexed; assumption)
          | (apply noNL_mem_indexed_sliceList; assumption; assumption)
          | (apply noNL_mem_count; assumption; assumption)
          | exact noNL_lines _
          | decide
          ))
         done)
      | (refine cleanText_closed _ ?_ ?_ <;> decide)
      | apply beginsWith_of_mismatch
      | apply mismatch_append
      | assumption
      | apply noNL_append
      | exact noNL_fmtInt _
      | (apply noNL_of_fields; assumption)
      | (apply noNL_piece; assumption; assumption)
      | (apply noNL_lastPiece; assumption; assumption)
      | apply noNL_trimPrefix
      | (apply noNL_restOfFields; assumption)
      | exact noNL_monthAbbrev _
      | apply noNL_dateOf
      | (refine noNL_replaceAll _ _ _ ?_ ?_)
      | (apply noNL_mem_lines; assumption)
      | (apply noNL_mem_sliceFrom; assumption; assumption)
      | (apply noNL_mem_sliceList; assumption; assumption)
      | (apply noNL_mem_indexed; assumption)
      | (apply noNL_mem_indexed_sliceList; assumption; assumption)
      | (apply noNL_mem_count; assumption; assumption)
      | exact noNL_lines _
      | decide
      | split
      | dsimp only
      | simp [beginsWith, String.data_append, List.isPrefixOf])

theorem CheckDisks_clean (st : CheckState) (r : CmdResult) :
    JudgedF "CheckDisks" (setVerdict "CheckDisks" true st) (CheckDisks st r) := by
  simp only [CheckDisks, runCmd_eq, exec_eq]
  repeat' (first | split | simp only [])
  all_goals
    with_reducible repeat' (first
      | exact JudgedF.panic _
      | exact JudgedF.fatal _
      | apply JudgedF.next
      | apply JudgedF.ret
      | exact judged_refl _ _
      | exact judged_setVerdict _ _ _
      | exact judged_cmdFailedLn _ _ _
      | exact judged_CmdFailed _ _ _
      | exact judged_twice _ _
      | exact judgedF_found _ _ _ (fun s1 => forRange_no_ret _ CheckDisks_body_no_ret _ _ s1)
      | refine andThen_judgedF_from _ _ _ _ ?_ (fun s1 => ?_)
      | (refine forRange_judgedF_from _ _ _ _ _ ?_ (fun x hx s => ?_))
      | refine judged_put _ _ _ _ ?_ ?_
      | refine judged_CmdFailOk _ _ _ _ ?_ ?_
      | ((first | apply cleanText_echo | refine cleanText_ending _ _ ?_ ?_ ?_ ?_)
         (repeat' (first
          | exact judged_twice _ _
          | exact judgedF_found _ _ _ (fun s1 => forRange_no_ret _ CheckDisks_body_no_ret _ _ s1)
          | refine andThen_judgedF_from _ _ _ _ ?_ (fun s1 => ?_)
          | (refine forRange_judgedF_from _ _ _ _ _ ?_ (fun x hx s => ?_))
          | apply beginsWith_of_mismatch
          | apply mismatch_append
          | assumption
          | apply noNL_append
          | exact noNL_fmtInt _
          | (apply noNL_of_fields; assumption)
          | (apply noNL_piece; assumption; assumption)
          | (apply noNL_lastPiece; assumption; assumption)
          | apply noNL_trimPrefix
          | (apply noNL_restOfFields; assumption)
          | exact noNL_monthAbbrev _
          | apply noNL_dateOf
          | (refine noNL_replaceAll _ _ _ ?_ ?_)
          | (apply noNL_mem_lines; assumption)
          | (apply noNL_mem_sliceFrom; assumption; assumption)
          | (apply noNL_mem_sliceList; assumption; assumption)
          | (apply noNL_mem_indexed; assumption)
          | (apply noNL_mem_indexed_sliceList; assumption; assumption)
          | (apply noNL_mem_count; assumption; assumption)
          | exact noNL_lines _
          | decide
          ))
         done)
      | (refine cleanText_closed _ ?_ ?_ <;> decide)
      | apply beginsWith_of_mismatch
      | apply mismatch_append
      | assumption
      | apply noNL_append
      | exact noNL_fmtInt _
      | (apply noNL_of_fields; assumption)
      | (apply noNL_piece; assumption; assumption)
      | (apply noNL_lastPiece; assumption; assumption)
      | apply noNL_trimPrefix
      | (apply noNL_restOfFields; assumption)
      | exact noNL_monthAbbrev _
      | apply noNL_dateOf
      | (refine noNL_replaceAll _ _ _ ?_ ?_)
      | (apply noNL_mem_lines; assumption)
      | (apply noNL_mem_sliceFrom; assumption; assumption)
      | (apply noNL_mem_sliceList; assumption; assumption)
      | (apply noNL_mem_indexed; assumption)
      | (apply noNL_mem_indexed_sliceList; assumption; assumption)
      | (apply noNL_mem_count; assumption; assumption)
      | exact noNL_lines _
      | decide
      | split
      | dsimp only
      | simp [beginsWith, String.data_append, List.isPrefixOf])

theorem CheckWtmpx_clean (st : CheckState) (r : CmdResult) :
    JudgedF "CheckWtmpx" (setVerdict "CheckWtmpx" true st) (CheckWtmpx st r) := by
  simp only [CheckWtmpx, runCmd_eq, exec_eq]
  repeat' (first | split | simp only [])
  all_goals
    with_reducible repeat' (first
      | exact JudgedF.panic _
      | exact JudgedF.fatal _
      | apply JudgedF.next
      | apply JudgedF.ret
      | exact judged_refl _ _
      | exact judged_setVerdict _ _ _
      | exact judged_cmdFailedLn _ _ _
      | exact judged_CmdFailed _ _ _
      | exact judged_twice _ _
      | refine andThen_judgedF_from _ _ _ _ ?_ (fun s1 => ?_)
      | (refine forRange_judgedF_from _ _ _ _ _ ?_ (fun x hx s => ?_))
      | refine judged_put _ _ _ _ ?_ ?_
      | refine judged_CmdFailOk _ _ _ _ ?_ ?_
      | ((first | apply cleanText_echo | refine cleanText_ending _ _ ?_ ?_ ?_ ?_)
         (repeat' (first
          | exact judged_twice _ _
          | refine andThen_judgedF_from _ _ _ _ ?_ (fun s1 => ?_)
          | (refine forRange_judgedF_from _ _ _ _ _ ?_ (fun x hx s => ?_))
          | apply beginsWith_of_mismatch
          | apply mismatch_append
          | assumption
          | apply noNL_append
          | exact noNL_fmtInt _
          | (apply noNL_of_fields; assumption)
          | (apply noNL_piece; assumption; assumption)
          | (apply noNL_lastPiece; assumption; assumption)
          | apply noNL_trimPrefix
          | (apply noNL_restOfFields; assumption)
          | exact noNL_monthAbbrev _
          | apply noNL_dateOf
          | (refine noNL_replaceAll _ _ _ ?_ ?_)
          | (apply noNL_mem_lines; assumption)
          | (apply noNL_mem_sliceFrom; assumption; assumption)
          | (apply noNL_mem_sliceList; assumption; assumption)
          | (apply noNL_mem_indexed; assumption)
          | (apply noNL_mem_indexed_sliceList; assumption; assumption)
          | (apply noNL_mem_count; assumption; assumption)
          | exact noNL_lines _
          | decide
          ))
         done)
      | (refine cleanText_closed _ ?_ ?_ <;> decide)
      | apply beginsWith_of_mismatch
      | apply mismatch_append
      | assumption
      | apply noNL_append
      | exact noNL_fmtInt _
      | (apply noNL_of_fields; assumption)
      | (apply noNL_piece; assumption; assumption)
      | (apply noNL_lastPiece; assumption; assumption)
      | apply noNL_trimPrefix
      | (apply noNL_restOfFields; assumption)
      | exact noNL_monthAbbrev _
      | apply noNL_dateOf
      | (refine noNL_replaceAll _ _ _ ?_ ?_)
      | (apply noNL_mem_lines; assumption)
      | (apply noNL_mem_sliceFrom; assumption; assumption)
      | (apply noNL_mem_sliceList; assumption; assumption)
      | (apply noNL_mem_indexed; assumption)
      | (apply noNL_mem_indexed_sliceList; assumption; assumption)
      | (apply noNL_mem_count; assumption; assumption)
      | exact noNL_lines _
      | decide
      | split
      | dsimp only
      | simp [beginsWith, String.data_append, List.isPrefixOf])

theorem MonErrLog_clean (now : Now) (st : CheckState) (r : CmdResult) (hnow : NoNL now.rfc3339) :
    JudgedF "MonErrLog" (setVerdict "MonErrLog" true st) (MonErrLog now st r) := by
  simp only [MonErrLog, runCmd_eq, exec_eq]
  repeat' (first | split | simp only [])
  all_goals
    with_reducible repeat' (first
      | exact JudgedF.panic _
      | exact JudgedF.fatal _
      | apply JudgedF.next
      | apply JudgedF.ret
      | exact judged_refl _ _
      | exact judged_setVerdict _ _ _
      | exact judged_cmdFailedLn _ _ _
      | exact judged_CmdFailed _ _ _
      | exact judged_twice _ _
      | exact hnow
      | exact judgedF_found _ _ _ (fun s1 => forRange_no_ret _ MonErrLog_body_no_ret _ _ s1)
      | (refine forRange_judgedF_from _ _ _ _ _ ?_ (fun x hx s => MonErrLog_body_clean x ?_ s))
      | refine andThen_judgedF_from _ _ _ _ ?_ (fun s1 => ?_)
      | (refine forRange_judgedF_from _ _ _ _ _ ?_ (fun x hx s => ?_))
      | refine judged_put _ _ _ _ ?_ ?_
      | refine judged_CmdFailOk _ _ _ _ ?_ ?_
      | ((first | apply cleanText_echo | refine cleanText_ending _ _ ?_ ?_ ?_ ?_)
         (repeat' (first
          | exact judged_twice _ _
          | exact hnow
          | exact judgedF_found _ _ _ (fun s1 => forRange_no_ret _ MonErrLog_body_no_ret _ _ s1)
          | (refine forRange_judgedF_from _ _ _ _ _ ?_ (fun x hx s => MonErrLog_body_clean x ?_ s))
          | refine andThen_judgedF_from _ _ _ _ ?_ (fun s1 => ?_)
          | (refine forRange_judgedF_from _ _ _ _ _ ?_ (fun x hx s => ?_))
          | apply beginsWith_of_mismatch
          | apply mismatch_append
          | assumption
          | apply noNL_append
          | exact noNL_fmtInt _
          | (apply noNL_of_fields; assumption)
          | (apply noNL_piece; assumption; assumption)
          | (apply noNL_lastPiece; assumption; assumption)
          | apply noNL_trimPrefix
          | (apply noNL_restOfFields; assumption)
          | exact noNL_monthAbbrev _
          | apply noNL_dateOf
          | (refine noNL_replaceAll _ _ _ ?_ ?_)
          | (apply noNL_mem_lines; assumption)
          | (apply noNL_mem_sliceFrom; assumption; assumption)
          | (apply noNL_mem_sliceList; assumption; assumption)
          | (apply noNL_mem_indexed; assumption)
          | (apply noNL_mem_indexed_sliceList; assumption; assumption)
          | (apply noNL_mem_count; assumption; assumption)
          | exact noNL_lines _
          | decide
          ))
         done)
      | (refine cleanText_closed _ ?_ ?_ <;> decide)
      | apply beginsWith_of_mismatch
      | apply mismatch_append
      | assumption
      | apply noNL_append
      | exact noNL_fmtInt _
      | (apply noNL_of_fields; assumption)
      | (apply noNL_piece; assumption; assumption)
      | (apply noNL_lastPiece; assumption; assumption)
      | apply noNL_trimPrefix
      | (apply noNL_restOfFields; assumption)
      | exact noNL_monthAbbrev _
      | apply noNL_dateOf
      | (refine noNL_replaceAll _ _ _ ?_ ?_)
      | (apply noNL_mem_lines; assumption)
      | (apply noNL_mem_sliceFrom; assumption; assumption)
      | (apply noNL_mem_sliceList; assumption; assumption)
      | (apply noNL_mem_indexed; assumption)
      | (apply noNL_mem_indexed_sliceList; assumption; assumption)
      | (apply noNL_mem_count; assumption; assumption)
      | exact noNL_lines _
      | decide
      | split
      | dsimp only
      | simp [beginsWith, String.data_append, List.isPrefixOf])

theorem CheckCoreFiles_clean (st : CheckState) (r : CmdResult) :
    JudgedF "CheckCoreFiles" (setVerdict "CheckCoreFiles" true st) (CheckCoreFiles st r) := by
  simp only [CheckCoreFiles, runCmd_eq, exec_eq]
  repeat' (first | split | simp only [])
  all_goals
    with_reducible repeat' (first
      | exact JudgedF.panic _
      | exact JudgedF.fatal _
      | apply JudgedF.next
      | apply JudgedF.ret
      | exact judged_refl _ _
      | exact judged_setVerdict _ _ _
      | exact judged_cmdFailedLn _ _ _
      | exact judged_CmdFailed _ _ _
      | exact judged_twice _ _
      | exact judgedF_found _ _ _ (fun s1 => forRange_no_ret _ CheckCoreFiles_body_no_ret _ _ s1)
      | (refine forRange_judgedF_from _ _ _ _ _ ?_ (fun x hx s => CheckCoreFiles_body_clean x ?_ s))
      | refine andThen_judgedF_from _ _ _ _ ?_ (fun s1 => ?_)
      | (refine forRange_judgedF_from _ _ _ _ _ ?_ (fun x hx s => ?_))
      | refine judged_put _ _ _ _ ?_ ?_
      | refine judged_CmdFailOk _ _ _ _ ?_ ?_
      | ((first | apply cleanText_echo | refine cleanText_ending _ _ ?_ ?_ ?_ ?_)
         (repeat' (first
          | exact judged_twice _ _
          | exact judgedF_found _ _ _ (fun s1 => forRange_no_ret _ CheckCoreFiles_body_no_ret _ _ s1)
          | (refine forRange_judgedF_from _ _ _ _ _ ?_ (fun x hx s => CheckCoreFiles_body_clean x ?_ s))
          | refine andThen_judgedF_from _ _ _ _ ?_ (fun s1 => ?_)
          | (refine forRange_judgedF_from _ _ _ _ _ ?_ (fun x hx s => ?_))
          | apply beginsWith_of_mismatch
          | apply mismatch_append
          | assumption
          | apply noNL_append
          | exact noNL_fmtInt _
          | (apply noNL_of_fields; assumption)
          | (apply noNL_piece; assumption; assumption)
          | (apply noNL_lastPiece; assumption; assumption)
          | apply noNL_trimPrefix
          | (apply noNL_restOfFields; assumption)
          | exact noNL_monthAbbrev _
          | apply noNL_dateOf
          | (refine noNL_replaceAll _ _ _ ?_ ?_)
          | (apply noNL_mem_lines; assumption)
          | (apply noNL_mem_sliceFrom; assumption; assumption)
          | (apply noNL_mem_sliceList; assumption; assumption)
          | (apply noNL_mem_indexed; assumption)
          | (apply noNL_mem_indexed_sliceList; assumption; assumption)
          | (apply noNL_mem_count; assumption; assumption)
          | exact noNL_lines _
          | decide
          ))
         done)
      | (refine cleanText_closed _ ?_ ?_ <;> decide)
      | apply beginsWith_of_mismatch
      | apply mismatch_append
      | assumption
      | apply noNL_append
      | exact noNL_fmtInt _
      | (apply noNL_of_fields; assumption)
      | (apply noNL_piece; assumption; assumption)
      | (apply noNL_lastPiece; assumption; assumption)
      | apply noNL_trimPrefix
      | (apply noNL_restOfFields; assumption)
      | exact noNL_monthAbbrev _
      | apply noNL_dateOf
      | (refine noNL_replaceAll _ _ _ ?_ ?_)
      | (apply noNL_mem_lines; assumption)
      | (apply noNL_mem_sliceFrom; assumption; assumption)
      | (apply noNL_mem_sliceList; assumption; assumption)
      | (apply noNL_mem_indexed; assumption)
      | (apply noNL_mem_indexed_sliceList; assumption; assumption)
      | (apply noNL_mem_count; assumption; assumption)
      | exact noNL_lines _
      | decide
      | split
      | dsimp only
      | simp [beginsWith, String.data_append, List.isPrefixOf])

theorem CheckSyDump_clean (st : CheckState) (r : CmdResult) :
    JudgedF "CheckSyDump" (setVerdict "CheckSyDump" true st) (CheckSyDump st r) := by
  simp only [CheckSyDump, runCmd_eq, exec_eq]
  repeat' (first | split | simp only [])
  all_goals
    with_reducible repeat' (first
      | exact JudgedF.panic _
      | exact JudgedF.fatal _
      | apply JudgedF.next
      | apply JudgedF.ret
      | exact judged_refl _ _
      | exact judged_setVerdict _ _ _
      | exact judged_cmdFailedLn _ _ _
      | exact judged_CmdFailed _ _ _
      | exact judged_twice _ _
      | (refine forRange_judgedF_from _ _ _ _ _ ?_ (fun x hx s => CheckSyDump_body_clean _ x ?_ s))
      | refine andThen_judgedF_from _ _ _ _ ?_ (fun s1 => ?_)
      | (refine forRange_judgedF_from _ _ _ _ _ ?_ (fun x hx s => ?_))
      | refine judged_put _ _ _ _ ?_ ?_
      | refine judged_CmdFailOk _ _ _ _ ?_ ?_
      | ((first | apply cleanText_echo | refine cleanText_ending _ _ ?_ ?_ ?_ ?_)
         (repeat' (first
          | exact judged_twice _ _
          | (refine forRange_judgedF_from _ _ _ _ _ ?_ (fun x hx s => CheckSyDump_body_clean _ x ?_ s))
          | refine andThen_judgedF_from _ _ _ _ ?_ (fun s1 => ?_)
          | (refine forRange_judgedF_from _ _ _ _ _ ?_ (fun x hx s => ?_))
          | apply beginsWith_of_mismatch
          | apply mismatch_append
          | assumption
          | apply noNL_append
          | exact noNL_fmtInt _
          | (apply noNL_of_fields; assumption)
          | (apply noNL_piece; assumption; assumption)
          | (apply noNL_lastPiece; assumption; assumption)
          | apply noNL_trimPrefix
          | (apply noNL_restOfFields; assumption)
          | exact noNL_monthAbbrev _
          | apply noNL_dateOf
          | (refine noNL_replaceAll _ _ _ ?_ ?_)
          | (apply noNL_mem_lines; assumption)
          | (apply noNL_mem_sliceFrom; assumption; assumption)
          | (apply noNL_mem_sliceList; assumption; assumption)
          | (apply noNL_mem_indexed; assumption)
          | (apply noNL_mem_indexed_sliceList; assumption; assumption)
          | (apply noNL_mem_count; assumption; assumption)
          | exact noNL_lines _
          | decide
          ))
         done)
      | (refine cleanText_closed _ ?_ ?_ <;> decide)
      | apply beginsWith_of_mismatch
      | apply mismatch_append
      | assumption
      | apply noNL_append
      | exact noNL_fmtInt _
      | (apply noNL_of_fields; assumption)
      | (apply noNL_piece; assumption; assumption)
      | (apply noNL_lastPiece; assumption; assumption)
      | apply noNL_trimPrefix
      | (apply noNL_restOfFields; assumption)
      | exact noNL_monthAbbrev _
      | apply noNL_dateOf
      | (refine noNL_replaceAll _ _ _ ?_ ?_)
      | (apply noNL_mem_lines; assumption)
      | (apply noNL_mem_sliceFrom; assumption; assumption)
      | (apply noNL_mem_sliceList; assumption; assumption)
      | (apply noNL_mem_indexed; assumption)
      | (apply noNL_mem_indexed_sliceList; assumption; assumption)
      | (apply noNL_mem_count; assumption; assumption)
      | exact noNL_lines _
      | decide
      | split
      | dsimp only
      | simp [beginsWith, String.data_append, List.isPrefixOf])

theorem CheckVrstDb_clean (st : CheckState) (r : CmdResult) :
    JudgedF "CheckVrstDb" (setVerdict "CheckVrstDb" true st) (CheckVrstDb st r) := by
  simp only [CheckVrstDb, runCmd_eq, exec_eq]
  repeat' (first | split | simp only [])
  all_goals
    with_reducible repeat' (first
      | exact JudgedF.panic _
      | exact JudgedF.fatal _
      | apply JudgedF.next
      | apply JudgedF.ret
      | exact judged_refl _ _
      | exact judged_setVerdict _ _ _
      | exact judged_cmdFailedLn _ _ _
      | exact judged_CmdFailed _ _ _
      | exact judged_twice _ _
      | (refine forRange_judgedF_from _ _ _ _ _ ?_ (fun x hx s => CheckVrstDb_body_clean _ _ (noNL_lines _) x ?_ s))
      | refine andThen_judgedF_from _ _ _ _ ?_ (fun s1 => ?_)
      | (refine forRange_judgedF_from _ _ _ _ _ ?_ (fun x hx s => ?_))
      | refine judged_put _ _ _ _ ?_ ?_
      | refine judged_CmdFailOk _ _ _ _ ?_ ?_
      | ((first | apply cleanText_echo | refine cleanText_ending _ _ ?_ ?_ ?_ ?_)
         (repeat' (first
          | exact judged_twice _ _
          | (refine forRange_judgedF_from _ _ _ _ _ ?_ (fun x hx s => CheckVrstDb_body_clean _ _ (noNL_lines _) x ?_ s))
          | refine andThen_judgedF_from _ _ _ _ ?_ (fun s1 => ?_)
          | (refine forRange_judgedF_from _ _ _ _ _ ?_ (fun x hx s => ?_))
          | apply beginsWith_of_mismatch
          | apply mismatch_append
          | assumption
          | apply noNL_append
          | exact noNL_fmtInt _
          | (apply noNL_of_fields; assumption)
          | (apply noNL_piece; assumption; assumption)
          | (apply noNL_lastPiece; assumption; assumption)
          | apply noNL_trimPrefix
          | (apply noNL_restOfFields; assumption)
          | exact noNL_monthAbbrev _
          | apply noNL_dateOf
          | (refine noNL_replaceAll _ _ _ ?_ ?_)
          | (apply noNL_mem_lines; assumption)
          | (apply noNL_mem_sliceFrom; assumption; assumption)
          | (apply noNL_mem_sliceList; assumption; assumption)
          | (apply noNL_mem_indexed; assumption)
          | (apply noNL_mem_indexed_sliceList; assumption; assumption)
          | (apply noNL_mem_count; assumption; assumption)
          | exact noNL_lines _
          | decide
          ))
         done)
      | (refine cleanText_closed _ ?_ ?_ <;> decide)
      | apply beginsWith_of_mismatch
      | apply mismatch_append
      | assumption
      | apply noNL_append
      | exact noNL_fmtInt _
      | (apply noNL_of_fields; assumption)
      | (apply noNL_piece; assumption; assumption)
      | (apply noNL_lastPiece; assumption; assumption)
      | apply noNL_trimPrefix
      | (apply noNL_restOfFields; assumption)
      | exact noNL_monthAbbrev _
      | apply noNL_dateOf
      | (refine noNL_replaceAll _ _ _ ?_ ?_)
      | (apply noNL_mem_lines; assumption)
      | (apply noNL_mem_sliceFrom; assumption; assumption)
      | (apply noNL_mem_sliceList; assumption; assumption)
      | (apply noNL_mem_indexed; assumption)
      | (apply noNL_mem_indexed_sliceList; assumption; assumption)
      | (apply noNL_mem_count; assumption; assumption)
      | exact noNL_lines _
      | decide
      | split
      | dsimp only
      | simp [beginsWith, String.data_append, List.isPrefixOf])

theorem CheckCnaAdjusts_clean (now : Now) (st : CheckState) (r : CmdResult) (hnow : NoNL now.rfc3339) :
    JudgedF "CheckCnaAdjusts" (setVerdict "CheckCnaAdjusts" true st) (CheckCnaAdjusts now st r) := by
  simp only [CheckCnaAdjusts, runCmd_eq, exec_eq]
  repeat' (first | split | simp only [])
  all_goals
    with_reducible repeat' (first
      | exact JudgedF.panic _
      | exact JudgedF.fatal _
      | apply JudgedF.next
      | apply JudgedF.ret
      | exact judged_refl _ _
      | exact judged_setVerdict _ _ _
      | exact judged_cmdFailedLn _ _ _
      | exact judged_CmdFailed _ _ _
      | exact judged_twice _ _
      | exact hnow
      | (refine forRange_judgedF_from _ _ _ _ _ ?_ (fun x hx s => CheckCnaAdjusts_body_clean _ x ?_ s))
      | refine andThen_judgedF_from _ _ _ _ ?_ (fun s1 => ?_)
      | (refine forRange_judgedF_from _ _ _ _ _ ?_ (fun x hx s => ?_))
      | refine judged_put _ _ _ _ ?_ ?_
      | refine judged_CmdFailOk _ _ _ _ ?_ ?_
      | ((first | apply cleanText_echo | refine cleanText_ending _ _ ?_ ?_ ?_ ?_)
         (repeat' (first
          | exact judged_twice _ _
          | exact hnow
          | (refine forRange_judgedF_from _ _ _ _ _ ?_ (fun x hx s => CheckCnaAdjusts_body_clean _ x ?_ s))
          | refine andThen_judgedF_from _ _ _ _ ?_ (fun s1 => ?_)
          | (refine forRange_judgedF_from _ _ _ _ _ ?_ (fun x hx s => ?_))
          | apply beginsWith_of_mismatch
          | apply mismatch_append
          | assumption
          | apply noNL_append
          | exact noNL_fmtInt _
          | (apply noNL_of_fields; assumption)
          | (apply noNL_piece; assumption; assumption)
          | (apply noNL_lastPiece; assumption; assumption)
          | apply noNL_trimPrefix
          | (apply noNL_restOfFields; assumption)
          | exact noNL_monthAbbrev _
          | apply noNL_dateOf
          | (refine noNL_replaceAll _ _ _ ?_ ?_)
          | (apply noNL_mem_lines; assumption)
          | (apply noNL_mem_sliceFrom; assumption; assumption)
          | (apply noNL_mem_sliceList; assumption; assumption)
          | (apply noNL_mem_indexed; assumption)
          | (apply noNL_mem_indexed_sliceList; assumption; assumption)
          | (apply noNL_mem_count; assumption; assumption)
          | exact noNL_lines _
          | decide
          ))
         done)
      | (refine cleanText_closed _ ?_ ?_ <;> decide)
      | apply beginsWith_of_mismatch
      | apply mismatch_append
      | assumption
      | apply noNL_append
      | exact noNL_fmtInt _
      | (apply noNL_of_fields; assumption)
      | (apply noNL_piece; assumption; assumption)
      | (apply noNL_lastPiece; assumption; assumption)
      | apply noNL_trimPrefix
      | (apply noNL_restOfFields; assumption)
      | exact noNL_monthAbbrev _
      | apply noNL_dateOf
      | (refine noNL_replaceAll _ _ _ ?_ ?_)
      | (apply noNL_mem_lines; assumption)
      | (apply noNL_mem_sliceFrom; assumption; assumption)
      | (apply noNL_mem_sliceList; assumption; assumption)
      | (apply noNL_mem_indexed; assumption)
      | (apply noNL_mem_indexed_sliceList; assumption; assumption)
      | (apply noNL_mem_count; assumption; assumption)
      | exact noNL_lines _
      | decide
      | split
      | dsimp only
      | simp [beginsWith, String.data_append, List.isPrefixOf])

theorem CheckStaleMount_clean (st : CheckState) (r : CmdResult) (hplain : Plain r.output) :
    JudgedF "CheckStaleMount" (setVerdict "CheckStaleMount" true st) (CheckStaleMount st r) := by
  simp only [CheckStaleMount, passThrough, runCmd_eq, exec_eq]
  repeat' (first | split | simp only [])
  all_goals
    with_reducible repeat' (first
      | exact JudgedF.panic _
      | exact JudgedF.fatal _
      | apply JudgedF.next
      | apply JudgedF.ret
      | exact judged_refl _ _
      | exact judged_setVerdict _ _ _
      | exact judged_cmdFailedLn _ _ _
      | exact judged_CmdFailed _ _ _
      | exact judged_twice _ _
      | refine andThen_judgedF_from _ _ _ _ ?_ (fun s1 => ?_)
      | (refine forRange_judgedF_from _ _ _ _ _ ?_ (fun x hx s => ?_))
      | exact plain_tab _ _ hplain (by assumption)
      | exact plain_raw _ _ hplain (by assumption)
      | refine judged_put _ _ _ _ ?_ ?_
      | refine judged_CmdFailOk _ _ _ _ ?_ ?_
      | ((first | apply cleanText_echo | refine cleanText_ending _ _ ?_ ?_ ?_ ?_)
         (repeat' (first
          | exact judged_twice _ _
          | refine andThen_judgedF_from _ _ _ _ ?_ (fun s1 => ?_)
          | (refine forRange_judgedF_from _ _ _ _ _ ?_ (fun x hx s => ?_))
          | exact plain_tab _ _ hplain (by assumption)
          | exact plain_raw _ _ hplain (by assumption)
          | apply beginsWith_of_mismatch
          | apply mismatch_append
          | assumption
          | apply noNL_append
          | exact noNL_fmtInt _
          | (apply noNL_of_fields; assumption)
          | (apply noNL_piece; assumption; assumption)
          | (apply noNL_lastPiece; assumption; assumption)
          | apply noNL_trimPrefix
          | (apply noNL_restOfFields; assumption)
          | exact noNL_monthAbbrev _
          | apply noNL_dateOf
          | (refine noNL_replaceAll _ _ _ ?_ ?_)
          | (apply noNL_mem_lines; assumption)
          | (apply noNL_mem_sliceFrom; assumption; assumption)
          | (apply noNL_mem_sliceList; assumption; assumption)
          | (apply noNL_mem_indexed; assumption)
          | (apply noNL_mem_indexed_sliceList; assumption; assumption)
          | (apply noNL_mem_count; assumption; assumption)
          | exact noNL_lines _
          | decide
          ))
         done)
      | (refine cleanText_closed _ ?_ ?_ <;> decide)
      | apply beginsWith_of_mismatch
      | apply mismatch_append
      | assumption
      | apply noNL_append
      | exact noNL_fmtInt _
      | (apply noNL_of_fields; assumption)
      | (apply noNL_piece; assumption; assumption)
      | (apply noNL_lastPiece; assumption; assumption)
      | apply noNL_trimPrefix
      | (apply noNL_restOfFields; assumption)
      | exact noNL_monthAbbrev _
      | apply noNL_dateOf
      | (refine noNL_replaceAll _ _ _ ?_ ?_)
      | (apply noNL_mem_lines; assumption)
      | (apply noNL_mem_sliceFrom; assumption; assumption)
      | (apply noNL_mem_sliceList; assumption; assumption)
      | (apply noNL_mem_indexed; assumption)
      | (apply noNL_mem_indexed_sliceList; assumption; assumption)
      | (apply noNL_mem_count; assumption; assumption)
      | exact noNL_lines _
      | decide
      | split
      | dsimp only
      | simp [beginsWith, String.data_append, List.isPrefixOf])

theorem CheckVcsLltHeartbeat_clean (st : CheckState) (r : CmdResult) (hplain : Plain r.output) :
    JudgedF "CheckVcsLltHeartbeat" (setVerdict "CheckVcsLltHeartbeat" true st) (CheckVcsLltHeartbeat st r) := by
  simp only [CheckVcsLltHeartbeat, passThrough, runCmd_eq, exec_eq]
  repeat' (first | split | simp only [])
  all_goals
    with_reducible repeat' (first
      | exact JudgedF.panic _
      | exact JudgedF.fatal _
      | apply JudgedF.next
      | apply JudgedF.ret
      | exact judged_refl _ _
      | exact judged_setVerdict _ _ _
      | exact judged_cmdFailedLn _ _ _
      | exact judged_CmdFailed _ _ _
      | exact judged_twice _ _
      | refine andThen_judgedF_from _ _ _ _ ?_ (fun s1 => ?_)
      | (refine forRange_judgedF_from _ _ _ _ _ ?_ (fun x hx s => ?_))
      | exact plain_tab _ _ hplain (by assumption)
      | exact plain_raw _ _ hplain (by assumption)
      | refine judged_put _ _ _ _ ?_ ?_
      | refine judged_CmdFailOk _ _ _ _ ?_ ?_
      | ((first | apply cleanText_echo | refine cleanText_ending _ _ ?_ ?_ ?_ ?_)
         (repeat' (first
          | exact judged_twice _ _
          | refine andThen_judgedF_from _ _ _ _ ?_ (fun s1 => ?_)
          | (refine forRange_judgedF_from _ _ _ _ _ ?_ (fun x hx s => ?_))
          | exact plain_tab _ _ hplain (by assumption)
          | exact plain_raw _ _ hplain (by assumption)
          | apply beginsWith_of_mismatch
          | apply mismatch_append
          | assumption
          | apply noNL_append
          | exact noNL_fmtInt _
          | (apply noNL_of_fields; assumption)
          | (apply noNL_piece; assumption; assumption)
          | (apply noNL_lastPiece; assumption; assumption)
          | apply noNL_trimPrefix
          | (apply noNL_restOfFields; assumption)
          | exact noNL_monthAbbrev _
          | apply noNL_dateOf
          | (refine noNL_replaceAll _ _ _ ?_ ?_)
          | (apply noNL_mem_lines; assumption)
          | (apply noNL_mem_sliceFrom; assumption; assumption)
          | (apply noNL_mem_sliceList; assumption; assumption)
          | (apply noNL_mem_indexed; assumption)
          | (apply noNL_mem_indexed_sliceList; assumption; assumption)
          | (apply noNL_mem_count; assumption; assumption)
          | exact noNL_lines _
          | decide
          ))
         done)
      | (refine cleanText_closed _ ?_ ?_ <;> decide)
      | apply beginsWith_of_mismatch
      | apply mismatch_append
      | assumption
      | apply noNL_append
      | exact noNL_fmtInt _
      | (apply noNL_of_fields; assumption)
      | (apply noNL_piece; assumption; assumption)
      | (apply noNL_lastPiece; assumption; assumption)
      | apply noNL_trimPrefix
      | (apply noNL_restOfFields; assumption)
      | exact noNL_monthAbbrev _
      | apply noNL_dateOf
      | (refine noNL_replaceAll _ _ _ ?_ ?_)
      | (apply noNL_mem_lines; assumption)
      | (apply noNL_mem_sliceFrom; assumption; assumption)
      | (apply noNL_mem_sliceList; assumption; assumption)
      | (apply noNL_mem_indexed; assumption)
      | (apply noNL_mem_indexed_sliceList; assumption; assumption)
      | (apply noNL_mem_count; assumption; assumption)
      | exact noNL_lines _
      | decide
      | split
      | dsimp only
      | simp [beginsWith, String.data_append, List.isPrefixOf])

theorem CheckPuppetEnabled_clean (st : CheckState) (r : CmdResult) (hplain : Plain r.output) :
    JudgedF "CheckPuppetEnabled" (setVerdict "CheckPuppetEnabled" true st) (CheckPuppetEnabled st r) := by
  simp only [CheckPuppetEnabled, passThrough, runCmd_eq, exec_eq]
  repeat' (first | split | simp only [])
  all_goals
    with_reducible repeat' (first
      | exact JudgedF.panic _
      | exact JudgedF.fatal _
      | apply JudgedF.next
      | apply JudgedF.ret
      | exact judged_refl _ _
      | exact judged_setVerdict _ _ _
      | exact judged_cmdFailedLn _ _ _
      | exact judged_CmdFailed _ _ _
      | exact judged_twice _ _
      | refine andThen_judgedF_from _ _ _ _ ?_ (fun s1 => ?_)
      | (refine forRange_judgedF_from _ _ _ _ _ ?_ (fun x hx s => ?_))
      | exact plain_tab _ _ hplain (by assumption)
      | exact plain_raw _ _ hplain (by assumption)
      | refine judged_put _ _ _ _ ?_ ?_
      | refine judged_CmdFailOk _ _ _ _ ?_ ?_
      | ((first | apply cleanText_echo | refine cleanText_ending _ _ ?_ ?_ ?_ ?_)
         (repeat' (first
          | exact judged_twice _ _
          | refine andThen_judgedF_from _ _ _ _ ?_ (fun s1 => ?_)
          | (refine forRange_judgedF_from _ _ _ _ _ ?_ (fun x hx s => ?_))
          | exact plain_tab _ _ hplain (by assumption)
          | exact plain_raw _ _ hplain (by assumption)
          | apply beginsWith_of_mismatch
          | apply mismatch_append
          | assumption
          | apply noNL_append
          | exact noNL_fmtInt _
          | (apply noNL_of_fields; assumption)
          | (apply noNL_piece; assumption; assumption)
          | (apply noNL_lastPiece; assumption; assumption)
          | apply noNL_trimPrefix
          | (apply noNL_restOfFields; assumption)
          | exact noNL_monthAbbrev _
          | apply noNL_dateOf
          | (refine noNL_replaceAll _ _ _ ?_ ?_)
          | (apply noNL_mem_lines; assumption)
          | (apply noNL_mem_sliceFrom; assumption; assumption)
          | (apply noNL_mem_sliceList; assumption; assumption)
          | (apply noNL_mem_indexed; assumption)
          | (apply noNL_mem_indexed_sliceList; assumption; assumption)
          | (apply noNL_mem_count; assumption; assumption)
          | exact noNL_lines _
          | decide
          ))
         done)
      | (refine cleanText_closed _ ?_ ?_ <;> decide)
      | apply beginsWith_of_mismatch
      | apply mismatch_append
      | assumption
      | apply noNL_append
      | exact noNL_fmtInt _
      | (apply noNL_of_fields; assumption)
      | (apply noNL_piece; assumption; assumption)
      | (apply noNL_lastPiece; assumption; assumption)
      | apply noNL_trimPrefix
      | (apply noNL_restOfFields; assumption)
      | exact noNL_monthAbbrev _
      | apply noNL_dateOf
      | (refine noNL_replaceAll _ _ _ ?_ ?_)
      | (apply noNL_mem_lines; assumption)
      | (apply noNL_mem_sliceFrom; assumption; assumption)
      | (apply noNL_mem_sliceList; assumption; assumption)
      | (apply noNL_mem_indexed; assumption)
      | (apply noNL_mem_indexed_sliceList; assumption; assumption)
      | (apply noNL_mem_count; assumption; assumption)
      | exact noNL_lines _
      | decide
      | split
      | dsimp only
      | simp [beginsWith, String.data_append, List.isPrefixOf])

theorem CheckZfsPoolSU_clean (host : String) (st : CheckState) (r : CmdResult) :
    JudgedF "CheckZfsPoolSU" (setVerdict "CheckZfsPoolSU" true st) (CheckZfsPoolSU host st r) := by
  simp only [CheckZfsPoolSU, runCmd_eq, exec_eq]
  repeat' (first | split | simp only [])
  all_goals
    with_reducible repeat' (first
      | exact JudgedF.panic _
      | exact JudgedF.fatal _
      | apply JudgedF.next
      | apply JudgedF.ret
      | exact judged_refl _ _
      | exact judged_setVerdict _ _ _
      | exact judged_cmdFailedLn _ _ _
      | exact judged_CmdFailed _ _ _
      | exact judged_twice _ _
      | (refine forRange_judgedF_from _ _ _ _ _ ?_ (fun x hx s => CheckZfsPoolSU_body_clean _ _ x ?_ s))
      | refine andThen_judgedF_from _ _ _ _ ?_ (fun s1 => ?_)
      | (refine forRange_judgedF_from _ _ _ _ _ ?_ (fun x hx s => ?_))
      | refine judged_put _ _ _ _ ?_ ?_
      | refine judged_CmdFailOk _ _ _ _ ?_ ?_
      | ((first | apply cleanText_echo | refine cleanText_ending _ _ ?_ ?_ ?_ ?_)
         (repeat' (first
          | exact judged_twice _ _
          | (refine forRange_judgedF_from _ _ _ _ _ ?_ (fun x hx s => CheckZfsPoolSU_body_clean _ _ x ?_ s))
          | refine andThen_judgedF_from _ _ _ _ ?_ (fun s1 => ?_)
          | (refine forRange_judgedF_from _ _ _ _ _ ?_ (fun x hx s => ?_))
          | apply beginsWith_of_mismatch
          | apply mismatch_append
          | assumption
          | apply noNL_append
          | exact noNL_fmtInt _
          | (apply noNL_of_fields; assumption)
          | (apply noNL_piece; assumption; assumption)
          | (apply noNL_lastPiece; assumption; assumption)
          | apply noNL_trimPrefix
          | (apply noNL_restOfFields; assumption)
          | exact noNL_monthAbbrev _
          | apply noNL_dateOf
          | (refine noNL_replaceAll _ _ _ ?_ ?_)
          | (apply noNL_mem_lines; assumption)
          | (apply noNL_mem_sliceFrom; assumption; assumption)
          | (apply noNL_mem_sliceList; assumption; assumption)
          | (apply noNL_mem_indexed; assumption)
          | (apply noNL_mem_indexed_sliceList; assumption; assumption)
          | (apply noNL_mem_count; assumption; assumption)
          | exact noNL_lines _
          | decide
          ))
         done)
      | (refine cleanText_closed _ ?_ ?_ <;> decide)
      | apply beginsWith_of_mismatch
      | apply mismatch_append
      | assumption
      | apply noNL_append
      | exact noNL_fmtInt _
      | (apply noNL_of_fields; assumption)
      | (apply noNL_piece; assumption; assumption)
      | (apply noNL_lastPiece; assumption; assumption)
      | apply noNL_trimPrefix
      | (apply noNL_restOfFields; assumption)
      | exact noNL_monthAbbrev _
      | apply noNL_dateOf
      | (refine noNL_replaceAll _ _ _ ?_ ?_)
      | (apply noNL_mem_lines; assumption)
      | (apply noNL_mem_sliceFrom; assumption; assumption)
      | (apply noNL_mem_sliceList; assumption; assumption)
      | (apply noNL_mem_indexed; assumption)
      | (apply noNL_mem_indexed_sliceList; assumption; assumption)
      | (apply noNL_mem_count; assumption; assumption)
      | exact noNL_lines _
      | decide
      | split
      | dsimp only
      | simp [beginsWith, String.data_append, List.isPrefixOf])

theorem CheckBashrc_clean (st : CheckState) (r : CmdResult) :
    JudgedF "CheckBashrc" (setVerdict "CheckBashrc" true st) (CheckBashrc st r) := by
  simp only [CheckBashrc, runCmd_eq, exec_eq]
  repeat' (first | split | simp only [])
  all_goals
    with_reducible repeat' (first
      | exact JudgedF.panic _
      | exact JudgedF.fatal _
      | apply JudgedF.next
      | apply JudgedF.ret
      | exact judged_refl _ _
      | exact judged_setVerdict _ _ _
      | exact judged_cmdFailedLn _ _ _
      | exact judged_CmdFailed _ _ _
      | exact judged_twice _ _
      | refine andThen_judgedF_from _ _ _ _ ?_ (fun s1 => ?_)
      | (refine forRange_judgedF_from _ _ _ _ _ ?_ (fun x hx s => ?_))
      | refine judged_put _ _ _ _ ?_ ?_
      | refine judged_CmdFailOk _ _ _ _ ?_ ?_
      | ((first | apply cleanText_echo | refine cleanText_ending _ _ ?_ ?_ ?_ ?_)
         (repeat' (first
          | exact judged_twice _ _
          | refine andThen_judgedF_from _ _ _ _ ?_ (fun s1 => ?_)
          | (refine forRange_judgedF_from _ _ _ _ _ ?_ (fun x hx s => ?_))
          | apply beginsWith_of_mismatch
          | apply mismatch_append
          | assumption
          | apply noNL_append
          | exact noNL_fmtInt _
          | (apply noNL_of_fields; assumption)
          | (apply noNL_piece; assumption; assumption)
          | (apply noNL_lastPiece; assumption; assumption)
          | apply noNL_trimPrefix
          | (apply noNL_restOfFields; assumption)
          | exact noNL_monthAbbrev _
          | apply noNL_dateOf
          | (refine noNL_replaceAll _ _ _ ?_ ?_)
          | (apply noNL_mem_lines; assumption)
          | (apply noNL_mem_sliceFrom; assumption; assumption)
          | (apply noNL_mem_sliceList; assumption; assumption)
          | (apply noNL_mem_indexed; assumption)
          | (apply noNL_mem_indexed_sliceList; assumption; assumption)
          | (apply noNL_mem_count; assumption; assumption)
          | exact noNL_lines _
          | decide
          ))
         done)
      | (refine cleanText_closed _ ?_ ?_ <;> decide)
      | apply beginsWith_of_mismatch
      | apply mismatch_append
      | assumption
      | apply noNL_append
      | exact noNL_fmtInt _
      | (apply noNL_of_fields; assumption)
      | (apply noNL_piece; assumption; assumption)
      | (apply noNL_lastPiece; assumption; assumption)
      | apply noNL_trimPrefix
      | (apply noNL_restOfFields; assumption)
      | exact noNL_monthAbbrev _
      | apply noNL_dateOf
      | (refine noNL_replaceAll _ _ _ ?_ ?_)
      | (apply noNL_mem_lines; assumption)
      | (apply noNL_mem_sliceFrom; assumption; assumption)
      | (apply noNL_mem_sliceList; assumption; assumption)
      | (apply noNL_mem_indexed; assumption)
      | (apply noNL_mem_indexed_sliceList; assumption; assumption)
      | (apply noNL_mem_count; assumption; assumption)
      | exact noNL_lines _
      | decide
      | split
      | dsimp only
      | simp [beginsWith, String.data_append, List.isPrefixOf])

theorem CheckETLC_body_clean (name d : String) (hd : NoNL d) (run : Nat → CmdResult) (x : Nat × String) (hx : NoNL x.2) (s : CheckState) :
    JudgedF name s (CheckETLC.body name d run x s) := by
  simp only [CheckETLC.body, exec_eq]
  repeat' (first | split | simp only [])
  all_goals
    with_reducible repeat' (first
      | exact JudgedF.panic _
      | exact JudgedF.fatal _
      | apply JudgedF.next
      | apply JudgedF.ret
      | exact judged_refl _ _
      | exact judged_setVerdict _ _ _
      | exact judged_cmdFailedLn _ _ _
      | exact judged_CmdFailed _ _ _
      | refine judged_put _ _ _ _ ?_ ?_
      | refine judged_CmdFailOk _ _ _ _ ?_ ?_
      | ((first | apply cleanText_echo | refine cleanText_ending _ _ ?_ ?_ ?_ ?_)
         (repeat' (first
          | apply beginsWith_of_mismatch
          | apply mismatch_append
          | assumption
          | apply noNL_append
          | exact noNL_fmtInt _
          | (apply noNL_of_fields; assumption)
          | (apply noNL_piece; assumption; assumption)
          | (apply noNL_lastPiece; assumption; assumption)
          | apply noNL_trimPrefix
          | (apply noNL_restOfFields; assumption)
          | exact noNL_monthAbbrev _
          | apply noNL_dateOf
          | (refine noNL_replaceAll _ _ _ ?_ ?_)
          | (apply noNL_mem_lines; assumption)
          | (apply noNL_mem_sliceFrom; assumption; assumption)
          | (apply noNL_mem_sliceList; assumption; assumption)
          | (apply noNL_mem_indexed; assumption)
          | (apply noNL_mem_indexed_sliceList; assumption; assumption)
          | (apply noNL_mem_count; assumption; assumption)
          | exact noNL_lines _
          | decide
          ))
         done)
      | (refine cleanText_closed _ ?_ ?_ <;> decide)
      | apply beginsWith_of_mismatch
      | apply mismatch_append
      | assumption
      | apply noNL_append
      | exact noNL_fmtInt _
      | (apply noNL_of_fields; assumption)
      | (apply noNL_piece; assumption; assumption)
      | (apply noNL_lastPiece; assumption; assumption)
      | apply noNL_trimPrefix
      | (apply noNL_restOfFields; assumption)
      | exact noNL_monthAbbrev _
      | apply noNL_dateOf
      | (refine noNL_replaceAll _ _ _ ?_ ?_)
      | (apply noNL_mem_lines; assumption)
      | (apply noNL_mem_sliceFrom; assumption; assumption)
      | (apply noNL_mem_sliceList; assumption; assumption)
      | (apply noNL_mem_indexed; assumption)
      | (apply noNL_mem_indexed_sliceList; assumption; assumption)
      | (apply noNL_mem_count; assumption; assumption)
      | exact noNL_lines _
      | decide
      | split
      | dsimp only
      | simp [beginsWith, String.data_append, List.isPrefixOf])

theorem CheckSrvs_body_clean (name : String) (run : Nat → CmdResult) (x : Nat × String) (hx : NoNL x.2) (s : CheckState) :
    JudgedF name s (CheckSrvs.body name run x s) := by
  simp only [CheckSrvs.body, exec_eq]
  repeat' (first | split | simp only [])
  all_goals
    with_reducible repeat' (first
      | exact JudgedF.panic _
      | exact JudgedF.fatal _
      | apply JudgedF.next
      | apply JudgedF.ret
      | exact judged_refl _ _
      | exact judged_setVerdict _ _ _
      | exact judged_cmdFailedLn _ _ _
      | exact judged_CmdFailed _ _ _
      | refine judged_put _ _ _ _ ?_ ?_
      | refine judged_CmdFailOk _ _ _ _ ?_ ?_
      | ((first | apply cleanText_echo | refine cleanText_ending _ _ ?_ ?_ ?_ ?_)
         (repeat' (first
          | apply beginsWith_of_mismatch
          | apply mismatch_append
          | assumption
          | apply noNL_append
          | exact noNL_fmtInt _
          | (apply noNL_of_fields; assumption)
          | (apply noNL_piece; assumption; assumption)
          | (apply noNL_lastPiece; assumption; assumption)
          | apply noNL_trimPrefix
          | (apply noNL_restOfFields; assumption)
          | exact noNL_monthAbbrev _
          | apply noNL_dateOf
          | (refine noNL_replaceAll _ _ _ ?_ ?_)
          | (apply noNL_mem_lines; assumption)
          | (apply noNL_mem_sliceFrom; assumption; assumption)
          | (apply noNL_mem_sliceList; assumption; assumption)
          | (apply noNL_mem_indexed; assumption)
          | (apply noNL_mem_indexed_sliceList; assumption; assumption)
          | (apply noNL_mem_count; assumption; assumption)
          | exact noNL_lines _
          | decide
          ))
         done)
      | (refine cleanText_closed _ ?_ ?_ <;> decide)
      | apply beginsWith_of_mismatch
      | apply mismatch_append
      | assumption
      | apply noNL_append
      | exact noNL_fmtInt _
      | (apply noNL_of_fields; assumption)
      | (apply noNL_piece; assumption; assumption)
      | (apply noNL_lastPiece; assumption; assumption)
      | apply noNL_trimPrefix
      | (apply noNL_restOfFields; assumption)
      | exact noNL_monthAbbrev _
      | apply noNL_dateOf
      | (refine noNL_replaceAll _ _ _ ?_ ?_)
      | (apply noNL_mem_lines; assumption)
      | (apply noNL_mem_sliceFrom; assumption; assumption)
      | (apply noNL_mem_sliceList; assumption; assumption)
      | (apply noNL_mem_indexed; assumption)
      | (apply noNL_mem_indexed_sliceList; assumption; assumption)
      | (apply noNL_mem_count; assumption; assumption)
      | exact noNL_lines _
      | decide
      | split
      | dsimp only
      | simp [beginsWith, String.data_append, List.isPrefixOf])

theorem CheckNetBackupClients_body_clean (name : String) (run : Nat → CmdResult) (x : Nat × String) (hx : NoNL x.2) (s : CheckState) :
    JudgedF name s (CheckNetBackupClients.body name run x s) := by
  simp only [CheckNetBackupClients.body, exec_eq]
  repeat' (first | split | simp only [])
  all_goals
    with_reducible repeat' (first
      | exact JudgedF.panic _
      | exact JudgedF.fatal _
      | apply JudgedF.next
      | apply JudgedF.ret
      | exact judged_refl _ _
      | exact judged_setVerdict _ _ _
      | exact judged_cmdFailedLn _ _ _
      | exact judged_CmdFailed _ _ _
      | refine judged_put _ _ _ _ ?_ ?_
      | refine judged_CmdFailOk _ _ _ _ ?_ ?_
      | ((first | apply cleanText_echo | refine cleanText_ending _ _ ?_ ?_ ?_ ?_)
         (repeat' (first
          | apply beginsWith_of_mismatch
          | apply mismatch_append
          | assumption
          | apply noNL_append
          | exact noNL_fmtInt _
          | (apply noNL_of_fields; assumption)
          | (apply noNL_piece; assumption; assumption)
          | (apply noNL_lastPiece; assumption; assumption)
          | apply noNL_trimPrefix
          | (apply noNL_restOfFields; assumption)
          | exact noNL_monthAbbrev _
          | apply noNL_dateOf
          | (refine noNL_replaceAll _ _ _ ?_ ?_)
          | (apply noNL_mem_lines; assumption)
          | (apply noNL_mem_sliceFrom; assumption; assumption)
          | (apply noNL_mem_sliceList; assumption; assumption)
          | (apply noNL_mem_indexed; assumption)
          | (apply noNL_mem_indexed_sliceList; assumption; assumption)
          | (apply noNL_mem_count; assumption; assumption)
          | exact noNL_lines _
          | decide
          ))
         done)
      | (refine cleanText_closed _ ?_ ?_ <;> decide)
      | apply beginsWith_of_mismatch
      | apply mismatch_append
      | assumption
      | apply noNL_append
      | exact noNL_fmtInt _
      | (apply noNL_of_fields; assumption)
      | (apply noNL_piece; assumption; assumption)
      | (apply noNL_lastPiece; assumption; assumption)
      | apply noNL_trimPrefix
      | (apply noNL_restOfFields; assumption)
      | exact noNL_monthAbbrev _
      | apply noNL_dateOf
      | (refine noNL_replaceAll _ _ _ ?_ ?_)
      | (apply noNL_mem_lines; assumption)
      | (apply noNL_mem_sliceFrom; assumption; assumption)
      | (apply noNL_mem_sliceList; assumption; assumption)
      | (apply noNL_mem_indexed; assumption)
      | (apply noNL_mem_indexed_sliceList; assumption; assumption)
      | (apply noNL_mem_count; assumption; assumption)
      | exact noNL_lines _
      | decide
      | split
      | dsimp only
      | simp [beginsWith, String.data_append, List.isPrefixOf])

theorem CheckBackupPoliciesSchedExec_body_clean (name host weekday date : String) (run : Nat → CmdResult) (x : Nat × (String × String)) (hx : NoNL x.2.1) (s : CheckState) :
    JudgedF name s (CheckBackupPoliciesSchedExec.body name host weekday date run x s) := by
  simp only [CheckBackupPoliciesSchedExec.body, exec_eq]
  repeat' (first | split | simp only [])
  all_goals
    with_reducible repeat' (first
      | exact JudgedF.panic _
      | exact JudgedF.fatal _
      | apply JudgedF.next
      | apply JudgedF.ret
      | exact judged_refl _ _
      | exact judged_setVerdict _ _ _
      | exact judged_cmdFailedLn _ _ _
      | exact judged_CmdFailed _ _ _
      | refine judged_put _ _ _ _ ?_ ?_
      | refine judged_CmdFailOk _ _ _ _ ?_ ?_
      | ((first | apply cleanText_echo | refine cleanText_ending _ _ ?_ ?_ ?_ ?_)
         (repeat' (first
          | apply beginsWith_of_mismatch
          | apply mismatch_append
          | assumption
          | apply noNL_append
          | exact noNL_fmtInt _
          | (apply noNL_of_fields; assumption)
          | (apply noNL_piece; assumption; assumption)
          | (apply noNL_lastPiece; assumption; assumption)
          | apply noNL_trimPrefix
          | (apply noNL_restOfFields; assumption)
          | exact noNL_monthAbbrev _
          | apply noNL_dateOf
          | (refine noNL_replaceAll _ _ _ ?_ ?_)
          | (apply noNL_mem_lines; assumption)
          | (apply noNL_mem_sliceFrom; assumption; assumption)
          | (apply noNL_mem_sliceList; assumption; assumption)
          | (apply noNL_mem_indexed; assumption)
          | (apply noNL_mem_indexed_sliceList; assumption; assumption)
          | (apply noNL_mem_count; assumption; assumption)
          | exact noNL_lines _
          | decide
          ))
         done)
      | (refine cleanText_closed _ ?_ ?_ <;> decide)
      | apply beginsWith_of_mismatch
      | apply mismatch_append
      | assumption
      | apply noNL_append
      | exact noNL_fmtInt _
      | (apply noNL_of_fields; assumption)
      | (apply noNL_piece; assumption; assumption)
      | (apply noNL_lastPiece; assumption; assumption)
      | apply noNL_trimPrefix
      | (apply noNL_restOfFields; assumption)
      | exact noNL_monthAbbrev _
      | apply noNL_dateOf
      | (refine noNL_replaceAll _ _ _ ?_ ?_)
      | (apply noNL_mem_lines; assumption)
      | (apply noNL_mem_sliceFrom; assumption; assumption)
      | (apply noNL_mem_sliceList; assumption; assumption)
      | (apply noNL_mem_indexed; assumption)
      | (apply noNL_mem_indexed_sliceList; assumption; assumption)
      | (apply noNL_mem_count; assumption; assumption)
      | exact noNL_lines _
      | decide
      | split
      | dsimp only
      | simp [beginsWith, String.data_append, List.isPrefixOf])

theorem noNL_table (m : GoMap (List String)) (h : ∀ l ∈ m.map Prod.snd, ∀ s ∈ l, NoNL s)
    (host : String) : ∀ s ∈ mapGet [] m host, NoNL s := by
  rcases mapGet_eq_zero_or_mem [] m host with e | e
  · rw [e]
    intro s hs
    cases hs
  · exact h _ e

theorem CheckSrvs_srvs_noNL : ∀ l ∈ CheckSrvs.srvs.map Prod.snd, ∀ s ∈ l, NoNL s := by
  decide

theorem CheckSrvsUptime_srvs_noNL :
    ∀ l ∈ CheckSrvsUptime.srvs.map Prod.snd, ∀ s ∈ l, NoNL s := by
  decide

theorem CheckBackupPoliciesSchedExec_sched_noNL (host : String) :
    ∀ e ∈ mapGet [] CheckBackupPoliciesSchedExec.sched host, NoNL e.1 := by
  have h : ∀ l ∈ CheckBackupPoliciesSchedExec.sched.map Prod.snd, ∀ e ∈ l, NoNL e.1 := by
    decide
  rcases mapGet_eq_zero_or_mem [] CheckBackupPoliciesSchedExec.sched host with e | e
  · rw [e]
    intro s hs
    cases hs
  · exact h _ e

theorem noNL_indexed_pair {α : Type} (l : List α) (f : α → String) (h : ∀ p ∈ l, NoNL (f p)) :
    ∀ x ∈ indexed l, NoNL (f x.2) := by
  intro x hx
  obtain ⟨i, p⟩ := x
  have h2 := (List.mem_enum hx).2
  exact h p (h2 ▸ List.getElem_mem _)

theorem CheckNetBackupClients_clients_mem (l acc : List String) :
    ∀ c ∈ CheckNetBackupClients.clients l acc, c ∈ l ∨ c ∈ acc := by
  induction l generalizing acc with
  | nil => exact fun c hc => Or.inr hc
  | cons s rest ih =>
    intro c hc
    unfold CheckNetBackupClients.clients at hc
    split at hc
    · exact (ih acc c hc).imp_left (List.mem_cons_of_mem _)
    · split at hc
      · exact (ih acc c hc).imp_left (List.mem_cons_of_mem _)
      · rcases ih _ c hc with h | h
        · exact Or.inl (List.mem_cons_of_mem _ h)
        · rcases List.mem_append.mp h with h | h
          · exact Or.inr h
          · rw [List.mem_singleton.mp h]
            exact Or.inl (List.mem_cons_self _ _)

theorem CheckETLC_clean (now : Now) (run : Nat → CmdResult) (st : CheckState)
    (hnow : NoNL now.rfc3339) :
    JudgedF "CheckETLC" (setVerdict "CheckETLC" true st) (CheckETLC now run st) := by
  simp only [CheckETLC]
  exact forRange_judgedF_from _ _ _ _ _ (judged_refl _ _) (fun x hx s =>
    CheckETLC_body_clean _ _ (noNL_replaceAll _ _ _ (noNL_dateOf _ hnow) (by decide)) run x
      (noNL_indexed _ (by decide) x hx) s)

theorem CheckSrvs_clean (host : String) (run : Nat → CmdResult) (st : CheckState) :
    JudgedF "CheckSrvs" (setVerdict "CheckSrvs" true st) (CheckSrvs host run st) := by
  simp only [CheckSrvs]
  exact forRange_judgedF_from _ _ _ _ _ (judged_refl _ _) (fun x hx s =>
    CheckSrvs_body_clean _ run x
      (noNL_indexed _ (noNL_table _ CheckSrvs_srvs_noNL host) x hx) s)

theorem CheckNetBackupClients_clean (run : Nat → CmdResult) (st : CheckState) :
    JudgedF "CheckNetBackupClients" (setVerdict "CheckNetBackupClients" true st)
      (CheckNetBackupClients run st) := by
  simp only [CheckNetBackupClients, runCmd_eq]
  repeat' (first | split | simp only [])
  all_goals
    with_reducible repeat' (first
      | exact JudgedF.panic _
      | exact JudgedF.fatal _
      | apply JudgedF.next
      | apply JudgedF.ret
      | exact judged_refl _ _
      | exact judged_setVerdict _ _ _
      | exact judged_cmdFailedLn _ _ _
      | exact judged_CmdFailed _ _ _
      | (refine forRange_judgedF_from _ _ _ _ _ ?_ (fun x hx s => CheckNetBackupClients_body_clean _ run x (noNL_indexed _ (fun c hc => (CheckNetBackupClients_clients_mem _ _ c hc).elim (noNL_lines _ c) (fun h => absurd h (List.not_mem_nil _))) x hx) s))
      | refine judged_put _ _ _ _ ?_ ?_
      | refine judged_CmdFailOk _ _ _ _ ?_ ?_
      | ((first | apply cleanText_echo | refine cleanText_ending _ _ ?_ ?_ ?_ ?_)
         (repeat' (first
          | (refine forRange_judgedF_from _ _ _ _ _ ?_ (fun x hx s => CheckNetBackupClients_body_clean _ run x (noNL_indexed _ (fun c hc => (CheckNetBackupClients_clients_mem _ _ c hc).elim (noNL_lines _ c) (fun h => absurd h (List.not_mem_nil _))) x hx) s))
          | apply beginsWith_of_mismatch
          | apply mismatch_append
          | assumption
          | apply noNL_append
          | exact noNL_fmtInt _
          | (apply noNL_of_fields; assumption)
          | (apply noNL_piece; assumption; assumption)
          | (apply noNL_lastPiece; assumption; assumption)
          | apply noNL_trimPrefix
          | (apply noNL_restOfFields; assumption)
          | exact noNL_monthAbbrev _
          | apply noNL_dateOf
          | (refine noNL_replaceAll _ _ _ ?_ ?_)
          | (apply noNL_mem_lines; assumption)
          | (apply noNL_mem_sliceFrom; assumption; assumption)
          | (apply noNL_mem_sliceList; assumption; assumption)
          | (apply noNL_mem_indexed; assumption)
          | (apply noNL_mem_indexed_sliceList; assumption; assumption)
          | (apply noNL_mem_count; assumption; assumption)
          | exact noNL_lines _
          | decide
          ))
         done)
      | (refine cleanText_closed _ ?_ ?_ <;> decide)
      | apply beginsWith_of_mismatch
      | apply mismatch_append
      | assumption
      | apply noNL_append
      | exact noNL_fmtInt _
      | (apply noNL_of_fields; assumption)
      | (apply noNL_piece; assumption; assumption)
      | (apply noNL_lastPiece; assumption; assumption)
      | apply noNL_trimPrefix
      | (apply noNL_restOfFields; assumption)
      | exact noNL_monthAbbrev _
      | apply noNL_dateOf
      | (refine noNL_replaceAll _ _ _ ?_ ?_)
      | (apply noNL_mem_lines; assumption)
      | (apply noNL_mem_sliceFrom; assumption; assumption)
      | (apply noNL_mem_sliceList; assumption; assumption)
      | (apply noNL_mem_indexed; assumption)
      | (apply noNL_mem_indexed_sliceList; assumption; assumption)
      | (apply noNL_mem_count; assumption; assumption)
      | exact noNL_lines _
      | decide
      | split
      | dsimp only
      | simp [beginsWith, String.data_append, List.isPrefixOf])

theorem CheckBackupPoliciesSchedExec_clean (host : String) (now : Now) (run : Nat → CmdResult)
    (st : CheckState) :
    JudgedF "CheckBackupPoliciesSchedExec" (setVerdict "CheckBackupPoliciesSchedExec" true st)
      (CheckBackupPoliciesSchedExec host now run st) := by
  simp only [CheckBackupPoliciesSchedExec]
  exact forRange_judgedF_from _ _ _ _ _ (judged_refl _ _) (fun x hx s =>
    CheckBackupPoliciesSchedExec_body_clean _ _ _ _ run x
      (noNL_indexed_pair _ (fun e => e.1) (CheckBackupPoliciesSchedExec_sched_noNL host) x hx) s)

theorem CheckSyBackLog_clean (now : Now) (st : CheckState) (r : CmdResult)
    (h : now.weekday.str = "Sunday") :
    JudgedF "CheckSyBackLog" (setVerdict "CheckSyBackLog" true st) (CheckSyBackLog now st r) := by
  simp only [CheckSyBackLog, h, ne_eq, not_true_eq_false, if_false, runCmd_eq]
  repeat' (first | split | simp only [])
  all_goals
    with_reducible repeat' (first
      | exact JudgedF.panic _
      | exact JudgedF.fatal _
      | apply JudgedF.next
      | apply JudgedF.ret
      | exact judged_refl _ _
      | exact judged_setVerdict _ _ _
      | exact judged_cmdFailedLn _ _ _
      | exact judged_CmdFailed _ _ _
      | refine judged_put _ _ _ _ ?_ ?_
      | refine judged_CmdFailOk _ _ _ _ ?_ ?_
      | ((first | apply cleanText_echo | refine cleanText_ending _ _ ?_ ?_ ?_ ?_)
         (repeat' (first
          | apply beginsWith_of_mismatch
          | apply mismatch_append
          | assumption
          | apply noNL_append
          | exact noNL_fmtInt _
          | (apply noNL_of_fields; assumption)
          | (apply noNL_piece; assumption; assumption)
          | (apply noNL_lastPiece; assumption; assumption)
          | apply noNL_trimPrefix
          | (apply noNL_restOfFields; assumption)
          | exact noNL_monthAbbrev _
          | apply noNL_dateOf
          | (refine noNL_replaceAll _ _ _ ?_ ?_)
          | (apply noNL_mem_lines; assumption)
          | (apply noNL_mem_sliceFrom; assumption; assumption)
          | (apply noNL_mem_sliceList; assumption; assumption)
          | (apply noNL_mem_indexed; assumption)
          | (apply noNL_mem_indexed_sliceList; assumption; assumption)
          | (apply noNL_mem_count; assumption; assumption)
          | exact noNL_lines _
          | decide
          ))
         done)
      | (refine cleanText_closed _ ?_ ?_ <;> decide)
      | apply beginsWith_of_mismatch
      | apply mismatch_append
      | assumption
      | apply noNL_append
      | exact noNL_fmtInt _
      | (apply noNL_of_fields; assumption)
      | (apply noNL_piece; assumption; assumption)
      | (apply noNL_lastPiece; assumption; assumption)
      | apply noNL_trimPrefix
      | (apply noNL_restOfFields; assumption)
      | exact noNL_monthAbbrev _
      | apply noNL_dateOf
      | (refine noNL_replaceAll _ _ _ ?_ ?_)
      | (apply noNL_mem_lines; assumption)
      | (apply noNL_mem_sliceFrom; assumption; assumption)
      | (apply noNL_mem_sliceList; assumption; assumption)
      | (apply noNL_mem_indexed; assumption)
      | (apply noNL_mem_indexed_sliceList; assumption; assumption)
      | (apply noNL_mem_count; assumption; assumption)
      | exact noNL_lines _
      | decide
      | split
      | dsimp only
      | simp [beginsWith, String.data_append, List.isPrefixOf])

theorem MonRestarts_clean (now : Now) (run : List Nat → CmdResult) (st : CheckState)
    (hnow : NoNL now.rfc3339) :
    JudgedF "MonRestarts" (setVerdict "MonRestarts" true st) (MonRestarts now run st) := by
  simp only [MonRestarts, runCmd_eq]
  repeat' (first | split | simp only [])
  all_goals
    with_reducible repeat' (first
      | exact JudgedF.panic _
      | exact JudgedF.fatal _
      | apply JudgedF.next
      | apply JudgedF.ret
      | exact judged_refl _ _
      | exact judged_setVerdict _ _ _
      | exact judged_cmdFailedLn _ _ _
      | exact judged_CmdFailed _ _ _
      | exact hnow
      | exact judgedF_of_falls _ _ _ _ (verdict_setVerdict _ _ _) (forRange_falls _ _ (MonRestarts_outer_falls _ _ _) _ _)
      | refine judged_put _ _ _ _ ?_ ?_
      | refine judged_CmdFailOk _ _ _ _ ?_ ?_
      | ((first | apply cleanText_echo | refine cleanText_ending _ _ ?_ ?_ ?_ ?_)
         (repeat' (first
          | exact hnow
          | exact judgedF_of_falls _ _ _ _ (verdict_setVerdict _ _ _) (forRange_falls _ _ (MonRestarts_outer_falls _ _ _) _ _)
          | apply beginsWith_of_mismatch
          | apply mismatch_append
          | assumption
          | apply noNL_append
          | exact noNL_fmtInt _
          | (apply noNL_of_fields; assumption)
          | (apply noNL_piece; assumption; assumption)
          | (apply noNL_lastPiece; assumption; assumption)
          | apply noNL_trimPrefix
          | (apply noNL_restOfFields; assumption)
          | exact noNL_monthAbbrev _
          | apply noNL_dateOf
          | (refine noNL_replaceAll _ _ _ ?_ ?_)
          | (apply noNL_mem_lines; assumption)
          | (apply noNL_mem_sliceFrom; assumption; assumption)
          | (apply noNL_mem_sliceList; assumption; assumption)
          | (apply noNL_mem_indexed; assumption)
          | (apply noNL_mem_indexed_sliceList; assumption; assumption)
          | (apply noNL_mem_count; assumption; assumption)
          | exact noNL_lines _
          | decide
          ))
         done)
      | (refine cleanText_closed _ ?_ ?_ <;> decide)
      | apply beginsWith_of_mismatch
      | apply mismatch_append
      | assumption
      | apply noNL_append
      | exact noNL_fmtInt _
      | (apply noNL_of_fields; assumption)
      | (apply noNL_piece; assumption; assumption)
      | (apply noNL_lastPiece; assumption; assumption)
      | apply noNL_trimPrefix
      | (apply noNL_restOfFields; assumption)
      | exact noNL_monthAbbrev _
      | apply noNL_dateOf
      | (refine noNL_replaceAll _ _ _ ?_ ?_)
      | (apply noNL_mem_lines; assumption)
      | (apply noNL_mem_sliceFrom; assumption; assumption)
      | (apply noNL_mem_sliceList; assumption; assumption)
      | (apply noNL_mem_indexed; assumption)
      | (apply noNL_mem_indexed_sliceList; assumption; assumption)
      | (apply noNL_mem_count; assumption; assumption)
      | exact noNL_lines _
      | decide
      | split
      | dsimp only
      | simp [beginsWith, String.data_append, List.isPrefixOf])

theorem KillOldSessions_clean (now : Now) (run : Nat → CmdResult) (st : CheckState) :
    JudgedF "KillOldSessions" (setVerdict "KillOldSessions" true st)
      (KillOldSessions now run st) := by
  simp only [KillOldSessions, runCmd_eq]
  repeat' (first | split | simp only [])
  all_goals
    with_reducible repeat' (first
      | exact JudgedF.panic _
      | exact JudgedF.fatal _
      | apply JudgedF.next
      | apply JudgedF.ret
      | exact judged_refl _ _
      | exact judged_setVerdict _ _ _
      | exact judged_cmdFailedLn _ _ _
      | exact judged_CmdFailed _ _ _
      | (rename_i heq; exact judgedF_of_falls _ _ _ _ (verdict_setVerdict "KillOldSessions" false _) (falls_trans _ _ _ _ (KillOldSessions_collect_falls_of_eq "KillOldSessions" _ _ _ _ _ heq) (forRange_falls _ _ (fun x s => KillOldSessions_kill_falls _ run x s) _ _)))
      | (rename_i heq; exact judgedF_of_falls _ _ _ _ (verdict_setVerdict "KillOldSessions" false _) (KillOldSessions_collect_falls_of_eq "KillOldSessions" _ _ _ _ _ heq))
      | refine judged_put _ _ _ _ ?_ ?_
      | refine judged_CmdFailOk _ _ _ _ ?_ ?_
      | ((first | apply cleanText_echo | refine cleanText_ending _ _ ?_ ?_ ?_ ?_)
         (repeat' (first
          | (rename_i heq; exact judgedF_of_falls _ _ _ _ (verdict_setVerdict "KillOldSessions" false _) (falls_trans _ _ _ _ (KillOldSessions_collect_falls_of_eq "KillOldSessions" _ _ _ _ _ heq) (forRange_falls _ _ (fun x s => KillOldSessions_kill_falls _ run x s) _ _)))
          | (rename_i heq; exact judgedF_of_falls _ _ _ _ (verdict_setVerdict "KillOldSessions" false _) (KillOldSessions_collect_falls_of_eq "KillOldSessions" _ _ _ _ _ heq))
          | apply beginsWith_of_mismatch
          | apply mismatch_append
          | assumption
          | apply noNL_append
          | exact noNL_fmtInt _
          | (apply noNL_of_fields; assumption)
          | (apply noNL_piece; assumption; assumption)
          | (apply noNL_lastPiece; assumption; assumption)
          | apply noNL_trimPrefix
          | (apply noNL_restOfFields; assumption)
          | exact noNL_monthAbbrev _
          | apply noNL_dateOf
          | (refine noNL_replaceAll _ _ _ ?_ ?_)
          | (apply noNL_mem_lines; assumption)
          | (apply noNL_mem_sliceFrom; assumption; assumption)
          | (apply noNL_mem_sliceList; assumption; assumption)
          | (apply noNL_mem_indexed; assumption)
          | (apply noNL_mem_indexed_sliceList; assumption; assumption)
          | (apply noNL_mem_count; assumption; assumption)
          | exact noNL_lines _
          | decide
          ))
         done)
      | (refine cleanText_closed _ ?_ ?_ <;> decide)
      | apply beginsWith_of_mismatch
      | apply mismatch_append
      | assumption
      | apply noNL_append
      | exact noNL_fmtInt _
      | (apply noNL_of_fields; assumption)
      | (apply noNL_piece; assumption; assumption)
      | (apply noNL_lastPiece; assumption; assumption)
      | apply noNL_trimPrefix
      | (apply noNL_restOfFields; assumption)
      | exact noNL_monthAbbrev _
      | apply noNL_dateOf
      | (refine noNL_replaceAll _ _ _ ?_ ?_)
      | (apply noNL_mem_lines; assumption)
      | (apply noNL_mem_sliceFrom; assumption; assumption)
      | (apply noNL_mem_sliceList; assumption; assumption)
      | (apply noNL_mem_indexed; assumption)
      | (apply noNL_mem_indexed_sliceList; assumption; assumption)
      | (apply noNL_mem_count; assumption; assumption)
      | exact noNL_lines _
      | decide
      | split
      | dsimp only
      | simp [beginsWith, String.data_append, List.isPrefixOf])

theorem noNL_sliceFrom_fields (s : String) (lo : Nat) (tl : List String)
    (h : sliceFrom (Fields s) lo = some tl) : NoNL (Join tl " ") := by
  unfold sliceFrom at h
  split at h
  · cases h
    exact noNL_join _ " " (fun t ht => noNL_of_token t (Fields_tokens s t (List.mem_of_mem_drop ht)))
      (by decide)
  · cases h

theorem CheckSrvsUptime_load_noNL (l : List String) (acc m : GoMap String)
    (hacc : ∀ e ∈ acc, NoNL e.2) (h : CheckSrvsUptime.load l acc = some m) :
    ∀ e ∈ m, NoNL e.2 := by
  induction l generalizing acc with
  | nil =>
    simp only [CheckSrvsUptime.load] at h
    cases h
    exact hacc
  | cons s rest ih =>
    unfold CheckSrvsUptime.load at h
    split at h
    · exact ih acc hacc h
    · simp only at h
      split at h
      · rename_i srv tl h0 h1
        refine ih _ ?_ h
        intro e he
        rcases mem_mapSet acc _ _ e he with h2 | h2
        · exact hacc e h2
        · rw [h2]
          exact noNL_sliceFrom_fields s 1 tl h1
      · cases h

theorem noNL_mapGet (m : GoMap String) (h : ∀ e ∈ m, NoNL e.2) (k : String) :
    NoNL (mapGet "" m k) := by
  rcases mapGet_eq_zero_or_mem "" m k with e | e
  · rw [e]
    decide
  · obtain ⟨p, hp, hq⟩ := List.mem_map.mp e
    rw [← hq]
    exact h p hp

theorem CheckSrvsUptime_loop_clean (name : String) (prevTime : GoMap String)
    (hprev : ∀ srv, NoNL (mapGet "" prevTime srv)) (run : Nat → CmdResult)
    (l : List (Nat × String)) (hl : ∀ x ∈ l, NoNL x.2) (wSrvs : String) (s0 s : CheckState)
    (hs : Judged name s0 s) :
    JudgedF name s0 (CheckSrvsUptime.loop name prevTime run l wSrvs s).1 := by
  induction l generalizing wSrvs s with
  | nil => exact JudgedF.next _ hs
  | cons x rest ih =>
    have hx := hl x (List.mem_cons_self _ _)
    have hrest : ∀ y ∈ rest, NoNL y.2 := fun y hy => hl y (List.mem_cons_of_mem _ hy)
    simp only [CheckSrvsUptime.loop, exec_eq]
    repeat' (first | split | simp only [])
    all_goals
      with_reducible repeat' (first
        | exact JudgedF.panic _
        | exact JudgedF.fatal _
        | apply JudgedF.next
        | apply JudgedF.ret
        | exact judged_refl _ _
        | exact judged_setVerdict _ _ _
        | exact judged_cmdFailedLn _ _ _
        | exact judged_CmdFailed _ _ _
        | refine ih hrest _ _ ?_
        | exact hprev _
        | refine judged_put _ _ _ _ ?_ ?_
        | refine judged_CmdFailOk _ _ _ _ ?_ ?_
        | ((first | apply cleanText_echo | refine cleanText_ending _ _ ?_ ?_ ?_ ?_)
           (repeat' (first
            | refine ih hrest _ _ ?_
            | exact hprev _
            | apply beginsWith_of_mismatch
            | apply mismatch_append
            | assumption
            | apply noNL_append
            | exact noNL_fmtInt _
            | (apply noNL_of_fields; assumption)
            | (apply noNL_piece; assumption; assumption)
            | (apply noNL_lastPiece; assumption; assumption)
            | apply noNL_trimPrefix
            | (apply noNL_restOfFields; assumption)
            | exact noNL_monthAbbrev _
            | apply noNL_dateOf
            | (refine noNL_replaceAll _ _ _ ?_ ?_)
            | (apply noNL_mem_lines; assumption)
            | (apply noNL_mem_sliceFrom; assumption; assumption)
            | (apply noNL_mem_sliceList; assumption; assumption)
            | (apply noNL_mem_indexed; assumption)
            | (apply noNL_mem_indexed_sliceList; assumption; assumption)
            | (apply noNL_mem_count; assumption; assumption)
            | exact noNL_lines _
            | decide
            ))
           done)
        | (refine cleanText_closed _ ?_ ?_ <;> decide)
        | apply beginsWith_of_mismatch
        | apply mismatch_append
        | assumption
        | apply noNL_append
        | exact noNL_fmtInt _
        | (apply noNL_of_fields; assumption)
        | (apply noNL_piece; assumption; assumption)
        | (apply noNL_lastPiece; assumption; assumption)
        | apply noNL_trimPrefix
        | (apply noNL_restOfFields; assumption)
        | exact noNL_monthAbbrev _
        | apply noNL_dateOf
        | (refine noNL_replaceAll _ _ _ ?_ ?_)
        | (apply noNL_mem_lines; assumption)
        | (apply noNL_mem_sliceFrom; assumption; assumption)
        | (apply noNL_mem_sliceList; assumption; assumption)
        | (apply noNL_mem_indexed; assumption)
        | (apply noNL_mem_indexed_sliceList; assumption; assumption)
        | (apply noNL_mem_count; assumption; assumption)
        | exact noNL_lines _
        | decide
        | split
        | dsimp only
        | simp [beginsWith, String.data_append, List.isPrefixOf])

theorem CheckSrvsUptime_clean (host : String) (history createErr : Option String)
    (flushErr : Bool) (run : Nat → CmdResult) (st : CheckState) :
    JudgedF "CheckSrvsUptime"
      (CheckSrvsUptime.writer createErr (setVerdict "CheckSrvsUptime" true st))
      (CheckSrvsUptime host history createErr flushErr run st).1 := by
  simp only [CheckSrvsUptime]
  split
  · exact JudgedF.fatal _
  · split
    · exact JudgedF.panic _
    · rename_i content prevTime hload
      have hprev : ∀ srv, NoNL (mapGet "" prevTime srv) :=
        noNL_mapGet prevTime (CheckSrvsUptime_load_noNL _ [] prevTime
          (fun e he => absurd he (List.not_mem_nil _)) hload)
      have h := CheckSrvsUptime_loop_clean "CheckSrvsUptime" prevTime hprev run
        (indexed (mapGet [] CheckSrvsUptime.srvs host))
        (noNL_indexed _ (noNL_table _ CheckSrvsUptime_srvs_noNL host)) ""
        (CheckSrvsUptime.writer createErr (setVerdict "CheckSrvsUptime" true st)) _
        (judged_refl _ _)
      revert h
      generalize CheckSrvsUptime.loop "CheckSrvsUptime" prevTime run
        (indexed (mapGet [] CheckSrvsUptime.srvs host)) ""
        (CheckSrvsUptime.writer createErr (setVerdict "CheckSrvsUptime" true st)) = q
      obtain ⟨f, w⟩ := q
      intro h
      cases f <;> simp only [CheckSrvsUptime.close]
      · split
        · exact JudgedF.fatal _
        · exact h
      all_goals exact h

theorem judged_nokFree (name : String) (s s2 : CheckState) (h : Judged name s s2)
    (hv : verdict name s2 = true) : ∃ t, s2.w = s.w ++ t ∧ NokFree t := by
  rcases h with h1 | ⟨_, t, h2, h3⟩
  · rw [h1] at hv
    cases hv
  · exact ⟨t, h2, cleanText_nokFree t h3⟩

theorem andRule_of_judgedF (name : String) (s st : CheckState) (f : Flow)
    (h : JudgedF name s f) (hw : s.w = st.w) : AndRule name st f := by
  intro hc hv
  rw [← hw]
  cases h with
  | next s2 h => exact judged_nokFree name s s2 h hv
  | ret s2 h => exact judged_nokFree name s s2 h hv
  | panic s2 => cases hc
  | fatal s2 => cases hc

theorem cleanText_joinText (l : List String) (h : ∀ x ∈ l, CleanText x) :
    CleanText (joinText l) := by
  induction l with
  | nil => exact cleanText_empty
  | cons x rest ih =>
    exact cleanText_append _ _ (h x (List.mem_cons_self _ _))
      (ih (fun y hy => h y (List.mem_cons_of_mem _ hy)))

theorem CheckDisksSU_loop_judged (name : String) (lines : List String)
    (hl : ∀ l ∈ lines, NoNL l) (s0 s s2 : CheckState) (hs : Judged name s0 s)
    (h : CheckDisksSU.loop name lines s = some s2) : Judged name s0 s2 := by
  induction lines generalizing s with
  | nil =>
    simp only [CheckDisksSU.loop, Option.some.injEq] at h
    exact h ▸ hs
  | cons x rest ih =>
    have hx := hl x (List.mem_cons_self _ _)
    have hrest : ∀ l ∈ rest, NoNL l := fun l h2 => hl l (List.mem_cons_of_mem _ h2)
    unfold CheckDisksSU.loop at h
    split at h
    · cases h
    · rename_i l0 tail hsplit
      split at h
      · exact ih hrest s hs h
      · split at h
        · cases h
        · rename_i disk tl2
          have hdisk : NoNL disk := noNL_of_split x '%' hx disk (by rw [hsplit]; simp)
          split at h
          · refine ih hrest _ ?_ h
            have e : ∀ su : Int,
                CheckState.mk s.Checks (s.w ++ "\tok\t" ++ fmtInt su ++ "%" ++ "\t" ++ disk ++ "\n") =
                  put ("\tok\t" ++ fmtInt su ++ "%" ++ "\t" ++ disk ++ "\n") s := by
              intro su
              simp [put, String.append_assoc]
            rw [e]
            refine judged_put _ _ _ _ hs (cleanText_ending _ _ ?_ (by decide) (by decide)
              (by simp [beginsWith, String.data_append, List.isPrefixOf]))
            repeat' (first | assumption | apply noNL_append | exact noNL_fmtInt _ | decide)
          · exact ih hrest _ (Judged.failed (by simp [verdict, mapGet_mapSet_self])) h

theorem CheckOssDisksSU_loop_judged (name : String) (lines : List String)
    (hl : ∀ l ∈ lines, NoNL l) (s0 s s2 : CheckState) (hs : Judged name s0 s)
    (h : CheckOssDisksSU.loop name lines s = some s2) : Judged name s0 s2 := by
  induction lines generalizing s with
  | nil =>
    simp only [CheckOssDisksSU.loop, Option.some.injEq] at h
    exact h ▸ hs
  | cons x rest ih =>
    have hx := hl x (List.mem_cons_self _ _)
    have hrest : ∀ l ∈ rest, NoNL l := fun l h2 => hl l (List.mem_cons_of_mem _ h2)
    unfold CheckOssDisksSU.loop at h
    split at h
    · exact ih hrest s hs h
    · split at h
      · cases h
      · cases h
      · rename_i l0 disk tl2 hsplit
        have hdisk : NoNL disk := noNL_of_split x '%' hx disk (by rw [hsplit]; simp)
        split at h
        · simp only [Option.some.injEq] at h
          rw [← h]
          exact Judged.failed (by simp [verdict, CmdFailed, mapGet_mapSet_self])
        · split at h
          · refine ih hrest _ ?_ h
            have e : ∀ su : Int,
                CheckState.mk s.Checks (s.w ++ "\tok\t" ++ fmtInt su ++ "%" ++ "\t" ++ disk ++ "\n") =
                  put ("\tok\t" ++ fmtInt su ++ "%" ++ "\t" ++ disk ++ "\n") s := by
              intro su
              simp [put, String.append_assoc]
            rw [e]
            refine judged_put _ _ _ _ hs (cleanText_ending _ _ ?_ (by decide) (by decide)
              (by simp [beginsWith, String.data_append, List.isPrefixOf]))
            repeat' (first | assumption | apply noNL_append | exact noNL_fmtInt _ | decide)
          · exact ih hrest _ (Judged.failed (by simp [verdict, mapGet_mapSet_self])) h

theorem CheckDisksSU_andRule (st : CheckState) (r : CmdResult) (st1 : CheckState)
    (h : CheckDisksSU st r = some st1) (hv : verdict "CheckDisksSU" st1 = true) :
    ∃ t, st1.w = st.w ++ t ∧ NokFree t := by
  simp only [CheckDisksSU, ExecCmd] at h
  split at h
  · simp only [Option.some.injEq] at h
    rw [← h] at hv
    simp [verdict, CmdFailed, mapGet_mapSet_self] at hv
  · have e : CheckState.mk (mapSet st.Checks "CheckDisksSU" true)
          (st.w ++ "\n->> " ++ "df -h | awk '\x7bprint $5$1\x7d'" ++ "\n") =
        put ("\n->> " ++ "df -h | awk '\x7bprint $5$1\x7d'" ++ "\n")
          (setVerdict "CheckDisksSU" true st) := by
      simp [put, setVerdict, String.append_assoc]
    rw [e] at h
    exact judged_nokFree _ (setVerdict "CheckDisksSU" true st) st1
      (CheckDisksSU_loop_judged "CheckDisksSU" _ (noNL_lines _) _ _ st1
        (judged_put _ _ _ _ (judged_refl _ _) (cleanText_echo _ (by decide))) h) hv

theorem CheckOssDisksSU_andRule (st : CheckState) (r : CmdResult) (st1 : CheckState)
    (h : CheckOssDisksSU st r = some st1) (hv : verdict "CheckOssDisksSU" st1 = true) :
    ∃ t, st1.w = st.w ++ t ∧ NokFree t := by
  simp only [CheckOssDisksSU, ExecCmd] at h
  split at h
  · simp only [Option.some.injEq] at h
    rw [← h] at hv
    simp [verdict, CmdFailed, mapGet_mapSet_self] at hv
  · have e : CheckState.mk (mapSet st.Checks "CheckOssDisksSU" true)
          (st.w ++ "\n->> " ++ "df -lh | egrep '^/dev/vx/dsk' | awk '\x7bprint $5$6\x7d'" ++
            "\n") =
        put ("\n->> " ++ "df -lh | egrep '^/dev/vx/dsk' | awk '\x7bprint $5$6\x7d'" ++ "\n")
          (setVerdict "CheckOssDisksSU" true st) := by
      simp [put, setVerdict, String.append_assoc]
    rw [e] at h
    exact judged_nokFree _ (setVerdict "CheckOssDisksSU" true st) st1
      (CheckOssDisksSU_loop_judged "CheckOssDisksSU" _ (noNL_lines _) _ _ st1
        (judged_put _ _ _ _ (judged_refl _ _) (cleanText_echo _ (by decide))) h) hv

theorem DeepCheckETLC_parse_noNL (printout : List String) (acc m : GoMap Int)
    (hacc : ∀ e ∈ acc, NoNL e.1) (h : DeepCheckETLC.parse printout acc = some m) :
    ∀ e ∈ m, NoNL e.1 := by
  induction printout generalizing acc with
  | nil =>
    simp only [DeepCheckETLC.parse] at h
    cases h
    exact hacc
  | cons s rest ih =>
    have hset : ∀ (f t : String) (v : Int), (Fields s)[4]? = some f → (Split f '.')[1]? = some t →
        ∀ e ∈ mapSet acc (TrimLeft t "INTF_") v, NoNL e.1 := by
      intro f t v hf ht e he
      rcases mem_mapSet acc _ v e he with h1 | h1
      · exact hacc e h1
      · rw [h1]
        exact noNL_trimLeft _ _ (noNL_piece f '.' 1 t ht (noNL_of_fields s 4 f hf))
    unfold DeepCheckETLC.parse at h
    split at h
    · exact ih acc hacc h
    · split at h
      · cases h
      · rename_i f hf
        split at h
        · cases h
        · rename_i t ht
          simp only at h
          split at h
          · exact ih _ (hset f t _ hf ht) h
          · exact ih _ (hset f t _ hf ht) h

theorem DeepCheckETLC_must_noNL : ∀ e ∈ DeepCheckETLC.must, NoNL e.1 := by
  decide

theorem FindParsedInKnown_text_clean (have_ must : GoMap Int) (hh : ∀ e ∈ have_, NoNL e.1)
    (h1 : have_.all (fun e => decide (e.1 ∈ mapKeys must)) = true) :
    CleanText (FindParsedInKnown.text have_ must) := by
  simp only [List.all_eq_true, decide_eq_true_eq] at h1
  refine cleanText_append _ _ (by refine cleanText_closed _ ?_ ?_ <;> decide)
    (cleanText_joinText _ ?_)
  intro x hx
  obtain ⟨k, hk, rfl⟩ := List.mem_map.mp hx
  obtain ⟨e, he, rfl⟩ := List.mem_map.mp hk
  simp only [FindParsedInKnown.report, h1 e he, if_true]
  exact cleanText_ending _ _ (noNL_append _ _ (by decide) (hh e he)) (by decide) (by decide)
    (by simp [beginsWith, String.data_append, List.isPrefixOf])

theorem FindKnownInParsed_text_clean (have_ must : GoMap Int) (hm : ∀ e ∈ must, NoNL e.1)
    (h2 : must.all (fun e => decide (e.1 ∈ mapKeys have_)) = true) :
    CleanText (FindKnownInParsed.text have_ must) := by
  simp only [List.all_eq_true, decide_eq_true_eq] at h2
  refine cleanText_append _ _ (by refine cleanText_closed _ ?_ ?_ <;> decide)
    (cleanText_joinText _ ?_)
  intro x hx
  obtain ⟨k, hk, rfl⟩ := List.mem_map.mp hx
  obtain ⟨e, he, rfl⟩ := List.mem_map.mp hk
  simp only [FindKnownInParsed.report, h2 e he, if_true]
  exact cleanText_ending _ _ (noNL_append _ _ (by decide) (hm e he)) (by decide) (by decide)
    (by simp [beginsWith, String.data_append, List.isPrefixOf])

theorem CompareNumParsed_text_clean (have_ must : GoMap Int) (hm : ∀ e ∈ must, NoNL e.1)
    (h3 : must.all (fun e => decide (observedCount have_ e.1 ≥ e.2)) = true) :
    CleanText (CompareNumParsed.text have_ must) := by
  simp only [List.all_eq_true, decide_eq_true_eq] at h3
  refine cleanText_append _ _ (by refine cleanText_closed _ ?_ ?_ <;> decide)
    (cleanText_joinText _ ?_)
  intro x hx
  obtain ⟨e, he, rfl⟩ := List.mem_map.mp hx
  simp only [CompareNumParsed.report, h3 e he, if_true]
  refine cleanText_ending _ _ ?_ (by decide) (by decide)
    (by simp [beginsWith, String.data_append, List.isPrefixOf])
  have := hm e he
  repeat' (first | assumption | apply noNL_append | exact noNL_fmtInt _ | decide)

theorem reconcile_clean (have_ must : GoMap Int) (hh : ∀ e ∈ have_, NoNL e.1)
    (hm : ∀ e ∈ must, NoNL e.1)
    (h1 : have_.all (fun e => decide (e.1 ∈ mapKeys must)) = true)
    (h2 : must.all (fun e => decide (e.1 ∈ mapKeys have_)) = true)
    (h3 : must.all (fun e => decide (observedCount have_ e.1 ≥ e.2)) = true) :
    CleanText (FindParsedInKnown.text have_ must ++ FindKnownInParsed.text have_ must ++
      CompareNumParsed.text have_ must) :=
  cleanText_append _ _ (cleanText_append _ _ (FindParsedInKnown_text_clean have_ must hh h1)
    (FindKnownInParsed_text_clean have_ must hm h2)) (CompareNumParsed_text_clean have_ must hm h3)

theorem DeepCheckETLC_andRule (now : String) (hnow : NoNL now) (st : CheckState)
    (r : CmdResult) : AndRule "DeepCheckETLC" st (DeepCheckETLC now st r) := by
  unfold AndRule
  simp only [DeepCheckETLC, runCmd_eq]
  by_cases herr : r.err = true
  · rw [if_pos herr]
    intro _ hv
    simp [Flow.state, verdict_CmdFailed] at hv
  · rw [if_neg herr]
    cases hp : DeepCheckETLC.parse (Split r.output '\n') [] with
    | none =>
      intro hc
      simp [Flow.completed] at hc
    | some have_ =>
      simp only [Flow.state]
      intro _ hv
      obtain ⟨hw, hverd⟩ := reconcile_eq have_ DeepCheckETLC.must
        (put ("\n->> " ++ ("grep -i parsed /eniq/log/sw_log/engine/engine-" ++
          ReplaceAll (dateOf now) '-' '_' ++ ".log") ++ "\n") (setVerdict "DeepCheckETLC" true st))
      rw [hverd] at hv
      simp only [Bool.and_eq_true] at hv
      obtain ⟨_, h1, h2, h3⟩ := hv
      have hclean := reconcile_clean have_ DeepCheckETLC.must
        (DeepCheckETLC_parse_noNL _ [] have_ (fun e he => absurd he (List.not_mem_nil _)) hp)
        DeepCheckETLC_must_noNL h1 h2 h3
      have hecho : CleanText ("\n->> " ++ ("grep -i parsed /eniq/log/sw_log/engine/engine-" ++
          ReplaceAll (dateOf now) '-' '_' ++ ".log") ++ "\n") :=
        cleanText_echo _ (noNL_append _ _ (noNL_append _ _ (by decide)
          (noNL_replaceAll _ _ _ (noNL_dateOf _ hnow) (by decide))) (by decide))
      refine ⟨_, ?_, cleanText_nokFree _ (cleanText_append _ _ hecho hclean)⟩
      rw [hw]
      simp [put, setVerdict, String.append_assoc]

theorem singleChecks_clean (now : Now) (host : String) (fl : Float64) (c : NamedCheck)
    (hc : c ∈ singleChecks now host fl) (hne : c.1 ≠ "CheckBeadm") (hnow : NoNL now.rfc3339)
    (hfl : ∀ v, NoNL (fl.fmt v)) (st : CheckState) (r : CmdResult)
    (hp : c ∈ echoingChecks → Plain r.output) :
    JudgedF c.1 (setVerdict c.1 true st) (c.2 st r) := by
  simp only [singleChecks, List.mem_append] at hc
  rcases hc with (((hc | hc) | hc) | hc) | hc
  · simp only [returningChecks, List.mem_cons, List.mem_singleton, List.not_mem_nil, or_false] at hc
    rcases hc with rfl | rfl | rfl | rfl | rfl | rfl | rfl | rfl | rfl | rfl | rfl | rfl | rfl | rfl | rfl | rfl | rfl | rfl | rfl | rfl | rfl | rfl | rfl | rfl | rfl | rfl
    · exact absurd rfl hne
    · exact CheckSnapshots_clean now st r hnow
    · exact CheckSyDb_clean st r
    · exact CheckVrstDataMon_clean st r
    · exact CheckWtmpx_clean st r
    · exact CheckSyLogSize_clean st r
    · exact CheckNrOfBackupPolicies_clean host st r
    · exact MonErrLog_clean now st r hnow
    · exact MonConfigExports_clean now st r hnow
    · exact MonNetLog_clean now st r hnow
    · exact ValDiagProcCache_clean st r
    · exact CheckCoreFiles_clean st r
    · exact CheckSecurity_clean st r
    · exact CheckVeritas_clean st r
    · exact CheckSyDump_clean st r
    · exact CheckHomeSU_clean fl st r hfl
    · exact CheckMoshellLogSU_clean fl st r hfl
    · exact CheckDBA_clean st r
    · exact CheckVrstDb_clean st r
    · exact CheckVrstDbSU_clean st r
    · exact MonVrstDb_clean st r
    · exact CheckBsmAdjusts_clean now st r hnow
    · exact CheckCnaAdjusts_clean now st r hnow
    · exact CheckHostUptime_clean st r
    · exact CheckBashrc_clean st r
    · exact CheckNodesFilesUpdate_clean now st r hnow
  · have hpl := hp hc
    simp only [echoingChecks, List.mem_cons, List.mem_singleton, List.not_mem_nil, or_false] at hc
    rcases hc with rfl | rfl | rfl | rfl | rfl | rfl | rfl | rfl | rfl | rfl | rfl | rfl | rfl | rfl | rfl
    · exact EnmNativeHC_clean st r hpl
    · exact CheckHwResources_clean st r hpl
    · exact CheckNas_clean st r hpl
    · exact CheckStoragePool_clean st r hpl
    · exact CheckStaleMount_clean st r hpl
    · exact CheckNodeFs_clean st r hpl
    · exact CheckSystemService_clean st r hpl
    · exact CheckVcsCluster_clean st r hpl
    · exact CheckVcsLltHeartbeat_clean st r hpl
    · exact CheckVcsServiceGroup_clean st r hpl
    · exact CheckConsul_clean st r hpl
    · exact CheckMultipathActive_clean st r hpl
    · exact CheckPuppetEnabled_clean st r hpl
    · exact CheckSanAlert_clean st r hpl
    · exact CheckMdt_clean st r hpl
  · simp only [zfsChecks, List.mem_cons, List.mem_singleton, List.not_mem_nil, or_false] at hc
    rcases hc with rfl | rfl | rfl
    · exact CheckZfsPoolStatus_clean st r
    · exact CheckZfsPoolSU_clean host st r
    · exact CheckZfsPoolErrors_clean st r
  · simp only [absenceChecks, List.mem_cons, List.mem_singleton, List.not_mem_nil, or_false] at hc
    rcases hc with rfl | rfl | rfl | rfl | rfl
    · exact CheckMCs_clean st r
    · exact CheckDisks_clean st r
    · exact CheckFailProc_clean st r
    · exact CheckSyErrLog_clean now st r hnow
    · exact CheckOutOfMem_clean st r
  · rw [List.mem_singleton.mp hc]
    exact CheckMountingOk_clean st r

theorem CheckDisksSU_report_nok (s : String) :
    beginsWith "\tnok\t" (CheckDisksSU.report s) = !CheckDisksSU.lineOk s := by
  unfold CheckDisksSU.report CheckDisksSU.lineOk
  cases parseUsage s with
  | none => rfl
  | some q =>
    obtain ⟨n, disk⟩ := q
    by_cases h : n < 40 <;>
      simp [usageLine, h, beginsWith, String.data_append, List.isPrefixOf]

theorem CheckOssDisksSU_report_nok (s : String) :
    beginsWith "\tnok\t" (CheckOssDisksSU.report s) = !CheckOssDisksSU.lineOk s := by
  unfold CheckOssDisksSU.report CheckOssDisksSU.lineOk
  cases parseUsage s with
  | none => rfl
  | some q =>
    obtain ⟨n, disk⟩ := q
    by_cases h : n ≤ mapGet 0 CheckOssDisksSU.threshold disk <;>
      simp [usageLine, h, beginsWith, String.data_append, List.isPrefixOf]

/-- C18 (counterexample): with five lines of `beadm list`, `CheckBeadm` writes
its `nok` line and leaves the verdict `true`; `CheckSrvsUptime`, when the writer
of the baseline cannot be obtained, writes a `nok` line with the error and
leaves the verdict `true`; and `CheckMCs`, one of the checks that take a failed
command for the absence of a problem, ends with the verdict `true` behind a
command error. -/
theorem CheckBeadm_nok_line_with_true_verdict :
    CheckBeadm ⟨[], ""⟩ ⟨"BE\n--\nsolaris\nsolaris-1\nsolaris-2", false⟩ =
      Flow.next ⟨[("CheckBeadm", true)],
        "\n->> beadm list\n" ++ "\tnok\tthe ZFS pool has more than one Boot Environment\n"⟩ ∧
    CheckSrvsUptime "no-such-host" (some "") (some "open var/no-such-host.srvs: permission denied")
        false (fun _ => ⟨"", false⟩) ⟨[], ""⟩ =
      (Flow.next ⟨[("CheckSrvsUptime", true)],
        "\tnok\topen var/no-such-host.srvs: permission denied\n"⟩, "") ∧
    CheckMCs ⟨[], ""⟩ ⟨"ssh: connect to host masterservice port 22: Connection timed out", true⟩ =
      Flow.ret ⟨[("CheckMCs", true)],
        "\n->> /opt/ericsson/bin/smtool -l | egrep -v \"started|unlicensed\"\n" ++
          "\tok\tno any failed MCs\n"⟩ := by
  decide

/-- C18 (amended): sub-items combine under AND semantics in every check but
`CheckBeadm`, with the line of `CheckSrvsUptime` for a baseline writer that
cannot be obtained left aside. `AndRule name st f` says: when the run `f`
comes to its end with the verdict `true` under `name`, no line of the text it
wrote begins with the `nok` tag. The time of the run and the `%v` text of a
float hold no newline (`hnow`, `hfl`). The rule holds

* for every one-command check of `singleChecks` other than `CheckBeadm`; for
  the ENM checks, which print the output of their command line by line, on
  outputs none of whose lines itself looks like a `nok` line (`Plain`);
* for `CheckETLC`, `CheckSrvs`, `CheckNetBackupClients`,
  `CheckBackupPoliciesSchedExec`, `MonRestarts`, `KillOldSessions`,
  `CheckSyBackLog` and `DeepCheckETLC`, whatever their commands give back, and
  for `FindParsedInKnown`, `FindKnownInParsed` and `CompareNumParsed` with the
  boolean they return, on maps whose keys hold no newline;
* for `CheckSrvsUptime` in everything it writes behind the line of the writer;
* for `CheckDisksSU` and `CheckOssDisksSU`, where moreover, on outputs of the
  expected shape, the verdict is `true` exactly when every line passes and the
  report of a line begins with the `nok` tag exactly when the line fails.

A failed command leaves the verdict `false` in all of them, except in the
checks of `absenceChecks`, which take it for the absence of a problem and end
with `true`, as `MonRestarts` does for its first command. `CheckBeadm` ends a
successful command with the verdict `true` for any number of lines, and the
line of the writer of `CheckSrvsUptime` leaves `Checks` as it is. -/
theorem sub_items_combine_under_and (now : Now) (host : String) (fl : Float64)
    (st : CheckState) (hnow : NoNL now.rfc3339) (hfl : ∀ v, NoNL (fl.fmt v)) :
    (∀ c ∈ singleChecks now host fl, c.1 ≠ "CheckBeadm" → ∀ r : CmdResult,
      (c ∈ echoingChecks → Plain r.output) → AndRule c.1 st (c.2 st r)) ∧
    (∀ run, AndRule "CheckETLC" st (CheckETLC now run st)) ∧
    (∀ run, AndRule "CheckSrvs" st (CheckSrvs host run st)) ∧
    (∀ run, AndRule "CheckNetBackupClients" st (CheckNetBackupClients run st)) ∧
    (∀ run, AndRule "CheckBackupPoliciesSchedExec" st
      (CheckBackupPoliciesSchedExec host now run st)) ∧
    (∀ run, AndRule "MonRestarts" st (MonRestarts now run st)) ∧
    (∀ run, AndRule "KillOldSessions" st (KillOldSessions now run st)) ∧
    (∀ r, AndRule "CheckSyBackLog" st (CheckSyBackLog now st r)) ∧
    (∀ r, AndRule "DeepCheckETLC" st (DeepCheckETLC now.rfc3339 st r)) ∧
    (∀ have_ must : GoMap Int, (∀ e ∈ have_, NoNL e.1) → (∀ e ∈ must, NoNL e.1) →
      ((FindParsedInKnown have_ must st).1 = true →
        ∃ t, (FindParsedInKnown have_ must st).2.w = st.w ++ t ∧ NokFree t) ∧
      ((FindKnownInParsed have_ must st).1 = true →
        ∃ t, (FindKnownInParsed have_ must st).2.w = st.w ++ t ∧ NokFree t) ∧
      ((CompareNumParsed have_ must st).1 = true →
        ∃ t, (CompareNumParsed have_ must st).2.w = st.w ++ t ∧ NokFree t)) ∧
    (∀ history createErr flushErr run,
      AndRule "CheckSrvsUptime" (CheckSrvsUptime.writer createErr st)
        (CheckSrvsUptime host history createErr flushErr run st).1) ∧
    (∀ r st1, CheckDisksSU st r = some st1 → verdict "CheckDisksSU" st1 = true →
      ∃ t, st1.w = st.w ++ t ∧ NokFree t) ∧
    (∀ r st1, CheckOssDisksSU st r = some st1 → verdict "CheckOssDisksSU" st1 = true →
      ∃ t, st1.w = st.w ++ t ∧ NokFree t) ∧
    (∀ output, (∀ s ∈ Split output '\n', '%' ∉ s.data → Atoi s = none) →
      ∃ st1, CheckDisksSU st ⟨output, false⟩ = some st1 ∧
        st1.w = st.w ++ ("\n->> " ++ "df -h | awk '\x7bprint $5$1\x7d'" ++ "\n") ++
          joinText ((Split output '\n').map CheckDisksSU.report) ∧
        verdict "CheckDisksSU" st1 = (Split output '\n').all CheckDisksSU.lineOk) ∧
    (∀ s, beginsWith "\tnok\t" (CheckDisksSU.report s) = !CheckDisksSU.lineOk s) ∧
    (∀ output, (∀ s ∈ Split output '\n', s ≠ "" → parseUsage s ≠ none) →
      ∃ st1, CheckOssDisksSU st ⟨output, false⟩ = some st1 ∧
        st1.w = st.w ++
          ("\n->> " ++ "df -lh | egrep '^/dev/vx/dsk' | awk '\x7bprint $5$6\x7d'" ++ "\n") ++
          joinText ((Split output '\n').map CheckOssDisksSU.report) ∧
        verdict "CheckOssDisksSU" st1 = (Split output '\n').all CheckOssDisksSU.lineOk) ∧
    (∀ s, beginsWith "\tnok\t" (CheckOssDisksSU.report s) = !CheckOssDisksSU.lineOk s) ∧
    (∀ c ∈ returningChecks now host fl ++ echoingChecks ++ zfsChecks host ++
        [("CheckMountingOk", CheckMountingOk)],
      ∀ output, verdict c.1 (c.2 st ⟨output, true⟩).state = false) ∧
    (∀ output, (∃ s, CheckDisksSU st ⟨output, true⟩ = some s ∧ verdict "CheckDisksSU" s = false) ∧
      (∃ s, CheckOssDisksSU st ⟨output, true⟩ = some s ∧ verdict "CheckOssDisksSU" s = false) ∧
      verdict "DeepCheckETLC" (DeepCheckETLC now.rfc3339 st ⟨output, true⟩).state = false ∧
      (now.weekday = Weekday.Sunday →
        verdict "CheckSyBackLog" (CheckSyBackLog now st ⟨output, true⟩).state = false)) ∧
    (∀ run : Nat → CmdResult, (run 0).err = true →
      verdict "KillOldSessions" (KillOldSessions now run st).state = false ∧
        verdict "CheckNetBackupClients" (CheckNetBackupClients run st).state = false) ∧
    (∀ (run : Nat → CmdResult) (i : Nat) (client : String), (run 0).err = false →
      (CheckNetBackupClients.clients (Split (run 0).output '\n') [])[i]? = some client →
      (run (i + 1)).err = true →
      verdict "CheckNetBackupClients" (CheckNetBackupClients run st).state = false) ∧
    (∀ run : Nat → CmdResult, (run 0).err = true ∨ (run 1).err = true →
      verdict "CheckETLC" (CheckETLC now run st).state = false) ∧
    (∀ (run : Nat → CmdResult) (i : Nat) (srv : String),
      (mapGet [] CheckSrvs.srvs host)[i]? = some srv → (run i).err = true →
      (CheckSrvs host run st).completed = true →
      verdict "CheckSrvs" (CheckSrvs host run st).state = false) ∧
    (∀ (history createErr : Option String) (flushErr : Bool) (run : Nat → CmdResult) (i : Nat)
        (srv : String),
      (mapGet [] CheckSrvsUptime.srvs host)[i]? = some srv → (run i).err = true →
      (CheckSrvsUptime host history createErr flushErr run st).1.completed = true →
      verdict "CheckSrvsUptime"
        (CheckSrvsUptime host history createErr flushErr run st).1.state = false) ∧
    (∀ (run : Nat → CmdResult) (i : Nat) (policy weekdays : String),
      (mapGet [] CheckBackupPoliciesSchedExec.sched host)[i]? = some (policy, weekdays) →
      (Contains weekdays now.weekday.str = true ∨ Contains weekdays "All" = true) →
      (run i).err = true →
      (CheckBackupPoliciesSchedExec host now run st).completed = true →
      verdict "CheckBackupPoliciesSchedExec"
        (CheckBackupPoliciesSchedExec host now run st).state = false) ∧
    (∀ c ∈ absenceChecks now, ∀ output, verdict c.1 (c.2 st ⟨output, true⟩).state = true) ∧
    (∀ run : List Nat → CmdResult, (run []).err = true →
      verdict "MonRestarts" (MonRestarts now run st).state = true) ∧
    (∀ output, verdict "CheckBeadm" (CheckBeadm st ⟨output, false⟩).state = true) ∧
    (∀ createErr, (CheckSrvsUptime.writer createErr st).Checks = st.Checks) := by
  refine ⟨fun c hc hne r hp =>
      andRule_of_judgedF _ _ st _ (singleChecks_clean now host fl c hc hne hnow hfl st r hp) rfl,
    fun run => andRule_of_judgedF _ _ st _ (CheckETLC_clean now run st hnow) rfl,
    fun run => andRule_of_judgedF _ _ st _ (CheckSrvs_clean host run st) rfl,
    fun run => andRule_of_judgedF _ _ st _ (CheckNetBackupClients_clean run st) rfl,
    fun run => andRule_of_judgedF _ _ st _ (CheckBackupPoliciesSchedExec_clean host now run st) rfl,
    fun run => andRule_of_judgedF _ _ st _ (MonRestarts_clean now run st hnow) rfl,
    fun run => andRule_of_judgedF _ _ st _ (KillOldSessions_clean now run st) rfl,
    ?_, fun r => DeepCheckETLC_andRule now.rfc3339 hnow st r,
    fun have_ must hh hm => ⟨?_, ?_, ?_⟩,
    fun history createErr flushErr run =>
      andRule_of_judgedF _ _ _ _ (CheckSrvsUptime_clean host history createErr flushErr run st) ?_,
    fun r st1 h hv => CheckDisksSU_andRule st r st1 h hv,
    fun r st1 h hv => CheckOssDisksSU_andRule st r st1 h hv,
    fun output h => ⟨_, CheckDisksSU_eq st output h, rfl, ?_⟩, CheckDisksSU_report_nok,
    fun output h => ⟨_, CheckOssDisksSU_eq st output h, rfl, ?_⟩, CheckOssDisksSU_report_nok,
    ?_,
    fun output => ⟨CheckDisksSU_error st output, CheckOssDisksSU_error st output,
      verdict_CmdFailed _ _, fun hday => (CheckSyBackLog_error now st output hday).2⟩,
    fun run h => ⟨(KillOldSessions_error now run st h).2,
      (CheckNetBackupClients_error run st h).2⟩,
    fun run i client h0 hi herr =>
      (CheckNetBackupClients_client_error run st i client h0 hi herr).2,
    fun run h => (CheckETLC_error now run st h).2,
    fun run i srv hi herr hc => CheckSrvs_error host run st i srv hi herr hc,
    fun history createErr flushErr run i srv hi herr hc =>
      CheckSrvsUptime_error host history createErr flushErr run st i srv hi herr hc,
    fun run i policy weekdays hi hday herr hc =>
      CheckBackupPoliciesSchedExec_error host now run st i policy weekdays hi hday herr hc,
    ?_, ?_, ?_, ?_⟩
  · intro r
    by_cases hday : now.weekday.str = "Sunday"
    · exact andRule_of_judgedF _ _ st _ (CheckSyBackLog_clean now st r hday) rfl
    · intro _ _
      refine ⟨"", ?_, cleanText_nokFree _ cleanText_empty⟩
      simp [CheckSyBackLog, hday, Flow.state]
  · rw [FindParsedInKnown_eq]
    exact fun h => ⟨_, rfl, cleanText_nokFree _ (FindParsedInKnown_text_clean have_ must hh h)⟩
  · rw [FindKnownInParsed_eq]
    exact fun h => ⟨_, rfl, cleanText_nokFree _ (FindKnownInParsed_text_clean have_ must hm h)⟩
  · rw [CompareNumParsed_eq]
    exact fun h => ⟨_, rfl, cleanText_nokFree _ (CompareNumParsed_text_clean have_ must hm h)⟩
  · cases createErr <;> rfl
  · cases (Split output '\n').all CheckDisksSU.lineOk <;> simp [verdict, mapGet_mapSet_self]
  · cases (Split output '\n').all CheckOssDisksSU.lineOk <;> simp [verdict, mapGet_mapSet_self]
  · intro c hc output
    rcases List.mem_append.mp hc with hc | hc
    · rcases List.mem_append.mp hc with hc | hc
      · rcases List.mem_append.mp hc with hc | hc
        · obtain ⟨cmd, blank, h⟩ := returningChecks_abort now host fl c hc
          rw [h st output]
          cases blank
          · exact verdict_CmdFailed _ _
          · exact verdict_cmdFailedLn _ _
        · obtain ⟨cmd, pre, h⟩ := echoingChecks_echo c hc
          rw [h st ⟨output, true⟩, forRange_echo]
          exact verdict_cmdFailedLn _ _
      · exact zfsChecks_error host c hc st output
    · rw [List.mem_singleton.mp hc]
      exact (CheckMountingOk_error st output).2
  · intro c hc output
    obtain ⟨cmd, msg, h⟩ := absenceChecks_ok now c hc
    rw [h st output]
    simp [Flow.state, verdict, put, runCmd, ExecCmd, setVerdict, mapGet_mapSet_self]
  · intro run herr
    simp [MonRestarts, runCmd, ExecCmd, herr, Flow.state, verdict, put, CmdFailOk, setVerdict,
      mapGet_mapSet_self]
  · intro output
    simp only [CheckBeadm, runCmd, ExecCmd, Bool.false_eq_true, if_false]
    split <;> exact verdict_setVerdict _ _ _
  · intro createErr
    cases createErr <;> rfl

theorem sub_items_combine_under_and_witness :
    NoNL "2026-11-01T06:00:00+06:00" ∧
    ∃ t, (CheckSrvs "eniq-reader"
        (fun _ => ⟨"fmri svc\nname ENIQ service\nenabled true\nstate online", false⟩)
        ⟨[], ""⟩).state.w = (⟨[], ""⟩ : CheckState).w ++ t ∧ NokFree t :=
  ⟨by decide,
    (sub_items_combine_under_and ⟨"2026-11-01T06:00:00+06:00", Weekday.Sunday, Month.November, 1, 2026⟩
      "eniq-reader" Float64.whole ⟨[], ""⟩ (by decide) (fun v => noNL_fmtInt v)).2.2.1
      (fun _ => ⟨"fmri svc\nname ENIQ service\nenabled true\nstate online", false⟩)
      (by decide) (by decide)⟩

end AdmTools
